import Mathlib

/-!
# Linked portals and portal windows: `p_portal.cpp` and `r_portal.cpp`

A shallow embedding of the portal-group and link-table code of
`source/p_portal.cpp` and of the portal list, the portal windows and the render
functions of `source/r_portal.cpp`.
The module globals of `p_portal.cpp` (`sectors`, `groups`, `groupcount`,
`grouplimit`, `linktable`, `zerolink`, `useportalgroups`) are the fields of one
state record that every function takes and returns; the globals the window code
of `r_portal.cpp` uses are the fields of a second one.

Conventions of the embedding:

* `fixed_t` and `int` values are `Int`; `+` and unary `-` on `fixed_t` wrap to
  32 bits (`fixed_add`, `fixed_neg`).
* a `sector_t *` is the index of the sector in `sectors`; a `portal_t *` or
  `line_t *` that is only read is the record itself, `none` standing for `NULL`.
* of a sector only the fields this code reads or writes are kept; the copies of
  a sector's group id in sound origins and map objects are not part of the state.
* a loop whose number of iterations is not fixed on entry takes a bound and
  fails with `perr.fuel` (or `none`) when the bound is used up; the bounds passed
  are shown never to be reached.
* a non-null `linkoffset_t *` is a `linkptr`: either the address of the global
  `zerolink`, or a `PU_LEVEL` cell.  Every cell is allocated by
  `P_AddLinkOffset` for exactly one table slot, so a cell is stored by value in
  its slot.
* `C_Printf` diagnostics have no effect on the state and are left out.
* a `float` is an element of a linearly ordered commutative ring `F`: the window
  code only compares, copies and stores floats and uses the constants 0 and -1.
  Not-a-number values are not modelled.
* a `pwindow_t *` is the window it points to together with the windows its
  `child` and `next` links lead to; a function that writes through the pointer
  returns the window again.
* the checks under `RANGECHECK` are compiled out.
* in the portal list and the render functions of `r_portal.cpp` a `portal_t *` is
  the place of the portal in the list `portals`, and a pointer to a line or a
  camera is an address.  The window a render function works on is the window a
  number of `child` links below `windowhead`.  What these functions call in
  other units, or compute in floating point, is a field of the record `renderenv`.
* the render functions return, next to the globals, the list of what they did
  (`renderevent`); this list and the field `created` are not data of the program.
-/

namespace AutoDoom

/-- Modelled from the spec: the constant `R_NOGROUP` of `r_portal.h`, which is
not among the sources: the "sentinel = unassigned" group id.  Its value is the
one the comment in `P_BuildLinkTable` names ("a group id of -1"). -/
def R_NOGROUP : Int := -1

/-- Reduction of an integer to the range of `fixed_t`, a 32-bit two's complement
integer. -/
def wrap32 (v : Int) : Int := (v + 2147483648) % 4294967296 - 2147483648

/-- The sum `a + b` of two `fixed_t` values. -/
def fixed_add (a b : Int) : Int := wrap32 (a + b)

/-- The negation `-a` of a `fixed_t` value. -/
def fixed_neg (a : Int) : Int := wrap32 (-a)

/-- Modelled from the spec: the type `linkoffset_t` of `p_portal.h`, which is not
among the sources: "a translation vector (dx, dy, dz)" between two regions, with
the field names `x`, `y`, `z` that `p_portal.cpp` uses. -/
structure linkoffset_t where
  x : Int
  y : Int
  z : Int
deriving DecidableEq

/-- A non-null `linkoffset_t *`. -/
inductive linkptr where
  /-- The address `&zerolink` of the shared zero offset. -/
  | zerolink
  /-- A cell allocated by `P_AddLinkOffset`, with its present contents. -/
  | cell (v : linkoffset_t)
deriving DecidableEq

/-- Modelled from the spec: the portal kinds of `r_portal.h`, which is not among
the sources: "plane, horizon, remote-camera, anchored-one-way, anchored-two-way,
linked", under the names the sources use, and `R_NONE`. -/
inductive portaltype_e where
  | R_NONE | R_SKYBOX | R_ANCHORED | R_HORIZON | R_PLANE | R_TWOWAY | R_LINKED
deriving DecidableEq

/-- Modelled from the spec: the type `linkdata_t` of `r_portal.h`, which is not
among the sources: a linked portal carries "`fromRegion`, `toRegion`, `offset`";
the fields are those `p_portal.cpp` reads and writes. -/
structure linkdata_t where
  deltax : Int
  deltay : Int
  deltaz : Int
  fromid : Int
  toid : Int
deriving DecidableEq

/-- Modelled from the spec: the type `portal_t` of `r_portal.h`, which is not
among the sources: "a tagged variant over kinds", here its kind `type` and the
member `data.link` of its parameters. -/
structure portal_t where
  type : portaltype_e
  link : linkdata_t
deriving DecidableEq

/-- Modelled from the spec: the type `line_t` of `r_defs.h`, which is not among
the sources: a "boundary segment" with the fields `p_portal.cpp` reads, the
sectors on its two sides and its portal. -/
structure line_t where
  frontsector : Option Nat
  backsector : Option Nat
  portal : Option portal_t
deriving DecidableEq

/-- Modelled from the spec: the type `sector_t` of `r_defs.h`, which is not among
the sources: a "spatial primitive" with the fields `p_portal.cpp` reads and
writes, its group id, ceiling and floor portal, and line list (`linecount` is
the length of `lines`). -/
structure sector_t where
  groupid : Int
  c_portal : Option portal_t
  f_portal : Option portal_t
  lines : List line_t
deriving DecidableEq

/-- A portal group (`pgroup_t`); `listsize` is the length of `seclist`. -/
structure pgroup_t where
  seclist : List Nat
deriving DecidableEq

/-- The globals of `p_portal.cpp` together with the map's sectors. -/
structure PState where
  sectors : List sector_t
  groups : List (Option pgroup_t)
  groupcount : Nat
  grouplimit : Nat
  linktable : Option (List (Option linkptr))
  zerolink : linkoffset_t
  useportalgroups : Bool
deriving DecidableEq

/-- The ways a call can fail to return. -/
inductive perr where
  /-- The call reached `I_Error`. -/
  | I_Error
  /-- The call dereferenced a pointer that is not valid. -/
  | badptr
  /-- The iteration bound of the embedding was used up. -/
  | fuel
deriving DecidableEq

/-- The offset a `linkoffset_t *` points to. -/
def deref (zl : linkoffset_t) : linkptr → linkoffset_t
  | .zerolink => zl
  | .cell v => v

/-- The function `P_InitPortals`. -/
def P_InitPortals (s : PState) : PState :=
  { s with linktable := none, groupcount := 0,
           groups := s.groups.map (fun _ => none), useportalgroups := false }

/-- The function `P_PortalGroupCount`. -/
def P_PortalGroupCount (s : PState) : Nat :=
  if s.useportalgroups then s.groupcount else 1

/-- The function `R_SetSectorGroupID`, on the sector's own `groupid`; an index
that is no sector of the map changes nothing. -/
def R_SetSectorGroupID (sectors : List sector_t) (sector : Nat) (groupid : Int) :
    List sector_t :=
  match sectors[sector]? with
  | some sec => sectors.set sector { sec with groupid := groupid }
  | none => sectors

/-- One `if((sec2 = ...))` block of `P_GatherSectors`: the sector is appended to
the work list and given the group id unless the list already has it. -/
def gatherSector (groupid : Int) (st : List sector_t × List Nat) (sec2 : Option Nat) :
    List sector_t × List Nat :=
  match sec2 with
  | none => st
  | some q => if q ∈ st.2 then st else (R_SetSectorGroupID st.1 q groupid, st.2 ++ [q])

/-- The body of the line loop of `P_GatherSectors`: front sector, then back sector. -/
def gatherLine (groupid : Int) (st : List sector_t × List Nat) (line : line_t) :
    List sector_t × List Nat :=
  gatherSector groupid (gatherSector groupid st line.frontsector) line.backsector

/-- The line list `from->lines` of a sector. -/
def sectorLines (sectors : List sector_t) (frm : Nat) : List line_t :=
  match sectors[frm]? with
  | some sec => sec.lines
  | none => []

/-- The loop `for(sec = 0; sec < count; ++sec)` of `P_GatherSectors`; the first
argument bounds the number of iterations. -/
def gatherLoop (groupid : Int) :
    Nat → List sector_t → List Nat → Nat → Except perr (List sector_t × List Nat)
  | 0, _, _, _ => .error .fuel
  | fuel + 1, sectors, list, sec =>
    match list[sec]? with
    | none => .ok (sectors, list)
    | some frm =>
      let st := (sectorLines sectors frm).foldl (gatherLine groupid) (sectors, list)
      gatherLoop groupid fuel st.1 st.2 (sec + 1)

/-- The function `P_GatherSectors`. -/
def P_GatherSectors (s : PState) (frm : Nat) (groupid : Int) : Except perr PState :=
  if groupid < 0 ∨ groupid ≥ s.groupcount then .error .I_Error else
  match s.sectors[frm]? with
  | none => .error .badptr
  | some sec =>
    if sec.groupid ≠ R_NOGROUP then .ok s else
    match gatherLoop groupid (s.sectors.length + 1)
        (R_SetSectorGroupID s.sectors frm groupid) [frm] 0 with
    | .error e => .error e
    | .ok (sectors, list) =>
      match s.groups.getD groupid.toNat none with
      | none => .error .badptr
      | some group =>
        .ok { s with sectors := sectors,
                     groups := s.groups.set groupid.toNat
                       (some { seclist := group.seclist ++ list }) }

/-- The function `P_CreatePortalGroup`.  The `groups` array is kept at
`grouplimit` slots; a slot `erealloc` adds holds `none` until it is assigned. -/
def P_CreatePortalGroup (s : PState) (frm : Nat) : Except perr (PState × Int) :=
  match s.sectors[frm]? with
  | none => .error .badptr
  | some sec =>
    if sec.groupid ≠ R_NOGROUP then .ok (s, sec.groupid) else
    let groupid : Int := s.groupcount
    let grouplimit :=
      if s.groupcount = s.grouplimit then
        (if s.grouplimit ≠ 0 then s.grouplimit <<< 1 else 8)
      else s.grouplimit
    let groups := s.groups ++ List.replicate (grouplimit - s.groups.length) none
    let s1 := { s with grouplimit := grouplimit, groupcount := s.groupcount + 1,
                       groups := groups.set s.groupcount (some { seclist := [] }) }
    match P_GatherSectors s1 frm groupid with
    | .error e => .error e
    | .ok s2 => .ok (s2, groupid)

/-- The function `P_GetLinkOffset`. -/
def P_GetLinkOffset (s : PState) (startgroup targetgroup : Int) : linkptr :=
  if !s.useportalgroups then .zerolink else
  match s.linktable with
  | none => .zerolink
  | some linktable =>
    if startgroup < 0 ∨ startgroup ≥ s.groupcount then .zerolink else
    if targetgroup < 0 ∨ targetgroup ≥ s.groupcount then .zerolink else
    match linktable.getD (startgroup * s.groupcount + targetgroup).toNat none with
    | some link => link
    | none => .zerolink

/-- The function `P_GetLinkIfExists`. -/
def P_GetLinkIfExists (s : PState) (fromgroup togroup : Int) : Option linkptr :=
  if !s.useportalgroups then none else
  match s.linktable with
  | none => none
  | some linktable =>
    if fromgroup < 0 ∨ fromgroup ≥ s.groupcount then none else
    if togroup < 0 ∨ togroup ≥ s.groupcount then none else
    linktable.getD (fromgroup * s.groupcount + togroup).toNat none

/-- The function `P_AddLinkOffset`, on the allocated table: the return code and
the table afterwards. -/
def P_AddLinkOffset (groupcount : Nat) (linktable : List (Option linkptr))
    (startgroup targetgroup : Int) (x y z : Int) : Int × List (Option linkptr) :=
  if startgroup < 0 ∨ startgroup ≥ groupcount then (1, linktable) else
  if targetgroup < 0 ∨ targetgroup ≥ groupcount then (2, linktable) else
  if startgroup = targetgroup then (0, linktable) else
  (0, linktable.set (startgroup * groupcount + targetgroup).toNat
        (some (.cell { x := x, y := y, z := z })))

/-- The function `P_CheckLinkedPortal`, on the allocated table: the verdict and
the table afterwards.  `sec` is never `NULL` at its call sites. -/
def P_CheckLinkedPortal (groupcount : Nat) (zl : linkoffset_t)
    (linktable : List (Option linkptr)) (portal : Option portal_t) (sec : sector_t) :
    Bool × List (Option linkptr) :=
  match portal with
  | none => (true, linktable)
  | some portal =>
    if portal.type ≠ .R_LINKED then (true, linktable) else
    if portal.link.toid = sec.groupid then (false, linktable) else
    if portal.link.fromid < 0 ∨ portal.link.fromid ≥ groupcount ∨
       portal.link.toid < 0 ∨ portal.link.toid ≥ groupcount then (false, linktable) else
    if sec.groupid < 0 ∨ sec.groupid ≥ groupcount then (false, linktable) else
    if sec.groupid ≠ portal.link.fromid then (false, linktable) else
    match linktable.getD (sec.groupid * groupcount + portal.link.toid).toNat none with
    | none =>
      let r := P_AddLinkOffset groupcount linktable sec.groupid portal.link.toid
                 portal.link.deltax portal.link.deltay portal.link.deltaz
      if r.1 ≠ 0 then (false, r.2) else (true, r.2)
    | some link =>
      if (deref zl link).x ≠ portal.link.deltax ∨
         (deref zl link).y ≠ portal.link.deltay ∨
         (deref zl link).z ≠ portal.link.deltaz then (false, linktable)
      else (true, linktable)

/-- The function `P_GatherLinks`, on the allocated table.  The first argument
bounds the nesting of the recursion; `none` means the bound was used up. -/
def P_GatherLinks (groupcount : Nat) (zl : linkoffset_t) :
    Nat → List (Option linkptr) → Nat → Int → Int → Int → Int →
      Option (List (Option linkptr))
  | 0, _, _, _, _, _, _ => none
  | fuel + 1, linktable, group, dx, dy, dz, via =>
    if via = R_NOGROUP then
      (List.range groupcount).foldlM (fun linktable i =>
        if i = group then some linktable else
        match linktable.getD (group * groupcount + i) none with
        | some link =>
          P_GatherLinks groupcount zl fuel linktable group
            (deref zl link).x (deref zl link).y (deref zl link).z i
        | none => some linktable) linktable
    else
      (List.range groupcount).foldlM (fun linktable p =>
        if p = group ∨ (p : Int) = via then some linktable else
        match linktable.getD (via.toNat * groupcount + p) none with
        | none => some linktable
        | some link =>
          match linktable.getD (group * groupcount + p) none with
          | some _ => some linktable
          | none =>
            let x := fixed_add dx (deref zl link).x
            let y := fixed_add dy (deref zl link).y
            let z := fixed_add dz (deref zl link).z
            P_GatherLinks groupcount zl fuel
              (P_AddLinkOffset groupcount linktable group p x y z).2 group x y z p) linktable

/-- The sector loop of `P_BuildLinkTable` for the lines of one sector. -/
def checkLines (groupcount : Nat) (zl : linkoffset_t) (sec : sector_t) :
    List (Option linkptr) → List line_t → Bool × List (Option linkptr)
  | linktable, [] => (true, linktable)
  | linktable, line :: rest =>
    let r := P_CheckLinkedPortal groupcount zl linktable line.portal sec
    if r.1 then checkLines groupcount zl sec r.2 rest else (false, r.2)

/-- The body of the sector loop of `P_BuildLinkTable`. -/
def checkSector (groupcount : Nat) (zl : linkoffset_t) (linktable : List (Option linkptr))
    (sec : sector_t) : Bool × List (Option linkptr) :=
  if sec.groupid < R_NOGROUP ∨ sec.groupid ≥ groupcount then (false, linktable) else
  let c := P_CheckLinkedPortal groupcount zl linktable sec.c_portal sec
  if !c.1 then (false, c.2) else
  let f := P_CheckLinkedPortal groupcount zl c.2 sec.f_portal sec
  if !f.1 then (false, f.2) else
  checkLines groupcount zl sec f.2 sec.lines

/-- The sector loop of `P_BuildLinkTable`, leaving at the first failed check. -/
def checkSectors (groupcount : Nat) (zl : linkoffset_t) :
    List (Option linkptr) → List sector_t → Bool × List (Option linkptr)
  | linktable, [] => (true, linktable)
  | linktable, sec :: rest =>
    let r := checkSector groupcount zl linktable sec
    if r.1 then checkSectors groupcount zl r.2 rest else (false, r.2)

/-- The backlink loop of `P_BuildLinkTable`: `true` when no pair makes it leave.
Both lookups go through `P_GetLinkOffset`, which never returns `NULL`, so the
test `link && backlink` always passes. -/
def backlinksAgree (s : PState) : Bool :=
  (List.range s.groupcount).all fun i =>
    (List.range s.groupcount).all fun p =>
      if p = i then true else
      let link := deref s.zerolink (P_GetLinkOffset s i p)
      let backlink := deref s.zerolink (P_GetLinkOffset s p i)
      if backlink.x ≠ fixed_neg link.x ∨ backlink.y ≠ fixed_neg link.y ∨
         backlink.z ≠ fixed_neg link.z then false else true

/-- The loop of `P_BuildLinkTable` that runs `P_GatherLinks` for every group. -/
def gatherAllLinks (groupcount : Nat) (zl : linkoffset_t) (fuel : Nat)
    (linktable : List (Option linkptr)) : Option (List (Option linkptr)) :=
  (List.range groupcount).foldlM (fun linktable i =>
    P_GatherLinks groupcount zl fuel linktable i 0 0 0 R_NOGROUP) linktable

/-- The loop of `P_BuildLinkTable` that moves every ungrouped sector to group 0. -/
def assignGroupZero (sectors : List sector_t) : List sector_t :=
  (List.range sectors.length).foldl (fun sectors i =>
    match sectors[i]? with
    | some sec => if sec.groupid = R_NOGROUP then R_SetSectorGroupID sectors i 0 else sectors
    | none => sectors) sectors

/-- The last loop of `P_BuildLinkTable`: every empty diagonal slot gets `&zerolink`. -/
def fillDiagonal (groupcount : Nat) (linktable : List (Option linkptr)) :
    List (Option linkptr) :=
  (List.range groupcount).foldl (fun linktable i =>
    match linktable.getD (i * groupcount + i) none with
    | none => linktable.set (i * groupcount + i) (some .zerolink)
    | some _ => linktable) linktable

/-- The function `P_BuildLinkTable`: its result and the state afterwards.
`P_GlobalPortalStateCheck` and `P_buildPortalMap`, which it calls after setting
`useportalgroups`, write portal state flags and the portal blockmap only and are
not part of the state. -/
def P_BuildLinkTable (s : PState) : Except perr (Bool × PState) :=
  if s.groupcount = 0 then .ok (true, s) else
  let checked := checkSectors s.groupcount s.zerolink
    (List.replicate (s.groupcount * s.groupcount) none) s.sectors
  let s1 := { s with linktable := some checked.2 }
  if !checked.1 then .ok (false, s1) else
  if !backlinksAgree s1 then .ok (false, s1) else
  match gatherAllLinks s.groupcount s.zerolink (s.groupcount + 1) checked.2 with
  | none => .error .fuel
  | some gathered =>
    .ok (true, { s with sectors := assignGroupZero s.sectors,
                        linktable := some (fillDiagonal s.groupcount gathered),
                        useportalgroups := true })

/-- One iteration of the loop of `P_MoveLinkedPortal`. -/
def moveLink (s : PState) (startgroup targetgroup : Int) (dx dy : Int) : PState :=
  match P_GetLinkOffset s startgroup targetgroup with
  | .zerolink => s
  | .cell v =>
    { s with linktable := s.linktable.map (fun linktable =>
        linktable.set (startgroup * s.groupcount + targetgroup).toNat
          (some (.cell { v with x := fixed_add v.x dx, y := fixed_add v.y dy }))) }

/-- The function `P_MoveLinkedPortal`: the state and the portal afterwards. -/
def P_MoveLinkedPortal (s : PState) (portal : portal_t) (dx dy : Int) (movebehind : Bool) :
    PState × portal_t :=
  let data := { portal.link with deltax := fixed_add portal.link.deltax dx,
                                 deltay := fixed_add portal.link.deltay dy }
  ((List.range s.groupcount).foldl (fun s i =>
      if movebehind then moveLink s i data.toid dx dy
      else moveLink s data.fromid i dx dy) s,
   { portal with link := data })


/-! ## Notions used to state the properties -/

/-- The zero offset `(0, 0, 0)`. -/
def zero_offset : linkoffset_t := { x := 0, y := 0, z := 0 }

/-- Component-wise sum of two offsets, in `fixed_t` arithmetic. -/
def offset_add (a b : linkoffset_t) : linkoffset_t :=
  { x := fixed_add a.x b.x, y := fixed_add a.y b.y, z := fixed_add a.z b.z }

/-- Component-wise negation of an offset, in `fixed_t` arithmetic. -/
def offset_neg (a : linkoffset_t) : linkoffset_t :=
  { x := fixed_neg a.x, y := fixed_neg a.y, z := fixed_neg a.z }

/-- The offset a lookup with `P_GetLinkOffset` yields. -/
def linkOffsetOf (s : PState) (startgroup targetgroup : Int) : linkoffset_t :=
  deref s.zerolink (P_GetLinkOffset s startgroup targetgroup)

/-- The table slot `linktable[a * groupcount + b]`. -/
def linkAt (groupcount : Nat) (linktable : List (Option linkptr)) (a b : Nat) :
    Option linkptr :=
  linktable.getD (a * groupcount + b) none

/-- The offset a linked portal declares. -/
def portalDelta (portal : portal_t) : linkoffset_t :=
  { x := portal.link.deltax, y := portal.link.deltay, z := portal.link.deltaz }

/-- The portal pointers `P_BuildLinkTable` checks for a sector: ceiling, floor,
and the portal of every line of the sector. -/
def sectorPortals (sec : sector_t) : List (Option portal_t) :=
  sec.c_portal :: sec.f_portal :: sec.lines.map (fun line => line.portal)

/-- Some boundary of a sector of group `a` carries a linked portal to group `p`
with offset `d`: the link from `a` to `p` is directly declared. -/
def Declared (s : PState) (a p : Int) (d : linkoffset_t) : Prop :=
  ∃ sec ∈ s.sectors, ∃ portal, some portal ∈ sectorPortals sec ∧
    portal.type = .R_LINKED ∧ sec.groupid = a ∧ portal.link.toid = p ∧ portalDelta portal = d

/-- One write of `P_GatherLinks` for `group`: the empty slot `(group, p)` gets
the sum of the offsets stored for `(group, via)` and `(via, p)`. -/
inductive GatherStep (gc : Nat) (zl : linkoffset_t) (group : Nat) :
    List (Option linkptr) → List (Option linkptr) → Prop where
  | add (T : List (Option linkptr)) (via p : Nat) (l0 link : linkptr) :
      via < gc → p < gc → via ≠ group → p ≠ group → p ≠ via →
      linkAt gc T group via = some l0 → linkAt gc T via p = some link →
      linkAt gc T group p = none →
      GatherStep gc zl group T
        (T.set (group * gc + p) (some (.cell (offset_add (deref zl l0) (deref zl link)))))

/-- A sequence of writes of `P_GatherLinks` for `group`. -/
def GatherExt (gc : Nat) (zl : linkoffset_t) (group : Nat) :
    List (Option linkptr) → List (Option linkptr) → Prop :=
  Relation.ReflTransGen (GatherStep gc zl group)

/-- Row `group` of `T` has a link to every group that row `v` of `D` links to. -/
def ClosedAt (gc : Nat) (D T : List (Option linkptr)) (group v : Nat) : Prop :=
  ∀ p, p < gc → p ≠ group → p ≠ v → linkAt gc D v p ≠ none → linkAt gc T group p ≠ none

/-- The number of empty off-diagonal slots in row `group`. -/
def freeSlots (gc : Nat) (T : List (Option linkptr)) (group : Nat) : Nat :=
  ((Finset.range gc).filter (fun p => p ≠ group ∧ linkAt gc T group p = none)).card

/-- One write of the closure pass, for any group. -/
def GatherAny (gc : Nat) (zl : linkoffset_t) (T T1 : List (Option linkptr)) : Prop :=
  ∃ g, g < gc ∧ GatherStep gc zl g T T1

/-- A sequence of writes of the closure pass. -/
def AllExt (gc : Nat) (zl : linkoffset_t) :
    List (Option linkptr) → List (Option linkptr) → Prop :=
  Relation.ReflTransGen (GatherAny gc zl)

/-- The direct links a table holds: a non-empty off-diagonal slot and its offset. -/
def tableLink (gc : Nat) (zl : linkoffset_t) (D : List (Option linkptr))
    (a p : Nat) (d : linkoffset_t) : Prop :=
  a < gc ∧ p < gc ∧ a ≠ p ∧ ∃ l, linkAt gc D a p = some l ∧ deref zl l = d

/-- A chain of direct links from `a` to `p` together with the sum of its offsets. -/
inductive LinkChain (R : Nat → Nat → linkoffset_t → Prop) : Nat → Nat → linkoffset_t → Prop where
  | direct (a p : Nat) (d : linkoffset_t) : R a p d → LinkChain R a p d
  | trans (a v p : Nat) (d e : linkoffset_t) :
      LinkChain R a v d → LinkChain R v p e → LinkChain R a p (offset_add d e)

/-- Group `p` is reachable from group `a` by a chain of one or more direct links. -/
def Reachable (R : Nat → Nat → linkoffset_t → Prop) (a p : Nat) : Prop :=
  Relation.TransGen (fun u w => ∃ d, R u w d) a p

/-- A linked portal on a boundary of `sec` passed its checks against table `T`:
its ids are in range, it leaves the group of `sec`, and the slot for the pair
holds the offset it declares. -/
def DeclOK (gc : Nat) (zl : linkoffset_t) (T : List (Option linkptr))
    (sec : sector_t) (portal : portal_t) : Prop :=
  ∃ a b : Nat, sec.groupid = a ∧ portal.link.toid = b ∧ portal.link.fromid = a ∧
    a < gc ∧ b < gc ∧ a ≠ b ∧ ∃ l, linkAt gc T a b = some l ∧ deref zl l = portalDelta portal

/-- What a run of portal checks over the declarations `S`, started on table `T`,
guarantees about its verdict and final table `r`. -/
def CheckRel (gc : Nat) (zl : linkoffset_t) (S : sector_t → portal_t → Prop)
    (T : List (Option linkptr)) (r : Bool × List (Option linkptr)) : Prop :=
  r.2.length = T.length ∧
  (∀ a b, a < gc → b < gc → ∀ l, linkAt gc T a b = some l → linkAt gc r.2 a b = some l) ∧
  (∀ a, a < gc → linkAt gc r.2 a a = linkAt gc T a a) ∧
  (∀ a b, a < gc → b < gc → ∀ l, linkAt gc r.2 a b = some l →
    linkAt gc T a b = some l ∨
      ∃ sec portal, S sec portal ∧ sec.groupid = a ∧ portal.link.toid = b ∧
        deref zl l = portalDelta portal) ∧
  (r.1 = true → ∀ sec portal, S sec portal → DeclOK gc zl r.2 sec portal)

/-- Every sector a line names as its front or back sector is a sector of the map. -/
def linesValid (n : Nat) (lines : List line_t) : Prop :=
  ∀ line ∈ lines, (∀ q ∈ line.frontsector, q < n) ∧ (∀ q ∈ line.backsector, q < n)

instance (n : Nat) (lines : List line_t) : Decidable (linesValid n lines) := by
  unfold linesValid; infer_instance

/-- The sector pointers of the map are valid: every line of every sector names
sectors of the map only. -/
def mapValid (sectors : List sector_t) : Prop :=
  ∀ sec ∈ sectors, linesValid sectors.length sec.lines

instance (sectors : List sector_t) : Decidable (mapValid sectors) := by
  unfold mapValid; infer_instance

/-- What the flood fill of `P_GatherSectors` maintains: the sector array keeps
its size and its lines, the work list has no duplicates and holds sectors of
the map, and the seed sector carries the new group id. -/
def GatherInv (n : Nat) (lines0 : List (List line_t)) (frm : Nat) (groupid : Int)
    (st : List sector_t × List Nat) : Prop :=
  st.1.length = n ∧ st.1.map (fun sec => sec.lines) = lines0 ∧ st.2.Nodup ∧
    (∀ x ∈ st.2, x < n) ∧ ∃ sec, st.1[frm]? = some sec ∧ sec.groupid = groupid

/-- A small map before grouping: sectors 0, 1 and 2 hang together through
two-sided lines, sector 3 stands alone. -/
def fourSectorMap : PState :=
  { sectors :=
      [ { groupid := -1, c_portal := none, f_portal := none,
          lines := [{ frontsector := some 0, backsector := some 1, portal := none }] },
        { groupid := -1, c_portal := none, f_portal := none,
          lines := [{ frontsector := some 1, backsector := some 0, portal := none },
                    { frontsector := some 1, backsector := some 2, portal := none }] },
        { groupid := -1, c_portal := none, f_portal := none,
          lines := [{ frontsector := some 1, backsector := some 2, portal := none }] },
        { groupid := -1, c_portal := none, f_portal := none, lines := [] } ],
    groups := [], groupcount := 0, grouplimit := 0, linktable := none,
    zerolink := { x := 0, y := 0, z := 0 }, useportalgroups := false }

/-- The directly declared links between groups given as indices. -/
def declaredLink (s : PState) (a p : Nat) (d : linkoffset_t) : Prop :=
  Declared s (a : Int) (p : Int) d

/-- The offset from group `a` to group `p` when every group `g` is placed at
`pos g`: the difference of the two places, in `fixed_t` arithmetic. -/
def placedOffset (pos : Nat → linkoffset_t) (a p : Nat) : linkoffset_t :=
  { x := wrap32 ((pos p).x - (pos a).x), y := wrap32 ((pos p).y - (pos a).y),
    z := wrap32 ((pos p).z - (pos a).z) }

/-- A sequence of `P_MoveLinkedPortal` calls, each given by its portal, `dx`,
`dy` and `movebehind`. -/
def applyMoves (s : PState) (moves : List (portal_t × Int × Int × Bool)) : PState :=
  moves.foldl (fun st m => (P_MoveLinkedPortal st m.1 m.2.1 m.2.2.1 m.2.2.2).1) s

/-- A sequence of `P_CreatePortalGroup` calls on the given seed sectors. -/
def createGroups (s : PState) (seeds : List Nat) : Except perr PState :=
  seeds.foldlM (fun st frm => (P_CreatePortalGroup st frm).map (fun r => r.1)) s

/-- A linked portal from group `fromid` to group `toid` with offset `(x, y, z)`. -/
def linkedPortal (fromid toid : Int) (x y z : Int) : portal_t :=
  { type := .R_LINKED,
    link := { deltax := x, deltay := y, deltaz := z, fromid := fromid, toid := toid } }

/-- A map of sectors without lines, before `P_InitPortals`; sector `i` carries
the `i`-th pair of ceiling and floor portal. -/
def portalMap (portals : List (Option portal_t × Option portal_t)) : PState :=
  { sectors := portals.map (fun cf =>
      { groupid := R_NOGROUP, c_portal := cf.1, f_portal := cf.2, lines := [] }),
    groups := [], groupcount := 0, grouplimit := 0, linktable := none,
    zerolink := { x := 0, y := 0, z := 0 }, useportalgroups := false }

/-- The state of a map of `n` separate sectors after `P_InitPortals` and one
`P_CreatePortalGroup` call per sector: sector `i` is the only member of group `i`. -/
def groupedMap (portals : List (Option portal_t × Option portal_t)) : PState :=
  { sectors := portals.enum.map (fun icf =>
      { groupid := (icf.1 : Int), c_portal := icf.2.1, f_portal := icf.2.2, lines := [] }),
    groups := (List.range 8).map (fun i =>
      if i < portals.length then some { seclist := [i] } else none),
    groupcount := portals.length, grouplimit := 8, linktable := none,
    zerolink := { x := 0, y := 0, z := 0 }, useportalgroups := false }

/-- Three groups A = 0, B = 1, C = 2: A and B are linked with offset
`(256, 0, 0)`, B and C with offset `(0, 256, 0)`, each link declared from both
of its sides. -/
def scenarioPortals : List (Option portal_t × Option portal_t) :=
  [ (some (linkedPortal 0 1 256 0 0), none),
    (some (linkedPortal 1 0 (-256) 0 0), some (linkedPortal 1 2 0 256 0)),
    (some (linkedPortal 2 1 0 (-256) 0), none) ]

/-- Two groups whose links disagree: group 0 declares `(1, 0, 0)` to group 1,
group 1 declares `(5, 0, 0)` back. -/
def asymmetricPortals : List (Option portal_t × Option portal_t) :=
  [ (some (linkedPortal 0 1 1 0 0), none), (some (linkedPortal 1 0 5 0 0), none) ]

/-- Three groups, every pair linked in both directions with offsets that are
negations of each other: `(1, 0, 0)` from 0 to 1 and from 1 to 2, but
`(5, 0, 0)` from 0 to 2. -/
def trianglePortals : List (Option portal_t × Option portal_t) :=
  [ (some (linkedPortal 0 1 1 0 0), some (linkedPortal 0 2 5 0 0)),
    (some (linkedPortal 1 0 (-1) 0 0), some (linkedPortal 1 2 1 0 0)),
    (some (linkedPortal 2 1 (-1) 0 0), some (linkedPortal 2 0 (-5) 0 0)) ]

/-- No diagonal slot of the link table holds a cell of its own: each is empty
or points to `zerolink`. -/
def DiagOK (s : PState) : Prop :=
  ∀ T, s.linktable = some T → ∀ a, a < s.groupcount →
    linkAt s.groupcount T a a = none ∨ linkAt s.groupcount T a a = some .zerolink

/-- The state `P_BuildLinkTable` leaves for the three-group scenario. -/
def scenarioBuilt : PState :=
  { groupedMap scenarioPortals with
    linktable := some
      [ some .zerolink, some (.cell { x := 256, y := 0, z := 0 }),
        some (.cell { x := 256, y := 256, z := 0 }),
        some (.cell { x := -256, y := 0, z := 0 }), some .zerolink,
        some (.cell { x := 0, y := 256, z := 0 }),
        some (.cell { x := -256, y := -256, z := 0 }),
        some (.cell { x := 0, y := -256, z := 0 }), some .zerolink ],
    useportalgroups := true }

/-- A map with one sector that carries a linked ceiling portal, after
`P_InitPortals` and with no portal group created. -/
def ungroupedPortalMap : PState :=
  P_InitPortals (portalMap [(some (linkedPortal 0 1 64 0 0), none)])

/-- A map without sectors and portals after `P_InitPortals`. -/
def emptyMap : PState := P_InitPortals (portalMap [])

/-- The places of the three groups of the scenario. -/
def scenarioPlaces (g : Nat) : linkoffset_t :=
  if g = 0 then { x := 0, y := 0, z := 0 }
  else if g = 1 then { x := 256, y := 0, z := 0 }
  else { x := 256, y := 256, z := 0 }

/-- Two sectors of group 0 whose ceiling portals both lead to group 1 but
declare different offsets, and one sector of group 1. -/
def conflictMap : PState :=
  { sectors :=
      [ { groupid := 0, c_portal := some (linkedPortal 0 1 64 0 0), f_portal := none,
          lines := [{ frontsector := some 0, backsector := some 1, portal := none }] },
        { groupid := 0, c_portal := some (linkedPortal 0 1 32 0 0), f_portal := none,
          lines := [{ frontsector := some 0, backsector := some 1, portal := none }] },
        { groupid := 1, c_portal := none, f_portal := none, lines := [] } ],
    groups := [some { seclist := [0, 1] }, some { seclist := [2] },
               none, none, none, none, none, none],
    groupcount := 2, grouplimit := 8, linktable := none,
    zerolink := { x := 0, y := 0, z := 0 }, useportalgroups := false }

/-- Sector `q` is the front or the back sector of a line in the line list of
sector `p`. -/
def adjacent (sectors : List sector_t) (p q : Nat) : Prop :=
  ∃ line ∈ sectorLines sectors p, line.frontsector = some q ∨ line.backsector = some q

/-- Sector `q` is reached from sector `frm` through front and back sectors of
lines in the line lists of the sectors passed on the way. -/
def connected (sectors : List sector_t) (frm q : Nat) : Prop :=
  Relation.ReflTransGen (adjacent sectors) frm q

/-- The calls `R_SetSectorGroupID(sec, groupid)` for the sectors of a list, one
call for each entry, in the order of the list. -/
def assignAll (sectors : List sector_t) (groupid : Int) (list : List Nat) : List sector_t :=
  list.foldl (fun secs q => R_SetSectorGroupID secs q groupid) sectors

/-- What the flood fill of `P_GatherSectors` maintains while the work list is
walked: the sector array is the old one with one assignment for each entry of
the work list, the work list has no duplicates, holds the seed and only sectors
of the map reached from the seed, and the sectors next to an entry already
walked are in the list. -/
def FloodInv (sectors0 : List sector_t) (frm : Nat) (groupid : Int) (sec : Nat)
    (st : List sector_t × List Nat) : Prop :=
  st.1 = assignAll sectors0 groupid st.2 ∧ st.2.Nodup ∧
    (∀ q ∈ st.2, connected sectors0 frm q) ∧ (∀ q ∈ st.2, q < sectors0.length) ∧
    frm ∈ st.2 ∧ sec ≤ st.2.length ∧
    (∀ i p, i < sec → st.2[i]? = some p → ∀ q, adjacent sectors0 p q → q ∈ st.2)

instance (sectors : List sector_t) (p q : Nat) : Decidable (adjacent sectors p q) := by
  unfold adjacent; infer_instance

/-- One side of a line in the line list of sector `p`: the sector on that
side, if there is one, has in its own line list a line with `p` on one of its
sides. -/
def sideShared (sectors : List sector_t) (p : Nat) : Option Nat → Prop
  | none => True
  | some q => adjacent sectors q p

instance (sectors : List sector_t) (p : Nat) (side : Option Nat) :
    Decidable (sideShared sectors p side) := by
  cases side <;> unfold sideShared <;> infer_instance

/-- Modelled from the spec: the line lists `sector->lines` of a loaded map,
which `p_setup.cpp`, not among the sources, builds: sectors are reached
"through shared boundaries", a line is in the line lists of the sectors on both
of its sides, so that the sector on either side of a line in the line list of
sector `p` has in its own line list a line with `p` on one of its sides. -/
def linesShared (sectors : List sector_t) : Prop :=
  ∀ p < sectors.length, ∀ line ∈ sectorLines sectors p,
    sideShared sectors p line.frontsector ∧ sideShared sectors p line.backsector

instance (sectors : List sector_t) : Decidable (linesShared sectors) := by
  unfold linesShared; infer_instance

/-- Modelled from the spec: the sectors of a map before the first call of
`P_CreatePortalGroup`, as `p_setup.cpp`, not among the sources, leaves them:
every group id is the "`R_NOGROUP` sentinel = unassigned". -/
def noGroups (sectors : List sector_t) : Prop :=
  ∀ sec ∈ sectors, sec.groupid = R_NOGROUP

instance (sectors : List sector_t) : Decidable (noGroups sectors) := by
  unfold noGroups; infer_instance

/-- One step of a map after it was loaded, by a function of `p_portal.cpp`
that stores to the globals or to the sectors: a call of `P_CreatePortalGroup`,
the one function that calls `P_GatherSectors`, for any seed, that returns; a
call of `P_BuildLinkTable` that returns; a call of `P_MoveLinkedPortal`.
`P_InitPortals` belongs to the loading of the next map. -/
inductive GroupStep : PState → PState → Prop where
  | create (s : PState) (frm : Nat) (s2 : PState) (g : Int) :
      P_CreatePortalGroup s frm = .ok (s2, g) → GroupStep s s2
  | build (s : PState) (b : Bool) (s2 : PState) :
      P_BuildLinkTable s = .ok (b, s2) → GroupStep s s2
  | move (s : PState) (portal : portal_t) (dx dy : Int) (movebehind : Bool) :
      GroupStep s (P_MoveLinkedPortal s portal dx dy movebehind).1

/-- The states a map reaches from the state `s0` in which it was loaded. -/
def Grouping (s0 s : PState) : Prop :=
  Relation.ReflTransGen GroupStep s0 s

/-- The sectors next to a sector that has a group have a group: no line leads
from the sectors with a group to a sector without one. -/
def groupsClosed (sectors : List sector_t) : Prop :=
  ∀ (p q : Nat) (secp : sector_t), sectors[p]? = some secp → secp.groupid ≠ R_NOGROUP →
    adjacent sectors p q → ∃ secq, sectors[q]? = some secq ∧ secq.groupid ≠ R_NOGROUP

/-- The map `fourSectorMap` after `P_CreatePortalGroup` for sector 0: the
sectors 0, 1 and 2 are the members of group 0, sector 3 has no group. -/
def threeGrouped : PState :=
  { sectors :=
      [ { groupid := 0, c_portal := none, f_portal := none,
          lines := [{ frontsector := some 0, backsector := some 1, portal := none }] },
        { groupid := 0, c_portal := none, f_portal := none,
          lines := [{ frontsector := some 1, backsector := some 0, portal := none },
                    { frontsector := some 1, backsector := some 2, portal := none }] },
        { groupid := 0, c_portal := none, f_portal := none,
          lines := [{ frontsector := some 1, backsector := some 2, portal := none }] },
        { groupid := -1, c_portal := none, f_portal := none, lines := [] } ],
    groups := [some { seclist := [0, 1, 2] }, none, none, none, none, none, none, none],
    groupcount := 1, grouplimit := 8, linktable := none,
    zerolink := { x := 0, y := 0, z := 0 }, useportalgroups := false }

/-! ## The portal windows of `r_portal.cpp` -/

/-- Modelled from the spec: the type `pwindowtype_e` of `r_portal.h`, which is
not among the sources: the kind of surface a window lies on, with the three
values `r_portal.cpp` names. -/
inductive pwindowtype_e where
  | pw_floor
  | pw_ceiling
  | pw_line
deriving DecidableEq

/-- The functions of `r_portal.cpp` that the field `func` of a window can point to. -/
inductive windowfunc where
  | R_RenderPortalNOP
  | R_RenderPlanePortal
  | R_RenderHorizonPortal
  | R_RenderSkyboxPortal
  | R_RenderAnchoredPortal
  | R_RenderLinkedPortal
deriving DecidableEq

/-- Modelled from the spec: the type `renderbarrier_t` of `r_portal.h`, which is
not among the sources: the dividing line (`dl`) and the bounding box (`bbox`)
that `r_portal.cpp` keeps for a window. -/
structure renderbarrier_t where
  dl_x : Int
  dl_y : Int
  dl_dx : Int
  dl_dy : Int
  bbox : List Int
deriving DecidableEq

/-- The barrier after `memset(&barrier, 0, sizeof(barrier))`. -/
def zero_barrier : renderbarrier_t :=
  { dl_x := 0, dl_y := 0, dl_dx := 0, dl_dy := 0, bbox := [0, 0, 0, 0] }

/-- Modelled from the spec: the type `pwindow_t` of `r_portal.h`, which is not
among the sources: a "screen-space region through which a portal is visible",
with the fields `r_portal.cpp` reads and writes other than the two links
`child` and `next`.  `addr` is the address of the window, `head` the address
of the window `head` points to; `portal` and `line` are the places of the
portal and the line in their lists, `clipfunc` the index into `segclipfuncs`;
`top` and `bottom` are the two halves of the column buffer. -/
structure pwindow_t (F : Type) where
  addr : Nat
  portal : Option Nat
  line : Option Nat
  type : pwindowtype_e
  head : Option Nat
  func : windowfunc
  clipfunc : Option pwindowtype_e
  minx : Int
  maxx : Int
  top : List F
  bottom : List F
  vx : Int
  vy : Int
  vz : Int
  vangle : Int
  barrier : renderbarrier_t
  planez : Int
  up : Bool
deriving DecidableEq

/-- A `pwindow_t *`: `NULL`, or a window with the windows its `child` and `next`
links lead to.  No window of `r_portal.cpp` is reached through two links at once. -/
inductive pwindowptr (F : Type) where
  | NULL
  | window (w : pwindow_t F) (child : pwindowptr F) (next : pwindowptr F)
deriving DecidableEq

/-- The globals that the window code of `r_portal.cpp` reads and writes:
the free list, the view position and angle, `view.height`, `viewwindow.width`
and `video.width`; `nextaddr` is the address the next allocation returns. -/
structure RState (F : Type) where
  unusedhead : pwindowptr F
  viewx : Int
  viewy : Int
  viewz : Int
  viewangle : Int
  view_height : F
  viewwindow_width : Int
  video_width : Nat
  nextaddr : Nat
deriving DecidableEq

section windows

variable {F : Type} [LinearOrderedCommRing F]

/-- The read `buf[x]` of a column buffer; an index outside the buffer is not a
column of the window and reads as 0. -/
def colRead (buf : List F) (x : Int) : F :=
  if 0 ≤ x then buf.getD x.toNat 0 else 0

/-- The store `buf[x] = v` into a column buffer; a store outside the buffer is
left out. -/
def colStore (buf : List F) (x : Int) (v : F) : List F :=
  if 0 ≤ x then buf.set x.toNat v else buf

/-- The loop `for(i = 0; i < video.width; i++)` of `R_ClearPortalWindow`. -/
def clearColumns (view_height : F) (video_width : Nat) (w : pwindow_t F) : pwindow_t F :=
  (List.range video_width).foldl
    (fun w i => { w with top := w.top.set i view_height, bottom := w.bottom.set i (-1) }) w

/-- The function `R_ClearPortalWindow`, given the window its argument points to;
the result is that window with its two links. -/
def R_ClearPortalWindow (rs : RState F) (window : pwindow_t F) : pwindowptr F :=
  let w1 := { window with maxx := 0, minx := rs.viewwindow_width - 1 }
  let w2 := clearColumns rs.view_height rs.video_width w1
  .window { w2 with portal := none, line := none, func := .R_RenderPortalNOP,
                    clipfunc := none, vx := 0, vy := 0, vz := 0, vangle := 0,
                    barrier := zero_barrier } .NULL .NULL

/-- The function `newPortalWindow`.  A window from `estructalloctag` has all
fields zero (`pw_floor` is taken as the zero value of `pwindowtype_e`); the
contents of a new column buffer are taken as zero. -/
def newPortalWindow (rs : RState F) : pwindowptr F × RState F :=
  match rs.unusedhead with
  | .window ret _ next => (R_ClearPortalWindow rs ret, { rs with unusedhead := next })
  | .NULL =>
    let ret : pwindow_t F :=
      { addr := rs.nextaddr, portal := none, line := none, type := .pw_floor, head := none,
        func := .R_RenderPortalNOP, clipfunc := none, minx := 0, maxx := 0,
        top := List.replicate rs.video_width 0, bottom := List.replicate rs.video_width 0,
        vx := 0, vy := 0, vz := 0, vangle := 0, barrier := zero_barrier, planez := 0,
        up := false }
    (R_ClearPortalWindow rs ret, { rs with nextaddr := rs.nextaddr + 1 })

/-- The function `R_CreateChildWindow`; the result is the parent with its new child. -/
def R_CreateChildWindow (rs : RState F) (parent : pwindowptr F) :
    Except perr (RState F × pwindowptr F) :=
  match parent with
  | .NULL => .error .badptr
  | .window w _ next =>
    match newPortalWindow rs with
    | (.NULL, _) => .error .badptr
    | (.window child cc cn, rs1) =>
      .ok (rs1, .window w
        (.window { child with head := w.head, portal := w.portal, line := w.line,
                              barrier := w.barrier, type := w.type, func := w.func,
                              clipfunc := w.clipfunc } cc cn) next)

/-- The statement `if(!window->child) R_CreateChildWindow(window);` of
`R_WindowAdd`; the result is the window with its child. -/
def ensureChild (rs : RState F) (window : pwindowptr F) :
    Except perr (RState F × pwindowptr F) :=
  match window with
  | .NULL => .error .badptr
  | .window w .NULL next => R_CreateChildWindow rs (.window w .NULL next)
  | .window w (.window cw cc cn) next => .ok (rs, .window w (.window cw cc cn) next)

/-- The function `R_WindowAdd`; the first argument bounds the depth of the
recursion into child windows.  The result is the window with the windows below it. -/
def R_WindowAdd : Nat → RState F → pwindowptr F → Int → F → F →
    Except perr (RState F × pwindowptr F)
  | 0, _, _, _, _, _ => .error .fuel
  | _ + 1, _, .NULL, _, _, _ => .error .badptr
  | fuel + 1, rs, .window w child next, x, ytop, ybottom =>
    let windowtop := colRead w.top x
    let windowbottom := colRead w.bottom x
    if ybottom < 0 ∨ ytop ≥ rs.view_height then .ok (rs, .window w child next)
    else if x ≤ w.maxx ∧ x ≥ w.minx then
      if windowtop > windowbottom then
        .ok (rs, .window { w with top := colStore w.top x ytop,
                                  bottom := colStore w.bottom x ybottom } child next)
      else if ytop > windowbottom ∨ ybottom < windowtop then
        match ensureChild rs (.window w child next) with
        | .error e => .error e
        | .ok (_, .NULL) => .error .badptr
        | .ok (rs1, .window w1 child1 next1) =>
          match R_WindowAdd fuel rs1 child1 x ytop ybottom with
          | .error e => .error e
          | .ok (rs2, child2) => .ok (rs2, .window w1 child2 next1)
      else
        let w1 := if ytop < windowtop then { w with top := colStore w.top x ytop } else w
        let w2 := if ybottom > windowbottom then
          { w1 with bottom := colStore w1.bottom x ybottom } else w1
        .ok (rs, .window w2 child next)
    else if w.minx > w.maxx then
      .ok (rs, .window { w with minx := x, maxx := x, top := colStore w.top x ytop,
                                bottom := colStore w.bottom x ybottom, vx := rs.viewx,
                                vy := rs.viewy, vz := rs.viewz, vangle := rs.viewangle }
                 child next)
    else if x > w.maxx then
      .ok (rs, .window { w with maxx := x, top := colStore w.top x ytop,
                                bottom := colStore w.bottom x ybottom } child next)
    else if x < w.minx then
      .ok (rs, .window { w with minx := x, top := colStore w.top x ytop,
                                bottom := colStore w.bottom x ybottom } child next)
    else .ok (rs, .window w child next)

/-- The number of windows on the chain of `child` links that starts at a window. -/
def chainLength : pwindowptr F → Nat
  | .NULL => 0
  | .window _ child _ => chainLength child + 1

/-- Every window on a list of `next` links has column buffers of `n` columns,
as `newPortalWindow` allocates them for `n = video.width`. -/
def poolOK (n : Nat) : pwindowptr F → Prop
  | .NULL => True
  | .window w _ next => w.top.length = n ∧ w.bottom.length = n ∧ poolOK n next

/-- The column `x` is a column of the screen, and the windows of the free list
have column buffers of `video.width` columns. -/
def columnOK (rs : RState F) (x : Int) : Prop :=
  0 ≤ x ∧ x < rs.video_width ∧ poolOK rs.video_width rs.unusedhead

/-- The child `R_CreateChildWindow` gives a parent: the cleared window with the
fields it takes over from the parent. -/
def inheritFrom (w cw : pwindow_t F) : pwindow_t F :=
  { cw with head := w.head, portal := w.portal, line := w.line, barrier := w.barrier,
            type := w.type, func := w.func, clipfunc := w.clipfunc }

/-- Two column buffers differ at most at column `x`. -/
def sameExcept (x : Int) (buf buf2 : List F) : Prop :=
  buf2.length = buf.length ∧ ∀ y, y ≠ x → colRead buf2 y = colRead buf y

/-- The column `x` of a window holds an occupied span: `x` is a column of its
buffers and `top[x] <= bottom[x]`. -/
def occupied (w : pwindow_t F) (x : Int) : Prop :=
  0 ≤ x ∧ x < w.top.length ∧ x < w.bottom.length ∧ colRead w.top x ≤ colRead w.bottom x

instance (w : pwindow_t F) (x : Int) : Decidable (occupied w x) := by
  unfold occupied; infer_instance

/-- The window a pointer leads to holds an occupied span at column `x`. -/
def occupiedAt : pwindowptr F → Int → Prop
  | .NULL, _ => False
  | .window w _ _, x => occupied w x

/-- Down the chain of `child` links, a child holds an occupied span only at
columns at which its parent holds one, and these lie inside the parent's
range `[minx, maxx]`. -/
def childInside : pwindowptr F → Prop
  | .NULL => True
  | .window w child _ =>
    (∀ x, occupiedAt child x → occupied w x ∧ w.minx ≤ x ∧ x ≤ w.maxx) ∧ childInside child

/-- What `R_WindowAdd` maintains down the chain of `child` links: the buffers
have `n` columns, the occupied columns of a window lie inside its range, and a
child is occupied only at columns at which its parent is. -/
def ChainInv (n : Nat) : pwindowptr F → Prop
  | .NULL => True
  | .window w child _ =>
    w.top.length = n ∧ w.bottom.length = n ∧
      (∀ x, occupied w x → w.minx ≤ x ∧ x ≤ w.maxx) ∧
      (∀ x, occupiedAt child x → occupied w x) ∧ ChainInv n child

/-- One call of `R_WindowAdd` on a window for a column of the screen, made
after the view globals have been moved to any position and angle. -/
inductive AddStep : RState F × pwindowptr F → RState F × pwindowptr F → Prop where
  | call (fuel : Nat) (rs : RState F) (p : pwindowptr F) (vx vy vz va : Int) (x : Int)
      (ytop ybottom : F) (rs2 : RState F) (p2 : pwindowptr F) :
      0 ≤ x → x < rs.video_width →
      R_WindowAdd fuel { rs with viewx := vx, viewy := vy, viewz := vz, viewangle := va }
        p x ytop ybottom = .ok (rs2, p2) →
      AddStep (rs, p) (rs2, p2)

/-- A sequence of `R_WindowAdd` calls on a window leads from one state to another. -/
def Adds (a b : RState F × pwindowptr F) : Prop :=
  Relation.ReflTransGen AddStep a b

/-- The calls `R_WindowAdd(window, x, ytop, ybottom)` for the columns of a list,
in the order of the list. -/
def addColumns (fuel : Nat) (rs : RState F) (window : pwindowptr F) :
    List (Int × F × F) → Except perr (RState F × pwindowptr F)
  | [] => .ok (rs, window)
  | (x, ytop, ybottom) :: rest =>
    match R_WindowAdd fuel rs window x ytop ybottom with
    | .error e => .error e
    | .ok (rs1, window1) => addColumns fuel rs1 window1 rest

/-- The address of the window a pointer leads to. -/
def windowAddr : pwindowptr F → Option Nat
  | .NULL => none
  | .window w _ _ => some w.addr

/-- The recorded view position and angle of the window a pointer leads to. -/
def recordedView : pwindowptr F → Option (Int × Int × Int × Int)
  | .NULL => none
  | .window w _ _ => some (w.vx, w.vy, w.vz, w.vangle)

/-- A window as `newPortalWindow` returns it, whatever its caller then stores in
the fields other than the column range, the column buffers and the `child` link. -/
def freshWindow (rs : RState F) (p : pwindowptr F) : Prop :=
  ∃ w next, p = .window w .NULL next ∧
    w.top = List.replicate rs.video_width rs.view_height ∧
    w.bottom = List.replicate rs.video_width (-1) ∧
    w.minx = rs.viewwindow_width - 1 ∧ w.maxx = 0

/-- The reading of the child invariant as "disjoint from the parent's occupied
column range": down the chain of `child` links, every column at which a child
holds an occupied span lies outside the range `[minx, maxx]` of its parent. -/
def childDisjoint : pwindowptr F → Prop
  | .NULL => True
  | .window w child _ =>
    (∀ x, occupiedAt child x → x < w.minx ∨ w.maxx < x) ∧ childDisjoint child

end windows

/-- A screen of 16 columns and 200 rows with an empty free list, seen from the
view position (100, 200, 41) at angle 7; floats are taken as integers here. -/
def exampleScreen : RState Int :=
  { unusedhead := .NULL, viewx := 100, viewy := 200, viewz := 41, viewangle := 7,
    view_height := 200, viewwindow_width := 16, video_width := 16, nextaddr := 0 }

/-- The state after `newPortalWindow` on the example screen. -/
def acquiredScreen : RState Int := (newPortalWindow exampleScreen).2

/-- The window `newPortalWindow` returns on the example screen. -/
def acquiredWindow : pwindowptr Int := (newPortalWindow exampleScreen).1

/-- The fields of the window `newPortalWindow` returns on the example screen:
every column unoccupied, the range `[15, 0]` empty. -/
def clearedWindow : pwindow_t Int :=
  { addr := 0, portal := none, line := none, type := .pw_floor, head := none,
    func := .R_RenderPortalNOP, clipfunc := none, minx := 15, maxx := 0,
    top := List.replicate 16 200, bottom := List.replicate 16 (-1),
    vx := 0, vy := 0, vz := 0, vangle := 0, barrier := zero_barrier, planez := 0,
    up := false }

/-- The acquired window after `R_WindowAdd(window, 3, 10, 20)`: the range is
`[3, 3]`, column 3 holds the span `[10, 20]`, and the view is recorded. -/
def spanWindow : pwindow_t Int :=
  { clearedWindow with minx := 3, maxx := 3, top := colStore clearedWindow.top 3 10,
                       bottom := colStore clearedWindow.bottom 3 20,
                       vx := 100, vy := 200, vz := 41, vangle := 7 }

/-- The child that `R_WindowAdd(window, 3, 30, 40)` gives the window with the
span `[10, 20]` at column 3: its range is `[3, 3]` and its column 3 holds the
span `[30, 40]`. -/
def splitChild : pwindow_t Int :=
  { clearedWindow with addr := 1, minx := 3, maxx := 3,
                       top := colStore clearedWindow.top 3 30,
                       bottom := colStore clearedWindow.bottom 3 40,
                       vx := 100, vy := 200, vz := 41, vangle := 7 }

/-- The example screen with one window on the free list. -/
def pooledScreen : RState Int :=
  { exampleScreen with unusedhead := .window spanWindow .NULL .NULL }

/-- The columns 0 to 5 and then 10 to 15. -/
def mergeColumns : List Int := [0, 1, 2, 3, 4, 5, 10, 11, 12, 13, 14, 15]

/-- The acquired window after the two calls `R_WindowAdd(window, 3, 10, 20)` and
`R_WindowAdd(window, 3, 30, 40)`: the parent with the span `[10, 20]` and its
child with the span `[30, 40]`, both at column 3. -/
def splitWindow : pwindowptr Int :=
  .window spanWindow (.window splitChild .NULL .NULL) .NULL

/-- The globals after the two calls that lead to `splitWindow`. -/
def splitScreen : RState Int := { acquiredScreen with nextaddr := 2 }

section windows

variable {F : Type} [LinearOrderedCommRing F]

/-- The range of the window a child pointer leads to, when that window is not
empty, lies inside the range `[minx, maxx]` of the parent `w`. -/
def insideOf (w : pwindow_t F) : pwindowptr F → Prop
  | .NULL => True
  | .window c _ _ => c.minx ≤ c.maxx → w.minx ≤ c.minx ∧ c.maxx ≤ w.maxx

/-- Down the chain of `child` links, the range of every child that is not empty
lies inside the range of its parent. -/
def rangeInside : pwindowptr F → Prop
  | .NULL => True
  | .window w child _ => insideOf w child ∧ rangeInside child

/-- The windows on the chain of `child` links that starts at a window, the
parent first. -/
def chainWindows : pwindowptr F → List (pwindow_t F)
  | .NULL => []
  | .window w child _ => w :: chainWindows child

/-- Two chains of the same length hold the same column bounds, but for column
`x` of the window at place `k`. -/
def frameAt (x : Int) (k : Nat) (L L2 : List (pwindow_t F)) : Prop :=
  L2.length = L.length ∧
    ∀ (j : Nat) (w1 w2 : pwindow_t F), L[j]? = some w1 → L2[j]? = some w2 →
      sameExcept x w1.top w2.top ∧ sameExcept x w1.bottom w2.bottom ∧
        (j ≠ k → w2.top = w1.top ∧ w2.bottom = w1.bottom)

end windows

/-- A link table for two groups in which group 0 has a direct link to group 1
and nothing else is filled in. -/
def directLinkTable : List (Option linkptr) :=
  [none, some (.cell { x := 64, y := 0, z := 0 }), none, none]

/-- A link table for three groups with the direct links from 0 to 1 and from 1
to 2. -/
def chainLinkTable : List (Option linkptr) :=
  [none, some (.cell { x := 64, y := 0, z := 0 }), none,
   none, none, some (.cell { x := 0, y := 32, z := 0 }),
   none, none, none]

/-! ## The defined-portal list of `r_portal.cpp` -/

/-- The type `portalentry_t` of `r_portal.cpp`, an entry of `gPortals`; `portal`
is the place of the portal in the list `portals`. -/
structure portalentry_t where
  id : Int
  portal : Option Nat
deriving DecidableEq

/-- The C library function `abs` on an `int`. -/
def int_abs (v : Int) : Int := wrap32 (if v < 0 then -v else v)

/-- The comparison function that `R_findFreePortalId` hands to `qsort`:
`*(int *)a - *(int *)b`. -/
def compareIds (a b : Int) : Int := wrap32 (a - b)

/-- The C library function `qsort` on an array of `int`: the elements in
ascending order of the comparison function. -/
def qsort (compar : Int → Int → Int) (base : List Int) : List Int :=
  base.insertionSort (fun a b => compar a b ≤ 0)

/-- The loop `for(int b : busylist)` of `R_findFreePortalId`, from the value of
`free` it starts with. -/
def scanBusy : Int → List Int → Int
  | free, [] => free
  | free, b :: rest =>
    if b = free then scanBusy (wrap32 (free + 1)) rest
    else if b > free then free
    else scanBusy free rest

/-- The function `R_findFreePortalId`.  `&busylist[0]` needs an element, which
there is at the one call of the function, made from inside a loop over
`gPortals`; `none` stands for a call with an empty list. -/
def R_findFreePortalId (gPortals : List portalentry_t) : Option Int :=
  let busylist := gPortals.map (fun entry => int_abs entry.id)
  if busylist = [] then none
  else some (scanBusy 1 (qsort compareIds busylist))

/-- The defined-portal list after portals 1 and 2 were defined with their
mirrored entries, and portal 4 without one. -/
def exampleEntries : List portalentry_t :=
  [{ id := 2, portal := some 0 }, { id := -2, portal := some 1 },
   { id := 1, portal := some 2 }, { id := -1, portal := some 3 },
   { id := 4, portal := some 4 }]

/-! ## The portal list of `r_portal.cpp` -/

/-- Modelled from the spec: the type `vertex_t` of `r_defs.h`, which is not among
the sources: an end point of a "boundary segment", with its fixed-point
coordinates `x` and `y`. -/
structure vertex_t where
  x : Int
  y : Int
deriving DecidableEq

/-- Modelled from the spec: the type `line_t` of `r_defs.h`, which is not among
the sources, as `R_CalculateDeltas` reads it: a "boundary segment" with its end
points `v1` and `v2`.  (`line_t` above holds what `p_portal.cpp` reads of it.) -/
structure rline_t where
  v1 : vertex_t
  v2 : vertex_t
deriving DecidableEq

/-- Modelled from the spec: the type `portaltransform_t` of `r_portal.h`, which
is not among the sources: "a 2-D affine transform — rotation + translation".
Its members are `double`s, which `r_portal.cpp` compares with `memcmp`; a value
is given here by the bytes `memcmp` compares. -/
structure portaltransform_t where
  bytes : List Nat
deriving DecidableEq

/-- Modelled from the spec: the type `anchordata_t` of `r_portal.h`, which is not
among the sources: the parameters of an anchored portal, with the members
`r_portal.cpp` reads and writes. -/
structure anchordata_t where
  transform : portaltransform_t
  maker : Int
  anchor : Int
  polyportalpartner : Option Nat
deriving DecidableEq

/-- Modelled from the spec: the type `linkdata_t` of `r_portal.h`, which is not
among the sources, with all the members `r_portal.cpp` reads and writes: a
linked portal carries "`fromRegion`, `toRegion`, `offset`, a reference plane
height".  (`linkdata_t` above holds what `p_portal.cpp` reads of it.) -/
structure rlinkdata_t where
  deltax : Int
  deltay : Int
  deltaz : Int
  planez : Int
  fromid : Int
  toid : Int
  maker : Int
  anchor : Int
  polyportalpartner : Option Nat
deriving DecidableEq

/-- Modelled from the spec: the type `horizondata_t` of `r_portal.h`, which is
not among the sources: the fourteen pointers `R_GetHorizonPortal` stores, each
given by the address it holds. -/
structure horizondata_t where
  floorpic : Nat
  ceilingpic : Nat
  floorz : Nat
  ceilingz : Nat
  floorlight : Nat
  ceilinglight : Nat
  floorxoff : Nat
  flooryoff : Nat
  ceilingxoff : Nat
  ceilingyoff : Nat
  floorbaseangle : Nat
  floorangle : Nat
  ceilingbaseangle : Nat
  ceilingangle : Nat
deriving DecidableEq

/-- Modelled from the spec: the type `skyplanedata_t` of `r_portal.h`, which is
not among the sources: the seven pointers `R_GetPlanePortal` stores, each given
by the address it holds. -/
structure skyplanedata_t where
  pic : Nat
  delta : Nat
  lightlevel : Nat
  xoff : Nat
  yoff : Nat
  baseangle : Nat
  angle : Nat
deriving DecidableEq

/-- The union `data` of a `portal_t`: all bytes zero as `estructalloctag` leaves
them, or the member that was stored last.  `camera` is the address of the
camera object. -/
inductive portaldata where
  | zero
  | camera (camera : Option Nat)
  | anchor (anchor : anchordata_t)
  | link (link : rlinkdata_t)
  | horizon (horizon : horizondata_t)
  | plane (plane : skyplanedata_t)
deriving DecidableEq

/-- Modelled from the spec: the type `portal_t` of `r_portal.h`, which is not
among the sources, as `r_portal.cpp` uses it: "a tagged variant over kinds" with
its kind `type`, its parameters `data`, the counter `tainted` and `globaltex`.
The link `next` is the order of the list `portals`; the plane hash `poverlay`
belongs to the plane code and is left out.  (`portal_t` above holds what
`p_portal.cpp` reads of it.) -/
structure rportal_t where
  type : portaltype_e
  data : portaldata
  tainted : Int
  globaltex : Int
deriving DecidableEq

/-- The line `lines + linenum`. -/
def lineAt (lines : List rline_t) (linenum : Int) : Option rline_t :=
  if 0 ≤ linenum then lines[linenum.toNat]? else none

/-- The function `R_CreatePortal` on the list `portals` (with `last` its last
element): the list afterwards and the place of the new portal in it. -/
def R_CreatePortal (portals : List rportal_t) : List rportal_t × Nat :=
  (portals ++ [{ type := .R_NONE, data := .zero, tainted := 0, globaltex := 1 }],
   portals.length)

/-- The function `R_CalculateDeltas`: the values it stores in `*dx`, `*dy` and
`*dz`; `/ 2` is the division of C, which rounds towards zero. -/
def R_CalculateDeltas (lines : List rline_t) (markerlinenum anchorlinenum : Int) :
    Option (Int × Int × Int) :=
  match lineAt lines markerlinenum, lineAt lines anchorlinenum with
  | some m, some a =>
    some (wrap32 ((wrap32 (m.v1.x + m.v2.x)).tdiv 2 - (wrap32 (a.v1.x + a.v2.x)).tdiv 2),
          wrap32 ((wrap32 (m.v1.y + m.v2.y)).tdiv 2 - (wrap32 (a.v1.y + a.v2.y)).tdiv 2),
          0)
  | _, _ => none

/-- The loop `for(rover = portals; rover; rover = rover->next)` of the functions
`R_Get...Portal`: the place of the first portal that the loop does not pass
over with `continue`, counted from `i`. -/
def roverLoop (found : rportal_t → Bool) : List rportal_t → Nat → Option Nat
  | [], _ => none
  | rover :: rest, i => if found rover then some i else roverLoop found rest (i + 1)

/-- The store to members of the portal `portals[i]`. -/
def modifyPortal (portals : List rportal_t) (i : Nat) (f : rportal_t → rportal_t) :
    List rportal_t :=
  match portals[i]? with
  | some p => portals.set i (f p)
  | none => portals

/-- The function `R_GetAnchoredPortal`: the list `portals` afterwards and the
portal returned.  `R_calculateTransform` computes in `double`s from the lines
of the map; what it stores in `adata.transform` is given by the first argument. -/
def R_GetAnchoredPortal (R_calculateTransform : Int → Int → Bool → Int → portaltransform_t)
    (portals : List rportal_t) (markerlinenum anchorlinenum : Int) (flipped : Bool)
    (zoffset : Int) : List rportal_t × Option Nat :=
  let adata : anchordata_t :=
    { transform := R_calculateTransform markerlinenum anchorlinenum flipped zoffset,
      maker := markerlinenum, anchor := anchorlinenum, polyportalpartner := none }
  match roverLoop (fun rover =>
      if rover.type ≠ .R_ANCHORED then false else
      match rover.data with
      | .anchor d => adata.transform = d.transform
      | _ => false) portals 0 with
  | some rover => (portals, some rover)
  | none =>
    let r := R_CreatePortal portals
    (modifyPortal r.1 r.2
       (fun ret => { ret with type := .R_ANCHORED, data := .anchor adata, tainted := 0 }),
     some r.2)

/-- The function `R_GetTwoWayPortal`. -/
def R_GetTwoWayPortal (R_calculateTransform : Int → Int → Bool → Int → portaltransform_t)
    (portals : List rportal_t) (markerlinenum anchorlinenum : Int) (flipped : Bool)
    (zoffset : Int) : List rportal_t × Option Nat :=
  let adata : anchordata_t :=
    { transform := R_calculateTransform markerlinenum anchorlinenum flipped zoffset,
      maker := markerlinenum, anchor := anchorlinenum, polyportalpartner := none }
  match roverLoop (fun rover =>
      if rover.type ≠ .R_TWOWAY then false else
      match rover.data with
      | .anchor d => adata.transform = d.transform
      | _ => false) portals 0 with
  | some rover => (portals, some rover)
  | none =>
    let r := R_CreatePortal portals
    (modifyPortal r.1 r.2
       (fun ret => { ret with type := .R_TWOWAY, data := .anchor adata, tainted := 0 }),
     some r.2)

/-- The function `R_GetSkyBoxPortal`; `camera` is the address of the camera. -/
def R_GetSkyBoxPortal (portals : List rportal_t) (camera : Option Nat) :
    List rportal_t × Option Nat :=
  match roverLoop (fun rover =>
      if rover.type ≠ .R_SKYBOX then false else
      match rover.data with
      | .camera c => c = camera
      | _ => false) portals 0 with
  | some rover => (portals, some rover)
  | none =>
    let r := R_CreatePortal portals
    (modifyPortal r.1 r.2 (fun ret => { ret with type := .R_SKYBOX, data := .camera camera }),
     some r.2)

/-- The fourteen pointer arguments of `R_GetHorizonPortal`, in the order of its
parameter list; `none` is `NULL`. -/
structure horizonargs where
  floorpic : Option Nat
  ceilingpic : Option Nat
  floorz : Option Nat
  ceilingz : Option Nat
  floorlight : Option Nat
  ceilinglight : Option Nat
  floorxoff : Option Nat
  flooryoff : Option Nat
  ceilingxoff : Option Nat
  ceilingyoff : Option Nat
  floorbaseangle : Option Nat
  floorangle : Option Nat
  ceilingbaseangle : Option Nat
  ceilingangle : Option Nat
deriving DecidableEq

/-- The test `if(!floorpic || ... || !ceilingangle) return NULL;` of
`R_GetHorizonPortal` and the stores into `horizon` after it: the data when no
argument is `NULL`. -/
def horizonOf (a : horizonargs) : Option horizondata_t :=
  match a.floorpic, a.ceilingpic, a.floorz, a.ceilingz, a.floorlight, a.ceilinglight,
        a.floorxoff, a.flooryoff, a.ceilingxoff, a.ceilingyoff, a.floorbaseangle,
        a.floorangle, a.ceilingbaseangle, a.ceilingangle with
  | some floorpic, some ceilingpic, some floorz, some ceilingz, some floorlight,
    some ceilinglight, some floorxoff, some flooryoff, some ceilingxoff, some ceilingyoff,
    some floorbaseangle, some floorangle, some ceilingbaseangle, some ceilingangle =>
    some { floorpic := floorpic, ceilingpic := ceilingpic, floorz := floorz,
           ceilingz := ceilingz, floorlight := floorlight, ceilinglight := ceilinglight,
           floorxoff := floorxoff, flooryoff := flooryoff, ceilingxoff := ceilingxoff,
           ceilingyoff := ceilingyoff, floorbaseangle := floorbaseangle,
           floorangle := floorangle, ceilingbaseangle := ceilingbaseangle,
           ceilingangle := ceilingangle }
  | _, _, _, _, _, _, _, _, _, _, _, _, _, _ => none

/-- The function `R_GetHorizonPortal`. -/
def R_GetHorizonPortal (portals : List rportal_t) (a : horizonargs) :
    List rportal_t × Option Nat :=
  match horizonOf a with
  | none => (portals, none)
  | some horizon =>
    match roverLoop (fun rover =>
        if rover.type ≠ .R_HORIZON then false else
        match rover.data with
        | .horizon d => d = horizon
        | _ => false) portals 0 with
    | some rover => (portals, some rover)
    | none =>
      let r := R_CreatePortal portals
      (modifyPortal r.1 r.2
         (fun ret => { ret with type := .R_HORIZON, data := .horizon horizon }),
       some r.2)

/-- The seven pointer arguments of `R_GetPlanePortal`, in the order of its
parameter list; `none` is `NULL`. -/
structure planeargs where
  pic : Option Nat
  delta : Option Nat
  lightlevel : Option Nat
  xoff : Option Nat
  yoff : Option Nat
  baseangle : Option Nat
  angle : Option Nat
deriving DecidableEq

/-- The test `if(!pic || ... || !angle) return NULL;` of `R_GetPlanePortal` and
the stores into `skyplane` after it: the data when no argument is `NULL`. -/
def skyplaneOf (a : planeargs) : Option skyplanedata_t :=
  match a.pic, a.delta, a.lightlevel, a.xoff, a.yoff, a.baseangle, a.angle with
  | some pic, some delta, some lightlevel, some xoff, some yoff, some baseangle, some angle =>
    some { pic := pic, delta := delta, lightlevel := lightlevel, xoff := xoff, yoff := yoff,
           baseangle := baseangle, angle := angle }
  | _, _, _, _, _, _, _ => none

/-- The function `R_GetPlanePortal`. -/
def R_GetPlanePortal (portals : List rportal_t) (a : planeargs) :
    List rportal_t × Option Nat :=
  match skyplaneOf a with
  | none => (portals, none)
  | some skyplane =>
    match roverLoop (fun rover =>
        if rover.type ≠ .R_PLANE then false else
        match rover.data with
        | .plane d => d = skyplane
        | _ => false) portals 0 with
    | some rover => (portals, some rover)
    | none =>
      let r := R_CreatePortal portals
      (modifyPortal r.1 r.2
         (fun ret => { ret with type := .R_PLANE, data := .plane skyplane }),
       some r.2)

/-- The function `R_GetLinkedPortal`; `none` when a line number is not one of
`lines`. -/
def R_GetLinkedPortal (lines : List rline_t) (portals : List rportal_t)
    (markerlinenum anchorlinenum : Int) (planez : Int) (fromid toid : Int) :
    Option (List rportal_t × Option Nat) :=
  match R_CalculateDeltas lines markerlinenum anchorlinenum with
  | none => none
  | some (dx, dy, dz) =>
    let ldata : rlinkdata_t :=
      { deltax := dx, deltay := dy, deltaz := dz, planez := planez, fromid := fromid,
        toid := toid, maker := markerlinenum, anchor := anchorlinenum,
        polyportalpartner := none }
    match roverLoop (fun rover =>
        if rover.type ≠ .R_LINKED then false else
        match rover.data with
        | .link d =>
          if ldata.deltax ≠ d.deltax ∨ ldata.deltay ≠ d.deltay ∨ ldata.deltaz ≠ d.deltaz ∨
             ldata.fromid ≠ d.fromid ∨ ldata.toid ≠ d.toid ∨ ldata.planez ≠ d.planez
          then false else true
        | _ => false) portals 0 with
    | some rover => some (portals, some rover)
    | none =>
      let r := R_CreatePortal portals
      some (modifyPortal r.1 r.2
              (fun ret => { ret with type := .R_LINKED, data := .link ldata, tainted := 0 }),
            some r.2)

/-- The portals of `R_InitPortals`: `portals = last = NULL`. -/
def R_InitPortals_portals : List rportal_t := []

/-- The two calls `R_GetLinkedPortal(destlinenum, thislinenum, planez, fromid,
toid)` and `R_GetLinkedPortal(thislinenum, destlinenum, planez, toid, fromid)`
of `R_DefinePortal`, which with `planez = 0` are also the two calls of
`R_SpawnQuickLinePortal` for its lines `otherlinenum` and `linenum`: the list
afterwards, `portal` and `mirrorportal`. -/
def linkedPair (lines : List rline_t) (portals : List rportal_t)
    (destlinenum thislinenum : Int) (planez : Int) (fromid toid : Int) :
    Option (List rportal_t × Option Nat × Option Nat) :=
  match R_GetLinkedPortal lines portals destlinenum thislinenum planez fromid toid with
  | none => none
  | some (portals1, portal) =>
    match R_GetLinkedPortal lines portals1 thislinenum destlinenum planez toid fromid with
    | none => none
    | some (portals2, mirrorportal) => some (portals2, portal, mirrorportal)

/-- The member `data.link` of the portal a pointer leads to. -/
def linkOf (portals : List rportal_t) (portal : Option Nat) : Option rlinkdata_t :=
  match portal with
  | none => none
  | some i =>
    match portals[i]? with
    | some p =>
      match p.data with
      | .link d => some d
      | _ => none
    | none => none

/-- What the loops of the functions `R_Get...Portal` compare of a portal: its
type and its data, but for the members `maker`, `anchor` and
`polyportalpartner`, which no loop looks at. -/
def comparedPart (p : rportal_t) : portaltype_e × portaldata :=
  (p.type,
   match p.data with
   | .anchor d => .anchor { d with maker := 0, anchor := 0, polyportalpartner := none }
   | .link d => .link { d with maker := 0, anchor := 0, polyportalpartner := none }
   | d => d)

/-- What the functions `R_Get...Portal` have in common: the first portal of the
list whose compared part is that of `fresh`, or else `fresh` itself, put at the
end of the list. -/
def intern (fresh : rportal_t) (portals : List rportal_t) : List rportal_t × Option Nat :=
  match roverLoop (fun rover => comparedPart rover = comparedPart fresh) portals 0 with
  | some rover => (portals, some rover)
  | none => (portals ++ [fresh], some portals.length)

/-- A request for a portal: a call of one of the six functions `R_Get...Portal`
with its arguments. -/
inductive portalrequest where
  | anchored (markerlinenum anchorlinenum : Int) (flipped : Bool) (zoffset : Int)
  | twoway (markerlinenum anchorlinenum : Int) (flipped : Bool) (zoffset : Int)
  | skybox (camera : Option Nat)
  | horizon (a : horizonargs)
  | plane (a : planeargs)
  | linked (markerlinenum anchorlinenum : Int) (planez : Int) (fromid toid : Int)
deriving DecidableEq

/-- The call a request stands for: the list `portals` afterwards and the
portal returned. -/
def request (R_calculateTransform : Int → Int → Bool → Int → portaltransform_t)
    (lines : List rline_t) (portals : List rportal_t) :
    portalrequest → Option (List rportal_t × Option Nat)
  | .anchored m a flipped zoffset =>
    some (R_GetAnchoredPortal R_calculateTransform portals m a flipped zoffset)
  | .twoway m a flipped zoffset =>
    some (R_GetTwoWayPortal R_calculateTransform portals m a flipped zoffset)
  | .skybox camera => some (R_GetSkyBoxPortal portals camera)
  | .horizon a => some (R_GetHorizonPortal portals a)
  | .plane a => some (R_GetPlanePortal portals a)
  | .linked m a planez fromid toid => R_GetLinkedPortal lines portals m a planez fromid toid

/-- The kind of portal a request asks for. -/
def requestKind : portalrequest → portaltype_e
  | .anchored _ _ _ _ => .R_ANCHORED
  | .twoway _ _ _ _ => .R_TWOWAY
  | .skybox _ => .R_SKYBOX
  | .horizon _ => .R_HORIZON
  | .plane _ => .R_PLANE
  | .linked _ _ _ _ _ => .R_LINKED

/-- The portal a request creates when its loop finds none; `none` when the
request returns `NULL` or names a line that is not one of `lines`. -/
def requestFresh (R_calculateTransform : Int → Int → Bool → Int → portaltransform_t)
    (lines : List rline_t) : portalrequest → Option rportal_t
  | .anchored m a flipped zoffset =>
    some { type := .R_ANCHORED, tainted := 0, globaltex := 1,
           data := .anchor { transform := R_calculateTransform m a flipped zoffset,
                             maker := m, anchor := a, polyportalpartner := none } }
  | .twoway m a flipped zoffset =>
    some { type := .R_TWOWAY, tainted := 0, globaltex := 1,
           data := .anchor { transform := R_calculateTransform m a flipped zoffset,
                             maker := m, anchor := a, polyportalpartner := none } }
  | .skybox camera =>
    some { type := .R_SKYBOX, tainted := 0, globaltex := 1, data := .camera camera }
  | .horizon a =>
    (horizonOf a).map
      (fun d => { type := .R_HORIZON, tainted := 0, globaltex := 1, data := .horizon d })
  | .plane a =>
    (skyplaneOf a).map
      (fun d => { type := .R_PLANE, tainted := 0, globaltex := 1, data := .plane d })
  | .linked m a planez fromid toid =>
    (R_CalculateDeltas lines m a).map
      (fun d => { type := .R_LINKED, tainted := 0, globaltex := 1,
                  data := .link { deltax := d.1, deltay := d.2.1, deltaz := d.2.2,
                                  planez := planez, fromid := fromid, toid := toid,
                                  maker := m, anchor := a, polyportalpartner := none } })

/-- The kind and the parameters of a request that the loops compare: two
requests with the same key are "identical in kind and parameters". -/
def requestKey (R_calculateTransform : Int → Int → Bool → Int → portaltransform_t)
    (lines : List rline_t) (q : portalrequest) : Option (portaltype_e × portaldata) :=
  (requestFresh R_calculateTransform lines q).map comparedPart

/-- The stores `data.deltax += dx; data.deltay += dy;` of `P_MoveLinkedPortal`
(`p_portal.cpp`) to the member `data.link` of a portal. -/
def moveLinkData (link : rlinkdata_t) (dx dy : Int) : rlinkdata_t :=
  { link with deltax := fixed_add link.deltax dx, deltay := fixed_add link.deltay dy }

/-- One step of a map session on the list `portals`: a request for a portal, a
store to the counter `tainted` of a portal (as the render functions and
`R_UntaintPortals` make), a store to the member `polyportalpartner` of a
portal's data (as `R_pairPortalLines` makes), or the stores of
`P_MoveLinkedPortal` to `data.link.deltax` and `data.link.deltay` of a linked
portal.  `R_InitPortals` is not a step.  The first argument says whether the session
may call `P_MoveLinkedPortal`. -/
inductive SessionStep (moves : Bool)
    (R_calculateTransform : Int → Int → Bool → Int → portaltransform_t)
    (lines : List rline_t) : List rportal_t → List rportal_t → Prop where
  | get (portals : List rportal_t) (q : portalrequest) (portals1 : List rportal_t)
      (r : Option Nat) :
      request R_calculateTransform lines portals q = some (portals1, r) →
      SessionStep moves R_calculateTransform lines portals portals1
  | taint (portals : List rportal_t) (i : Nat) (v : Int) :
      SessionStep moves R_calculateTransform lines portals
        (modifyPortal portals i (fun p => { p with tainted := v }))
  | pair (portals : List rportal_t) (i : Nat) (partner : Option Nat) :
      SessionStep moves R_calculateTransform lines portals
        (modifyPortal portals i (fun p =>
          { p with data := match p.data with
                           | .anchor d => .anchor { d with polyportalpartner := partner }
                           | .link d => .link { d with polyportalpartner := partner }
                           | d => d }))
  | move (portals : List rportal_t) (i : Nat) (p : rportal_t) (link : rlinkdata_t)
      (dx dy : Int) :
      moves = true → portals[i]? = some p → p.type = .R_LINKED → p.data = .link link →
      SessionStep moves R_calculateTransform lines portals
        (portals.set i { p with data := .link (moveLinkData link dx dy) })

/-- A map session leads from one list `portals` to another. -/
def Session (moves : Bool) (R_calculateTransform : Int → Int → Bool → Int → portaltransform_t)
    (lines : List rline_t) (portals portals2 : List rportal_t) : Prop :=
  Relation.ReflTransGen (SessionStep moves R_calculateTransform lines) portals portals2

/-- The portals of a later list are, place by place, of the type of the
portals of an earlier list, and have the compared part `key` where and only
where those have it. -/
def keepsMatch (key : portaltype_e × portaldata) (portals portals2 : List rportal_t) : Prop :=
  ∀ (i : Nat) (p : rportal_t), portals[i]? = some p →
    ∃ p2, portals2[i]? = some p2 ∧ p2.type = p.type ∧
      (comparedPart p2 = key ↔ comparedPart p = key)

/-- The portals of a later list hold, place by place, the compared parts of
the portals of an earlier list. -/
def keepsKeys (portals portals2 : List rportal_t) : Prop :=
  ∀ (i : Nat) (p : rportal_t), portals[i]? = some p →
    ∃ p2, portals2[i]? = some p2 ∧ comparedPart p2 = comparedPart p

/-- A line from (100, -7) to (100, 0): the `y` coordinates sum to an odd
negative number, and the midpoint is (100, -3). -/
def exampleLine2 : rline_t := { v1 := { x := 100, y := -7 }, v2 := { x := 100, y := 0 } }

/-- A line from (356, -71) to (356, 64), with midpoint (356, -3). -/
def exampleLine3 : rline_t := { v1 := { x := 356, y := -71 }, v2 := { x := 356, y := 64 } }

/-- Four lines: line 0 with midpoint (0, 64), line 1 with midpoint (256, 64),
and the lines `exampleLine2` and `exampleLine3`. -/
def exampleLines : List rline_t :=
  [{ v1 := { x := 0, y := 0 }, v2 := { x := 0, y := 128 } },
   { v1 := { x := 256, y := 0 }, v2 := { x := 256, y := 128 } },
   exampleLine2, exampleLine3]

/-- A stand-in for `R_calculateTransform`: a transform that holds the two line
numbers. -/
def exampleTransform (markerlinenum anchorlinenum : Int) (_flipped : Bool) (_zoffset : Int) :
    portaltransform_t :=
  { bytes := [markerlinenum.toNat, anchorlinenum.toNat] }

/-- The list `portals` after the request `R_GetLinkedPortal(0, 1, 0, 0, 1)` on
the empty list. -/
def onePortal : List rportal_t :=
  [{ type := .R_LINKED, tainted := 0, globaltex := 1,
     data := .link { deltax := -256, deltay := 0, deltaz := 0, planez := 0, fromid := 0,
                     toid := 1, maker := 0, anchor := 1, polyportalpartner := none } }]

/-- The list `onePortal` after a request for the skybox of the camera at
address 7. -/
def skyboxAdded : List rportal_t :=
  onePortal ++ [{ type := .R_SKYBOX, tainted := 0, globaltex := 1, data := .camera (some 7) }]

/-- The list `skyboxAdded` after 5 renderings of portal 0. -/
def twoPortals : List rportal_t :=
  [{ type := .R_LINKED, tainted := 5, globaltex := 1,
     data := .link { deltax := -256, deltay := 0, deltaz := 0, planez := 0, fromid := 0,
                     toid := 1, maker := 0, anchor := 1, polyportalpartner := none } },
   { type := .R_SKYBOX, tainted := 0, globaltex := 1, data := .camera (some 7) }]

/-- The list `onePortal` after `P_MoveLinkedPortal(portal, 64, 0, movebehind)`
for its portal: `deltax` is -192. -/
def movedPortal : List rportal_t :=
  [{ type := .R_LINKED, tainted := 0, globaltex := 1,
     data := .link { deltax := -192, deltay := 0, deltaz := 0, planez := 0, fromid := 0,
                     toid := 1, maker := 0, anchor := 1, polyportalpartner := none } }]

/-- The list `movedPortal` after the request `R_GetLinkedPortal(0, 1, 0, 0, 1)`,
which has put a second portal at its end. -/
def movedAndAdded : List rportal_t :=
  movedPortal ++ onePortal

/-- The list `skyboxAdded` after `P_MoveLinkedPortal(portal, 64, 0, movebehind)`
for its portal 0. -/
def movedSkybox : List rportal_t :=
  movedPortal ++ [{ type := .R_SKYBOX, tainted := 0, globaltex := 1, data := .camera (some 7) }]

/-! ## The render functions of `r_portal.cpp` -/

/-- The constant `PORTAL_RECURSION_LIMIT`, according to its comment the "maximum
times same portal is drawn in a recursion". -/
def PORTAL_RECURSION_LIMIT : Int := 128

/-- The conversion of an integer to `angle_t`, an unsigned 32-bit integer. -/
def toAngle (v : Int) : Int := v % 4294967296

/-- Modelled from the spec: the type `Mobj` of `p_mobj.h`, which is not among
the sources, as `R_RenderSkyboxPortal` reads the camera of a "remote-camera"
portal: its position and its angle. -/
structure camera_t where
  x : Int
  y : Int
  z : Int
  angle : Int
deriving DecidableEq

/-- Modelled from the spec: the members `x`, `y`, `z`, `angle`, `sin` and `cos`
of the global `view` of `r_main.h`, which is not among the sources: the
"position, orientation, derived trigonometric values" of the view as floats. -/
structure viewfloat (F : Type) where
  x : F
  y : F
  z : F
  angle : F
  sin : F
  cos : F
deriving DecidableEq

/-- The globals the render functions of `r_portal.cpp` read and write: those of
the window code (`rs`), the window list `windowhead` with the address
`windowlast` points to, the list `portals`, the floats of `view`, and in `ext`
everything that belongs to other units (clip arrays, `portalrender`,
`validcount`, visplanes, the screen).  `created` is not a variable of the
program: it lists the addresses of the windows `R_NewPortalWindow` has
returned, in the order of the calls. -/
structure RenderState (F E : Type) where
  rs : RState F
  windowhead : pwindowptr F
  windowlast : Option Nat
  portals : List rportal_t
  view : viewfloat F
  created : List Nat
  ext : E

/-- What the render functions call or compute outside `r_portal.cpp`, or in
floating point.  A function that only touches state of other units maps `ext`
to `ext`; `R_RenderBSPNode` may change every global.  `setClips` stands for the
stores `floorclip = window->bottom; ceilingclip = window->top;`, `resetClips`
for the stores of `floorcliparray` and `ceilingcliparray`, `setPortalRender`
for the stores to `portalrender.minx` and `portalrender.maxx`, `incValidcount`
for `++validcount`, `beginWindow` and `endWindow` for the stores to
`portalrender` around the call of a window's function in `R_RenderPortals`.
`R_ShowTainted`, `R_calcRenderBarrier` and the drawing loops of the plane and
horizon functions write only visplanes, the screen and the barrier.
`anchoredZ` is `M_DoubleToFixed(M_FixedToDouble(vz) + tr.move.z)` with its
float, `transformAngle` is `static_cast<angle_t>(tr.angle * ANG180 / PI)`,
`angleToFloat` is `(ANG90 - viewangle) * PI / ANG180`. -/
structure renderenv (F E : Type) where
  R_SetupPortalClipsegs : E → Int → Int → List F → List F → Bool × E
  R_ClearSlopeMark : E → Int → Int → pwindowtype_e → E
  R_ShowTainted : E → pwindow_t F → E
  setClips : E → List F → List F → E
  resetClips : E → E
  R_ClearOverlayClips : E → E
  setPortalRender : E → Int → Int → E
  incValidcount : E → E
  R_SetMaskedSilhouette : E → List F → List F → E
  R_IncrementFrameid : E → E
  R_RenderBSPNode : RenderState F E → RenderState F E
  R_PushPost : E → Bool → Option Nat → E
  cameraAt : E → Option Nat → Option camera_t
  applyTo : portaltransform_t → Int → Int → Int × Int × F × F
  anchoredZ : portaltransform_t → Int → Int × F
  transformAngle : portaltransform_t → Int
  M_FixedToFloat : Int → F
  angleToFloat : Int → F
  sinf : F → F
  cosf : F → F
  sin : F → F
  cos : F → F
  drawPlane : E → Int → skyplanedata_t → pwindow_t F → E
  drawHorizon : E → horizondata_t → pwindow_t F → E
  R_calcRenderBarrier : Option Nat → Option Nat → renderbarrier_t → renderbarrier_t
  beginWindow : E → pwindow_t F → E
  endWindow : E → E

/-- What the render functions did, in the order in which they did it:
`R_RenderPortals` called the function of the window at an address, or passed
over that window because its range is empty; a window of a portal was drawn as
filler by `R_ShowTainted`; the scene was traversed by `R_RenderBSPNode` for a
window of a portal. -/
inductive renderevent where
  | invoke (window : Nat)
  | pass (window : Nat)
  | filler (portal : Nat)
  | traverse (portal : Nat)
deriving DecidableEq

section render

variable {F E : Type} [LinearOrderedCommRing F]

/-- The window `depth` links `child` below the window a pointer leads to, with
its own `child` link. -/
def windowAt : pwindowptr F → Nat → Option (pwindow_t F × pwindowptr F)
  | .NULL, _ => none
  | .window w child _, 0 => some (w, child)
  | .window _ child _, depth + 1 => windowAt child depth

/-- The statement `portal->tainted++;`. -/
def taint (portals : List rportal_t) (portal : Nat) : List rportal_t :=
  modifyPortal portals portal (fun p => { p with tainted := wrap32 (p.tainted + 1) })

/-- The statements of a render function from `R_ClearSlopeMark` to
`R_SetMaskedSilhouette`, but for `portal->tainted++`: the state of the other
units after them. -/
def prepareScene (env : renderenv F E) (e : E) (window : pwindow_t F) : E :=
  let e1 := env.R_ClearSlopeMark e window.minx window.maxx window.type
  let e2 := env.setClips e1 window.bottom window.top
  let e3 := env.R_ClearOverlayClips e2
  let e4 := env.setPortalRender e3 window.minx window.maxx
  let e5 := env.incValidcount e4
  env.R_SetMaskedSilhouette e5 window.top window.bottom

/-- The argument `window->head == window ? window->portal->poverlay : NULL` of
`R_PushPost`; the overlay of a portal is given by the place of the portal. -/
def overlayOf (window : pwindow_t F) : Option Nat :=
  if window.head = some window.addr then window.portal else none

/-- The state in which `R_RenderLinkedPortal` calls `R_RenderBSPNode`: after
`portal->tainted++`, the statements up to `R_SetMaskedSilhouette`, the stores
to the view and `R_IncrementFrameid`.  `e` is the state of the other units that
`R_SetupPortalClipsegs` left. -/
def enterLinked (env : renderenv F E) (st : RenderState F E) (e : E) (window : pwindow_t F)
    (pi : Nat) (link : rlinkdata_t) : RenderState F E :=
  let viewx := fixed_add window.vx link.deltax
  let viewy := fixed_add window.vy link.deltay
  let viewz := fixed_add window.vz link.deltaz
  { st with rs := { st.rs with viewx := viewx, viewy := viewy, viewz := viewz },
            view := { st.view with x := env.M_FixedToFloat viewx,
                                   y := env.M_FixedToFloat viewy,
                                   z := env.M_FixedToFloat viewz },
            portals := taint st.portals pi,
            ext := env.R_IncrementFrameid (prepareScene env e window) }

/-- The statements of `R_RenderLinkedPortal` from `R_PushPost` to the stores of
`lastx`, `lasty`, `lastz`, `lastxf`, `lastyf` and `lastzf`, which were read from
the state `st` at entry; `st2` is the state `R_RenderBSPNode` left. -/
def leaveLinked (env : renderenv F E) (st st2 : RenderState F E) (window2 : pwindow_t F) :
    RenderState F E :=
  { st2 with rs := { st2.rs with viewx := st.rs.viewx, viewy := st.rs.viewy,
                                 viewz := st.rs.viewz },
             view := { st2.view with x := st.view.x, y := st.view.y, z := st.view.z },
             ext := env.resetClips (env.R_PushPost st2.ext true (overlayOf window2)) }

/-- The function `R_RenderLinkedPortal` for the window `depth` links `child`
below `windowhead`; the first argument bounds the nesting of the recursion
into child windows.  The window is read again after `R_RenderBSPNode`. -/
def R_RenderLinkedPortal (env : renderenv F E) :
    Nat → RenderState F E → Nat → Except perr (RenderState F E × List renderevent)
  | 0, _, _ => .error .fuel
  | fuel + 1, st, depth =>
    match windowAt st.windowhead depth with
    | none => .error .badptr
    | some (window, _) =>
      match window.portal with
      | none => .error .badptr
      | some pi =>
        match st.portals[pi]? with
        | none => .error .badptr
        | some portal =>
          if portal.type ≠ .R_LINKED ∨ window.maxx < window.minx then .ok (st, [])
          else if portal.tainted > PORTAL_RECURSION_LIMIT then
            .ok ({ st with ext := env.R_ShowTainted st.ext window,
                           portals := taint st.portals pi }, [.filler pi])
          else if !(env.R_SetupPortalClipsegs st.ext window.minx window.maxx window.top
                      window.bottom).1 then
            .ok ({ st with ext := (env.R_SetupPortalClipsegs st.ext window.minx window.maxx
                                     window.top window.bottom).2 }, [])
          else
            match portal.data with
            | .link link =>
              match windowAt (env.R_RenderBSPNode (enterLinked env st
                  (env.R_SetupPortalClipsegs st.ext window.minx window.maxx window.top
                    window.bottom).2 window pi link)).windowhead depth with
              | none => .error .badptr
              | some (window2, .NULL) =>
                .ok (leaveLinked env st (env.R_RenderBSPNode (enterLinked env st
                  (env.R_SetupPortalClipsegs st.ext window.minx window.maxx window.top
                    window.bottom).2 window pi link)) window2, [.traverse pi])
              | some (window2, .window _ _ _) =>
                match R_RenderLinkedPortal env fuel
                    (leaveLinked env st (env.R_RenderBSPNode (enterLinked env st
                      (env.R_SetupPortalClipsegs st.ext window.minx window.maxx window.top
                        window.bottom).2 window pi link)) window2) (depth + 1) with
                | .error e => .error e
                | .ok (st4, log) => .ok (st4, .traverse pi :: log)
            | _ => .error .badptr

/-- The state in which `R_RenderAnchoredPortal` calls `R_RenderBSPNode`. -/
def enterAnchored (env : renderenv F E) (st : RenderState F E) (e : E) (window : pwindow_t F)
    (pi : Nat) (anchor : anchordata_t) : RenderState F E :=
  let tr := anchor.transform
  let xy := env.applyTo tr window.vx window.vy
  let vz := env.anchoredZ tr window.vz
  let viewangle := toAngle (window.vangle + env.transformAngle tr)
  let angle := env.angleToFloat viewangle
  { st with rs := { st.rs with viewx := xy.1, viewy := xy.2.1, viewz := vz.1,
                               viewangle := viewangle },
            view := { x := xy.2.2.1, y := xy.2.2.2, z := vz.2, angle := angle,
                      sin := env.sinf angle, cos := env.cosf angle },
            portals := taint st.portals pi,
            ext := env.R_IncrementFrameid (prepareScene env e window) }

/-- The statements of `R_RenderAnchoredPortal` from `R_PushPost` to the stores
of the saved view, which was read from the state `st` at entry. -/
def leaveAnchored (env : renderenv F E) (st st2 : RenderState F E) (window2 : pwindow_t F) :
    RenderState F E :=
  { st2 with rs := { st2.rs with viewx := st.rs.viewx, viewy := st.rs.viewy,
                                 viewz := st.rs.viewz, viewangle := st.rs.viewangle },
             view := { x := st.view.x, y := st.view.y, z := st.view.z,
                       angle := st.view.angle, sin := env.sin st.view.angle,
                       cos := env.cos st.view.angle },
             ext := env.resetClips (env.R_PushPost st2.ext true (overlayOf window2)) }

/-- The function `R_RenderAnchoredPortal` for the window `depth` links `child`
below `windowhead`. -/
def R_RenderAnchoredPortal (env : renderenv F E) :
    Nat → RenderState F E → Nat → Except perr (RenderState F E × List renderevent)
  | 0, _, _ => .error .fuel
  | fuel + 1, st, depth =>
    match windowAt st.windowhead depth with
    | none => .error .badptr
    | some (window, _) =>
      match window.portal with
      | none => .error .badptr
      | some pi =>
        match st.portals[pi]? with
        | none => .error .badptr
        | some portal =>
          if portal.type ≠ .R_ANCHORED ∧ portal.type ≠ .R_TWOWAY then .ok (st, [])
          else if window.maxx < window.minx then .ok (st, [])
          else if portal.tainted > PORTAL_RECURSION_LIMIT then
            .ok ({ st with ext := env.R_ShowTainted st.ext window,
                           portals := taint st.portals pi }, [.filler pi])
          else if !(env.R_SetupPortalClipsegs st.ext window.minx window.maxx window.top
                      window.bottom).1 then
            .ok ({ st with ext := (env.R_SetupPortalClipsegs st.ext window.minx window.maxx
                                     window.top window.bottom).2 }, [])
          else
            match portal.data with
            | .anchor anchor =>
              match windowAt (env.R_RenderBSPNode (enterAnchored env st
                  (env.R_SetupPortalClipsegs st.ext window.minx window.maxx window.top
                    window.bottom).2 window pi anchor)).windowhead depth with
              | none => .error .badptr
              | some (window2, .NULL) =>
                .ok (leaveAnchored env st (env.R_RenderBSPNode (enterAnchored env st
                  (env.R_SetupPortalClipsegs st.ext window.minx window.maxx window.top
                    window.bottom).2 window pi anchor)) window2, [.traverse pi])
              | some (window2, .window _ _ _) =>
                match R_RenderAnchoredPortal env fuel
                    (leaveAnchored env st (env.R_RenderBSPNode (enterAnchored env st
                      (env.R_SetupPortalClipsegs st.ext window.minx window.maxx window.top
                        window.bottom).2 window pi anchor)) window2) (depth + 1) with
                | .error e => .error e
                | .ok (st4, log) => .ok (st4, .traverse pi :: log)
            | _ => .error .badptr

/-- The state in which `R_RenderSkyboxPortal` calls `R_RenderBSPNode`; there is
no `portal->tainted++` in this function. -/
def enterSkybox (env : renderenv F E) (st : RenderState F E) (e : E) (window : pwindow_t F)
    (camera : camera_t) : RenderState F E :=
  let viewangle := toAngle (st.rs.viewangle + camera.angle)
  let angle := env.angleToFloat viewangle
  { st with rs := { st.rs with viewx := camera.x, viewy := camera.y, viewz := camera.z,
                               viewangle := viewangle },
            view := { x := env.M_FixedToFloat camera.x, y := env.M_FixedToFloat camera.y,
                      z := env.M_FixedToFloat camera.z, angle := angle,
                      sin := env.sin angle, cos := env.cos angle },
            ext := env.R_IncrementFrameid (prepareScene env e window) }

/-- The statements of `R_RenderSkyboxPortal` from `R_PushPost` to the stores of
the saved view, which was read from the state `st` at entry.  `lastangle` is a
`fixed_t`: the angle was converted to a signed integer when it was saved and is
converted back to `angle_t` here. -/
def leaveSkybox (env : renderenv F E) (st st2 : RenderState F E) (window2 : pwindow_t F) :
    RenderState F E :=
  { st2 with rs := { st2.rs with viewx := st.rs.viewx, viewy := st.rs.viewy,
                                 viewz := st.rs.viewz,
                                 viewangle := toAngle (wrap32 st.rs.viewangle) },
             view := { x := st.view.x, y := st.view.y, z := st.view.z,
                       angle := st.view.angle, sin := env.sin st.view.angle,
                       cos := env.cos st.view.angle },
             ext := env.resetClips (env.R_PushPost st2.ext true (overlayOf window2)) }

/-- The function `R_RenderSkyboxPortal` for the window `depth` links `child`
below `windowhead`. -/
def R_RenderSkyboxPortal (env : renderenv F E) :
    Nat → RenderState F E → Nat → Except perr (RenderState F E × List renderevent)
  | 0, _, _ => .error .fuel
  | fuel + 1, st, depth =>
    match windowAt st.windowhead depth with
    | none => .error .badptr
    | some (window, _) =>
      match window.portal with
      | none => .error .badptr
      | some pi =>
        match st.portals[pi]? with
        | none => .error .badptr
        | some portal =>
          if portal.type ≠ .R_SKYBOX then .ok (st, [])
          else if window.maxx < window.minx then .ok (st, [])
          else if !(env.R_SetupPortalClipsegs st.ext window.minx window.maxx window.top
                      window.bottom).1 then
            .ok ({ st with ext := (env.R_SetupPortalClipsegs st.ext window.minx window.maxx
                                     window.top window.bottom).2 }, [])
          else
            match portal.data with
            | .camera cam =>
              match env.cameraAt (prepareScene env
                  (env.R_SetupPortalClipsegs st.ext window.minx window.maxx window.top
                    window.bottom).2 window) cam with
              | none => .error .badptr
              | some camera =>
                match windowAt (env.R_RenderBSPNode (enterSkybox env st
                    (env.R_SetupPortalClipsegs st.ext window.minx window.maxx window.top
                      window.bottom).2 window camera)).windowhead depth with
                | none => .error .badptr
                | some (window2, .NULL) =>
                  .ok (leaveSkybox env st (env.R_RenderBSPNode (enterSkybox env st
                    (env.R_SetupPortalClipsegs st.ext window.minx window.maxx window.top
                      window.bottom).2 window camera)) window2, [.traverse pi])
                | some (window2, .window _ _ _) =>
                  match R_RenderSkyboxPortal env fuel
                      (leaveSkybox env st (env.R_RenderBSPNode (enterSkybox env st
                        (env.R_SetupPortalClipsegs st.ext window.minx window.maxx window.top
                          window.bottom).2 window camera)) window2) (depth + 1) with
                  | .error e => .error e
                  | .ok (st4, log) => .ok (st4, .traverse pi :: log)
            | _ => .error .badptr

end render

section render

variable {F E : Type} [LinearOrderedCommRing F]

/-- The function `R_RenderPlanePortal`; `drawPlane` stands for the calls of
`R_FindPlane` and `R_CheckPlane` and the loop over the columns.  The overlay
`poverlay` of a portal is never `NULL` after `R_CreatePortal`. -/
def R_RenderPlanePortal (env : renderenv F E) (st : RenderState F E) :
    pwindowptr F → Except perr (RenderState F E)
  | .NULL => .error .badptr
  | .window window child _ =>
    match window.portal with
    | none => .error .badptr
    | some pi =>
      match st.portals[pi]? with
      | none => .error .badptr
      | some portal =>
        if portal.type ≠ .R_PLANE then .ok st
        else if window.maxx < window.minx then .ok st
        else
          match portal.data with
          | .plane plane =>
            match child with
            | .NULL =>
              .ok { st with ext := if window.head = some window.addr
                                   then env.R_PushPost
                                     (env.drawPlane st.ext st.rs.viewz plane window) false (some pi)
                                   else env.drawPlane st.ext st.rs.viewz plane window }
            | .window cw cc cn =>
              R_RenderPlanePortal env
                { st with ext := if window.head = some window.addr
                                 then env.R_PushPost
                                   (env.drawPlane st.ext st.rs.viewz plane window) false (some pi)
                                 else env.drawPlane st.ext st.rs.viewz plane window }
                (.window cw cc cn)
          | _ => .error .badptr

/-- The stores of `lastx`, `lasty`, `lastz`, `lastxf`, `lastyf` and `lastzf` at
the end of `R_RenderHorizonPortal`, which were read from the state `st`. -/
def leaveHorizon (st st2 : RenderState F E) : RenderState F E :=
  { st2 with rs := { st2.rs with viewx := st.rs.viewx, viewy := st.rs.viewy,
                                 viewz := st.rs.viewz },
             view := { st2.view with x := st.view.x, y := st.view.y, z := st.view.z } }

/-- The function `R_RenderHorizonPortal`; `drawHorizon` stands for the calls of
`R_FindPlane` and `R_CheckPlane` and the loop over the columns. -/
def R_RenderHorizonPortal (env : renderenv F E) (st : RenderState F E) :
    pwindowptr F → Except perr (RenderState F E)
  | .NULL => .error .badptr
  | .window window child _ =>
    match window.portal with
    | none => .error .badptr
    | some pi =>
      match st.portals[pi]? with
      | none => .error .badptr
      | some portal =>
        if portal.type ≠ .R_HORIZON then .ok st
        else if window.maxx < window.minx then .ok st
        else
          match portal.data with
          | .horizon horizon =>
            match child with
            | .NULL =>
              .ok (leaveHorizon st
                { st with rs := { st.rs with viewx := window.vx, viewy := window.vy,
                                             viewz := window.vz },
                          view := { st.view with x := env.M_FixedToFloat window.vx,
                                                 y := env.M_FixedToFloat window.vy,
                                                 z := env.M_FixedToFloat window.vz },
                          ext := if window.head = some window.addr
                                 then env.R_PushPost (env.drawHorizon st.ext horizon window)
                                        false (some pi)
                                 else env.drawHorizon st.ext horizon window })
            | .window cw cc cn =>
              match R_RenderHorizonPortal env
                { st with rs := { st.rs with viewx := window.vx, viewy := window.vy,
                                             viewz := window.vz },
                          view := { st.view with x := env.M_FixedToFloat window.vx,
                                                 y := env.M_FixedToFloat window.vy,
                                                 z := env.M_FixedToFloat window.vz },
                          ext := if window.head = some window.addr
                                 then env.R_PushPost (env.drawHorizon st.ext horizon window)
                                        false (some pi)
                                 else env.drawHorizon st.ext horizon window }
                (.window cw cc cn) with
              | .error e => .error e
              | .ok st2 => .ok (leaveHorizon st st2)
          | _ => .error .badptr

/-- The addresses of the windows `R_RenderPortals` reached, in the order it
reached them. -/
def reached : List renderevent → List Nat
  | [] => []
  | .invoke a :: rest => a :: reached rest
  | .pass a :: rest => a :: reached rest
  | _ :: rest => reached rest

end render

section render

variable {F E : Type} [LinearOrderedCommRing F]

end render

/-- An environment for the examples, with floats taken as integers and the
state of the other units a counter: `R_SetupPortalClipsegs` succeeds, the scene
traversal moves the view to (7, 8, 9) at angle 10 and counts itself, the camera
of every skybox stands at (1000, 2000, 0) with angle `ANG90`, and the other
functions do nothing. -/
def exampleEnv : renderenv Int Nat :=
  { R_SetupPortalClipsegs := fun e _ _ _ _ => (true, e),
    R_ClearSlopeMark := fun e _ _ _ => e,
    R_ShowTainted := fun e _ => e,
    setClips := fun e _ _ => e,
    resetClips := fun e => e,
    R_ClearOverlayClips := fun e => e,
    setPortalRender := fun e _ _ => e,
    incValidcount := fun e => e,
    R_SetMaskedSilhouette := fun e _ _ => e,
    R_IncrementFrameid := fun e => e,
    R_RenderBSPNode := fun st =>
      { st with rs := { st.rs with viewx := 7, viewy := 8, viewz := 9, viewangle := 10 },
                ext := st.ext + 1 },
    R_PushPost := fun e _ _ => e,
    cameraAt := fun _ _ => some { x := 1000, y := 2000, z := 0, angle := 1073741824 },
    applyTo := fun _ x y => (x, y, x, y),
    anchoredZ := fun _ z => (z, z),
    transformAngle := fun _ => 0,
    M_FixedToFloat := fun v => v,
    angleToFloat := fun v => v,
    sinf := fun v => v,
    cosf := fun v => v,
    sin := fun v => v,
    cos := fun v => v,
    drawPlane := fun e _ _ _ => e,
    drawHorizon := fun e _ _ => e,
    R_calcRenderBarrier := fun _ _ b => b,
    beginWindow := fun e _ => e,
    endWindow := fun e => e }

/-- Three portals: a linked portal with offset (-256, 0, 0) that has been
drawn `tainted` times, an anchored portal and the skybox of the camera at
address 7. -/
def examplePortals (tainted : Int) : List rportal_t :=
  [{ type := .R_LINKED, tainted := tainted, globaltex := 1,
     data := .link { deltax := -256, deltay := 0, deltaz := 0, planez := 0, fromid := 0,
                     toid := 1, maker := 0, anchor := 1, polyportalpartner := none } },
   { type := .R_ANCHORED, tainted := 0, globaltex := 1,
     data := .anchor { transform := { bytes := [] }, maker := 0, anchor := 1,
                       polyportalpartner := none } },
   { type := .R_SKYBOX, tainted := 0, globaltex := 1, data := .camera (some 7) }]

/-- A window at an address for a portal: the range is `[3, 3]`, column 3 holds
the span `[10, 20]`, and the view recorded is (100, 200, 41) at angle 7. -/
def portalWindow (addr portal : Nat) (func : windowfunc) : pwindow_t Int :=
  { spanWindow with addr := addr, portal := some portal, head := some 0, func := func }

/-- The globals with one window for a portal on the window list, that window
with one child window, and the linked portal drawn `tainted` times; the view
is at (1, 2, 3) with angle 4. -/
def renderExample (portal : Nat) (func : windowfunc) (tainted : Int) : RenderState Int Nat :=
  { rs := { exampleScreen with viewx := 1, viewy := 2, viewz := 3, viewangle := 4,
                               nextaddr := 2 },
    windowhead := .window (portalWindow 0 portal func)
                    (.window (portalWindow 1 portal func) .NULL .NULL) .NULL,
    windowlast := some 0,
    portals := examplePortals tainted,
    view := { x := 1, y := 2, z := 3, angle := 4, sin := 0, cos := 1 },
    created := [0],
    ext := 0 }

theorem idx_toNat (a b gc : Nat) : ((a : Int) * (gc : Int) + (b : Int)).toNat = a * gc + b := by
  omega

theorem idx_inj {a b c d gc : Nat} (hb : b < gc) (hd : d < gc)
    (h : a * gc + b = c * gc + d) : a = c ∧ b = d := by
  have h1 : (a * gc + b) / gc = a := by
    rw [Nat.add_comm, Nat.add_mul_div_right _ _ (by omega), Nat.div_eq_of_lt hb]; simp
  have h2 : (c * gc + d) / gc = c := by
    rw [Nat.add_comm, Nat.add_mul_div_right _ _ (by omega), Nat.div_eq_of_lt hd]; simp
  have hac : a = c := by rw [← h1, ← h2, h]
  subst hac
  exact ⟨rfl, by omega⟩

theorem idx_lt {a b gc : Nat} (ha : a < gc) (hb : b < gc) : a * gc + b < gc * gc := by
  have h1 : (a + 1) * gc ≤ gc * gc := Nat.mul_le_mul_right gc ha
  have h2 : (a + 1) * gc = a * gc + gc := by ring
  omega

theorem getD_set_self {α : Type} (T : List (Option α)) (i : Nat) (v : Option α)
    (h : i < T.length) : (T.set i v).getD i none = v := by
  rw [List.getD_eq_getElem?_getD, List.getElem?_set]
  simp [h]

theorem getD_set_ne {α : Type} (T : List (Option α)) (i j : Nat) (v : Option α)
    (h : i ≠ j) : (T.set i v).getD j none = T.getD j none := by
  rw [List.getD_eq_getElem?_getD, List.getD_eq_getElem?_getD, List.getElem?_set_ne h]

theorem linkAt_set_self (gc : Nat) (T : List (Option linkptr)) (a b : Nat) (v : Option linkptr)
    (hlen : T.length = gc * gc) (ha : a < gc) (hb : b < gc) :
    linkAt gc (T.set (a * gc + b) v) a b = v := by
  unfold linkAt
  exact getD_set_self T _ v (by rw [hlen]; exact idx_lt ha hb)

theorem linkAt_set_ne (gc : Nat) (T : List (Option linkptr)) (a b c d : Nat)
    (v : Option linkptr) (hb : b < gc) (hd : d < gc) (h : a ≠ c ∨ b ≠ d) :
    linkAt gc (T.set (a * gc + b) v) c d = linkAt gc T c d := by
  unfold linkAt
  apply getD_set_ne
  intro he
  have := idx_inj hb hd he
  omega

theorem linkAt_replicate (gc n a b : Nat) :
    linkAt gc (List.replicate n (none : Option linkptr)) a b = none := by
  unfold linkAt
  rw [List.getD_eq_getElem?_getD, List.getElem?_replicate]
  split <;> rfl

/-! ## `fixed_t` arithmetic -/

theorem fixed_add_wrap_wrap (a b : Int) : fixed_add (wrap32 a) (wrap32 b) = wrap32 (a + b) := by
  unfold fixed_add wrap32
  omega

/-! ## `P_AddLinkOffset` -/

theorem P_AddLinkOffset_snd (gc : Nat) (T : List (Option linkptr)) (a b : Nat)
    (ha : a < gc) (hb : b < gc) (hab : a ≠ b) (x y z : Int) :
    (P_AddLinkOffset gc T a b x y z).2
      = T.set (a * gc + b) (some (.cell { x := x, y := y, z := z })) := by
  unfold P_AddLinkOffset
  have h1 : ¬ ((a : Int) < 0 ∨ (a : Int) ≥ gc) := by omega
  have h2 : ¬ ((b : Int) < 0 ∨ (b : Int) ≥ gc) := by omega
  have h3 : ¬ ((a : Int) = b) := by omega
  rw [if_neg h1, if_neg h2, if_neg h3, idx_toNat]

/-! ## A loop that may fail, with an invariant over the processed prefix -/

theorem foldlM_spec {α β : Type} (f : β → α → Option β) (I : List α → β → Prop) :
    ∀ (l pre : List α) (b : β), I pre b →
      (∀ pre1 b1 a, a ∈ l → I pre1 b1 → ∃ b2, f b1 a = some b2 ∧ I (pre1 ++ [a]) b2) →
      ∃ b2, l.foldlM f b = some b2 ∧ I (pre ++ l) b2 := by
  intro l
  induction l with
  | nil =>
    intro pre b hI _
    exact ⟨b, rfl, by simpa using hI⟩
  | cons a l ih =>
    intro pre b hI hstep
    obtain ⟨b1, hb1, hI1⟩ := hstep pre b a (List.mem_cons_self _ _) hI
    obtain ⟨b2, hb2, hI2⟩ := ih (pre ++ [a]) b1 hI1
      (fun pre1 c a1 ha1 hc => hstep pre1 c a1 (List.mem_cons_of_mem _ ha1) hc)
    refine ⟨b2, ?_, by simpa using hI2⟩
    rw [List.foldlM_cons, hb1]
    exact hb2

theorem foldl_spec {α β : Type} (f : β → α → β) (I : List α → β → Prop) :
    ∀ (l pre : List α) (b : β), I pre b →
      (∀ pre1 b1 a, a ∈ l → I pre1 b1 → I (pre1 ++ [a]) (f b1 a)) →
      I (pre ++ l) (l.foldl f b) := by
  intro l
  induction l with
  | nil =>
    intro pre b hI _
    simpa using hI
  | cons a l ih =>
    intro pre b hI hstep
    have h1 := hstep pre b a (List.mem_cons_self _ _) hI
    have h2 := ih (pre ++ [a]) (f b a) h1
      (fun pre1 c a1 ha1 hc => hstep pre1 c a1 (List.mem_cons_of_mem _ ha1) hc)
    simpa using h2

theorem foldlM_post {α β : Type} (f : β → α → Option β) (I : List α → β → Prop)
    (Q : β → Prop) (l : List α) (b : β) (h0 : I [] b)
    (hstep : ∀ pre1 b1 a, a ∈ l → I pre1 b1 → ∃ b2, f b1 a = some b2 ∧ I (pre1 ++ [a]) b2)
    (hpost : ∀ b2, I l b2 → Q b2) :
    ∃ b2, l.foldlM f b = some b2 ∧ Q b2 := by
  obtain ⟨b2, h1, h2⟩ := foldlM_spec f I l [] b h0 hstep
  exact ⟨b2, h1, hpost b2 (by simpa using h2)⟩

theorem foldl_post {α β : Type} (f : β → α → β) (I : List α → β → Prop)
    (Q : β → Prop) (l : List α) (b : β) (h0 : I [] b)
    (hstep : ∀ pre1 b1 a, a ∈ l → I pre1 b1 → I (pre1 ++ [a]) (f b1 a))
    (hpost : ∀ b2, I l b2 → Q b2) : Q (l.foldl f b) := by
  have h := foldl_spec f I l [] b h0 hstep
  exact hpost _ (by simpa using h)
theorem GatherStep_length {gc : Nat} {zl : linkoffset_t} {group : Nat}
    {T T1 : List (Option linkptr)} (h : GatherStep gc zl group T T1) : T1.length = T.length := by
  cases h
  simp

theorem GatherStep_other {gc : Nat} {zl : linkoffset_t} {group : Nat}
    {T T1 : List (Option linkptr)} (h : GatherStep gc zl group T T1)
    (a b : Nat) (hb : b < gc) (ha : a ≠ group) : linkAt gc T1 a b = linkAt gc T a b := by
  cases h with
  | add via p l0 link hv hp _ _ _ _ _ _ =>
    exact linkAt_set_ne gc T group p a b _ hp hb (Or.inl (Ne.symm ha))

theorem GatherStep_mono {gc : Nat} {zl : linkoffset_t} {group : Nat}
    {T T1 : List (Option linkptr)} (h : GatherStep gc zl group T T1)
    (a b : Nat) (hb : b < gc) (l : linkptr) (hl : linkAt gc T a b = some l) :
    linkAt gc T1 a b = some l := by
  cases h with
  | add via p l0 link hv hp _ _ _ _ _ hnone =>
    rw [linkAt_set_ne gc T group p a b _ hp hb]
    · exact hl
    · by_contra hcon
      push_neg at hcon
      obtain ⟨h1, h2⟩ := hcon
      subst h1; subst h2
      rw [hnone] at hl
      exact Option.noConfusion hl

theorem GatherExt_length {gc : Nat} {zl : linkoffset_t} {group : Nat}
    {T T1 : List (Option linkptr)} (h : GatherExt gc zl group T T1) : T1.length = T.length := by
  induction h with
  | refl => rfl
  | tail _ hs ih => rw [GatherStep_length hs, ih]

theorem GatherExt_other {gc : Nat} {zl : linkoffset_t} {group : Nat}
    {T T1 : List (Option linkptr)} (h : GatherExt gc zl group T T1)
    (a b : Nat) (hb : b < gc) (ha : a ≠ group) : linkAt gc T1 a b = linkAt gc T a b := by
  induction h with
  | refl => rfl
  | tail _ hs ih => rw [GatherStep_other hs a b hb ha, ih]

theorem GatherExt_mono {gc : Nat} {zl : linkoffset_t} {group : Nat}
    {T T1 : List (Option linkptr)} (h : GatherExt gc zl group T T1)
    (a b : Nat) (hb : b < gc) (l : linkptr) (hl : linkAt gc T a b = some l) :
    linkAt gc T1 a b = some l := by
  induction h with
  | refl => exact hl
  | tail _ hs ih => exact GatherStep_mono hs a b hb l ih

theorem GatherExt_mono_ne {gc : Nat} {zl : linkoffset_t} {group : Nat}
    {T T1 : List (Option linkptr)} (h : GatherExt gc zl group T T1)
    (a b : Nat) (hb : b < gc) (hl : linkAt gc T a b ≠ none) :
    linkAt gc T1 a b ≠ none := by
  obtain ⟨l, hl1⟩ := Option.ne_none_iff_exists'.mp hl
  rw [GatherExt_mono h a b hb l hl1]
  exact Option.some_ne_none l

theorem freeSlots_step {gc : Nat} {zl : linkoffset_t} {group : Nat}
    {T T1 : List (Option linkptr)} (h : GatherStep gc zl group T T1)
    (hlen : T.length = gc * gc) (hg : group < gc) :
    freeSlots gc T1 group < freeSlots gc T group := by
  unfold freeSlots
  apply Finset.card_lt_card
  rw [Finset.ssubset_iff_of_subset]
  · cases h with
    | add via p l0 link hv hp _ hpg _ _ _ hnone =>
      refine ⟨p, ?_, ?_⟩
      · simp [hp, hpg, hnone]
      · simp [hp, hpg, linkAt_set_self gc T group p _ hlen hg hp]
  · intro q hq
    simp only [Finset.mem_filter, Finset.mem_range] at hq ⊢
    refine ⟨hq.1, hq.2.1, ?_⟩
    by_contra hcon
    obtain ⟨l, hl⟩ := Option.ne_none_iff_exists'.mp hcon
    have := GatherStep_mono h group q hq.1 l hl
    rw [hq.2.2] at this
    exact Option.noConfusion this

theorem freeSlots_ext {gc : Nat} {zl : linkoffset_t} {group : Nat}
    {T T1 : List (Option linkptr)} (h : GatherExt gc zl group T T1)
    (hlen : T.length = gc * gc) (hg : group < gc) :
    freeSlots gc T1 group ≤ freeSlots gc T group := by
  induction h with
  | refl => exact Nat.le_refl _
  | tail hprev hs ih =>
    have := freeSlots_step hs (by rw [GatherExt_length hprev, hlen]) hg
    omega

theorem freeSlots_lt (gc : Nat) (T : List (Option linkptr)) (group : Nat) (hg : group < gc) :
    freeSlots gc T group < gc := by
  unfold freeSlots
  have hsub : (Finset.range gc).filter (fun p => p ≠ group ∧ linkAt gc T group p = none)
      ⊆ (Finset.range gc).erase group := by
    intro q hq
    simp only [Finset.mem_filter, Finset.mem_range] at hq
    simp [hq.1, hq.2.1]
  have hcard := Finset.card_le_card hsub
  rw [Finset.card_erase_of_mem (by simp [hg]), Finset.card_range] at hcard
  omega

theorem ClosedAt_ext {gc : Nat} {zl : linkoffset_t} {group : Nat}
    {D T T1 : List (Option linkptr)} (h : GatherExt gc zl group T T1) (v : Nat)
    (hc : ClosedAt gc D T group v) : ClosedAt gc D T1 group v := by
  intro p hp hpg hpv hD
  exact GatherExt_mono_ne h group p hp (hc p hp hpg hpv hD)
theorem GL_via_spec (gc : Nat) (zl : linkoffset_t) (D : List (Option linkptr)) (group : Nat)
    (hg : group < gc) :
    ∀ (fuel : Nat) (T : List (Option linkptr)) (v : Nat) (dx dy dz : Int) (l0 : linkptr),
      T.length = gc * gc → v < gc → v ≠ group →
      (∀ a b, b < gc → linkAt gc D a b ≠ none → linkAt gc T a b ≠ none) →
      linkAt gc T group v = some l0 → deref zl l0 = ⟨dx, dy, dz⟩ →
      freeSlots gc T group < fuel →
      ∃ T1, P_GatherLinks gc zl fuel T group dx dy dz (v : Int) = some T1 ∧
        GatherExt gc zl group T T1 ∧ ClosedAt gc D T1 group v ∧
        (∀ X, X < gc → X ≠ group → linkAt gc T group X = none →
          linkAt gc T1 group X ≠ none → ClosedAt gc D T1 group X) := by
  intro fuel
  induction fuel with
  | zero => intro T v dx dy dz l0 _ _ _ _ _ _ hf; omega
  | succ fuel ih =>
    intro T v dx dy dz l0 hlen hv hvg hD hl0 hd hfree
    have hvia : ¬ ((v : Int) = R_NOGROUP) := by unfold R_NOGROUP; omega
    rw [P_GatherLinks, if_neg hvia]
    refine foldlM_post _
      (fun pre Tc => GatherExt gc zl group T Tc ∧
        (∀ p, p ∈ pre → p < gc → p ≠ group → p ≠ v → linkAt gc Tc v p ≠ none →
          linkAt gc Tc group p ≠ none) ∧
        (∀ X, X < gc → X ≠ group → linkAt gc T group X = none →
          linkAt gc Tc group X ≠ none → ClosedAt gc D Tc group X)) _ _ _ ?init ?step ?post
    case init =>
      refine ⟨Relation.ReflTransGen.refl, ?_, ?_⟩
      · intro p hp; simp at hp
      · intro X _ _ h1 h2; exact absurd h1 h2
    case post =>
      rintro T1 ⟨hext, hrow, hnew⟩
      refine ⟨hext, ?_, hnew⟩
      intro p hp hpg hpv hDp
      have h1 : linkAt gc T v p ≠ none := hD v p hp hDp
      have h2 : linkAt gc T1 v p ≠ none := GatherExt_mono_ne hext v p hp h1
      exact hrow p (List.mem_range.mpr hp) hp hpg hpv h2
    case step =>
      rintro pre Tc a ha ⟨hext, hrow, hnew⟩
      have ha' : a < gc := List.mem_range.mp ha
      dsimp only
      have hmem : ∀ p, p ∈ pre ++ [a] → p ∈ pre ∨ p = a := by
        intro p hp
        simpa using hp
      by_cases hskip : a = group ∨ (a : Int) = (v : Int)
      · rw [if_pos hskip]
        refine ⟨Tc, rfl, hext, ?_, hnew⟩
        intro p hp hpc hpg hpv hvp
        rcases hmem p hp with h | h
        · exact hrow p h hpc hpg hpv hvp
        · subst h
          rcases hskip with h1 | h1
          · exact absurd h1 hpg
          · exact absurd (by omega) hpv
      · rw [if_neg hskip]
        have hag : a ≠ group := fun h => hskip (Or.inl h)
        have hav : a ≠ v := fun h => hskip (Or.inr (by omega))
        rw [Int.toNat_ofNat]
        have e1 : Tc.getD (v * gc + a) none = linkAt gc Tc v a := rfl
        have e2 : Tc.getD (group * gc + a) none = linkAt gc Tc group a := rfl
        rw [e1, e2]
        have hlenc : Tc.length = gc * gc := by rw [GatherExt_length hext, hlen]
        cases hva : linkAt gc Tc v a with
        | none =>
          refine ⟨Tc, rfl, hext, ?_, hnew⟩
          intro p hp hpc hpg hpv hvp
          rcases hmem p hp with h | h
          · exact hrow p h hpc hpg hpv hvp
          · subst h
            exact absurd hva hvp
        | some link =>
          cases hga : linkAt gc Tc group a with
          | some l1 =>
            refine ⟨Tc, rfl, hext, ?_, hnew⟩
            intro p hp hpc hpg hpv hvp
            rcases hmem p hp with h | h
            · exact hrow p h hpc hpg hpv hvp
            · subst h
              rw [hga]
              exact Option.some_ne_none l1
          | none =>
            dsimp only
            rw [P_AddLinkOffset_snd gc Tc group a hg ha' (Ne.symm hag)]
            have hl0c : linkAt gc Tc group v = some l0 := GatherExt_mono hext group v hv l0 hl0
            have hstep : GatherStep gc zl group Tc
                (Tc.set (group * gc + a)
                  (some (.cell (offset_add (deref zl l0) (deref zl link))))) :=
              GatherStep.add Tc v a l0 link hv ha' hvg hag hav hl0c hva hga
            have hsum : offset_add (deref zl l0) (deref zl link)
                = ⟨fixed_add dx (deref zl link).x, fixed_add dy (deref zl link).y,
                   fixed_add dz (deref zl link).z⟩ := by
              rw [hd]; rfl
            rw [hsum] at hstep
            have hext1 := Relation.ReflTransGen.tail hext hstep
            have hlen1 := (GatherExt_length hext1).trans hlen
            have hfree1 : freeSlots gc
                (Tc.set (group * gc + a)
                  (some (.cell ⟨fixed_add dx (deref zl link).x, fixed_add dy (deref zl link).y,
                   fixed_add dz (deref zl link).z⟩))) group < fuel := by
              have h1 := freeSlots_step hstep hlenc hg
              have h2 := freeSlots_ext hext hlen hg
              omega
            obtain ⟨T2, hT2, hext2, hcl2, hnew2⟩ := ih _ a _ _ _ _ hlen1 ha' hag
              (fun x y hy hxy => GatherExt_mono_ne hext1 x y hy (hD x y hy hxy))
              (linkAt_set_self gc Tc group a _ hlenc hg ha') rfl hfree1
            refine ⟨T2, hT2, hext1.trans hext2, ?_, ?_⟩
            · intro p hp hpc hpg hpv hvp
              rcases hmem p hp with h | h
              · have h12 := hext1.trans hext2
                have hsame : linkAt gc T2 v p = linkAt gc Tc v p := by
                  rw [GatherExt_other h12 v p hpc hvg, GatherExt_other hext v p hpc hvg]
                rw [hsame] at hvp
                exact GatherExt_mono_ne ((Relation.ReflTransGen.single hstep).trans hext2)
                  group p hpc (hrow p h hpc hpg hpv hvp)
              · subst h
                exact GatherExt_mono_ne hext2 group p ha'
                  (by rw [linkAt_set_self gc Tc group p _ hlenc hg ha']; exact Option.some_ne_none _)
            · intro X hX hXg hTX hT2X
              by_cases hcX : linkAt gc Tc group X = none
              · by_cases hXa : X = a
                · subst hXa; exact hcl2
                · apply hnew2 X hX hXg _ hT2X
                  rw [linkAt_set_ne gc Tc group a group X _ ha' hX (Or.inr (Ne.symm hXa))]
                  exact hcX
              · exact ClosedAt_ext ((Relation.ReflTransGen.single hstep).trans hext2) X
                  (hnew X hX hXg hTX hcX)
theorem GL_start_spec (gc : Nat) (zl : linkoffset_t) (D : List (Option linkptr)) (group : Nat)
    (hg : group < gc) (fuel : Nat) (T : List (Option linkptr)) (dx dy dz : Int)
    (hlen : T.length = gc * gc)
    (hD : ∀ a b, b < gc → linkAt gc D a b ≠ none → linkAt gc T a b ≠ none)
    (hfree : freeSlots gc T group + 1 < fuel) :
    ∃ T1, P_GatherLinks gc zl fuel T group dx dy dz R_NOGROUP = some T1 ∧
      GatherExt gc zl group T T1 ∧
      (∀ X, X < gc → X ≠ group → linkAt gc T1 group X ≠ none → ClosedAt gc D T1 group X) := by
  obtain ⟨fuel, rfl⟩ : ∃ f, fuel = f + 1 := ⟨fuel - 1, by omega⟩
  rw [P_GatherLinks, if_pos rfl]
  refine foldlM_post _
    (fun pre Tc => GatherExt gc zl group T Tc ∧
      (∀ X, X < gc → X ≠ group → linkAt gc Tc group X ≠ none →
        (X ∈ pre ∨ linkAt gc T group X = none) → ClosedAt gc D Tc group X)) _ _ _
    ?init ?step ?post
  case init =>
    refine ⟨Relation.ReflTransGen.refl, ?_⟩
    intro X _ _ h1 h2
    rcases h2 with h2 | h2
    · simp at h2
    · exact absurd h2 h1
  case post =>
    rintro T1 ⟨hext, hcl⟩
    exact ⟨hext, fun X hX hXg h1 => hcl X hX hXg h1 (Or.inl (List.mem_range.mpr hX))⟩
  case step =>
    rintro pre Tc a ha ⟨hext, hcl⟩
    have ha' : a < gc := List.mem_range.mp ha
    dsimp only
    have hmem : ∀ p, p ∈ pre ++ [a] → p ∈ pre ∨ p = a := by
      intro p hp
      simpa using hp
    by_cases hskip : a = group
    · rw [if_pos hskip]
      refine ⟨Tc, rfl, hext, ?_⟩
      intro X hX hXg h1 h2
      rcases h2 with h2 | h2
      · rcases hmem X h2 with h | h
        · exact hcl X hX hXg h1 (Or.inl h)
        · exact absurd (h.trans hskip) hXg
      · exact hcl X hX hXg h1 (Or.inr h2)
    · rw [if_neg hskip]
      have e2 : Tc.getD (group * gc + a) none = linkAt gc Tc group a := rfl
      rw [e2]
      have hlenc : Tc.length = gc * gc := by rw [GatherExt_length hext, hlen]
      cases hga : linkAt gc Tc group a with
      | none =>
        refine ⟨Tc, rfl, hext, ?_⟩
        intro X hX hXg h1 h2
        rcases h2 with h2 | h2
        · rcases hmem X h2 with h | h
          · exact hcl X hX hXg h1 (Or.inl h)
          · subst h; exact absurd hga h1
        · exact hcl X hX hXg h1 (Or.inr h2)
      | some link =>
        dsimp only
        have hfree1 : freeSlots gc Tc group < fuel := by
          have := freeSlots_ext hext hlen hg
          omega
        obtain ⟨T2, hT2, hext2, hcl2, hnew2⟩ := GL_via_spec gc zl D group hg fuel Tc a
          (deref zl link).x (deref zl link).y (deref zl link).z link hlenc ha' hskip
          (fun x y hy hxy => GatherExt_mono_ne hext x y hy (hD x y hy hxy)) hga rfl hfree1
        refine ⟨T2, hT2, hext.trans hext2, ?_⟩
        intro X hX hXg h1 h2
        by_cases hcX : linkAt gc Tc group X = none
        · exact hnew2 X hX hXg hcX h1
        · rcases h2 with h2 | h2
          · rcases hmem X h2 with h | h
            · exact ClosedAt_ext hext2 X (hcl X hX hXg hcX (Or.inl h))
            · subst h; exact hcl2
          · exact ClosedAt_ext hext2 X (hcl X hX hXg hcX (Or.inr h2))
theorem GatherExt_all {gc : Nat} {zl : linkoffset_t} {group : Nat}
    {T T1 : List (Option linkptr)} (hg : group < gc) (h : GatherExt gc zl group T T1) :
    AllExt gc zl T T1 := by
  induction h with
  | refl => exact Relation.ReflTransGen.refl
  | tail _ hs ih => exact Relation.ReflTransGen.tail ih ⟨group, hg, hs⟩

theorem AllExt_length {gc : Nat} {zl : linkoffset_t}
    {T T1 : List (Option linkptr)} (h : AllExt gc zl T T1) : T1.length = T.length := by
  induction h with
  | refl => rfl
  | tail _ hs ih =>
    obtain ⟨g, _, hs⟩ := hs
    rw [GatherStep_length hs, ih]

theorem AllExt_mono {gc : Nat} {zl : linkoffset_t}
    {T T1 : List (Option linkptr)} (h : AllExt gc zl T T1)
    (a b : Nat) (hb : b < gc) (l : linkptr) (hl : linkAt gc T a b = some l) :
    linkAt gc T1 a b = some l := by
  induction h with
  | refl => exact hl
  | tail _ hs ih =>
    obtain ⟨g, _, hs⟩ := hs
    exact GatherStep_mono hs a b hb l ih

theorem AllExt_mono_ne {gc : Nat} {zl : linkoffset_t}
    {T T1 : List (Option linkptr)} (h : AllExt gc zl T T1)
    (a b : Nat) (hb : b < gc) (hl : linkAt gc T a b ≠ none) :
    linkAt gc T1 a b ≠ none := by
  obtain ⟨l, hl1⟩ := Option.ne_none_iff_exists'.mp hl
  rw [AllExt_mono h a b hb l hl1]
  exact Option.some_ne_none l

theorem GatherStep_diag {gc : Nat} {zl : linkoffset_t} {group : Nat}
    {T T1 : List (Option linkptr)} (h : GatherStep gc zl group T T1)
    (a : Nat) (ha : a < gc) : linkAt gc T1 a a = linkAt gc T a a := by
  cases h with
  | add via p l0 link hv hp _ hpg _ _ _ _ =>
    apply linkAt_set_ne gc T group p a a _ hp ha
    by_contra hcon
    push_neg at hcon
    exact hpg (hcon.2.trans hcon.1.symm)

theorem AllExt_diag {gc : Nat} {zl : linkoffset_t}
    {T T1 : List (Option linkptr)} (h : AllExt gc zl T T1)
    (a : Nat) (ha : a < gc) : linkAt gc T1 a a = linkAt gc T a a := by
  induction h with
  | refl => rfl
  | tail _ hs ih =>
    obtain ⟨g, _, hs⟩ := hs
    rw [GatherStep_diag hs a ha, ih]

/-- Every off-diagonal entry of a table produced by closure writes is the sum of
a chain of direct links of the table the writes started from. -/
theorem AllExt_chain {gc : Nat} {zl : linkoffset_t}
    {D T1 : List (Option linkptr)} (hlen : D.length = gc * gc) (h : AllExt gc zl D T1) :
    ∀ a p, a < gc → p < gc → a ≠ p → ∀ l, linkAt gc T1 a p = some l →
      LinkChain (tableLink gc zl D) a p (deref zl l) := by
  induction h with
  | refl =>
    intro a p ha hp hap l hl
    exact LinkChain.direct a p _ ⟨ha, hp, hap, l, hl, rfl⟩
  | tail hprev hs ih =>
    obtain ⟨g, hg, hs⟩ := hs
    intro a p ha hp hap l hl
    have hlenb := (AllExt_length hprev).trans hlen
    cases hs with
    | add via q l0 link hv hq hvg hqg hqv h0 h1 hnone =>
      by_cases hslot : g = a ∧ q = p
      · obtain ⟨rfl, rfl⟩ := hslot
        rw [linkAt_set_self gc _ g q _ hlenb hg hq] at hl
        cases hl
        exact LinkChain.trans g via q _ _ (ih g via hg hv (Ne.symm hvg) l0 h0)
          (ih via q hv hq (Ne.symm hqv) link h1)
      · rw [linkAt_set_ne gc _ g q a p _ hq hp (by omega)] at hl
        exact ih a p ha hp hap l hl

theorem gatherAllLinks_spec (gc : Nat) (zl : linkoffset_t) (D : List (Option linkptr))
    (hlen : D.length = gc * gc) :
    ∃ T1, gatherAllLinks gc zl (gc + 1) D = some T1 ∧ AllExt gc zl D T1 ∧
      (∀ A X, A < gc → X < gc → X ≠ A → linkAt gc T1 A X ≠ none → ClosedAt gc D T1 A X) := by
  unfold gatherAllLinks
  refine foldlM_post _
    (fun pre Tc => AllExt gc zl D Tc ∧
      (∀ A X, A ∈ pre → A < gc → X < gc → X ≠ A → linkAt gc Tc A X ≠ none →
        ClosedAt gc D Tc A X)) _ _ _ ?init ?step ?post
  case init =>
    refine ⟨Relation.ReflTransGen.refl, ?_⟩
    intro A X hA
    simp at hA
  case post =>
    rintro T1 ⟨hext, hcl⟩
    exact ⟨hext, fun A X hA hX hXA h => hcl A X (List.mem_range.mpr hA) hA hX hXA h⟩
  case step =>
    rintro pre Tc a ha ⟨hext, hcl⟩
    have ha' : a < gc := List.mem_range.mp ha
    dsimp only
    have hlenc := (AllExt_length hext).trans hlen
    obtain ⟨T2, hT2, hext2, hcl2⟩ := GL_start_spec gc zl D a ha' (gc + 1) Tc 0 0 0 hlenc
      (fun x y hy hxy => AllExt_mono_ne hext x y hy hxy)
      (by have := freeSlots_lt gc Tc a ha'; omega)
    refine ⟨T2, hT2, hext.trans (GatherExt_all ha' hext2), ?_⟩
    intro A X hA hAc hX hXA hAX
    by_cases hAa : A = a
    · subst hAa
      exact hcl2 X hX hXA hAX
    · have hA' : A ∈ pre := by
        have : A ∈ pre ∨ A = a := by simpa using hA
        exact this.resolve_right hAa
      have hrow : ∀ p, p < gc → linkAt gc T2 A p = linkAt gc Tc A p :=
        fun p hp => GatherExt_other hext2 A p hp hAa
      rw [hrow X hX] at hAX
      intro p hp hpA hpX hDp
      rw [hrow p hp]
      exact hcl A X hA' hAc hX hXA hAX p hp hpA hpX hDp

/-- Completeness of the closure pass: a group reachable from `A` through direct
links of the starting table is `A` itself or has an entry in row `A`. -/
theorem gatherAll_reach {gc : Nat} {zl : linkoffset_t} {D T1 : List (Option linkptr)}
    (hext : AllExt gc zl D T1)
    (hcl : ∀ A X, A < gc → X < gc → X ≠ A → linkAt gc T1 A X ≠ none → ClosedAt gc D T1 A X)
    (A P : Nat) (hA : A < gc) (hr : Reachable (tableLink gc zl D) A P) :
    P < gc ∧ (P = A ∨ linkAt gc T1 A P ≠ none) := by
  have hdirect : ∀ P d, tableLink gc zl D A P d → P < gc ∧ (P = A ∨ linkAt gc T1 A P ≠ none) := by
    rintro P d ⟨_, hP, _, l, hl, _⟩
    exact ⟨hP, Or.inr (AllExt_mono_ne hext A P hP (by rw [hl]; exact Option.some_ne_none l))⟩
  unfold Reachable at hr
  induction hr with
  | single h =>
    obtain ⟨d, h⟩ := h
    exact hdirect _ d h
  | @tail V P0 _ h ih =>
    obtain ⟨d, h⟩ := h
    obtain ⟨hV, hor⟩ := ih
    rcases hor with hVA | hAV
    · subst hVA
      exact hdirect _ d h
    · obtain ⟨_, hP, hne, l, hl, _⟩ := h
      refine ⟨hP, ?_⟩
      by_cases hPA : P0 = A
      · exact Or.inl hPA
      · right
        by_cases hVA : V = A
        · subst hVA
          exact AllExt_mono_ne hext V P0 hP (by rw [hl]; exact Option.some_ne_none l)
        · exact hcl A V hA hV hVA hAV P0 hP hPA (Ne.symm hne)
            (by rw [hl]; exact Option.some_ne_none l)
theorem CheckRel_refl (gc : Nat) (zl : linkoffset_t) (S : sector_t → portal_t → Prop)
    (T : List (Option linkptr)) (b : Bool) (hb : b = true → ∀ sec portal, ¬ S sec portal) :
    CheckRel gc zl S T (b, T) :=
  ⟨rfl, fun _ _ _ _ _ h => h, fun _ _ => rfl, fun _ _ _ _ _ h => Or.inl h,
   fun h sec portal hS => absurd hS (hb h sec portal)⟩

theorem CheckRel_false (gc : Nat) (zl : linkoffset_t) (S : sector_t → portal_t → Prop)
    (T : List (Option linkptr)) : CheckRel gc zl S T (false, T) :=
  CheckRel_refl gc zl S T false (fun h => Bool.noConfusion h)

theorem DeclOK_mono {gc : Nat} {zl : linkoffset_t} {T T1 : List (Option linkptr)}
    (hm : ∀ a b, a < gc → b < gc → ∀ l, linkAt gc T a b = some l → linkAt gc T1 a b = some l)
    {sec : sector_t} {portal : portal_t} (h : DeclOK gc zl T sec portal) :
    DeclOK gc zl T1 sec portal := by
  obtain ⟨a, b, h1, h2, h3, ha, hb, hab, l, hl, hd⟩ := h
  exact ⟨a, b, h1, h2, h3, ha, hb, hab, l, hm a b ha hb l hl, hd⟩

theorem CheckRel_seq {gc : Nat} {zl : linkoffset_t} {S1 S2 : sector_t → portal_t → Prop}
    {T : List (Option linkptr)} {r1 r2 : Bool × List (Option linkptr)}
    (h1 : CheckRel gc zl S1 T r1) (h2 : CheckRel gc zl S2 r1.2 r2)
    (hok : r2.1 = true → r1.1 = true) :
    CheckRel gc zl (fun sec portal => S1 sec portal ∨ S2 sec portal) T r2 := by
  obtain ⟨hl1, hm1, hd1, hp1, ho1⟩ := h1
  obtain ⟨hl2, hm2, hd2, hp2, ho2⟩ := h2
  refine ⟨hl2.trans hl1, ?_, ?_, ?_, ?_⟩
  · intro a b ha hb l hl
    exact hm2 a b ha hb l (hm1 a b ha hb l hl)
  · intro a ha
    rw [hd2 a ha, hd1 a ha]
  · intro a b ha hb l hl
    rcases hp2 a b ha hb l hl with h | ⟨sec, portal, hS, h⟩
    · rcases hp1 a b ha hb l h with h | ⟨sec, portal, hS, h⟩
      · exact Or.inl h
      · exact Or.inr ⟨sec, portal, Or.inl hS, h⟩
    · exact Or.inr ⟨sec, portal, Or.inr hS, h⟩
  · intro hr sec portal hS
    rcases hS with hS | hS
    · exact DeclOK_mono hm2 (ho1 (hok hr) sec portal hS)
    · exact ho2 hr sec portal hS

theorem CheckRel_congr {gc : Nat} {zl : linkoffset_t} {S S1 : sector_t → portal_t → Prop}
    {T : List (Option linkptr)} {r : Bool × List (Option linkptr)}
    (h : CheckRel gc zl S T r) (hS : ∀ sec portal, S sec portal ↔ S1 sec portal) :
    CheckRel gc zl S1 T r := by
  have : S = S1 := by
    funext sec portal
    exact propext (hS sec portal)
  rw [← this]
  exact h

theorem CheckRel_fail {gc : Nat} {zl : linkoffset_t} {S1 : sector_t → portal_t → Prop}
    (S2 : sector_t → portal_t → Prop)
    {T : List (Option linkptr)} {r1 : Bool × List (Option linkptr)}
    (h1 : CheckRel gc zl S1 T r1) :
    CheckRel gc zl (fun sec portal => S1 sec portal ∨ S2 sec portal) T (false, r1.2) :=
  CheckRel_seq h1 (CheckRel_false gc zl S2 r1.2) (fun h => Bool.noConfusion h)

theorem P_CheckLinkedPortal_rel (gc : Nat) (zl : linkoffset_t) (T : List (Option linkptr))
    (portal : Option portal_t) (sec : sector_t) (hlen : T.length = gc * gc) :
    CheckRel gc zl (fun sec1 p => sec1 = sec ∧ portal = some p ∧ p.type = .R_LINKED) T
      (P_CheckLinkedPortal gc zl T portal sec) := by
  unfold P_CheckLinkedPortal
  cases portal with
  | none =>
    exact CheckRel_refl gc zl _ T true (fun _ sec1 p h => Option.noConfusion h.2.1)
  | some p =>
    dsimp only
    by_cases hty : p.type = .R_LINKED
    swap
    · rw [if_pos hty]
      refine CheckRel_refl gc zl _ T true (fun _ sec1 q h => ?_)
      obtain ⟨_, h1, h2⟩ := h
      cases h1
      exact hty h2
    rw [if_neg (not_not.mpr hty)]
    by_cases h1 : p.link.toid = sec.groupid
    · rw [if_pos h1]; exact CheckRel_false gc zl _ T
    rw [if_neg h1]
    by_cases h2 : p.link.fromid < 0 ∨ p.link.fromid ≥ gc ∨ p.link.toid < 0 ∨ p.link.toid ≥ gc
    · rw [if_pos h2]; exact CheckRel_false gc zl _ T
    rw [if_neg h2]
    by_cases h3 : sec.groupid < 0 ∨ sec.groupid ≥ gc
    · rw [if_pos h3]; exact CheckRel_false gc zl _ T
    rw [if_neg h3]
    by_cases h4 : sec.groupid ≠ p.link.fromid
    · rw [if_pos h4]; exact CheckRel_false gc zl _ T
    rw [if_neg h4]
    · push_neg at h2 h3 h4
      obtain ⟨a, ha⟩ : ∃ a : Nat, sec.groupid = a := ⟨sec.groupid.toNat, by omega⟩
      obtain ⟨b, hb⟩ : ∃ b : Nat, p.link.toid = b := ⟨p.link.toid.toNat, by omega⟩
      have hag : a < gc := by omega
      have hbg : b < gc := by omega
      have hab : a ≠ b := by omega
      rw [ha, hb, idx_toNat]
      have e1 : T.getD (a * gc + b) none = linkAt gc T a b := rfl
      rw [e1]
      cases hab1 : linkAt gc T a b with
      | none =>
        dsimp only
        have hret : (P_AddLinkOffset gc T a b p.link.deltax p.link.deltay p.link.deltaz).1 = 0 := by
          unfold P_AddLinkOffset
          have g1 : ¬ ((a : Int) < 0 ∨ (a : Int) ≥ gc) := by omega
          have g2 : ¬ ((b : Int) < 0 ∨ (b : Int) ≥ gc) := by omega
          have g3 : ¬ ((a : Int) = b) := by omega
          rw [if_neg g1, if_neg g2, if_neg g3]
        rw [if_neg (not_not.mpr hret), P_AddLinkOffset_snd gc T a b hag hbg hab]
        refine ⟨by simp, ?_, ?_, ?_, ?_⟩
        · intro c d hc hd l hl
          rw [linkAt_set_ne gc T a b c d _ hbg hd]
          · exact hl
          · by_contra hcon
            push_neg at hcon
            obtain ⟨rfl, rfl⟩ := hcon
            rw [hab1] at hl
            exact Option.noConfusion hl
        · intro c hc
          exact linkAt_set_ne gc T a b c c _ hbg hc (by omega)
        · intro c d hc hd l hl
          by_cases hslot : a = c ∧ b = d
          · obtain ⟨rfl, rfl⟩ := hslot
            right
            rw [linkAt_set_self gc T a b _ hlen hag hbg] at hl
            cases hl
            exact ⟨sec, p, ⟨rfl, rfl, hty⟩, ha, hb, rfl⟩
          · left
            rw [linkAt_set_ne gc T a b c d _ hbg hd (by omega)] at hl
            exact hl
        · rintro _ sec1 q ⟨rfl, hq, _⟩
          cases hq
          exact ⟨a, b, ha, hb, by omega, hag, hbg, hab, _,
            linkAt_set_self gc T a b _ hlen hag hbg, rfl⟩
      | some link =>
        dsimp only
        by_cases h5 : (deref zl link).x ≠ p.link.deltax ∨ (deref zl link).y ≠ p.link.deltay ∨
            (deref zl link).z ≠ p.link.deltaz
        · rw [if_pos h5]; exact CheckRel_false gc zl _ T
        · rw [if_neg h5]
          push_neg at h5
          refine ⟨rfl, fun _ _ _ _ _ h => h, fun _ _ => rfl, fun _ _ _ _ _ h => Or.inl h, ?_⟩
          rintro _ sec1 q ⟨rfl, hq, _⟩
          cases hq
          refine ⟨a, b, ha, hb, by omega, hag, hbg, hab, link, hab1, ?_⟩
          unfold portalDelta
          obtain ⟨h5x, h5y, h5z⟩ := h5
          rw [← h5x, ← h5y, ← h5z]
theorem checkLines_rel (gc : Nat) (zl : linkoffset_t) (sec : sector_t) :
    ∀ (lines : List line_t) (T : List (Option linkptr)), T.length = gc * gc →
      CheckRel gc zl (fun sec1 p => sec1 = sec ∧
          some p ∈ lines.map (fun line => line.portal) ∧ p.type = .R_LINKED) T
        (checkLines gc zl sec T lines) := by
  intro lines
  induction lines with
  | nil =>
    intro T _
    exact CheckRel_refl gc zl _ T true (fun _ sec1 p h => by simp at h)
  | cons line rest ih =>
    intro T hlen
    rw [checkLines]
    have h1 := P_CheckLinkedPortal_rel gc zl T line.portal sec hlen
    by_cases hok : (P_CheckLinkedPortal gc zl T line.portal sec).1 = true
    · rw [if_pos hok]
      have h2 := ih (P_CheckLinkedPortal gc zl T line.portal sec).2 (h1.1.trans hlen)
      refine CheckRel_congr (CheckRel_seq h1 h2 (fun _ => hok)) ?_
      intro sec1 p
      simp only [List.map_cons, List.mem_cons]
      constructor
      · rintro (⟨h, hp, ht⟩ | ⟨h, hp, ht⟩)
        · exact ⟨h, Or.inl hp.symm, ht⟩
        · exact ⟨h, Or.inr hp, ht⟩
      · rintro ⟨h, hp | hp, ht⟩
        · exact Or.inl ⟨h, hp.symm, ht⟩
        · exact Or.inr ⟨h, hp, ht⟩
    · rw [if_neg hok]
      refine CheckRel_congr (CheckRel_fail
        (fun sec1 p => sec1 = sec ∧ some p ∈ rest.map (fun line => line.portal) ∧
          p.type = .R_LINKED) h1) ?_
      intro sec1 p
      simp only [List.map_cons, List.mem_cons]
      constructor
      · rintro (⟨h, hp, ht⟩ | ⟨h, hp, ht⟩)
        · exact ⟨h, Or.inl hp.symm, ht⟩
        · exact ⟨h, Or.inr hp, ht⟩
      · rintro ⟨h, hp | hp, ht⟩
        · exact Or.inl ⟨h, hp.symm, ht⟩
        · exact Or.inr ⟨h, hp, ht⟩

theorem checkSector_rel (gc : Nat) (zl : linkoffset_t) (sec : sector_t)
    (T : List (Option linkptr)) (hlen : T.length = gc * gc) :
    CheckRel gc zl (fun sec1 p => sec1 = sec ∧ some p ∈ sectorPortals sec ∧
        p.type = .R_LINKED) T (checkSector gc zl T sec) := by
  unfold checkSector
  by_cases h0 : sec.groupid < R_NOGROUP ∨ sec.groupid ≥ gc
  · rw [if_pos h0]; exact CheckRel_false gc zl _ T
  rw [if_neg h0]
  have hc := P_CheckLinkedPortal_rel gc zl T sec.c_portal sec hlen
  have hf := P_CheckLinkedPortal_rel gc zl (P_CheckLinkedPortal gc zl T sec.c_portal sec).2
    sec.f_portal sec (hc.1.trans hlen)
  have hl := checkLines_rel gc zl sec sec.lines
    (P_CheckLinkedPortal gc zl (P_CheckLinkedPortal gc zl T sec.c_portal sec).2
      sec.f_portal sec).2 (hf.1.trans (hc.1.trans hlen))
  have hS : ∀ (sec1 : sector_t) (p : portal_t),
      (((sec1 = sec ∧ sec.c_portal = some p ∧ p.type = .R_LINKED) ∨
        (sec1 = sec ∧ sec.f_portal = some p ∧ p.type = .R_LINKED)) ∨
        (sec1 = sec ∧ some p ∈ sec.lines.map (fun line => line.portal) ∧ p.type = .R_LINKED))
      ↔ (sec1 = sec ∧ some p ∈ sectorPortals sec ∧ p.type = .R_LINKED) := by
    intro sec1 p
    unfold sectorPortals
    simp only [List.mem_cons]
    constructor
    · rintro ((⟨h, hp, ht⟩ | ⟨h, hp, ht⟩) | ⟨h, hp, ht⟩)
      · exact ⟨h, Or.inl hp.symm, ht⟩
      · exact ⟨h, Or.inr (Or.inl hp.symm), ht⟩
      · exact ⟨h, Or.inr (Or.inr hp), ht⟩
    · rintro ⟨h, hp | hp | hp, ht⟩
      · exact Or.inl (Or.inl ⟨h, hp.symm, ht⟩)
      · exact Or.inl (Or.inr ⟨h, hp.symm, ht⟩)
      · exact Or.inr ⟨h, hp, ht⟩
  dsimp only
  by_cases hcok : (P_CheckLinkedPortal gc zl T sec.c_portal sec).1 = true
  · rw [hcok]
    simp only [Bool.not_true, Bool.false_eq_true, if_false]
    by_cases hfok : (P_CheckLinkedPortal gc zl (P_CheckLinkedPortal gc zl T sec.c_portal sec).2
        sec.f_portal sec).1 = true
    · rw [hfok]
      simp only [Bool.not_true, Bool.false_eq_true, if_false]
      exact CheckRel_congr
        (CheckRel_seq (CheckRel_seq hc hf (fun _ => hcok)) hl (fun _ => hfok)) hS
    · have hfok1 := Bool.eq_false_iff.mpr hfok
      rw [hfok1]
      simp only [Bool.not_false, if_true]
      exact CheckRel_congr (CheckRel_fail _ (CheckRel_seq hc hf (fun _ => hcok))) hS
  · have hcok1 := Bool.eq_false_iff.mpr hcok
    rw [hcok1]
    simp only [Bool.not_false, if_true]
    have h1 := CheckRel_fail (fun sec1 p => sec1 = sec ∧ sec.f_portal = some p ∧
      p.type = .R_LINKED) hc
    have h2 := CheckRel_fail (fun sec1 p => sec1 = sec ∧
      some p ∈ sec.lines.map (fun line => line.portal) ∧ p.type = .R_LINKED) h1
    exact CheckRel_congr h2 hS

theorem checkSectors_rel (gc : Nat) (zl : linkoffset_t) :
    ∀ (secs : List sector_t) (T : List (Option linkptr)), T.length = gc * gc →
      CheckRel gc zl (fun sec p => sec ∈ secs ∧ some p ∈ sectorPortals sec ∧
          p.type = .R_LINKED) T (checkSectors gc zl T secs) := by
  intro secs
  induction secs with
  | nil =>
    intro T _
    exact CheckRel_refl gc zl _ T true (fun _ sec1 p h => by simp at h)
  | cons sec rest ih =>
    intro T hlen
    rw [checkSectors]
    have h1 := checkSector_rel gc zl sec T hlen
    have hS : ∀ (sec1 : sector_t) (p : portal_t),
        ((sec1 = sec ∧ some p ∈ sectorPortals sec ∧ p.type = .R_LINKED) ∨
          (sec1 ∈ rest ∧ some p ∈ sectorPortals sec1 ∧ p.type = .R_LINKED))
        ↔ (sec1 ∈ sec :: rest ∧ some p ∈ sectorPortals sec1 ∧ p.type = .R_LINKED) := by
      intro sec1 p
      simp only [List.mem_cons]
      constructor
      · rintro (⟨h, hp, ht⟩ | ⟨h, hp, ht⟩)
        · exact ⟨Or.inl h, h ▸ hp, ht⟩
        · exact ⟨Or.inr h, hp, ht⟩
      · rintro ⟨h | h, hp, ht⟩
        · exact Or.inl ⟨h, h ▸ hp, ht⟩
        · exact Or.inr ⟨h, hp, ht⟩
    by_cases hok : (checkSector gc zl T sec).1 = true
    · rw [if_pos hok]
      have h2 := ih (checkSector gc zl T sec).2 (h1.1.trans hlen)
      exact CheckRel_congr (CheckRel_seq h1 h2 (fun _ => hok)) hS
    · rw [if_neg hok]
      exact CheckRel_congr (CheckRel_fail _ h1) hS
theorem fillDiagonal_spec (gc : Nat) (T : List (Option linkptr)) (hlenT : T.length = gc * gc) :
    (fillDiagonal gc T).length = T.length ∧
    ∀ a b, a < gc → b < gc →
      linkAt gc (fillDiagonal gc T) a b
        = if a = b ∧ linkAt gc T a a = none then some .zerolink else linkAt gc T a b := by
  unfold fillDiagonal
  refine foldl_post _
    (fun pre Tc => Tc.length = T.length ∧
      ∀ a b, a < gc → b < gc →
        linkAt gc Tc a b
          = if a = b ∧ a ∈ pre ∧ linkAt gc T a a = none
            then some .zerolink else linkAt gc T a b)
    (fun Tc => Tc.length = T.length ∧
      ∀ a b, a < gc → b < gc →
        linkAt gc Tc a b
          = if a = b ∧ linkAt gc T a a = none then some .zerolink else linkAt gc T a b)
    (List.range gc) T ⟨rfl, fun a b _ _ => by simp⟩ ?_ ?_
  · rintro pre Tc i hi ⟨hlen, hent⟩
    have hi' : i < gc := List.mem_range.mp hi
    have e1 : Tc.getD (i * gc + i) none = linkAt gc Tc i i := rfl
    rw [e1]
    have h3 := hent i i hi' hi'
    cases hii : linkAt gc Tc i i with
    | some l =>
      dsimp only
      refine ⟨hlen, fun a b ha hb => ?_⟩
      rw [hent a b ha hb]
      by_cases hai : a = i
      · subst hai
        rw [hii] at h3
        by_cases hab : a = b
        · subst hab
          by_cases hc : a ∈ pre ∧ linkAt gc T a a = none
          · simp [hc]
          · have hc2 : ¬ (linkAt gc T a a = none) := by
              intro h5
              simp only [true_and] at h3
              rw [if_neg hc, h5] at h3
              exact Option.noConfusion h3
            simp [hc2]
        · simp [hab]
      · simp [hai]
    | none =>
      dsimp only
      refine ⟨by rw [List.length_set, hlen], fun a b ha hb => ?_⟩
      by_cases hslot : i = a ∧ i = b
      · obtain ⟨rfl, rfl⟩ := hslot
        rw [hii] at h3
        rw [linkAt_set_self gc Tc i i _ (hlen.trans hlenT) ha ha]
        have h4 : linkAt gc T i i = none := by
          by_contra hcon
          simp only [true_and] at h3
          by_cases hc : i ∈ pre ∧ linkAt gc T i i = none
          · exact hcon hc.2
          · rw [if_neg hc] at h3
            exact hcon h3.symm
        simp [h4]
      · rw [linkAt_set_ne gc Tc i i a b _ hi' hb (by omega), hent a b ha hb]
        by_cases hab : a = b
        · subst hab
          have hai : a ≠ i := by omega
          simp [hai]
        · simp [hab]
  · rintro Tc ⟨h1, h2⟩
    refine ⟨h1, fun a b ha hb => ?_⟩
    rw [h2 a b ha hb]
    simp [List.mem_range, ha]
theorem P_BuildLinkTable_zero (s : PState) (hgc : s.groupcount = 0) :
    P_BuildLinkTable s = .ok (true, s) := by
  unfold P_BuildLinkTable
  rw [if_pos hgc]

theorem P_BuildLinkTable_cases (s : PState) (hgc : 0 < s.groupcount)
    (D : Bool × List (Option linkptr))
    (hD : D = checkSectors s.groupcount s.zerolink
      (List.replicate (s.groupcount * s.groupcount) none) s.sectors) :
    (P_BuildLinkTable s = .ok (false, { s with linktable := some D.2 }) ∧
      (D.1 = false ∨ backlinksAgree { s with linktable := some D.2 } = false)) ∨
    (D.1 = true ∧ backlinksAgree { s with linktable := some D.2 } = true ∧
      ∃ T1, AllExt s.groupcount s.zerolink D.2 T1 ∧
        (∀ A X, A < s.groupcount → X < s.groupcount → X ≠ A →
          linkAt s.groupcount T1 A X ≠ none → ClosedAt s.groupcount D.2 T1 A X) ∧
        P_BuildLinkTable s = .ok (true,
          { s with sectors := assignGroupZero s.sectors,
                   linktable := some (fillDiagonal s.groupcount T1),
                   useportalgroups := true })) := by
  have hrel := checkSectors_rel s.groupcount s.zerolink s.sectors
    (List.replicate (s.groupcount * s.groupcount) none) (by simp)
  rw [← hD] at hrel
  have hlenD : D.2.length = s.groupcount * s.groupcount := by rw [hrel.1]; simp
  unfold P_BuildLinkTable
  rw [if_neg (by omega)]
  dsimp only
  rw [← hD]
  by_cases h1 : D.1 = true
  · rw [h1]
    simp only [Bool.not_true, Bool.false_eq_true, if_false]
    by_cases h2 : backlinksAgree { s with linktable := some D.2 } = true
    · rw [h2]
      simp only [Bool.not_true, Bool.false_eq_true, if_false]
      obtain ⟨T1, hT1, hext, hcl⟩ := gatherAllLinks_spec s.groupcount s.zerolink D.2 hlenD
      rw [hT1]
      refine Or.inr ⟨?_, ?_, T1, hext, hcl, ?_⟩ <;> first | rfl | trivial
    · have h2' := Bool.eq_false_iff.mpr h2
      rw [h2']
      simp only [Bool.not_false, if_true]
      refine Or.inl ⟨?_, Or.inr ?_⟩ <;> first | rfl | trivial
  · have h1' := Bool.eq_false_iff.mpr h1
    rw [h1']
    simp only [Bool.not_false, if_true]
    refine Or.inl ⟨?_, Or.inl ?_⟩ <;> first | rfl | trivial

theorem P_GetLinkOffset_off (s : PState) (h : s.useportalgroups = false) (a b : Int) :
    P_GetLinkOffset s a b = .zerolink := by
  unfold P_GetLinkOffset
  simp [h]

/-- While `useportalgroups` is off, the backlink loop of `P_BuildLinkTable` finds
no disagreement, whatever the table holds. -/
theorem backlinksAgree_off (s : PState) (h : s.useportalgroups = false)
    (hz : s.zerolink = zero_offset) : backlinksAgree s = true := by
  unfold backlinksAgree
  rw [List.all_eq_true]
  intro i _
  rw [List.all_eq_true]
  intro p _
  by_cases hpi : p = i
  · rw [if_pos hpi]
  · rw [if_neg hpi]
    dsimp only
    rw [P_GetLinkOffset_off s h, P_GetLinkOffset_off s h]
    simp [deref, hz, zero_offset, fixed_neg, wrap32]

theorem P_GetLinkIfExists_on (s : PState) (T : List (Option linkptr))
    (h : s.useportalgroups = true) (hT : s.linktable = some T) (a b : Nat)
    (ha : a < s.groupcount) (hb : b < s.groupcount) :
    P_GetLinkIfExists s a b = linkAt s.groupcount T a b := by
  unfold P_GetLinkIfExists
  rw [h, hT]
  have h1 : ¬ ((a : Int) < 0 ∨ (a : Int) ≥ s.groupcount) := by omega
  have h2 : ¬ ((b : Int) < 0 ∨ (b : Int) ≥ s.groupcount) := by omega
  simp only [Bool.not_true, Bool.false_eq_true, if_false]
  rw [if_neg h1, if_neg h2, idx_toNat]
  rfl
theorem R_SetSectorGroupID_length (sectors : List sector_t) (q : Nat) (g : Int) :
    (R_SetSectorGroupID sectors q g).length = sectors.length := by
  unfold R_SetSectorGroupID
  split <;> simp

theorem R_SetSectorGroupID_lines (sectors : List sector_t) (q : Nat) (g : Int) :
    (R_SetSectorGroupID sectors q g).map (fun sec => sec.lines)
      = sectors.map (fun sec => sec.lines) := by
  unfold R_SetSectorGroupID
  split
  · rename_i sec hsec
    apply List.ext_getElem?
    intro i
    rw [List.getElem?_map, List.getElem?_map, List.getElem?_set]
    by_cases hqi : q = i
    · subst hqi
      rw [if_pos rfl, hsec]
      have hlt : q < sectors.length := by
        by_contra hcon
        rw [List.getElem?_eq_none (by omega)] at hsec
        exact Option.noConfusion hsec
      rw [if_pos hlt]
      rfl
    · rw [if_neg hqi]
  · rfl

theorem R_SetSectorGroupID_get (sectors : List sector_t) (q : Nat) (g : Int) (i : Nat) :
    (R_SetSectorGroupID sectors q g)[i]?
      = if q = i then (sectors[i]?).map (fun sec => { sec with groupid := g })
        else sectors[i]? := by
  unfold R_SetSectorGroupID
  split
  · rename_i sec hsec
    rw [List.getElem?_set]
    by_cases hqi : q = i
    · subst hqi
      have hlt : q < sectors.length := by
        by_contra hcon
        rw [List.getElem?_eq_none (by omega)] at hsec
        exact Option.noConfusion hsec
      rw [if_pos rfl, if_pos hlt, if_pos rfl, hsec]
      rfl
    · rw [if_neg hqi, if_neg hqi]
  · rename_i hnone
    by_cases hqi : q = i
    · subst hqi
      rw [if_pos rfl, hnone]
      rfl
    · rw [if_neg hqi]

theorem gatherSector_inv (n : Nat) (lines0 : List (List line_t)) (frm : Nat) (groupid : Int)
    (st : List sector_t × List Nat) (sec2 : Option Nat)
    (hv : ∀ q ∈ sec2, q < n) (h : GatherInv n lines0 frm groupid st) :
    GatherInv n lines0 frm groupid (gatherSector groupid st sec2) ∧
      st.2.length ≤ (gatherSector groupid st sec2).2.length := by
  unfold gatherSector
  cases sec2 with
  | none => exact ⟨h, Nat.le_refl _⟩
  | some q =>
    dsimp only
    by_cases hq : q ∈ st.2
    · rw [if_pos hq]; exact ⟨h, Nat.le_refl _⟩
    · rw [if_neg hq]
      obtain ⟨h1, h2, h3, h4, sec, h5, h6⟩ := h
      refine ⟨⟨?_, ?_, ?_, ?_, ?_⟩, by simp⟩
      · rw [R_SetSectorGroupID_length]; exact h1
      · rw [R_SetSectorGroupID_lines]; exact h2
      · exact List.Nodup.append h3 (List.nodup_singleton q) (by simpa using hq)
      · intro x hx
        rcases List.mem_append.mp hx with hx | hx
        · exact h4 x hx
        · rw [List.mem_singleton.mp hx]; exact hv q rfl
      · rw [R_SetSectorGroupID_get]
        by_cases hqf : q = frm
        · rw [if_pos hqf]
          exact ⟨{ sec with groupid := groupid }, by rw [h5]; rfl, rfl⟩
        · rw [if_neg hqf]
          exact ⟨sec, h5, h6⟩

theorem gatherLines_inv (n : Nat) (lines0 : List (List line_t)) (frm : Nat) (groupid : Int) :
    ∀ (lines : List line_t) (st : List sector_t × List Nat), linesValid n lines →
      GatherInv n lines0 frm groupid st →
      GatherInv n lines0 frm groupid (lines.foldl (gatherLine groupid) st) ∧
        st.2.length ≤ (lines.foldl (gatherLine groupid) st).2.length := by
  intro lines
  induction lines with
  | nil => intro st _ h; exact ⟨h, Nat.le_refl _⟩
  | cons line rest ih =>
    intro st hv h
    rw [List.foldl_cons]
    have hl := hv line (List.mem_cons_self _ _)
    have h1 := gatherSector_inv n lines0 frm groupid st line.frontsector hl.1 h
    have h2 := gatherSector_inv n lines0 frm groupid _ line.backsector hl.2 h1.1
    have h3 := ih (gatherLine groupid st line)
      (fun l hlm => hv l (List.mem_cons_of_mem _ hlm)) h2.1
    exact ⟨h3.1, Nat.le_trans (Nat.le_trans h1.2 h2.2) h3.2⟩

theorem nodup_bounded_length (n : Nat) (l : List Nat) (hn : l.Nodup) (hb : ∀ x ∈ l, x < n) :
    l.length ≤ n := by
  have hsub : l ⊆ List.range n := fun x hx => List.mem_range.mpr (hb x hx)
  have := (List.subperm_of_subset hn hsub).length_le
  simpa using this

theorem gatherLoop_total (n : Nat) (lines0 : List (List line_t)) (frm : Nat) (groupid : Int)
    (hv : ∀ ls ∈ lines0, linesValid n ls) :
    ∀ (fuel : Nat) (sectors : List sector_t) (list : List Nat) (sec : Nat),
      GatherInv n lines0 frm groupid (sectors, list) → sec ≤ list.length →
      n + 1 ≤ fuel + sec →
      ∃ r, gatherLoop groupid fuel sectors list sec = .ok r ∧
        GatherInv n lines0 frm groupid r := by
  intro fuel
  induction fuel with
  | zero =>
    intro sectors list sec h hsec hf
    have := nodup_bounded_length n list h.2.2.1 h.2.2.2.1
    omega
  | succ fuel ih =>
    intro sectors list sec h hsec hf
    rw [gatherLoop]
    cases hget : list[sec]? with
    | none => exact ⟨(sectors, list), rfl, h⟩
    | some frm0 =>
      dsimp only
      have hlt : sec < list.length := by
        by_contra hcon
        rw [List.getElem?_eq_none (by omega)] at hget
        exact Option.noConfusion hget
      have hlines : linesValid n (sectorLines sectors frm0) := by
        unfold sectorLines
        cases hs : sectors[frm0]? with
        | none => intro line hl; simp at hl
        | some s0 =>
          apply hv
          rw [← h.2.1]
          exact List.mem_map.mpr ⟨s0, List.getElem?_mem hs, rfl⟩
      have hfold := gatherLines_inv n lines0 frm groupid _ (sectors, list) hlines h
      exact ih _ _ (sec + 1) hfold.1 (by have := hfold.2; simp only at this; omega) (by omega)
theorem P_CreatePortalGroup_grouped (s : PState) (frm : Nat) (sec : sector_t)
    (hsec : s.sectors[frm]? = some sec) (hg : sec.groupid ≠ R_NOGROUP) :
    P_CreatePortalGroup s frm = .ok (s, sec.groupid) := by
  unfold P_CreatePortalGroup
  rw [hsec]
  dsimp only
  rw [if_pos hg]

theorem P_CreatePortalGroup_fresh (s : PState) (frm : Nat) (sec : sector_t)
    (hsec : s.sectors[frm]? = some sec) (hg : sec.groupid = R_NOGROUP)
    (hv : mapValid s.sectors) (hlim : s.groupcount ≤ s.grouplimit) :
    ∃ s1, P_CreatePortalGroup s frm = .ok (s1, (s.groupcount : Int)) ∧
      s1.groupcount = s.groupcount + 1 ∧
      ∃ sec1, s1.sectors[frm]? = some sec1 ∧ sec1.groupid = (s.groupcount : Int) := by
  have hfrm : frm < s.sectors.length := by
    by_contra hcon
    rw [List.getElem?_eq_none (by omega)] at hsec
    exact Option.noConfusion hsec
  have hinv0 : GatherInv s.sectors.length (s.sectors.map (fun sec => sec.lines)) frm
      (s.groupcount : Int) (R_SetSectorGroupID s.sectors frm s.groupcount, [frm]) := by
    refine ⟨R_SetSectorGroupID_length _ _ _, R_SetSectorGroupID_lines _ _ _,
      List.nodup_singleton frm, ?_, ?_⟩
    · intro x hx
      rw [List.mem_singleton.mp hx]; exact hfrm
    · rw [R_SetSectorGroupID_get, if_pos rfl, hsec]
      exact ⟨_, rfl, rfl⟩
  have hvl : ∀ ls ∈ s.sectors.map (fun sec => sec.lines), linesValid s.sectors.length ls := by
    intro ls hls
    obtain ⟨sec0, hs0, rfl⟩ := List.mem_map.mp hls
    exact hv sec0 hs0
  obtain ⟨r, hr, hinv⟩ := gatherLoop_total s.sectors.length _ frm (s.groupcount : Int) hvl
    (s.sectors.length + 1) _ [frm] 0 hinv0 (Nat.zero_le _) (by omega)
  obtain ⟨sec1, hsec1, hgid⟩ := hinv.2.2.2.2
  have hgrp : ((s.groups ++ List.replicate
      ((if s.groupcount = s.grouplimit then (if s.grouplimit ≠ 0 then s.grouplimit <<< 1 else 8)
        else s.grouplimit) - s.groups.length) none).set s.groupcount
        (some { seclist := [] })).getD (s.groupcount : Int).toNat none
      = some ({ seclist := [] } : pgroup_t) := by
    rw [Int.toNat_ofNat]
    apply getD_set_self
    rw [List.length_append, List.length_replicate]
    have : s.groupcount < (if s.groupcount = s.grouplimit then
        (if s.grouplimit ≠ 0 then s.grouplimit <<< 1 else 8) else s.grouplimit) := by
      split_ifs with h1 h2
      · rw [Nat.shiftLeft_eq]; omega
      · omega
      · omega
    omega
  unfold P_CreatePortalGroup
  rw [hsec]
  dsimp only
  rw [if_neg (not_not.mpr hg)]
  unfold P_GatherSectors
  dsimp only
  have hrange : ¬ ((s.groupcount : Int) < 0 ∨
      (s.groupcount : Int) ≥ ((s.groupcount + 1 : Nat) : Int)) := by omega
  rw [if_neg hrange, hsec]
  dsimp only
  rw [if_neg (not_not.mpr hg), hr]
  obtain ⟨r1, r2⟩ := r
  dsimp only
  rw [hgrp]
  exact ⟨_, rfl, rfl, sec1, hsec1, hgid⟩
theorem P_GetLinkOffset_cell (s : PState) (a b : Int) (v : linkoffset_t)
    (h : P_GetLinkOffset s a b = .cell v) :
    ∃ (T : List (Option linkptr)) (a1 b1 : Nat), s.useportalgroups = true ∧
      s.linktable = some T ∧ a = a1 ∧ b = b1 ∧ a1 < s.groupcount ∧ b1 < s.groupcount ∧
      linkAt s.groupcount T a1 b1 = some (.cell v) := by
  unfold P_GetLinkOffset at h
  by_cases hf : s.useportalgroups = true
  swap
  · rw [Bool.eq_false_iff.mpr hf] at h
    simp at h
  rw [hf] at h
  simp only [Bool.not_true, Bool.false_eq_true, if_false] at h
  cases hT : s.linktable with
  | none => rw [hT] at h; simp at h
  | some T =>
    rw [hT] at h
    dsimp only at h
    by_cases h1 : a < 0 ∨ a ≥ s.groupcount
    · rw [if_pos h1] at h; exact linkptr.noConfusion h
    rw [if_neg h1] at h
    by_cases h2 : b < 0 ∨ b ≥ s.groupcount
    · rw [if_pos h2] at h; exact linkptr.noConfusion h
    rw [if_neg h2] at h
    refine ⟨T, a.toNat, b.toNat, hf, rfl, by omega, by omega, by omega, by omega, ?_⟩
    have hidx : (a * s.groupcount + b).toNat = a.toNat * s.groupcount + b.toNat := by
      have ha : a = (a.toNat : Int) := by omega
      have hb : b = (b.toNat : Int) := by omega
      have := idx_toNat a.toNat b.toNat s.groupcount
      rw [← ha, ← hb] at this
      exact this
    rw [hidx] at h
    unfold linkAt
    cases hent : T.getD (a.toNat * s.groupcount + b.toNat) none with
    | none => rw [hent] at h; exact linkptr.noConfusion h
    | some l => rw [hent] at h; dsimp only at h; rw [h]

theorem P_GetLinkOffset_diag (s : PState) (h : DiagOK s) (A : Int) :
    P_GetLinkOffset s A A = .zerolink := by
  cases hp : P_GetLinkOffset s A A with
  | zerolink => rfl
  | cell v =>
    obtain ⟨T, a1, b1, _, hT, ha, hb, ha1, _, hent⟩ := P_GetLinkOffset_cell s A A v hp
    have hab : a1 = b1 := by omega
    subst hab
    rcases h T hT a1 ha1 with h1 | h1
    · rw [h1] at hent; exact Option.noConfusion hent
    · rw [h1] at hent
      exact linkptr.noConfusion (Option.some.inj hent)

theorem moveLink_frame (s : PState) (a b dx dy : Int) (h : DiagOK s) :
    DiagOK (moveLink s a b dx dy) ∧ (moveLink s a b dx dy).groupcount = s.groupcount ∧
      (moveLink s a b dx dy).zerolink = s.zerolink := by
  unfold moveLink
  cases hp : P_GetLinkOffset s a b with
  | zerolink => exact ⟨h, rfl, rfl⟩
  | cell v =>
    dsimp only
    refine ⟨?_, rfl, rfl⟩
    obtain ⟨T, a1, b1, _, hT, ha, hb, ha1, hb1, hent⟩ := P_GetLinkOffset_cell s a b v hp
    have hab : a1 ≠ b1 := by
      rintro rfl
      rcases h T hT a1 ha1 with h1 | h1
      · rw [h1] at hent; exact Option.noConfusion hent
      · rw [h1] at hent
        exact linkptr.noConfusion (Option.some.inj hent)
    intro T1 hT1 c hc
    rw [hT] at hT1
    simp only [Option.map_some', Option.some.injEq] at hT1
    subst hT1
    rw [ha, hb, idx_toNat]
    have := linkAt_set_ne s.groupcount T a1 b1 c c
      (some (linkptr.cell { x := fixed_add v.x dx, y := fixed_add v.y dy, z := v.z }))
      hb1 hc (by omega)
    dsimp only at this ⊢
    rw [this]
    exact h T hT c hc

theorem P_MoveLinkedPortal_frame (s : PState) (portal : portal_t) (dx dy : Int)
    (movebehind : Bool) (h : DiagOK s) :
    DiagOK (P_MoveLinkedPortal s portal dx dy movebehind).1 ∧
      (P_MoveLinkedPortal s portal dx dy movebehind).1.zerolink = s.zerolink := by
  unfold P_MoveLinkedPortal
  refine foldl_post _ (fun _ st => DiagOK st ∧ st.groupcount = s.groupcount ∧
    st.zerolink = s.zerolink) (fun st => DiagOK st ∧ st.zerolink = s.zerolink)
    _ _ ⟨h, rfl, rfl⟩ ?_ (fun st hst => ⟨hst.1, hst.2.2⟩)
  rintro pre st i _ ⟨h1, h2, h3⟩
  dsimp only
  split
  · have := moveLink_frame st i (portal.link.toid) dx dy h1
    exact ⟨this.1, this.2.1.trans h2, this.2.2.trans h3⟩
  · have := moveLink_frame st (portal.link.fromid) i dx dy h1
    exact ⟨this.1, this.2.1.trans h2, this.2.2.trans h3⟩

theorem applyMoves_frame (moves : List (portal_t × Int × Int × Bool)) :
    ∀ s : PState, DiagOK s →
      DiagOK (applyMoves s moves) ∧ (applyMoves s moves).zerolink = s.zerolink := by
  induction moves with
  | nil => intro s h; exact ⟨h, rfl⟩
  | cons m rest ih =>
    intro s h
    unfold applyMoves
    rw [List.foldl_cons]
    have h1 := P_MoveLinkedPortal_frame s m.1 m.2.1 m.2.2.1 m.2.2.2 h
    have h2 := ih _ h1.1
    unfold applyMoves at h2
    exact ⟨h2.1, h2.2.trans h1.2⟩
/-- What a successful build with at least one group establishes: the table `D`
of the direct links, the table `T1` after the closure pass, and the final state. -/
theorem build_true_spec (s s1 : PState) (hb : P_BuildLinkTable s = .ok (true, s1))
    (hgc : 0 < s.groupcount) :
    ∃ D T1, D.length = s.groupcount * s.groupcount ∧
      CheckRel s.groupcount s.zerolink
        (fun sec p => sec ∈ s.sectors ∧ some p ∈ sectorPortals sec ∧ p.type = .R_LINKED)
        (List.replicate (s.groupcount * s.groupcount) none) (true, D) ∧
      backlinksAgree { s with linktable := some D } = true ∧
      AllExt s.groupcount s.zerolink D T1 ∧
      (∀ A X, A < s.groupcount → X < s.groupcount → X ≠ A →
        linkAt s.groupcount T1 A X ≠ none → ClosedAt s.groupcount D T1 A X) ∧
      s1 = { s with sectors := assignGroupZero s.sectors,
                    linktable := some (fillDiagonal s.groupcount T1),
                    useportalgroups := true } := by
  have hrel := checkSectors_rel s.groupcount s.zerolink s.sectors
    (List.replicate (s.groupcount * s.groupcount) none) (by simp)
  rcases P_BuildLinkTable_cases s hgc _ rfl with ⟨h1, _⟩ | ⟨h1, h2, T1, hext, hcl, h3⟩
  · rw [h1] at hb
    exact Bool.noConfusion (Prod.mk.inj (Except.ok.inj hb)).1
  · rw [h3] at hb
    have hs1 := (Prod.mk.inj (Except.ok.inj hb)).2
    refine ⟨_, T1, ?_, ?_, h2, hext, hcl, hs1.symm⟩
    · rw [hrel.1]; simp
    · have : (true, (checkSectors s.groupcount s.zerolink
          (List.replicate (s.groupcount * s.groupcount) none) s.sectors).2)
          = checkSectors s.groupcount s.zerolink
          (List.replicate (s.groupcount * s.groupcount) none) s.sectors := by
        rw [← h1]
      rw [this]
      exact hrel

theorem declared_of_tableLink {gc : Nat} {zl : linkoffset_t} {s : PState}
    {D : List (Option linkptr)}
    (hrel : CheckRel gc zl
      (fun sec p => sec ∈ s.sectors ∧ some p ∈ sectorPortals sec ∧ p.type = .R_LINKED)
      (List.replicate (gc * gc) none) (true, D))
    (a p : Nat) (d : linkoffset_t) (h : tableLink gc zl D a p d) : declaredLink s a p d := by
  obtain ⟨ha, hp, _, l, hl, hd⟩ := h
  rcases hrel.2.2.2.1 a p ha hp l hl with h0 | ⟨sec, portal, ⟨h1, h2, h3⟩, h4, h5, h6⟩
  · rw [linkAt_replicate] at h0
    exact Option.noConfusion h0
  · exact ⟨sec, h1, portal, h2, h3, h4, h5, by rw [← h6, hd]⟩

theorem tableLink_of_declared {gc : Nat} {zl : linkoffset_t} {s : PState}
    {D : List (Option linkptr)}
    (hrel : CheckRel gc zl
      (fun sec p => sec ∈ s.sectors ∧ some p ∈ sectorPortals sec ∧ p.type = .R_LINKED)
      (List.replicate (gc * gc) none) (true, D))
    (a p : Nat) (d : linkoffset_t) (h : declaredLink s a p d) : tableLink gc zl D a p d := by
  obtain ⟨sec, h1, portal, h2, h3, h4, h5, h6⟩ := h
  obtain ⟨a1, b1, g1, g2, _, ha, hb, hab, l, hl, hd⟩ := hrel.2.2.2.2 rfl sec portal ⟨h1, h2, h3⟩
  have e1 : a1 = a := by omega
  have e2 : b1 = p := by omega
  subst e1; subst e2
  exact ⟨ha, hb, hab, l, hl, by rw [hd, h6]⟩

theorem LinkChain_congr {R R1 : Nat → Nat → linkoffset_t → Prop}
    (h : ∀ a p d, R a p d → R1 a p d) {a p : Nat} {d : linkoffset_t}
    (hc : LinkChain R a p d) : LinkChain R1 a p d := by
  induction hc with
  | direct a p d hr => exact LinkChain.direct a p d (h a p d hr)
  | trans a v p d e _ _ ih1 ih2 => exact LinkChain.trans a v p d e ih1 ih2

theorem Reachable_congr {R R1 : Nat → Nat → linkoffset_t → Prop}
    (h : ∀ a p d, R a p d → R1 a p d) {a p : Nat}
    (hc : Reachable R a p) : Reachable R1 a p := by
  unfold Reachable at hc ⊢
  exact Relation.TransGen.mono (fun u w ⟨d, hd⟩ => ⟨d, h u w d hd⟩) hc

theorem LinkChain_reach {R : Nat → Nat → linkoffset_t → Prop} {a p : Nat} {d : linkoffset_t}
    (hc : LinkChain R a p d) : Reachable R a p := by
  induction hc with
  | direct a p d hr => exact Relation.TransGen.single ⟨d, hr⟩
  | trans a v p d e _ _ ih1 ih2 => exact Relation.TransGen.trans ih1 ih2

theorem LinkChain_placed {R : Nat → Nat → linkoffset_t → Prop} (pos : Nat → linkoffset_t)
    (h : ∀ a p d, R a p d → d = placedOffset pos a p) {a p : Nat} {d : linkoffset_t}
    (hc : LinkChain R a p d) : d = placedOffset pos a p := by
  induction hc with
  | direct a p d hr => exact h a p d hr
  | trans a v p d e _ _ ih1 ih2 =>
    rw [ih1, ih2]
    unfold placedOffset offset_add
    simp only [fixed_add_wrap_wrap]
    congr 1 <;> congr 1 <;> ring

/-- The final table of a successful build, read through `P_GetLinkIfExists`. -/
theorem built_lookup (s : PState) (D T1 : List (Option linkptr))
    (hlen : D.length = s.groupcount * s.groupcount)
    (hdiag : ∀ a, a < s.groupcount → linkAt s.groupcount D a a = none)
    (hext : AllExt s.groupcount s.zerolink D T1) (secs : List sector_t)
    (a b : Nat) (ha : a < s.groupcount) (hb : b < s.groupcount) :
    P_GetLinkIfExists
        { s with sectors := secs, linktable := some (fillDiagonal s.groupcount T1),
                 useportalgroups := true } a b
      = if a = b then some .zerolink else linkAt s.groupcount T1 a b := by
  have hon := P_GetLinkIfExists_on
    { s with sectors := secs, linktable := some (fillDiagonal s.groupcount T1),
             useportalgroups := true } (fillDiagonal s.groupcount T1) rfl rfl a b ha hb
  rw [hon]
  dsimp only
  rw [(fillDiagonal_spec s.groupcount T1 ((AllExt_length hext).trans hlen)).2 a b ha hb]
  have hd : linkAt s.groupcount T1 a a = none := by
    rw [AllExt_diag hext a ha]; exact hdiag a ha
  by_cases hab : a = b
  · subst hab
    rw [if_pos ⟨rfl, hd⟩, if_pos rfl]
  · rw [if_neg (fun h => hab h.1), if_neg hab]

theorem P_GetLinkOffset_of_exists (s : PState) (a b : Int) :
    P_GetLinkOffset s a b = (P_GetLinkIfExists s a b).getD .zerolink := by
  unfold P_GetLinkOffset P_GetLinkIfExists
  cases s.useportalgroups
  · rfl
  · simp only [Bool.not_true, Bool.false_eq_true, if_false]
    cases s.linktable with
    | none => rfl
    | some T =>
      dsimp only
      split_ifs
      · rfl
      · rfl
      · cases T.getD (a * s.groupcount + b).toNat none <;> rfl
/-- The entries of the final table of a successful build: every group reachable
from `A` through declared links has a slot in row `A`, every off-diagonal slot
holds the sum of a chain of declared links, and a declared link keeps its
declared offset. -/
theorem built_table_spec (s s1 : PState) (hb : P_BuildLinkTable s = .ok (true, s1))
    (hgc : 0 < s.groupcount) :
    s1.zerolink = s.zerolink ∧ s1.groupcount = s.groupcount ∧
    (∀ A, A < s.groupcount → P_GetLinkIfExists s1 A A = some .zerolink) ∧
    (∀ A P, A < s.groupcount → P ≠ A → Reachable (declaredLink s) A P →
      P < s.groupcount ∧ ∃ l, P_GetLinkIfExists s1 A P = some l) ∧
    (∀ A P l, A < s.groupcount → P < s.groupcount → P ≠ A →
      P_GetLinkIfExists s1 A P = some l → LinkChain (declaredLink s) A P (deref s.zerolink l)) ∧
    (∀ A P d, declaredLink s A P d →
      A < s.groupcount ∧ P < s.groupcount ∧ P ≠ A ∧
      ∃ l, P_GetLinkIfExists s1 A P = some l ∧ deref s.zerolink l = d) := by
  obtain ⟨D, T1, hlen, hrel, _, hext, hcl, hs1⟩ := build_true_spec s s1 hb hgc
  have hdiag : ∀ a, a < s.groupcount → linkAt s.groupcount D a a = none := by
    intro a ha
    have := hrel.2.2.1 a ha
    dsimp only at this
    rw [this]
    exact linkAt_replicate _ _ _ _
  have hlook := built_lookup s D T1 hlen hdiag hext (assignGroupZero s.sectors)
  rw [← hs1] at hlook
  refine ⟨by rw [hs1], by rw [hs1], ?_, ?_, ?_, ?_⟩
  · intro A hA
    have := hlook A A hA hA
    rw [if_pos rfl] at this
    exact_mod_cast this
  · intro A P hA hPA hr
    have hr1 : Reachable (tableLink s.groupcount s.zerolink D) A P :=
      Reachable_congr (fun a p d h => tableLink_of_declared hrel a p d h) hr
    obtain ⟨hP, hor⟩ := gatherAll_reach hext hcl A P hA hr1
    refine ⟨hP, ?_⟩
    have hne := hor.resolve_left hPA
    obtain ⟨l, hl⟩ := Option.ne_none_iff_exists'.mp hne
    refine ⟨l, ?_⟩
    rw [hlook A P hA hP, if_neg (Ne.symm hPA)]
    exact hl
  · intro A P l hA hP hPA hl
    rw [hlook A P hA hP, if_neg (Ne.symm hPA)] at hl
    exact LinkChain_congr (fun a p d h => declared_of_tableLink hrel a p d h)
      (AllExt_chain hlen hext A P hA hP (Ne.symm hPA) l hl)
  · intro A P d hd
    obtain ⟨hA, hP, hAP, l, hl, hdl⟩ := tableLink_of_declared hrel A P d hd
    refine ⟨hA, hP, Ne.symm hAP, l, ?_, hdl⟩
    rw [hlook A P hA hP, if_neg hAP]
    exact AllExt_mono hext A P hP l hl
theorem P_GetLinkIfExists_range (s : PState) (a b : Int)
    (h : P_GetLinkIfExists s a b ≠ none) :
    0 ≤ a ∧ a < s.groupcount ∧ 0 ≤ b ∧ b < s.groupcount := by
  unfold P_GetLinkIfExists at h
  by_contra hcon
  apply h
  cases s.useportalgroups
  · rfl
  · simp only [Bool.not_true, Bool.false_eq_true, if_false]
    cases s.linktable with
    | none => rfl
    | some T =>
      dsimp only
      by_cases h1 : a < 0 ∨ a ≥ s.groupcount
      · rw [if_pos h1]
      · rw [if_neg h1]
        by_cases h2 : b < 0 ∨ b ≥ s.groupcount
        · rw [if_pos h2]
        · exfalso; omega

theorem placedOffset_add (pos : Nat → linkoffset_t) (a b c : Nat) :
    offset_add (placedOffset pos a b) (placedOffset pos b c) = placedOffset pos a c := by
  unfold placedOffset offset_add
  simp only [fixed_add_wrap_wrap]
  congr 1 <;> congr 1 <;> ring

theorem placedOffset_self (pos : Nat → linkoffset_t) (a : Nat) :
    placedOffset pos a a = zero_offset := by
  unfold placedOffset zero_offset wrap32
  simp

theorem scenario_placed (a p : Nat) (d : linkoffset_t)
    (h : declaredLink (groupedMap scenarioPortals) a p d) :
    d = placedOffset scenarioPlaces a p := by
  obtain ⟨sec, hsec, portal, hp, _, hg, ht, hd⟩ := h
  have hsecs : (groupedMap scenarioPortals).sectors
      = [ { groupid := 0, c_portal := some (linkedPortal 0 1 256 0 0), f_portal := none,
            lines := [] },
          { groupid := 1, c_portal := some (linkedPortal 1 0 (-256) 0 0),
            f_portal := some (linkedPortal 1 2 0 256 0), lines := [] },
          { groupid := 2, c_portal := some (linkedPortal 2 1 0 (-256) 0), f_portal := none,
            lines := [] } ] := rfl
  rw [hsecs] at hsec
  simp only [List.mem_cons, List.mem_singleton, List.not_mem_nil, or_false] at hsec
  rcases hsec with rfl | rfl | rfl
  all_goals
    simp only [sectorPortals, List.map_nil, List.mem_cons, List.not_mem_nil, or_false,
      Option.some.injEq, reduceCtorEq, false_or] at hp
  · subst hp
    obtain rfl : a = 0 := by dsimp only at hg; omega
    obtain rfl : p = 1 := by dsimp only [linkedPortal] at ht; omega
    rw [← hd]; rfl
  · rcases hp with rfl | rfl
    · obtain rfl : a = 1 := by dsimp only at hg; omega
      obtain rfl : p = 0 := by dsimp only [linkedPortal] at ht; omega
      rw [← hd]; rfl
    · obtain rfl : a = 1 := by dsimp only at hg; omega
      obtain rfl : p = 2 := by dsimp only [linkedPortal] at ht; omega
      rw [← hd]; rfl
  · subst hp
    obtain rfl : a = 2 := by dsimp only at hg; omega
    obtain rfl : p = 1 := by dsimp only [linkedPortal] at ht; omega
    rw [← hd]; rfl

theorem build_true_diag (s s1 : PState) (hb : P_BuildLinkTable s = .ok (true, s1))
    (hz : s.zerolink = zero_offset) : DiagOK s1 ∧ s1.zerolink = zero_offset := by
  by_cases hgc : s.groupcount = 0
  · rw [P_BuildLinkTable_zero s hgc] at hb
    have hs := (Prod.mk.inj (Except.ok.inj hb)).2
    subst hs
    refine ⟨?_, hz⟩
    intro T _ a ha
    omega
  · obtain ⟨D, T1, hlen, hrel, _, hext, _, hs1⟩ := build_true_spec s s1 hb (by omega)
    subst hs1
    refine ⟨?_, hz⟩
    intro T hT a ha
    dsimp only at hT ha ⊢
    have hT' : fillDiagonal s.groupcount T1 = T := Option.some.inj hT
    subst hT'
    have hd : linkAt s.groupcount T1 a a = none := by
      rw [AllExt_diag hext a ha, hrel.2.2.1 a ha]
      exact linkAt_replicate _ _ _ _
    rw [(fillDiagonal_spec s.groupcount T1 ((AllExt_length hext).trans hlen)).2 a a ha ha,
      if_pos ⟨rfl, hd⟩]
    exact Or.inr rfl


/-! ## The flood fill of `P_GatherSectors` -/

theorem sectorLines_set (sectors : List sector_t) (q : Nat) (g : Int) (p : Nat) :
    sectorLines (R_SetSectorGroupID sectors q g) p = sectorLines sectors p := by
  unfold sectorLines
  rw [R_SetSectorGroupID_get]
  by_cases hqp : q = p
  · rw [if_pos hqp]
    cases sectors[p]? <;> rfl
  · rw [if_neg hqp]

theorem assignAll_append (sectors : List sector_t) (g : Int) (l : List Nat) (q : Nat) :
    assignAll sectors g (l ++ [q]) = R_SetSectorGroupID (assignAll sectors g l) q g := by
  unfold assignAll
  rw [List.foldl_append]
  rfl

theorem assignAll_length (g : Int) (l : List Nat) :
    ∀ sectors : List sector_t, (assignAll sectors g l).length = sectors.length := by
  induction l with
  | nil => intro sectors; rfl
  | cons q rest ih =>
    intro sectors
    show (assignAll (R_SetSectorGroupID sectors q g) g rest).length = _
    rw [ih, R_SetSectorGroupID_length]

theorem sectorLines_assignAll (g : Int) (l : List Nat) (p : Nat) :
    ∀ sectors : List sector_t, sectorLines (assignAll sectors g l) p = sectorLines sectors p := by
  induction l with
  | nil => intro sectors; rfl
  | cons q rest ih =>
    intro sectors
    show sectorLines (assignAll (R_SetSectorGroupID sectors q g) g rest) p = _
    rw [ih, sectorLines_set]

theorem assignAll_get (g : Int) (l : List Nat) (i : Nat) :
    ∀ sectors : List sector_t, (assignAll sectors g l)[i]?
      = if i ∈ l then (sectors[i]?).map (fun sec => { sec with groupid := g })
        else sectors[i]? := by
  induction l with
  | nil => intro sectors; simp [assignAll]
  | cons q rest ih =>
    intro sectors
    show (assignAll (R_SetSectorGroupID sectors q g) g rest)[i]? = _
    rw [ih, R_SetSectorGroupID_get]
    by_cases hqi : q = i
    · subst hqi
      rw [if_pos rfl, if_pos (List.mem_cons_self _ _)]
      by_cases hr : q ∈ rest
      · rw [if_pos hr]
        cases sectors[q]? <;> rfl
      · rw [if_neg hr]
    · rw [if_neg hqi]
      by_cases hr : i ∈ rest
      · rw [if_pos hr, if_pos (List.mem_cons_of_mem _ hr)]
      · rw [if_neg hr, if_neg]
        intro hmem
        rcases List.mem_cons.mp hmem with h | h
        · exact hqi h.symm
        · exact hr h

theorem gatherSector_flood (sectors0 : List sector_t) (frm : Nat) (groupid : Int) (sec : Nat)
    (st : List sector_t × List Nat) (sec2 : Option Nat)
    (hv : ∀ q ∈ sec2, q < sectors0.length ∧ connected sectors0 frm q)
    (h : FloodInv sectors0 frm groupid sec st) :
    FloodInv sectors0 frm groupid sec (gatherSector groupid st sec2) ∧
      (∀ q ∈ st.2, q ∈ (gatherSector groupid st sec2).2) ∧
      (∀ (i p : Nat), st.2[i]? = some p → (gatherSector groupid st sec2).2[i]? = some p) ∧
      (∀ q ∈ sec2, q ∈ (gatherSector groupid st sec2).2) := by
  unfold gatherSector
  cases sec2 with
  | none =>
    refine ⟨h, fun q hq => hq, fun i p hp => hp, ?_⟩
    intro q hq
    exact Option.noConfusion hq
  | some q =>
    dsimp only
    by_cases hq : q ∈ st.2
    · rw [if_pos hq]
      refine ⟨h, fun q hq => hq, fun i p hp => hp, ?_⟩
      intro q0 hq0
      rw [Option.mem_some_iff] at hq0
      rw [← hq0]; exact hq
    · rw [if_neg hq]
      obtain ⟨h1, h2, h3, h4, h5, h6, h7⟩ := h
      have hpre : ∀ (i p : Nat), st.2[i]? = some p → (st.2 ++ [q])[i]? = some p := by
        intro i p hp
        have hlt : i < st.2.length := by
          by_contra hcon
          rw [List.getElem?_eq_none (by omega)] at hp
          exact Option.noConfusion hp
        rw [List.getElem?_append_left hlt]; exact hp
      refine ⟨⟨?_, ?_, ?_, ?_, ?_, ?_, ?_⟩, ?_, hpre, ?_⟩
      · show R_SetSectorGroupID st.1 q groupid = assignAll sectors0 groupid (st.2 ++ [q])
        rw [assignAll_append, ← h1]
      · exact List.Nodup.append h2 (List.nodup_singleton q) (by simpa using hq)
      · intro x hx
        rcases List.mem_append.mp hx with hx | hx
        · exact h3 x hx
        · rw [List.mem_singleton.mp hx]; exact (hv q rfl).2
      · intro x hx
        rcases List.mem_append.mp hx with hx | hx
        · exact h4 x hx
        · rw [List.mem_singleton.mp hx]; exact (hv q rfl).1
      · exact List.mem_append_left _ h5
      · show sec ≤ (st.2 ++ [q]).length
        rw [List.length_append]; omega
      · intro i p hi hp q0 hadj
        have hlt : i < st.2.length := by omega
        have hp0 : st.2[i]? = some p := by
          rw [← hp]
          exact (List.getElem?_append_left hlt).symm
        exact List.mem_append_left _ (h7 i p hi hp0 q0 hadj)
      · intro x hx
        exact List.mem_append_left _ hx
      · intro q0 hq0
        rw [Option.mem_some_iff] at hq0
        rw [← hq0]
        exact List.mem_append_right _ (List.mem_singleton_self q)

theorem gatherLines_flood (sectors0 : List sector_t) (frm : Nat) (groupid : Int) (sec : Nat) :
    ∀ (lines : List line_t) (st : List sector_t × List Nat),
      (∀ line ∈ lines, ∀ q, line.frontsector = some q ∨ line.backsector = some q →
        q < sectors0.length ∧ connected sectors0 frm q) →
      FloodInv sectors0 frm groupid sec st →
      FloodInv sectors0 frm groupid sec (lines.foldl (gatherLine groupid) st) ∧
        (∀ q ∈ st.2, q ∈ (lines.foldl (gatherLine groupid) st).2) ∧
        (∀ (i p : Nat), st.2[i]? = some p → (lines.foldl (gatherLine groupid) st).2[i]? = some p) ∧
        (∀ line ∈ lines, ∀ q, line.frontsector = some q ∨ line.backsector = some q →
          q ∈ (lines.foldl (gatherLine groupid) st).2) := by
  intro lines
  induction lines with
  | nil =>
    intro st _ h
    refine ⟨h, fun q hq => hq, fun i p hp => hp, ?_⟩
    intro line hl
    simp at hl
  | cons line rest ih =>
    intro st hv h
    rw [List.foldl_cons]
    have hl := hv line (List.mem_cons_self _ _)
    have h1 := gatherSector_flood sectors0 frm groupid sec st line.frontsector
      (fun q hq => hl q (Or.inl (Option.mem_def.mp hq))) h
    have h2 := gatherSector_flood sectors0 frm groupid sec _ line.backsector
      (fun q hq => hl q (Or.inr (Option.mem_def.mp hq))) h1.1
    have h3 := ih (gatherLine groupid st line)
      (fun l hlm => hv l (List.mem_cons_of_mem _ hlm)) h2.1
    refine ⟨h3.1, ?_, ?_, ?_⟩
    · intro q hq
      exact h3.2.1 q (h2.2.1 q (h1.2.1 q hq))
    · intro i p hp
      exact h3.2.2.1 i p (h2.2.2.1 i p (h1.2.2.1 i p hp))
    · intro l hlm q hq
      rcases List.mem_cons.mp hlm with hlm | hlm
      · subst hlm
        apply h3.2.1
        rcases hq with hq | hq
        · exact h2.2.1 q (h1.2.2.2 q (Option.mem_def.mpr hq))
        · exact h2.2.2.2 q (Option.mem_def.mpr hq)
      · exact h3.2.2.2 l hlm q hq
theorem gatherLoop_flood (sectors0 : List sector_t) (frm : Nat) (groupid : Int)
    (hv : mapValid sectors0) :
    ∀ (fuel : Nat) (sectors : List sector_t) (list : List Nat) (sec : Nat),
      FloodInv sectors0 frm groupid sec (sectors, list) →
      sectors0.length + 1 ≤ fuel + sec →
      ∃ r, gatherLoop groupid fuel sectors list sec = .ok r ∧
        FloodInv sectors0 frm groupid r.2.length r := by
  intro fuel
  induction fuel with
  | zero =>
    intro sectors list sec h hf
    have := nodup_bounded_length sectors0.length list h.2.1 h.2.2.2.1
    have := h.2.2.2.2.2.1
    simp only at this
    omega
  | succ fuel ih =>
    intro sectors list sec h hf
    rw [gatherLoop]
    cases hget : list[sec]? with
    | none =>
      refine ⟨(sectors, list), rfl, ?_⟩
      have hlen : list.length ≤ sec := by
        by_contra hcon
        rw [List.getElem?_eq_getElem (by omega)] at hget
        exact Option.noConfusion hget
      have hle : sec ≤ list.length := h.2.2.2.2.2.1
      have heq : sec = list.length := by omega
      rw [heq] at h
      exact h
    | some frm0 =>
      dsimp only
      have hlt : sec < list.length := by
        by_contra hcon
        rw [List.getElem?_eq_none (by omega)] at hget
        exact Option.noConfusion hget
      have hmem : frm0 ∈ list := List.getElem?_mem hget
      have hsl : sectorLines sectors frm0 = sectorLines sectors0 frm0 := by
        have h1 : sectors = assignAll sectors0 groupid list := h.1
        rw [h1, sectorLines_assignAll]
      have hconn : connected sectors0 frm frm0 := h.2.2.1 frm0 hmem
      have hlines : ∀ line ∈ sectorLines sectors frm0, ∀ q,
          line.frontsector = some q ∨ line.backsector = some q →
          q < sectors0.length ∧ connected sectors0 frm q := by
        intro line hl q hq
        rw [hsl] at hl
        refine ⟨?_, Relation.ReflTransGen.tail hconn ⟨line, hl, hq⟩⟩
        unfold sectorLines at hl
        cases hs : sectors0[frm0]? with
        | none => rw [hs] at hl; simp at hl
        | some s0 =>
          rw [hs] at hl
          have hval := hv s0 (List.getElem?_mem hs) line hl
          rcases hq with hq | hq
          · exact hval.1 q (Option.mem_def.mpr hq)
          · exact hval.2 q (Option.mem_def.mpr hq)
      have hfold := gatherLines_flood sectors0 frm groupid sec _ (sectors, list) hlines h
      obtain ⟨hinv, hsub, hpre, hall⟩ := hfold
      have hlen : sec + 1 ≤ ((sectorLines sectors frm0).foldl (gatherLine groupid)
          (sectors, list)).2.length := by
        have h1 := hpre sec frm0 hget
        by_contra hcon
        rw [List.getElem?_eq_none (by omega)] at h1
        exact Option.noConfusion h1
      apply ih _ _ (sec + 1) _ (by omega)
      obtain ⟨h1, h2, h3, h4, h5, _, h7⟩ := hinv
      refine ⟨h1, h2, h3, h4, h5, hlen, ?_⟩
      intro i p hi hp q hadj
      by_cases his : i < sec
      · exact h7 i p his hp q hadj
      · have hieq : i = sec := by omega
        subst hieq
        have h1 := hpre i frm0 hget
        rw [h1] at hp
        have hpe : frm0 = p := Option.some.inj hp
        subst hpe
        obtain ⟨line, hl, hq⟩ := hadj
        rw [← hsl] at hl
        exact hall line hl q hq

theorem flood_closed (sectors0 : List sector_t) (frm : Nat) (groupid : Int)
    (st : List sector_t × List Nat) (h : FloodInv sectors0 frm groupid st.2.length st) :
    ∀ q, q ∈ st.2 ↔ connected sectors0 frm q := by
  intro q
  constructor
  · exact h.2.2.1 q
  · intro hc
    induction hc with
    | refl => exact h.2.2.2.2.1
    | tail _ hadj ih =>
      obtain ⟨i, hi, hget⟩ := List.getElem_of_mem ih
      exact h.2.2.2.2.2.2 i _ hi (by rw [List.getElem?_eq_getElem hi, hget]) _ hadj

theorem P_CreatePortalGroup_flood (s : PState) (frm : Nat) (sec : sector_t)
    (hsec : s.sectors[frm]? = some sec) (hg : sec.groupid = R_NOGROUP)
    (hv : mapValid s.sectors) (hlim : s.groupcount ≤ s.grouplimit) :
    ∃ s2 list, P_CreatePortalGroup s frm = .ok (s2, (s.groupcount : Int)) ∧
      s2.groupcount = s.groupcount + 1 ∧
      (∀ q, q ∈ list ↔ connected s.sectors frm q) ∧
      list.Nodup ∧
      s2.sectors = assignAll s.sectors s.groupcount list ∧
      s2.groups.getD s.groupcount none = some { seclist := list } ∧
      (∀ q ∈ list, q < s.sectors.length) := by
  have hfrm : frm < s.sectors.length := by
    by_contra hcon
    rw [List.getElem?_eq_none (by omega)] at hsec
    exact Option.noConfusion hsec
  have hinv0 : FloodInv s.sectors frm (s.groupcount : Int) 0
      (R_SetSectorGroupID s.sectors frm s.groupcount, [frm]) := by
    refine ⟨rfl, List.nodup_singleton frm, ?_, ?_, List.mem_singleton_self frm,
      Nat.zero_le _, ?_⟩
    · intro x hx
      rw [List.mem_singleton.mp hx]; exact Relation.ReflTransGen.refl
    · intro x hx
      rw [List.mem_singleton.mp hx]; exact hfrm
    · intro i p hi
      omega
  obtain ⟨r, hr, hinv⟩ := gatherLoop_flood s.sectors frm (s.groupcount : Int) hv
    (s.sectors.length + 1) _ [frm] 0 hinv0 (by omega)
  have hlt : s.groupcount < (s.groups ++ List.replicate
      ((if s.groupcount = s.grouplimit then (if s.grouplimit ≠ 0 then s.grouplimit <<< 1 else 8)
        else s.grouplimit) - s.groups.length) none).length := by
    rw [List.length_append, List.length_replicate]
    have : s.groupcount < (if s.groupcount = s.grouplimit then
        (if s.grouplimit ≠ 0 then s.grouplimit <<< 1 else 8) else s.grouplimit) := by
      split_ifs with h1 h2
      · rw [Nat.shiftLeft_eq]; omega
      · omega
      · omega
    omega
  have hgrp : ((s.groups ++ List.replicate
      ((if s.groupcount = s.grouplimit then (if s.grouplimit ≠ 0 then s.grouplimit <<< 1 else 8)
        else s.grouplimit) - s.groups.length) none).set s.groupcount
        (some { seclist := [] })).getD (s.groupcount : Int).toNat none
      = some ({ seclist := [] } : pgroup_t) := by
    rw [Int.toNat_ofNat]
    exact getD_set_self _ _ _ hlt
  unfold P_CreatePortalGroup
  rw [hsec]
  dsimp only
  rw [if_neg (not_not.mpr hg)]
  unfold P_GatherSectors
  dsimp only
  have hrange : ¬ ((s.groupcount : Int) < 0 ∨
      (s.groupcount : Int) ≥ ((s.groupcount + 1 : Nat) : Int)) := by omega
  rw [if_neg hrange, hsec]
  dsimp only
  rw [if_neg (not_not.mpr hg), hr]
  obtain ⟨r1, r2⟩ := r
  dsimp only
  rw [hgrp]
  refine ⟨_, r2, rfl, rfl, flood_closed s.sectors frm _ (r1, r2) hinv, hinv.2.1, hinv.1, ?_,
    hinv.2.2.2.1⟩
  dsimp only
  rw [Int.toNat_ofNat]
  rw [getD_set_self]
  · rfl
  · rw [List.length_set]; exact hlt

/-! ## The states that calls of `P_CreatePortalGroup` reach -/

theorem adjacent_assignAll (sectors : List sector_t) (g : Int) (l : List Nat) (p q : Nat) :
    adjacent (assignAll sectors g l) p q ↔ adjacent sectors p q := by
  unfold adjacent
  rw [sectorLines_assignAll]

theorem sectorLines_mem (sectors : List sector_t) (p : Nat) (line : line_t)
    (h : line ∈ sectorLines sectors p) :
    ∃ sec, sectors[p]? = some sec ∧ line ∈ sec.lines := by
  unfold sectorLines at h
  cases hp : sectors[p]? with
  | none => rw [hp] at h; exact absurd h (List.not_mem_nil _)
  | some sec => rw [hp] at h; exact ⟨sec, rfl, h⟩

theorem adjacent_lt (sectors : List sector_t) (hv : mapValid sectors) (p q : Nat)
    (h : adjacent sectors p q) : p < sectors.length ∧ q < sectors.length := by
  obtain ⟨line, hl, hq⟩ := h
  obtain ⟨sec, hsec, hmem⟩ := sectorLines_mem sectors p line hl
  have hv1 := hv sec (List.getElem?_mem hsec) line hmem
  refine ⟨(List.getElem?_eq_some_iff.1 hsec).1, ?_⟩
  rcases hq with hq | hq
  · exact hv1.1 q (by rw [hq]; rfl)
  · exact hv1.2 q (by rw [hq]; rfl)

theorem adjacent_symm (sectors : List sector_t) (hv : mapValid sectors)
    (hsh : linesShared sectors) (p q : Nat) (h : adjacent sectors p q) :
    adjacent sectors q p := by
  have hlt := (adjacent_lt sectors hv p q h).1
  obtain ⟨line, hl, hq⟩ := h
  have hs := hsh p hlt line hl
  rcases hq with hq | hq
  · have h1 := hs.1
    rw [hq] at h1
    exact h1
  · have h2 := hs.2
    rw [hq] at h2
    exact h2

theorem connected_symm (sectors : List sector_t) (hv : mapValid sectors)
    (hsh : linesShared sectors) (p q : Nat) (h : connected sectors p q) :
    connected sectors q p := by
  unfold connected at h ⊢
  induction h with
  | refl => exact Relation.ReflTransGen.refl
  | tail _ hadj ih =>
    exact Relation.ReflTransGen.head (adjacent_symm sectors hv hsh _ _ hadj) ih

theorem groupsClosed_connected (sectors : List sector_t) (hcl : groupsClosed sectors)
    (p q : Nat) (secp : sector_t) (hp : sectors[p]? = some secp)
    (hg : secp.groupid ≠ R_NOGROUP) (h : connected sectors p q) :
    ∃ secq, sectors[q]? = some secq ∧ secq.groupid ≠ R_NOGROUP := by
  unfold connected at h
  induction h with
  | refl => exact ⟨secp, hp, hg⟩
  | tail _ hadj ih =>
    obtain ⟨secb, hb, hgb⟩ := ih
    exact hcl _ _ secb hb hgb hadj

theorem flood_reaches_ungrouped (sectors : List sector_t) (hv : mapValid sectors)
    (hsh : linesShared sectors) (hcl : groupsClosed sectors) (frm q : Nat)
    (sec secq : sector_t) (hsec : sectors[frm]? = some sec) (hg : sec.groupid = R_NOGROUP)
    (hc : connected sectors frm q) (hq : sectors[q]? = some secq) :
    secq.groupid = R_NOGROUP := by
  by_contra hcon
  obtain ⟨sec2, h1, h2⟩ := groupsClosed_connected sectors hcl q frm secq hq hcon
    (connected_symm sectors hv hsh frm q hc)
  rw [hsec] at h1
  injection h1 with h1
  subst h1
  exact h2 hg

theorem mapValid_assignAll (sectors : List sector_t) (g : Int) (l : List Nat)
    (hv : mapValid sectors) : mapValid (assignAll sectors g l) := by
  intro sec hsec
  obtain ⟨i, hi, hget⟩ := List.getElem_of_mem hsec
  have hsome : (assignAll sectors g l)[i]? = some sec := by
    rw [List.getElem?_eq_getElem hi, hget]
  rw [assignAll_length]
  rw [assignAll_get] at hsome
  have hlt : i < sectors.length := by rw [assignAll_length] at hi; exact hi
  have hold : sectors[i]? = some sectors[i] := List.getElem?_eq_getElem hlt
  have hvi := hv sectors[i] (List.getElem?_mem hold)
  rw [hold] at hsome
  split at hsome
  · simp only [Option.map_some', Option.some.injEq] at hsome
    rw [← hsome]
    exact hvi
  · injection hsome with hsome
    rw [← hsome]
    exact hvi

theorem linesShared_assignAll (sectors : List sector_t) (g : Int) (l : List Nat)
    (hsh : linesShared sectors) : linesShared (assignAll sectors g l) := by
  intro p hp line hl
  rw [assignAll_length] at hp
  rw [sectorLines_assignAll] at hl
  have hs := hsh p hp line hl
  constructor
  · cases hf : line.frontsector with
    | none => trivial
    | some q =>
      have h1 := hs.1
      rw [hf] at h1
      exact (adjacent_assignAll sectors g l q p).mpr h1
  · cases hb : line.backsector with
    | none => trivial
    | some q =>
      have h2 := hs.2
      rw [hb] at h2
      exact (adjacent_assignAll sectors g l q p).mpr h2

theorem groupsClosed_assignAll (sectors : List sector_t) (hv : mapValid sectors)
    (hcl : groupsClosed sectors) (g : Int) (hg : g ≠ R_NOGROUP) (frm : Nat) (l : List Nat)
    (hl : ∀ q, q ∈ l ↔ connected sectors frm q) : groupsClosed (assignAll sectors g l) := by
  intro p q secp hp hgp hadj
  rw [adjacent_assignAll] at hadj
  have hq := (adjacent_lt sectors hv p q hadj).2
  have hold : sectors[q]? = some sectors[q] := List.getElem?_eq_getElem hq
  by_cases hql : q ∈ l
  · refine ⟨{ sectors[q] with groupid := g }, ?_, hg⟩
    rw [assignAll_get, if_pos hql, hold]
    rfl
  · have hpl : p ∉ l := by
      intro hpl
      exact hql ((hl q).mpr (Relation.ReflTransGen.tail ((hl p).mp hpl) hadj))
    rw [assignAll_get, if_neg hpl] at hp
    obtain ⟨secq, h1, h2⟩ := hcl p q secp hp hgp hadj
    exact ⟨secq, by rw [assignAll_get, if_neg hql]; exact h1, h2⟩

theorem P_GatherSectors_counts (s : PState) (frm : Nat) (groupid : Int) (s2 : PState)
    (h : P_GatherSectors s frm groupid = .ok s2) :
    s2.groupcount = s.groupcount ∧ s2.grouplimit = s.grouplimit := by
  unfold P_GatherSectors at h
  repeat' split at h
  all_goals first
    | exact Except.noConfusion h
    | (cases h; exact ⟨rfl, rfl⟩)

theorem P_GatherSectors_flood (s : PState) (frm : Nat) (groupid : Int) (s2 : PState)
    (sec : sector_t) (hsec : s.sectors[frm]? = some sec) (hv : mapValid s.sectors)
    (h : P_GatherSectors s frm groupid = .ok s2) :
    (sec.groupid ≠ R_NOGROUP → s2 = s) ∧
    (sec.groupid = R_NOGROUP →
      ∃ list, (∀ q, q ∈ list ↔ connected s.sectors frm q) ∧
        s2.sectors = assignAll s.sectors groupid list) := by
  have hfrm : frm < s.sectors.length := (List.getElem?_eq_some_iff.1 hsec).1
  unfold P_GatherSectors at h
  split at h
  · exact Except.noConfusion h
  · rw [hsec] at h
    dsimp only at h
    by_cases hg : sec.groupid = R_NOGROUP
    · rw [if_neg (not_not.mpr hg)] at h
      refine ⟨fun hn => absurd hg hn, fun _ => ?_⟩
      have hinv0 : FloodInv s.sectors frm groupid 0
          (R_SetSectorGroupID s.sectors frm groupid, [frm]) := by
        refine ⟨rfl, List.nodup_singleton frm, ?_, ?_, List.mem_singleton_self frm,
          Nat.zero_le _, ?_⟩
        · intro x hx
          rw [List.mem_singleton.mp hx]; exact Relation.ReflTransGen.refl
        · intro x hx
          rw [List.mem_singleton.mp hx]; exact hfrm
        · intro i p hi
          omega
      obtain ⟨r, hr, hinv⟩ := gatherLoop_flood s.sectors frm groupid hv
        (s.sectors.length + 1) _ [frm] 0 hinv0 (by omega)
      rw [hr] at h
      obtain ⟨r1, r2⟩ := r
      dsimp only at h
      split at h
      · exact Except.noConfusion h
      · cases h
        exact ⟨r2, flood_closed s.sectors frm groupid (r1, r2) hinv, hinv.1⟩
    · rw [if_pos hg] at h
      cases h
      exact ⟨fun _ => rfl, fun hn => absurd hn hg⟩

theorem P_CreatePortalGroup_limit (s : PState) (frm : Nat) (s2 : PState) (g : Int)
    (h : P_CreatePortalGroup s frm = .ok (s2, g)) (hlim : s.groupcount ≤ s.grouplimit) :
    s2.groupcount ≤ s2.grouplimit := by
  unfold P_CreatePortalGroup at h
  split at h
  · exact Except.noConfusion h
  · dsimp only at h
    split at h
    · cases h
      exact hlim
    · split at h
      · exact Except.noConfusion h
      · rename_i s3 hgs
        cases h
        obtain ⟨h1, h2⟩ := P_GatherSectors_counts _ _ _ _ hgs
        rw [h1, h2]
        dsimp only
        split_ifs with h3 h4
        · rw [Nat.shiftLeft_eq]; omega
        · omega
        · omega

theorem moveLink_same (s : PState) (a b dx dy : Int) :
    (moveLink s a b dx dy).sectors = s.sectors ∧
      (moveLink s a b dx dy).groupcount = s.groupcount ∧
      (moveLink s a b dx dy).grouplimit = s.grouplimit := by
  unfold moveLink
  split <;> exact ⟨rfl, rfl, rfl⟩

theorem foldl_same {α : Type} (f : PState → α → PState)
    (hf : ∀ s i, (f s i).sectors = s.sectors ∧ (f s i).groupcount = s.groupcount ∧
      (f s i).grouplimit = s.grouplimit) :
    ∀ (l : List α) (s : PState), (l.foldl f s).sectors = s.sectors ∧
      (l.foldl f s).groupcount = s.groupcount ∧ (l.foldl f s).grouplimit = s.grouplimit := by
  intro l
  induction l with
  | nil => intro s; exact ⟨rfl, rfl, rfl⟩
  | cons i rest ih =>
    intro s
    obtain ⟨h1, h2, h3⟩ := ih (f s i)
    obtain ⟨g1, g2, g3⟩ := hf s i
    exact ⟨h1.trans g1, h2.trans g2, h3.trans g3⟩

theorem P_MoveLinkedPortal_same (s : PState) (portal : portal_t) (dx dy : Int)
    (movebehind : Bool) :
    (P_MoveLinkedPortal s portal dx dy movebehind).1.sectors = s.sectors ∧
      (P_MoveLinkedPortal s portal dx dy movebehind).1.groupcount = s.groupcount ∧
      (P_MoveLinkedPortal s portal dx dy movebehind).1.grouplimit = s.grouplimit := by
  unfold P_MoveLinkedPortal
  dsimp only
  apply foldl_same
  intro st i
  split
  · exact moveLink_same st _ _ dx dy
  · exact moveLink_same st _ _ dx dy

theorem P_BuildLinkTable_same (s : PState) (b : Bool) (s2 : PState)
    (h : P_BuildLinkTable s = .ok (b, s2)) :
    (s2.sectors = s.sectors ∨ s2.sectors = assignGroupZero s.sectors) ∧
      s2.groupcount = s.groupcount ∧ s2.grouplimit = s.grouplimit := by
  unfold P_BuildLinkTable at h
  dsimp only at h
  repeat' split at h
  all_goals first
    | exact Except.noConfusion h
    | (cases h; exact ⟨Or.inl rfl, rfl, rfl⟩)
    | (cases h; exact ⟨Or.inr rfl, rfl, rfl⟩)

theorem zeroStep_cases (sectors : List sector_t) (i : Nat) :
    (match sectors[i]? with
      | some sec => if sec.groupid = R_NOGROUP then R_SetSectorGroupID sectors i 0 else sectors
      | none => sectors) = sectors ∨
    (match sectors[i]? with
      | some sec => if sec.groupid = R_NOGROUP then R_SetSectorGroupID sectors i 0 else sectors
      | none => sectors) = assignAll sectors 0 [i] := by
  split
  · split
    · exact Or.inr rfl
    · exact Or.inl rfl
  · exact Or.inl rfl

theorem zeroStep_grouped (sectors : List sector_t) (i j : Nat) (sec0 : sector_t)
    (h0 : sectors[j]? = some sec0) (hg : i = j ∨ sec0.groupid ≠ R_NOGROUP) :
    ∃ sec, (match sectors[i]? with
      | some sec => if sec.groupid = R_NOGROUP then R_SetSectorGroupID sectors i 0 else sectors
      | none => sectors)[j]? = some sec ∧ sec.groupid ≠ R_NOGROUP := by
  split
  · rename_i sec hsec
    split
    · rename_i hno
      rw [R_SetSectorGroupID_get]
      by_cases hij : i = j
      · rw [if_pos hij, h0]
        exact ⟨_, rfl, by show (0 : Int) ≠ -1; decide⟩
      · rw [if_neg hij]
        rcases hg with hg | hg
        · exact absurd hg hij
        · exact ⟨sec0, h0, hg⟩
    · rename_i hno
      rcases hg with hg | hg
      · subst hg
        rw [h0] at hsec
        injection hsec with hsec
        subst hsec
        exact ⟨sec0, h0, hno⟩
      · exact ⟨sec0, h0, hg⟩
  · rename_i hnone
    rcases hg with hg | hg
    · subst hg
      rw [h0] at hnone
      exact Option.noConfusion hnone
    · exact ⟨sec0, h0, hg⟩

theorem zeroLoop_spec (l : List Nat) :
    ∀ (sectors : List sector_t), mapValid sectors → linesShared sectors →
      mapValid (l.foldl (fun sectors i =>
        match sectors[i]? with
        | some sec => if sec.groupid = R_NOGROUP then R_SetSectorGroupID sectors i 0 else sectors
        | none => sectors) sectors) ∧
      linesShared (l.foldl (fun sectors i =>
        match sectors[i]? with
        | some sec => if sec.groupid = R_NOGROUP then R_SetSectorGroupID sectors i 0 else sectors
        | none => sectors) sectors) ∧
      (l.foldl (fun sectors i =>
        match sectors[i]? with
        | some sec => if sec.groupid = R_NOGROUP then R_SetSectorGroupID sectors i 0 else sectors
        | none => sectors) sectors).length = sectors.length ∧
      ∀ (j : Nat) (sec0 : sector_t), sectors[j]? = some sec0 →
        j ∈ l ∨ sec0.groupid ≠ R_NOGROUP →
        ∃ sec, (l.foldl (fun sectors i =>
          match sectors[i]? with
          | some sec =>
            if sec.groupid = R_NOGROUP then R_SetSectorGroupID sectors i 0 else sectors
          | none => sectors) sectors)[j]? = some sec ∧ sec.groupid ≠ R_NOGROUP := by
  induction l with
  | nil =>
    intro sectors hv hsh
    refine ⟨hv, hsh, rfl, ?_⟩
    intro j sec0 h0 hg
    rcases hg with hg | hg
    · exact absurd hg (List.not_mem_nil _)
    · exact ⟨sec0, h0, hg⟩
  | cons i rest ih =>
    intro sectors hv hsh
    have hstep : mapValid (match sectors[i]? with
        | some sec => if sec.groupid = R_NOGROUP then R_SetSectorGroupID sectors i 0 else sectors
        | none => sectors) ∧
      linesShared (match sectors[i]? with
        | some sec => if sec.groupid = R_NOGROUP then R_SetSectorGroupID sectors i 0 else sectors
        | none => sectors) ∧
      (match sectors[i]? with
        | some sec => if sec.groupid = R_NOGROUP then R_SetSectorGroupID sectors i 0 else sectors
        | none => sectors).length = sectors.length := by
      rcases zeroStep_cases sectors i with e | e
      · rw [e]; exact ⟨hv, hsh, rfl⟩
      · rw [e]
        exact ⟨mapValid_assignAll _ _ _ hv, linesShared_assignAll _ _ _ hsh,
          assignAll_length _ _ _⟩
    obtain ⟨g1, g2, g3, g4⟩ := ih _ hstep.1 hstep.2.1
    refine ⟨g1, g2, g3.trans hstep.2.2, ?_⟩
    intro j sec0 h0 hg
    by_cases hij : i = j ∨ sec0.groupid ≠ R_NOGROUP
    · obtain ⟨sec1, k1, k2⟩ := zeroStep_grouped sectors i j sec0 h0 hij
      exact g4 j sec1 k1 (Or.inr k2)
    · have hjr : j ∈ rest := by
        rcases hg with hg | hg
        · rcases List.mem_cons.mp hg with e | e
          · exact absurd (Or.inl e.symm) hij
          · exact e
        · exact absurd (Or.inr hg) hij
      have hlt : j < sectors.length := (List.getElem?_eq_some_iff.1 h0).1
      have hsome : (match sectors[i]? with
          | some sec =>
            if sec.groupid = R_NOGROUP then R_SetSectorGroupID sectors i 0 else sectors
          | none => sectors)[j]? = some ((match sectors[i]? with
          | some sec =>
            if sec.groupid = R_NOGROUP then R_SetSectorGroupID sectors i 0 else sectors
          | none => sectors).get ⟨j, by rw [hstep.2.2]; exact hlt⟩) :=
        List.getElem?_eq_getElem _
      exact g4 j _ hsome (Or.inl hjr)

theorem assignGroupZero_inv (sectors : List sector_t) (hv : mapValid sectors)
    (hsh : linesShared sectors) :
    mapValid (assignGroupZero sectors) ∧ linesShared (assignGroupZero sectors) ∧
      groupsClosed (assignGroupZero sectors) := by
  obtain ⟨g1, g2, g3, g4⟩ := zeroLoop_spec (List.range sectors.length) sectors hv hsh
  refine ⟨g1, g2, ?_⟩
  intro p q secp _ _ hadj
  have hq := (adjacent_lt _ g1 p q hadj).2
  unfold assignGroupZero at hq
  rw [g3] at hq
  exact g4 q sectors[q] (List.getElem?_eq_getElem hq) (Or.inl (List.mem_range.mpr hq))

theorem GroupStep_inv (s s2 : PState) (h : GroupStep s s2)
    (hinv : mapValid s.sectors ∧ linesShared s.sectors ∧ s.groupcount ≤ s.grouplimit ∧
      groupsClosed s.sectors) :
    mapValid s2.sectors ∧ linesShared s2.sectors ∧ s2.groupcount ≤ s2.grouplimit ∧
      groupsClosed s2.sectors := by
  obtain ⟨hv, hsh, hlim, hcl⟩ := hinv
  cases h with
  | create frm _ g hc =>
    have hlim2 := P_CreatePortalGroup_limit s frm s2 g hc hlim
    cases hsec : s.sectors[frm]? with
    | none =>
      unfold P_CreatePortalGroup at hc
      rw [hsec] at hc
      exact Except.noConfusion hc
    | some sec =>
      by_cases hg : sec.groupid = R_NOGROUP
      · obtain ⟨s3, list, h1, _, h3, _, h5, _, _⟩ :=
          P_CreatePortalGroup_flood s frm sec hsec hg hv hlim
        rw [h1] at hc
        cases hc
        rw [h5]
        exact ⟨mapValid_assignAll _ _ _ hv, linesShared_assignAll _ _ _ hsh, hlim2,
          groupsClosed_assignAll _ hv hcl _ (by unfold R_NOGROUP; omega) frm list h3⟩
      · rw [P_CreatePortalGroup_grouped s frm sec hsec hg] at hc
        cases hc
        exact ⟨hv, hsh, hlim, hcl⟩
  | build b _ hb =>
    obtain ⟨h1, h2, h3⟩ := P_BuildLinkTable_same s b s2 hb
    rw [h2, h3]
    rcases h1 with e | e
    · rw [e]; exact ⟨hv, hsh, hlim, hcl⟩
    · rw [e]
      obtain ⟨g1, g2, g3⟩ := assignGroupZero_inv s.sectors hv hsh
      exact ⟨g1, g2, hlim, g3⟩
  | move portal dx dy movebehind =>
    obtain ⟨h1, h2, h3⟩ := P_MoveLinkedPortal_same s portal dx dy movebehind
    rw [h1, h2, h3]
    exact ⟨hv, hsh, hlim, hcl⟩

theorem noGroups_closed (sectors : List sector_t) (h : noGroups sectors) :
    groupsClosed sectors := by
  intro p q secp hp hg
  exact absurd (h secp (List.getElem?_mem hp)) hg

theorem Grouping_inv (s0 s : PState) (h : Grouping s0 s)
    (hinv : mapValid s0.sectors ∧ linesShared s0.sectors ∧ s0.groupcount ≤ s0.grouplimit ∧
      groupsClosed s0.sectors) :
    mapValid s.sectors ∧ linesShared s.sectors ∧ s.groupcount ≤ s.grouplimit ∧
      groupsClosed s.sectors := by
  unfold Grouping at h
  induction h with
  | refl => exact hinv
  | tail _ hstep ih => exact GroupStep_inv _ _ hstep ih

/-! ## The portal windows: how `R_WindowAdd` unfolds, and what it maintains -/

theorem colStore_length {α : Type} (buf : List α) (x : Int) (v : α) :
    (colStore buf x v).length = buf.length := by
  unfold colStore
  split
  · exact List.length_set _ _ _
  · rfl

section windows

variable {F : Type} [LinearOrderedCommRing F]

theorem R_WindowAdd_drop (fuel : Nat) (rs : RState F) (w : pwindow_t F)
    (child next : pwindowptr F) (x : Int) (ytop ybottom : F)
    (h : ybottom < 0 ∨ ytop ≥ rs.view_height) :
    R_WindowAdd (fuel + 1) rs (.window w child next) x ytop ybottom
      = .ok (rs, .window w child next) := by
  rw [R_WindowAdd]
  exact if_pos h

theorem R_WindowAdd_store (fuel : Nat) (rs : RState F) (w : pwindow_t F)
    (child next : pwindowptr F) (x : Int) (ytop ybottom : F)
    (hd : ¬ (ybottom < 0 ∨ ytop ≥ rs.view_height)) (hin : x ≤ w.maxx ∧ x ≥ w.minx)
    (hun : colRead w.top x > colRead w.bottom x) :
    R_WindowAdd (fuel + 1) rs (.window w child next) x ytop ybottom
      = .ok (rs, .window { w with top := colStore w.top x ytop,
                                  bottom := colStore w.bottom x ybottom } child next) := by
  rw [R_WindowAdd]
  dsimp only
  rw [if_neg hd, if_pos hin, if_pos hun]

theorem R_WindowAdd_union (fuel : Nat) (rs : RState F) (w : pwindow_t F)
    (child next : pwindowptr F) (x : Int) (ytop ybottom : F)
    (hd : ¬ (ybottom < 0 ∨ ytop ≥ rs.view_height)) (hin : x ≤ w.maxx ∧ x ≥ w.minx)
    (hocc : ¬ colRead w.top x > colRead w.bottom x)
    (hov : ¬ (ytop > colRead w.bottom x ∨ ybottom < colRead w.top x)) :
    R_WindowAdd (fuel + 1) rs (.window w child next) x ytop ybottom
      = .ok (rs, .window
          { w with top := if ytop < colRead w.top x then colStore w.top x ytop else w.top,
                   bottom := if ybottom > colRead w.bottom x then colStore w.bottom x ybottom
                             else w.bottom } child next) := by
  rw [R_WindowAdd]
  dsimp only
  rw [if_neg hd, if_pos hin, if_neg hocc, if_neg hov]
  by_cases h1 : ytop < colRead w.top x <;> by_cases h2 : ybottom > colRead w.bottom x <;>
    simp [h1, h2]

theorem R_WindowAdd_child (fuel : Nat) (rs rs1 rs2 : RState F) (w w1 : pwindow_t F)
    (child next child1 next1 child2 : pwindowptr F) (x : Int) (ytop ybottom : F)
    (hd : ¬ (ybottom < 0 ∨ ytop ≥ rs.view_height)) (hin : x ≤ w.maxx ∧ x ≥ w.minx)
    (hocc : ¬ colRead w.top x > colRead w.bottom x)
    (hdis : ytop > colRead w.bottom x ∨ ybottom < colRead w.top x)
    (h1 : ensureChild rs (.window w child next) = .ok (rs1, .window w1 child1 next1))
    (h2 : R_WindowAdd fuel rs1 child1 x ytop ybottom = .ok (rs2, child2)) :
    R_WindowAdd (fuel + 1) rs (.window w child next) x ytop ybottom
      = .ok (rs2, .window w1 child2 next1) := by
  rw [R_WindowAdd]
  dsimp only
  rw [if_neg hd, if_pos hin, if_neg hocc, if_pos hdis, h1]
  dsimp only
  rw [h2]

theorem R_WindowAdd_child_error (fuel : Nat) (rs rs1 : RState F) (w w1 : pwindow_t F)
    (child next child1 next1 : pwindowptr F) (x : Int) (ytop ybottom : F) (e : perr)
    (hd : ¬ (ybottom < 0 ∨ ytop ≥ rs.view_height)) (hin : x ≤ w.maxx ∧ x ≥ w.minx)
    (hocc : ¬ colRead w.top x > colRead w.bottom x)
    (hdis : ytop > colRead w.bottom x ∨ ybottom < colRead w.top x)
    (h1 : ensureChild rs (.window w child next) = .ok (rs1, .window w1 child1 next1))
    (h2 : R_WindowAdd fuel rs1 child1 x ytop ybottom = .error e) :
    R_WindowAdd (fuel + 1) rs (.window w child next) x ytop ybottom = .error e := by
  rw [R_WindowAdd]
  dsimp only
  rw [if_neg hd, if_pos hin, if_neg hocc, if_pos hdis, h1]
  dsimp only
  rw [h2]

theorem R_WindowAdd_first (fuel : Nat) (rs : RState F) (w : pwindow_t F)
    (child next : pwindowptr F) (x : Int) (ytop ybottom : F)
    (hd : ¬ (ybottom < 0 ∨ ytop ≥ rs.view_height)) (hin : ¬ (x ≤ w.maxx ∧ x ≥ w.minx))
    (hem : w.minx > w.maxx) :
    R_WindowAdd (fuel + 1) rs (.window w child next) x ytop ybottom
      = .ok (rs, .window { w with minx := x, maxx := x, top := colStore w.top x ytop,
                                  bottom := colStore w.bottom x ybottom, vx := rs.viewx,
                                  vy := rs.viewy, vz := rs.viewz, vangle := rs.viewangle }
                 child next) := by
  rw [R_WindowAdd]
  dsimp only
  rw [if_neg hd, if_neg hin, if_pos hem]

theorem R_WindowAdd_right (fuel : Nat) (rs : RState F) (w : pwindow_t F)
    (child next : pwindowptr F) (x : Int) (ytop ybottom : F)
    (hd : ¬ (ybottom < 0 ∨ ytop ≥ rs.view_height))
    (hne : ¬ w.minx > w.maxx) (hx : x > w.maxx) :
    R_WindowAdd (fuel + 1) rs (.window w child next) x ytop ybottom
      = .ok (rs, .window { w with maxx := x, top := colStore w.top x ytop,
                                  bottom := colStore w.bottom x ybottom } child next) := by
  rw [R_WindowAdd]
  dsimp only
  rw [if_neg hd, if_neg (by omega), if_neg hne, if_pos hx]

theorem R_WindowAdd_left (fuel : Nat) (rs : RState F) (w : pwindow_t F)
    (child next : pwindowptr F) (x : Int) (ytop ybottom : F)
    (hd : ¬ (ybottom < 0 ∨ ytop ≥ rs.view_height))
    (hne : ¬ w.minx > w.maxx) (hx : x < w.minx) :
    R_WindowAdd (fuel + 1) rs (.window w child next) x ytop ybottom
      = .ok (rs, .window { w with minx := x, top := colStore w.top x ytop,
                                  bottom := colStore w.bottom x ybottom } child next) := by
  rw [R_WindowAdd]
  dsimp only
  rw [if_neg hd, if_neg (by omega), if_neg hne, if_neg (by omega), if_pos hx]

theorem setAll_length {α : Type} (v : α) (n : Nat) (l : List α) :
    ((List.range n).foldl (fun t i => t.set i v) l).length = l.length := by
  induction n with
  | zero => rfl
  | succ n ih =>
    rw [List.range_succ, List.foldl_append]
    show (((List.range n).foldl (fun t i => t.set i v) l).set n v).length = _
    rw [List.length_set, ih]

theorem setAll_get {α : Type} (v : α) (n : Nat) (l : List α) (i : Nat) :
    ((List.range n).foldl (fun t i => t.set i v) l)[i]?
      = if i < n then (l[i]?).map (fun _ => v) else l[i]? := by
  induction n with
  | zero => simp
  | succ n ih =>
    rw [List.range_succ, List.foldl_append]
    show (((List.range n).foldl (fun t i => t.set i v) l).set n v)[i]? = _
    rw [List.getElem?_set, setAll_length]
    by_cases hni : n = i
    · subst hni
      rw [if_pos rfl, if_pos (Nat.lt_succ_self n)]
      by_cases hl : n < l.length
      · rw [if_pos hl, List.getElem?_eq_getElem hl]; rfl
      · rw [if_neg hl, List.getElem?_eq_none (by omega)]; rfl
    · rw [if_neg hni, ih]
      by_cases hin : i < n
      · rw [if_pos hin, if_pos (by omega)]
      · rw [if_neg hin, if_neg (by omega)]

theorem setAll_full {α : Type} (v : α) (l : List α) :
    (List.range l.length).foldl (fun t i => t.set i v) l = List.replicate l.length v := by
  apply List.ext_getElem?
  intro i
  rw [setAll_get]
  by_cases hi : i < l.length
  · rw [if_pos hi, List.getElem?_eq_getElem hi, List.getElem?_replicate, if_pos hi]; rfl
  · rw [if_neg hi, List.getElem?_eq_none (by omega), List.getElem?_replicate, if_neg hi]

theorem clearColumns_eq (vh : F) (n : Nat) (w : pwindow_t F) :
    clearColumns vh n w
      = { w with top := (List.range n).foldl (fun t i => t.set i vh) w.top,
                 bottom := (List.range n).foldl (fun t i => t.set i (-1)) w.bottom } := by
  induction n with
  | zero => rfl
  | succ n ih =>
    have h : clearColumns vh (n + 1) w
        = { clearColumns vh n w with top := (clearColumns vh n w).top.set n vh,
                                     bottom := (clearColumns vh n w).bottom.set n (-1) } := by
      unfold clearColumns
      rw [List.range_succ, List.foldl_append]
      rfl
    rw [h, ih]
    simp only [List.range_succ, List.foldl_append, List.foldl_cons, List.foldl_nil]

/-- The window `R_ClearPortalWindow` leaves behind when the buffers of its
argument have `video.width` columns. -/
theorem R_ClearPortalWindow_spec (rs : RState F) (window : pwindow_t F)
    (ht : window.top.length = rs.video_width) (hb : window.bottom.length = rs.video_width) :
    R_ClearPortalWindow rs window
      = .window { window with maxx := 0, minx := rs.viewwindow_width - 1,
                              top := List.replicate rs.video_width rs.view_height,
                              bottom := List.replicate rs.video_width (-1),
                              portal := none, line := none, func := .R_RenderPortalNOP,
                              clipfunc := none, vx := 0, vy := 0, vz := 0, vangle := 0,
                              barrier := zero_barrier } .NULL .NULL := by
  unfold R_ClearPortalWindow
  dsimp only
  rw [clearColumns_eq]
  dsimp only
  have h1 := setAll_full rs.view_height window.top
  have h2 := setAll_full (-1 : F) window.bottom
  rw [ht] at h1
  rw [hb] at h2
  rw [h1, h2]

theorem newPortalWindow_fresh (rs : RState F) (hu : rs.unusedhead = .NULL) :
    newPortalWindow rs
      = (.window { addr := rs.nextaddr, portal := none, line := none, type := .pw_floor,
                   head := none, func := .R_RenderPortalNOP, clipfunc := none,
                   minx := rs.viewwindow_width - 1, maxx := 0,
                   top := List.replicate rs.video_width rs.view_height,
                   bottom := List.replicate rs.video_width (-1),
                   vx := 0, vy := 0, vz := 0, vangle := 0, barrier := zero_barrier,
                   planez := 0, up := false } .NULL .NULL,
         { rs with nextaddr := rs.nextaddr + 1 }) := by
  unfold newPortalWindow
  rw [hu]
  dsimp only
  rw [R_ClearPortalWindow_spec rs _ (List.length_replicate _ _) (List.length_replicate _ _)]

theorem newPortalWindow_reuse (rs : RState F) (h : pwindow_t F) (c n : pwindowptr F)
    (hu : rs.unusedhead = .window h c n)
    (ht : h.top.length = rs.video_width) (hb : h.bottom.length = rs.video_width) :
    newPortalWindow rs
      = (.window { h with maxx := 0, minx := rs.viewwindow_width - 1,
                          top := List.replicate rs.video_width rs.view_height,
                          bottom := List.replicate rs.video_width (-1),
                          portal := none, line := none, func := .R_RenderPortalNOP,
                          clipfunc := none, vx := 0, vy := 0, vz := 0, vangle := 0,
                          barrier := zero_barrier } .NULL .NULL,
         { rs with unusedhead := n }) := by
  unfold newPortalWindow
  rw [hu]
  dsimp only
  rw [R_ClearPortalWindow_spec rs _ ht hb]

theorem newPortalWindow_spec (rs : RState F) (hp : poolOK rs.video_width rs.unusedhead) :
    ∃ (cw : pwindow_t F) (rs1 : RState F),
      newPortalWindow rs = (.window cw .NULL .NULL, rs1) ∧
      cw.top = List.replicate rs.video_width rs.view_height ∧
      cw.bottom = List.replicate rs.video_width (-1) ∧
      cw.minx = rs.viewwindow_width - 1 ∧ cw.maxx = 0 ∧
      cw.portal = none ∧ cw.line = none ∧ cw.func = .R_RenderPortalNOP ∧ cw.clipfunc = none ∧
      cw.vx = 0 ∧ cw.vy = 0 ∧ cw.vz = 0 ∧ cw.vangle = 0 ∧ cw.barrier = zero_barrier ∧
      poolOK rs.video_width rs1.unusedhead ∧
      rs1.viewx = rs.viewx ∧ rs1.viewy = rs.viewy ∧ rs1.viewz = rs.viewz ∧
      rs1.viewangle = rs.viewangle ∧ rs1.view_height = rs.view_height ∧
      rs1.viewwindow_width = rs.viewwindow_width ∧ rs1.video_width = rs.video_width := by
  cases hu : rs.unusedhead with
  | NULL =>
    refine ⟨_, _, newPortalWindow_fresh rs hu, rfl, rfl, rfl, rfl, rfl, rfl, rfl, rfl, rfl, rfl,
      rfl, rfl, rfl, ?_, rfl, rfl, rfl, rfl, rfl, rfl, rfl⟩
    show poolOK rs.video_width rs.unusedhead
    exact hp
  | window h c n =>
    rw [hu] at hp
    obtain ⟨h1, h2, h3⟩ := hp
    exact ⟨_, _, newPortalWindow_reuse rs h c n hu h1 h2, rfl, rfl, rfl, rfl, rfl, rfl, rfl,
      rfl, rfl, rfl, rfl, rfl, rfl, h3, rfl, rfl, rfl, rfl, rfl, rfl, rfl⟩

theorem newPortalWindow_shape (rs : RState F) :
    ∃ (cw : pwindow_t F) (rs1 : RState F),
      newPortalWindow rs = (.window cw .NULL .NULL, rs1) := by
  unfold newPortalWindow
  cases rs.unusedhead with
  | NULL => exact ⟨_, _, rfl⟩
  | window h c n => exact ⟨_, _, rfl⟩

theorem R_CreateChildWindow_eq (rs rs1 : RState F) (w cw : pwindow_t F)
    (child next : pwindowptr F)
    (h : newPortalWindow rs = (.window cw .NULL .NULL, rs1)) :
    R_CreateChildWindow rs (.window w child next)
      = .ok (rs1, .window w (.window (inheritFrom w cw) .NULL .NULL) next) := by
  unfold R_CreateChildWindow
  dsimp only
  rw [h]
  rfl

theorem ensureChild_shape (rs : RState F) (w : pwindow_t F) (child next : pwindowptr F) :
    ∃ rs1 child1, ensureChild rs (.window w child next) = .ok (rs1, .window w child1 next) ∧
      ((child = .NULL ∧ ∃ cw, newPortalWindow rs = (.window cw .NULL .NULL, rs1) ∧
          child1 = .window (inheritFrom w cw) .NULL .NULL) ∨
       (child ≠ .NULL ∧ rs1 = rs ∧ child1 = child)) := by
  cases child with
  | NULL =>
    obtain ⟨cw, rs1, h⟩ := newPortalWindow_shape rs
    refine ⟨rs1, _, ?_, Or.inl ⟨rfl, cw, h, rfl⟩⟩
    show R_CreateChildWindow rs (.window w .NULL next) = _
    exact R_CreateChildWindow_eq rs rs1 w cw .NULL next h
  | window cw cc cn =>
    exact ⟨rs, _, rfl, Or.inr ⟨fun h => pwindowptr.noConfusion h, rfl, rfl⟩⟩

theorem R_WindowAdd_cases (fuel : Nat) (rs : RState F) (w : pwindow_t F)
    (child next : pwindowptr F) (x : Int) (ytop ybottom : F)
    (r : RState F × pwindowptr F)
    (h : R_WindowAdd fuel rs (.window w child next) x ytop ybottom = .ok r) :
    ((ybottom < 0 ∨ ytop ≥ rs.view_height) ∧ r = (rs, .window w child next)) ∨
    (¬ (ybottom < 0 ∨ ytop ≥ rs.view_height) ∧ (x ≤ w.maxx ∧ x ≥ w.minx) ∧
      colRead w.top x > colRead w.bottom x ∧
      r = (rs, .window { w with top := colStore w.top x ytop,
                                bottom := colStore w.bottom x ybottom } child next)) ∨
    (¬ (ybottom < 0 ∨ ytop ≥ rs.view_height) ∧ (x ≤ w.maxx ∧ x ≥ w.minx) ∧
      ¬ colRead w.top x > colRead w.bottom x ∧
      (ytop > colRead w.bottom x ∨ ybottom < colRead w.top x) ∧
      ∃ fuel1 rs1 child1 rs2 child2, fuel = fuel1 + 1 ∧
        ensureChild rs (.window w child next) = .ok (rs1, .window w child1 next) ∧
        R_WindowAdd fuel1 rs1 child1 x ytop ybottom = .ok (rs2, child2) ∧
        r = (rs2, .window w child2 next)) ∨
    (¬ (ybottom < 0 ∨ ytop ≥ rs.view_height) ∧ (x ≤ w.maxx ∧ x ≥ w.minx) ∧
      ¬ colRead w.top x > colRead w.bottom x ∧
      ¬ (ytop > colRead w.bottom x ∨ ybottom < colRead w.top x) ∧
      r = (rs, .window
        { w with top := if ytop < colRead w.top x then colStore w.top x ytop else w.top,
                 bottom := if ybottom > colRead w.bottom x then colStore w.bottom x ybottom
                           else w.bottom } child next)) ∨
    (¬ (ybottom < 0 ∨ ytop ≥ rs.view_height) ∧ ¬ (x ≤ w.maxx ∧ x ≥ w.minx) ∧
      w.minx > w.maxx ∧
      r = (rs, .window { w with minx := x, maxx := x, top := colStore w.top x ytop,
                                bottom := colStore w.bottom x ybottom, vx := rs.viewx,
                                vy := rs.viewy, vz := rs.viewz, vangle := rs.viewangle }
                 child next)) ∨
    (¬ (ybottom < 0 ∨ ytop ≥ rs.view_height) ∧ ¬ w.minx > w.maxx ∧ x > w.maxx ∧
      r = (rs, .window { w with maxx := x, top := colStore w.top x ytop,
                                bottom := colStore w.bottom x ybottom } child next)) ∨
    (¬ (ybottom < 0 ∨ ytop ≥ rs.view_height) ∧ ¬ w.minx > w.maxx ∧ x < w.minx ∧
      r = (rs, .window { w with minx := x, top := colStore w.top x ytop,
                                bottom := colStore w.bottom x ybottom } child next)) := by
  cases fuel with
  | zero =>
    rw [R_WindowAdd] at h
    exact Except.noConfusion h
  | succ fuel =>
    by_cases hd : ybottom < 0 ∨ ytop ≥ rs.view_height
    · rw [R_WindowAdd_drop fuel rs w child next x ytop ybottom hd] at h
      exact Or.inl ⟨hd, (Except.ok.inj h).symm⟩
    · by_cases hin : x ≤ w.maxx ∧ x ≥ w.minx
      · by_cases hun : colRead w.top x > colRead w.bottom x
        · rw [R_WindowAdd_store fuel rs w child next x ytop ybottom hd hin hun] at h
          exact Or.inr (Or.inl ⟨hd, hin, hun, (Except.ok.inj h).symm⟩)
        · by_cases hdis : ytop > colRead w.bottom x ∨ ybottom < colRead w.top x
          · obtain ⟨rs1, child1, he, _⟩ := ensureChild_shape rs w child next
            cases hrec : R_WindowAdd fuel rs1 child1 x ytop ybottom with
            | error e =>
              rw [R_WindowAdd_child_error fuel rs rs1 w w child next child1 next x ytop ybottom e
                hd hin hun hdis he hrec] at h
              exact Except.noConfusion h
            | ok r2 =>
              obtain ⟨rs2, child2⟩ := r2
              rw [R_WindowAdd_child fuel rs rs1 rs2 w w child next child1 next child2 x ytop
                ybottom hd hin hun hdis he hrec] at h
              exact Or.inr (Or.inr (Or.inl ⟨hd, hin, hun, hdis, fuel, rs1, child1, rs2, child2,
                rfl, he, hrec, (Except.ok.inj h).symm⟩))
          · rw [R_WindowAdd_union fuel rs w child next x ytop ybottom hd hin hun hdis] at h
            exact Or.inr (Or.inr (Or.inr (Or.inl ⟨hd, hin, hun, hdis, (Except.ok.inj h).symm⟩)))
      · by_cases hem : w.minx > w.maxx
        · rw [R_WindowAdd_first fuel rs w child next x ytop ybottom hd hin hem] at h
          exact Or.inr (Or.inr (Or.inr (Or.inr (Or.inl ⟨hd, hin, hem,
            (Except.ok.inj h).symm⟩))))
        · by_cases hx : x > w.maxx
          · rw [R_WindowAdd_right fuel rs w child next x ytop ybottom hd hem hx] at h
            exact Or.inr (Or.inr (Or.inr (Or.inr (Or.inr (Or.inl ⟨hd, hem, hx,
              (Except.ok.inj h).symm⟩)))))
          · have hx2 : x < w.minx := by omega
            rw [R_WindowAdd_left fuel rs w child next x ytop ybottom hd hem hx2] at h
            exact Or.inr (Or.inr (Or.inr (Or.inr (Or.inr (Or.inr ⟨hd, hem, hx2,
              (Except.ok.inj h).symm⟩)))))

theorem colRead_replicate (n : Nat) (v : F) (x : Int) (h0 : 0 ≤ x) (h1 : x < n) :
    colRead (List.replicate n v) x = v := by
  unfold colRead
  rw [if_pos h0, List.getD_eq_getElem?_getD, List.getElem?_replicate, if_pos (by omega)]
  rfl

theorem colRead_colStore_ne (buf : List F) (x y : Int) (v : F) (h : y ≠ x) :
    colRead (colStore buf x v) y = colRead buf y := by
  unfold colRead colStore
  by_cases hy : 0 ≤ y
  · rw [if_pos hy, if_pos hy]
    by_cases hx : 0 ≤ x
    · rw [if_pos hx, List.getD_eq_getElem?_getD, List.getD_eq_getElem?_getD,
        List.getElem?_set, if_neg (by omega)]
    · rw [if_neg hx]
  · rw [if_neg hy, if_neg hy]

theorem colRead_colStore_self (buf : List F) (x : Int) (v : F) (h0 : 0 ≤ x)
    (h1 : x < buf.length) : colRead (colStore buf x v) x = v := by
  unfold colRead colStore
  rw [if_pos h0, if_pos h0, List.getD_eq_getElem?_getD, List.getElem?_set, if_pos rfl,
    if_pos (by omega)]
  rfl

theorem fresh_add (fuel : Nat) (rs : RState F) (cw : pwindow_t F) (cnext : pwindowptr F)
    (x : Int) (ytop ybottom : F)
    (ht : cw.top = List.replicate rs.video_width rs.view_height)
    (hb : cw.bottom = List.replicate rs.video_width (-1))
    (h0 : 0 ≤ x) (h1 : x < rs.video_width) :
    ∃ cw2, R_WindowAdd (fuel + 1) rs (.window cw .NULL cnext) x ytop ybottom
      = .ok (rs, .window cw2 .NULL cnext) := by
  by_cases hd : ybottom < 0 ∨ ytop ≥ rs.view_height
  · exact ⟨_, R_WindowAdd_drop fuel rs cw .NULL cnext x ytop ybottom hd⟩
  · by_cases hin : x ≤ cw.maxx ∧ x ≥ cw.minx
    · by_cases hun : colRead cw.top x > colRead cw.bottom x
      · exact ⟨_, R_WindowAdd_store fuel rs cw .NULL cnext x ytop ybottom hd hin hun⟩
      · have hdis : ¬ (ytop > colRead cw.bottom x ∨ ybottom < colRead cw.top x) := by
          rw [ht, hb, colRead_replicate _ _ _ h0 h1, colRead_replicate _ _ _ h0 h1] at hun ⊢
          push_neg at hd hun ⊢
          constructor <;> linarith [hd.1, hd.2]
        exact ⟨_, R_WindowAdd_union fuel rs cw .NULL cnext x ytop ybottom hd hin hun hdis⟩
    · by_cases hem : cw.minx > cw.maxx
      · exact ⟨_, R_WindowAdd_first fuel rs cw .NULL cnext x ytop ybottom hd hin hem⟩
      · by_cases hx : x > cw.maxx
        · exact ⟨_, R_WindowAdd_right fuel rs cw .NULL cnext x ytop ybottom hd hem hx⟩
        · exact ⟨_, R_WindowAdd_left fuel rs cw .NULL cnext x ytop ybottom hd hem (by omega)⟩

theorem R_WindowAdd_total (x : Int) (ytop ybottom : F) :
    ∀ (fuel : Nat) (rs : RState F) (w : pwindow_t F) (child next : pwindowptr F),
      columnOK rs x → chainLength (.window w child next) < fuel →
      ∃ rs2 w2 child2, R_WindowAdd fuel rs (.window w child next) x ytop ybottom
          = .ok (rs2, .window w2 child2 next) ∧ columnOK rs2 x := by
  intro fuel
  induction fuel with
  | zero => intro rs w child next _ hf; omega
  | succ fuel ih =>
    intro rs w child next hok hf
    by_cases hd : ybottom < 0 ∨ ytop ≥ rs.view_height
    · exact ⟨_, _, _, R_WindowAdd_drop fuel rs w child next x ytop ybottom hd, hok⟩
    · by_cases hin : x ≤ w.maxx ∧ x ≥ w.minx
      · by_cases hun : colRead w.top x > colRead w.bottom x
        · exact ⟨_, _, _, R_WindowAdd_store fuel rs w child next x ytop ybottom hd hin hun, hok⟩
        · by_cases hdis : ytop > colRead w.bottom x ∨ ybottom < colRead w.top x
          · obtain ⟨rs1, child1, he, hcase⟩ := ensureChild_shape rs w child next
            rcases hcase with ⟨hnull, cw, hnew, hc1⟩ | ⟨hnn, hrs, hc1⟩
            · obtain ⟨cw0, rs0, hnew0, ht, hb, _, _, _, _, _, _, _, _, _, _, _, hpool, _, _, _,
                _, hvh, _, hvw⟩ := newPortalWindow_spec rs hok.2.2
              rw [hnew] at hnew0
              injection hnew0 with e1 e2
              injection e1 with e3 _ _
              subst e3 e2
              cases fuel with
              | zero =>
                subst hnull
                simp only [chainLength] at hf
                omega
              | succ fuel =>
                have hok1 : columnOK rs1 x := by
                  refine ⟨hok.1, ?_, ?_⟩
                  · rw [hvw]; exact hok.2.1
                  · rw [hvw]; exact hpool
                obtain ⟨cw2, hadd⟩ := fresh_add fuel rs1 (inheritFrom w cw) .NULL x ytop ybottom
                  (by rw [← hvh, ← hvw] at ht; exact ht) (by rw [← hvw] at hb; exact hb)
                  hok.1 (by rw [hvw]; exact hok.2.1)
                subst hc1
                exact ⟨_, _, _, R_WindowAdd_child (fuel + 1) rs rs1 rs1 w w child next _ next _
                  x ytop ybottom hd hin hun hdis he hadd, hok1⟩
            · subst hrs hc1
              cases child1 with
              | NULL => exact absurd rfl hnn
              | window cw cc cn =>
                obtain ⟨rs2, w2, child2, hrec, hok2⟩ := ih rs1 cw cc cn hok
                  (by simp only [chainLength] at hf ⊢; omega)
                exact ⟨_, _, _, R_WindowAdd_child fuel rs1 rs1 rs2 w w _ next _ next _
                  x ytop ybottom hd hin hun hdis he hrec, hok2⟩
          · exact ⟨_, _, _, R_WindowAdd_union fuel rs w child next x ytop ybottom hd hin hun hdis,
              hok⟩
      · by_cases hem : w.minx > w.maxx
        · exact ⟨_, _, _, R_WindowAdd_first fuel rs w child next x ytop ybottom hd hin hem, hok⟩
        · by_cases hx : x > w.maxx
          · exact ⟨_, _, _, R_WindowAdd_right fuel rs w child next x ytop ybottom hd hem hx, hok⟩
          · exact ⟨_, _, _, R_WindowAdd_left fuel rs w child next x ytop ybottom hd hem
              (by omega), hok⟩

theorem sameExcept_refl (x : Int) (buf : List F) : sameExcept x buf buf :=
  ⟨rfl, fun _ _ => rfl⟩

theorem sameExcept_store (x : Int) (buf : List F) (v : F) :
    sameExcept x buf (colStore buf x v) :=
  ⟨colStore_length buf x v, fun y hy => colRead_colStore_ne buf x y v hy⟩

theorem sameExcept_ite (x : Int) (buf : List F) (v : F) (c : Prop) [Decidable c] :
    sameExcept x buf (if c then colStore buf x v else buf) := by
  split
  · exact sameExcept_store x buf v
  · exact sameExcept_refl x buf

theorem R_WindowAdd_top (fuel : Nat) (rs : RState F) (w : pwindow_t F)
    (child next : pwindowptr F) (x : Int) (ytop ybottom : F) (rs2 : RState F)
    (p2 : pwindowptr F)
    (h : R_WindowAdd fuel rs (.window w child next) x ytop ybottom = .ok (rs2, p2)) :
    ∃ w2 child2, p2 = .window w2 child2 next ∧
      sameExcept x w.top w2.top ∧ sameExcept x w.bottom w2.bottom ∧
      (w2.addr = w.addr ∧ w2.head = w.head ∧ w2.portal = w.portal ∧ w2.line = w.line ∧
        w2.type = w.type ∧ w2.func = w.func) ∧
      (w.minx ≤ w.maxx → w2.minx ≤ w.minx ∧ w.maxx ≤ w2.maxx ∧
        w2.vx = w.vx ∧ w2.vy = w.vy ∧ w2.vz = w.vz ∧ w2.vangle = w.vangle) ∧
      (¬ (ybottom < 0 ∨ ytop ≥ rs.view_height) → w2.minx ≤ x ∧ x ≤ w2.maxx) := by
  have hid : ∀ w0 : pwindow_t F, w0.addr = w0.addr ∧ w0.head = w0.head ∧
      w0.portal = w0.portal ∧ w0.line = w0.line ∧ w0.type = w0.type ∧ w0.func = w0.func :=
    fun _ => ⟨rfl, rfl, rfl, rfl, rfl, rfl⟩
  rcases R_WindowAdd_cases fuel rs w child next x ytop ybottom _ h with
    ⟨hd, hr⟩ | ⟨hd, hin, _, hr⟩ | ⟨hd, hin, _, _, _, _, _, _, child2, _, _, _, hr⟩ |
    ⟨hd, hin, _, _, hr⟩ | ⟨hd, hin, hem, hr⟩ | ⟨hd, hne, hx, hr⟩ | ⟨hd, hne, hx, hr⟩
  · have h2 := (Prod.mk.inj hr).2
    exact ⟨w, child, h2, sameExcept_refl _ _, sameExcept_refl _ _, hid w,
      fun _ => ⟨le_refl _, le_refl _, rfl, rfl, rfl, rfl⟩, fun hn => absurd hd hn⟩
  · have h2 := (Prod.mk.inj hr).2
    exact ⟨_, child, h2, sameExcept_store _ _ _, sameExcept_store _ _ _, hid w,
      fun _ => ⟨le_refl _, le_refl _, rfl, rfl, rfl, rfl⟩, fun _ => ⟨hin.2, hin.1⟩⟩
  · have h2 := (Prod.mk.inj hr).2
    exact ⟨w, child2, h2, sameExcept_refl _ _, sameExcept_refl _ _, hid w,
      fun _ => ⟨le_refl _, le_refl _, rfl, rfl, rfl, rfl⟩, fun _ => ⟨hin.2, hin.1⟩⟩
  · have h2 := (Prod.mk.inj hr).2
    exact ⟨_, child, h2, sameExcept_ite _ _ _ _, sameExcept_ite _ _ _ _, hid w,
      fun _ => ⟨le_refl _, le_refl _, rfl, rfl, rfl, rfl⟩, fun _ => ⟨hin.2, hin.1⟩⟩
  · have h2 := (Prod.mk.inj hr).2
    exact ⟨_, child, h2, sameExcept_store _ _ _, sameExcept_store _ _ _, hid w,
      fun hn => absurd hn (by omega), fun _ => ⟨le_refl _, le_refl _⟩⟩
  · have h2 := (Prod.mk.inj hr).2
    refine ⟨_, child, h2, sameExcept_store _ _ _, sameExcept_store _ _ _, hid w,
      fun _ => ⟨le_refl _, ?_, rfl, rfl, rfl, rfl⟩, fun _ => ⟨?_, le_refl _⟩⟩
    · show w.maxx ≤ x
      omega
    · show w.minx ≤ x
      omega
  · have h2 := (Prod.mk.inj hr).2
    refine ⟨_, child, h2, sameExcept_store _ _ _, sameExcept_store _ _ _, hid w,
      fun _ => ⟨?_, le_refl _, rfl, rfl, rfl, rfl⟩, fun _ => ⟨le_refl _, ?_⟩⟩
    · show x ≤ w.minx
      omega
    · show x ≤ w.maxx
      omega

theorem occupied_same (w w2 : pwindow_t F) (x y : Int)
    (st : sameExcept x w.top w2.top) (sb : sameExcept x w.bottom w2.bottom) (hy : y ≠ x) :
    occupied w2 y ↔ occupied w y := by
  unfold occupied
  rw [st.1, sb.1, st.2 y hy, sb.2 y hy]

theorem ChainInv_update (n : Nat) (w w2 : pwindow_t F) (child next next2 : pwindowptr F)
    (x : Int) (hinv : ChainInv n (.window w child next))
    (st : sameExcept x w.top w2.top) (sb : sameExcept x w.bottom w2.bottom)
    (hrange : w.minx ≤ w.maxx → w2.minx ≤ w.minx ∧ w.maxx ≤ w2.maxx)
    (hxin : occupied w2 x → w2.minx ≤ x ∧ x ≤ w2.maxx)
    (hkeep : occupied w x → occupied w2 x) :
    ChainInv n (.window w2 child next2) := by
  obtain ⟨h1, h2, h3, h4, h5⟩ := hinv
  refine ⟨by rw [st.1]; exact h1, by rw [sb.1]; exact h2, ?_, ?_, h5⟩
  · intro y hy
    by_cases hyx : y = x
    · subst hyx; exact hxin hy
    · have ho := (occupied_same w w2 x y st sb hyx).mp hy
      have hr := h3 y ho
      have hm := hrange (by omega)
      omega
  · intro y hy
    have ho := h4 y hy
    by_cases hyx : y = x
    · subst hyx; exact hkeep ho
    · exact (occupied_same w w2 x y st sb hyx).mpr ho

theorem occupied_cleared (n : Nat) (vh : F) (hvh : -1 < vh) (cw : pwindow_t F)
    (ht : cw.top = List.replicate n vh) (hb : cw.bottom = List.replicate n (-1)) (y : Int) :
    ¬ occupied cw y := by
  intro ⟨h0, h1, _, h3⟩
  rw [ht, List.length_replicate] at h1
  rw [ht, hb, colRead_replicate n _ y h0 h1, colRead_replicate n _ y h0 h1] at h3
  exact absurd hvh (not_lt.mpr h3)

theorem ChainInv_cleared (n : Nat) (vh : F) (hvh : -1 < vh) (cw : pwindow_t F)
    (next : pwindowptr F)
    (ht : cw.top = List.replicate n vh) (hb : cw.bottom = List.replicate n (-1)) :
    ChainInv n (.window cw .NULL next) := by
  refine ⟨by rw [ht, List.length_replicate], by rw [hb, List.length_replicate], ?_, ?_, trivial⟩
  · intro y hy
    exact absurd hy (occupied_cleared n vh hvh cw ht hb y)
  · intro y hy
    exact False.elim hy

theorem R_WindowAdd_inv (x : Int) (ytop ybottom : F) :
    ∀ (fuel : Nat) (rs : RState F) (w : pwindow_t F) (child next : pwindowptr F)
      (rs2 : RState F) (p2 : pwindowptr F),
      0 ≤ x → x < rs.video_width → poolOK rs.video_width rs.unusedhead →
      -1 < rs.view_height → ChainInv rs.video_width (.window w child next) →
      R_WindowAdd fuel rs (.window w child next) x ytop ybottom = .ok (rs2, p2) →
      rs2.video_width = rs.video_width ∧ rs2.view_height = rs.view_height ∧
        rs2.viewwindow_width = rs.viewwindow_width ∧
        poolOK rs.video_width rs2.unusedhead ∧ ChainInv rs.video_width p2 ∧
        (∀ y, y ≠ x → occupiedAt p2 y → occupied w y) := by
  intro fuel
  induction fuel with
  | zero =>
    intro rs w child next rs2 p2 _ _ _ _ _ h
    rw [R_WindowAdd] at h
    exact Except.noConfusion h
  | succ fuel ih =>
    intro rs w child next rs2 p2 h0 h1 hpool hvh hinv h
    have hlen : w.top.length = rs.video_width ∧ w.bottom.length = rs.video_width :=
      ⟨hinv.1, hinv.2.1⟩
    have hframe : ∀ (w2 : pwindow_t F) (c2 : pwindowptr F), sameExcept x w.top w2.top →
        sameExcept x w.bottom w2.bottom →
        ∀ y, y ≠ x → occupiedAt (.window w2 c2 next) y → occupied w y :=
      fun w2 c2 st sb y hy ho => (occupied_same w w2 x y st sb hy).mp ho
    rcases R_WindowAdd_cases (fuel + 1) rs w child next x ytop ybottom _ h with
      ⟨_, hr⟩ | ⟨_, hin, hun, hr⟩ | ⟨_, hin, hun, _, fuel1, rs1, child1, rs3, child2, hf, he,
        hrec, hr⟩ |
      ⟨hd, hin, hun, hov, hr⟩ | ⟨_, hin, hem, hr⟩ | ⟨_, hne, hx, hr⟩ | ⟨_, hne, hx, hr⟩
    · obtain ⟨e1, e2⟩ := Prod.mk.inj hr
      subst e1 e2
      exact ⟨rfl, rfl, rfl, hpool, hinv, fun y _ ho => ho⟩
    · obtain ⟨e1, e2⟩ := Prod.mk.inj hr
      subst e1 e2
      refine ⟨rfl, rfl, rfl, hpool, ?_,
        hframe _ child (sameExcept_store _ _ _) (sameExcept_store _ _ _)⟩
      refine ChainInv_update _ w _ child next next x hinv ?_ ?_ ?_ ?_ ?_
      · exact sameExcept_store _ _ _
      · exact sameExcept_store _ _ _
      · exact fun _ => ⟨le_refl _, le_refl _⟩
      · exact fun _ => ⟨hin.2, hin.1⟩
      · intro ho
        exact absurd hun (not_lt.mpr ho.2.2.2)
    · obtain ⟨e1, e2⟩ := Prod.mk.inj hr
      subst e1 e2
      have hf2 : fuel1 = fuel := by omega
      subst hf2
      have hoccx : occupied w x := by
        refine ⟨h0, ?_, ?_, not_lt.mp hun⟩
        · rw [hlen.1]; exact h1
        · rw [hlen.2]; exact h1
      obtain ⟨rs1b, child1b, heb, hcase⟩ := ensureChild_shape rs w child next
      rw [he] at heb
      obtain ⟨e3, e4⟩ := Prod.mk.inj (Except.ok.inj heb)
      injection e4 with _ e5 _
      subst e3 e5
      rcases hcase with ⟨_, cw, hnew, hc1⟩ | ⟨hnn, hrs, hc1⟩
      · obtain ⟨cw0, rs0, hnew0, ht, hb, _, _, _, _, _, _, _, _, _, _, _, hpool1, _, _, _,
          _, hvh1, hvww, hvw⟩ := newPortalWindow_spec rs hpool
        rw [hnew] at hnew0
        injection hnew0 with e6 e7
        injection e6 with e8 _ _
        subst e7 e8
        subst hc1
        have hcl : ChainInv rs1.video_width
            (.window (inheritFrom w cw) (.NULL : pwindowptr F) .NULL) := by
          rw [hvw]
          exact ChainInv_cleared rs.video_width rs.view_height hvh (inheritFrom w cw) .NULL
            ht hb
        obtain ⟨g1, g2, g3, g4, g5, g6⟩ := ih rs1 (inheritFrom w cw) .NULL .NULL rs2 child2 h0
          (by rw [hvw]; exact h1) (by rw [hvw]; exact hpool1) (by rw [hvh1]; exact hvh) hcl hrec
        rw [hvw] at g4 g5
        refine ⟨by rw [g1, hvw], by rw [g2, hvh1], by rw [g3, hvww], g4,
          ⟨hinv.1, hinv.2.1, hinv.2.2.1, ?_, g5⟩, fun y _ ho => ho⟩
        intro y hy
        by_cases hyx : y = x
        · subst hyx; exact hoccx
        · exact absurd (g6 y hyx hy)
            (occupied_cleared rs.video_width rs.view_height hvh (inheritFrom w cw) ht hb y)
      · subst hrs hc1
        cases child1 with
        | NULL => exact absurd rfl hnn
        | window cw cc cn =>
          obtain ⟨g1, g2, g3, g4, g5, g6⟩ := ih rs1 cw cc cn rs2 child2 h0 h1 hpool hvh
            hinv.2.2.2.2 hrec
          refine ⟨g1, g2, g3, g4, ⟨hinv.1, hinv.2.1, hinv.2.2.1, ?_, g5⟩, fun y _ ho => ho⟩
          intro y hy
          by_cases hyx : y = x
          · subst hyx; exact hoccx
          · exact hinv.2.2.2.1 y (g6 y hyx hy)
    · obtain ⟨e1, e2⟩ := Prod.mk.inj hr
      subst e1 e2
      refine ⟨rfl, rfl, rfl, hpool, ?_,
        hframe _ child (sameExcept_ite _ _ _ _) (sameExcept_ite _ _ _ _)⟩
      refine ChainInv_update _ w _ child next next x hinv ?_ ?_ ?_ ?_ ?_
      · exact sameExcept_ite _ _ _ _
      · exact sameExcept_ite _ _ _ _
      · exact fun _ => ⟨le_refl _, le_refl _⟩
      · exact fun _ => ⟨hin.2, hin.1⟩
      · intro ho
        obtain ⟨o1, o2, o3, o4⟩ := ho
        refine ⟨o1, ?_, ?_, ?_⟩
        · show (x : Int) < ((if ytop < colRead w.top x then colStore w.top x ytop
            else w.top).length : Int)
          rw [(sameExcept_ite x w.top ytop _).1]; exact o2
        · show (x : Int) < ((if ybottom > colRead w.bottom x then colStore w.bottom x ybottom
            else w.bottom).length : Int)
          rw [(sameExcept_ite x w.bottom ybottom _).1]; exact o3
        · show colRead (if ytop < colRead w.top x then colStore w.top x ytop else w.top) x
            ≤ colRead (if ybottom > colRead w.bottom x then colStore w.bottom x ybottom
                else w.bottom) x
          push_neg at hov
          by_cases c1 : ytop < colRead w.top x <;> by_cases c2 : ybottom > colRead w.bottom x
          · rw [if_pos c1, if_pos c2, colRead_colStore_self _ _ _ o1 o2,
              colRead_colStore_self _ _ _ o1 o3]
            linarith [hov.1, hov.2]
          · rw [if_pos c1, if_neg c2, colRead_colStore_self _ _ _ o1 o2]
            exact hov.1
          · rw [if_neg c1, if_pos c2, colRead_colStore_self _ _ _ o1 o3]
            exact hov.2
          · rw [if_neg c1, if_neg c2]
            exact o4
    · obtain ⟨e1, e2⟩ := Prod.mk.inj hr
      subst e1 e2
      refine ⟨rfl, rfl, rfl, hpool, ?_,
        hframe _ child (sameExcept_store _ _ _) (sameExcept_store _ _ _)⟩
      refine ChainInv_update _ w _ child next next x hinv ?_ ?_ ?_ ?_ ?_
      · exact sameExcept_store _ _ _
      · exact sameExcept_store _ _ _
      · exact fun hn => absurd hn (by omega)
      · exact fun _ => ⟨le_refl _, le_refl _⟩
      · intro ho
        have := hinv.2.2.1 x ho
        omega
    · obtain ⟨e1, e2⟩ := Prod.mk.inj hr
      subst e1 e2
      refine ⟨rfl, rfl, rfl, hpool, ?_,
        hframe _ child (sameExcept_store _ _ _) (sameExcept_store _ _ _)⟩
      refine ChainInv_update _ w _ child next next x hinv ?_ ?_ ?_ ?_ ?_
      · exact sameExcept_store _ _ _
      · exact sameExcept_store _ _ _
      · exact fun _ => ⟨le_refl _, le_of_lt hx⟩
      · intro _
        refine ⟨?_, le_refl _⟩
        show w.minx ≤ x
        omega
      · intro ho
        have := hinv.2.2.1 x ho
        omega
    · obtain ⟨e1, e2⟩ := Prod.mk.inj hr
      subst e1 e2
      refine ⟨rfl, rfl, rfl, hpool, ?_,
        hframe _ child (sameExcept_store _ _ _) (sameExcept_store _ _ _)⟩
      refine ChainInv_update _ w _ child next next x hinv ?_ ?_ ?_ ?_ ?_
      · exact sameExcept_store _ _ _
      · exact sameExcept_store _ _ _
      · exact fun _ => ⟨le_of_lt hx, le_refl _⟩
      · intro _
        refine ⟨le_refl _, ?_⟩
        show x ≤ w.maxx
        omega
      · intro ho
        have := hinv.2.2.1 x ho
        omega

theorem ChainInv_childInside (n : Nat) : ∀ p : pwindowptr F, ChainInv n p → childInside p := by
  intro p
  induction p with
  | NULL => intro _; trivial
  | window w child next ihc _ =>
    intro h
    obtain ⟨_, _, h3, h4, h5⟩ := h
    exact ⟨fun x hx => ⟨h4 x hx, h3 x (h4 x hx)⟩, ihc h5⟩

theorem Adds_inv (a b : RState F × pwindowptr F) (h : Adds a b)
    (hpool : poolOK a.1.video_width a.1.unusedhead) (hvh : -1 < a.1.view_height)
    (hinv : ChainInv a.1.video_width a.2) :
    b.1.video_width = a.1.video_width ∧ b.1.view_height = a.1.view_height ∧
      b.1.viewwindow_width = a.1.viewwindow_width ∧
      poolOK a.1.video_width b.1.unusedhead ∧ ChainInv a.1.video_width b.2 := by
  induction h with
  | refl => exact ⟨rfl, rfl, rfl, hpool, hinv⟩
  | tail _ hstep ih =>
    obtain ⟨i1, i2, i3, i4, i5⟩ := ih
    cases hstep with
    | call fuel rs p vx vy vz va x ytop ybottom rs2 p2 h0 h1 hcall =>
      cases p with
      | NULL =>
        cases fuel with
        | zero => rw [R_WindowAdd] at hcall; exact Except.noConfusion hcall
        | succ fuel => rw [R_WindowAdd] at hcall; exact Except.noConfusion hcall
      | window w child next =>
        simp only at i1 i2 i3 i4 i5
        obtain ⟨g1, g2, g3, g4, g5, _⟩ := R_WindowAdd_inv x ytop ybottom fuel
          { rs with viewx := vx, viewy := vy, viewz := vz, viewangle := va } w child next rs2 p2
          h0 h1 (by rw [← i1] at i4; exact i4) (by rw [← i2] at hvh; exact hvh)
          (by rw [← i1] at i5; exact i5) hcall
        simp only at g1 g2 g3 g4 g5 ⊢
        rw [i1] at g1 g4 g5
        exact ⟨g1, by rw [g2, i2], by rw [g3, i3], g4, g5⟩

theorem Adds_view (a b : RState F × pwindowptr F) (h : Adds a b)
    (hne : ∃ w child next, a.2 = .window w child next ∧ w.minx ≤ w.maxx) :
    recordedView b.2 = recordedView a.2 ∧
      ∃ w child next, b.2 = .window w child next ∧ w.minx ≤ w.maxx := by
  induction h with
  | refl => exact ⟨rfl, hne⟩
  | tail _ hstep ih =>
    obtain ⟨i1, w, child, next, i2, i3⟩ := ih
    cases hstep with
    | call fuel rs p vx vy vz va x ytop ybottom rs2 p2 h0 h1 hcall =>
      simp only at i1 i2 ⊢
      subst i2
      obtain ⟨w2, child2, hp2, _, _, _, hmono, _⟩ := R_WindowAdd_top fuel _ w child next x ytop
        ybottom rs2 p2 hcall
      obtain ⟨m1, m2, m3, m4, m5, m6⟩ := hmono i3
      subst hp2
      refine ⟨?_, w2, child2, next, rfl, by omega⟩
      rw [← i1]
      show some (w2.vx, w2.vy, w2.vz, w2.vangle) = some (w.vx, w.vy, w.vz, w.vangle)
      rw [m3, m4, m5, m6]

theorem addColumns_ascending (fuel : Nat) (rs : RState F) (child next : pwindowptr F)
    (top bottom : Int → F) :
    ∀ (xs : List Int) (w : pwindow_t F), w.minx ≤ w.maxx →
      List.Chain (fun a b => a < b) w.maxx xs →
      (∀ x ∈ xs, ¬ (bottom x < 0 ∨ top x ≥ rs.view_height)) →
      addColumns (fuel + 1) rs (.window w child next) (xs.map (fun x => (x, top x, bottom x)))
        = .ok (rs, .window
            (xs.foldl (fun w x => { w with maxx := x, top := colStore w.top x (top x),
                                           bottom := colStore w.bottom x (bottom x) }) w)
            child next) := by
  intro xs
  induction xs with
  | nil => intro w _ _ _; rfl
  | cons x rest ih =>
    intro w hne hch hd
    rw [List.chain_cons] at hch
    rw [List.map_cons, addColumns,
      R_WindowAdd_right fuel rs w child next x (top x) (bottom x)
        (hd x (List.mem_cons_self _ _)) (by omega) hch.1]
    dsimp only
    rw [ih _ (by show w.minx ≤ x; omega) hch.2 (fun y hy => hd y (List.mem_cons_of_mem _ hy))]
    rfl

end windows
theorem freeSlots_fill (gc : Nat) (T : List (Option linkptr)) (group p : Nat) (v : linkptr)
    (hlen : T.length = gc * gc) (hg : group < gc) (hp : p < gc) (hpg : p ≠ group)
    (hnone : linkAt gc T group p = none) :
    freeSlots gc (T.set (group * gc + p) (some v)) group + 1 = freeSlots gc T group := by
  unfold freeSlots
  have hset : (Finset.range gc).filter
      (fun q => q ≠ group ∧ linkAt gc (T.set (group * gc + p) (some v)) group q = none)
      = ((Finset.range gc).filter (fun q => q ≠ group ∧ linkAt gc T group q = none)).erase p := by
    ext q
    simp only [Finset.mem_filter, Finset.mem_range, Finset.mem_erase]
    by_cases hqp : q = p
    · subst hqp
      rw [linkAt_set_self gc T group q _ hlen hg hp]
      simp
    · constructor
      · rintro ⟨hq, hqg, hl⟩
        rw [linkAt_set_ne gc T group p group q _ hp hq (Or.inr (Ne.symm hqp))] at hl
        exact ⟨hqp, hq, hqg, hl⟩
      · rintro ⟨_, hq, hqg, hl⟩
        rw [linkAt_set_ne gc T group p group q _ hp hq (Or.inr (Ne.symm hqp))]
        exact ⟨hq, hqg, hl⟩
  rw [hset, Finset.card_erase_of_mem (by simp [hp, hpg, hnone])]
  have hpos : 0 < ((Finset.range gc).filter
      (fun q => q ≠ group ∧ linkAt gc T group q = none)).card :=
    Finset.card_pos.mpr ⟨p, by simp [hp, hpg, hnone]⟩
  omega

theorem freeSlots_filled_le (gc : Nat) (T : List (Option linkptr)) (group v : Nat)
    (hg : group < gc) (hv : v < gc) (hvg : v ≠ group) (hsome : linkAt gc T group v ≠ none) :
    freeSlots gc T group + 2 ≤ gc := by
  unfold freeSlots
  have hsub : (Finset.range gc).filter (fun p => p ≠ group ∧ linkAt gc T group p = none)
      ⊆ ((Finset.range gc).erase group).erase v := by
    intro q hq
    simp only [Finset.mem_filter, Finset.mem_range] at hq
    simp only [Finset.mem_erase, Finset.mem_range]
    refine ⟨?_, hq.2.1, hq.1⟩
    intro hqv
    subst hqv
    exact hsome hq.2.2
  have hcard := Finset.card_le_card hsub
  rw [Finset.card_erase_of_mem (by simp [hv, hvg]), Finset.card_erase_of_mem (by simp [hg]),
    Finset.card_range] at hcard
  omega

theorem GL_via_total (gc : Nat) (zl : linkoffset_t) (group : Nat) (hg : group < gc) :
    ∀ (fuel : Nat) (T : List (Option linkptr)) (dx dy dz via : Int),
      T.length = gc * gc → via ≠ R_NOGROUP → freeSlots gc T group < fuel →
      ∃ T1, P_GatherLinks gc zl fuel T group dx dy dz via = some T1 ∧
        T1.length = gc * gc ∧ freeSlots gc T1 group ≤ freeSlots gc T group := by
  intro fuel
  induction fuel with
  | zero => intro T dx dy dz via _ _ hf; omega
  | succ fuel ih =>
    intro T dx dy dz via hlen hvia hfree
    rw [P_GatherLinks, if_neg hvia]
    refine foldlM_post _
      (fun _ Tc => Tc.length = gc * gc ∧ freeSlots gc Tc group ≤ freeSlots gc T group) _ _ _
      ?init ?step ?post
    case init => exact ⟨hlen, Nat.le_refl _⟩
    case post => exact fun T1 h => h
    case step =>
      rintro pre Tc a ha ⟨hlenc, hle⟩
      have ha' : a < gc := List.mem_range.mp ha
      dsimp only
      by_cases hskip : a = group ∨ (a : Int) = via
      · rw [if_pos hskip]
        exact ⟨Tc, rfl, hlenc, hle⟩
      · rw [if_neg hskip]
        have hag : a ≠ group := fun h => hskip (Or.inl h)
        cases hva : Tc.getD (via.toNat * gc + a) none with
        | none => exact ⟨Tc, rfl, hlenc, hle⟩
        | some link =>
          have e2 : Tc.getD (group * gc + a) none = linkAt gc Tc group a := rfl
          dsimp only
          rw [e2]
          cases hga : linkAt gc Tc group a with
          | some l1 => exact ⟨Tc, rfl, hlenc, hle⟩
          | none =>
            dsimp only
            rw [P_AddLinkOffset_snd gc Tc group a hg ha' (Ne.symm hag)]
            have hfill := freeSlots_fill gc Tc group a
              (.cell ⟨fixed_add dx (deref zl link).x, fixed_add dy (deref zl link).y,
                fixed_add dz (deref zl link).z⟩) hlenc hg ha' hag hga
            have hvia2 : ((a : Nat) : Int) ≠ R_NOGROUP := by unfold R_NOGROUP; omega
            obtain ⟨T2, hT2, hlen2, hle2⟩ := ih
              (Tc.set (group * gc + a)
                (some (.cell ⟨fixed_add dx (deref zl link).x, fixed_add dy (deref zl link).y,
                  fixed_add dz (deref zl link).z⟩)))
              (fixed_add dx (deref zl link).x) (fixed_add dy (deref zl link).y)
              (fixed_add dz (deref zl link).z) (a : Int)
              (by rw [List.length_set]; exact hlenc) hvia2 (by omega)
            exact ⟨T2, hT2, hlen2, by omega⟩

theorem GL_start_total (gc : Nat) (zl : linkoffset_t) (group : Nat) (hg : group < gc)
    (fuel : Nat) (T : List (Option linkptr)) (dx dy dz : Int)
    (hlen : T.length = gc * gc) (hfuel : gc ≤ fuel) :
    ∃ T1, P_GatherLinks gc zl fuel T group dx dy dz R_NOGROUP = some T1 ∧
      T1.length = gc * gc ∧ freeSlots gc T1 group ≤ freeSlots gc T group := by
  obtain ⟨fuel, rfl⟩ : ∃ f, fuel = f + 1 := ⟨fuel - 1, by omega⟩
  rw [P_GatherLinks, if_pos rfl]
  refine foldlM_post _
    (fun _ Tc => Tc.length = gc * gc ∧ freeSlots gc Tc group ≤ freeSlots gc T group) _ _ _
    ?init ?step ?post
  case init => exact ⟨hlen, Nat.le_refl _⟩
  case post => exact fun T1 h => h
  case step =>
    rintro pre Tc a ha ⟨hlenc, hle⟩
    have ha' : a < gc := List.mem_range.mp ha
    dsimp only
    by_cases hskip : a = group
    · rw [if_pos hskip]
      exact ⟨Tc, rfl, hlenc, hle⟩
    · rw [if_neg hskip]
      have e2 : Tc.getD (group * gc + a) none = linkAt gc Tc group a := rfl
      rw [e2]
      cases hga : linkAt gc Tc group a with
      | none => exact ⟨Tc, rfl, hlenc, hle⟩
      | some link =>
        dsimp only
        have hb := freeSlots_filled_le gc Tc group a hg ha' hskip (by rw [hga]; simp)
        have hvia2 : ((a : Nat) : Int) ≠ R_NOGROUP := by unfold R_NOGROUP; omega
        obtain ⟨T2, hT2, hlen2, hle2⟩ := GL_via_total gc zl group hg fuel Tc
          (deref zl link).x (deref zl link).y (deref zl link).z (a : Int) hlenc hvia2 (by omega)
        exact ⟨T2, hT2, hlen2, by omega⟩
section windows
variable {F : Type} [LinearOrderedCommRing F]

theorem newPortalWindow_range (rs rs1 : RState F) (cw : pwindow_t F) (cc cn : pwindowptr F)
    (h : newPortalWindow rs = (.window cw cc cn, rs1)) :
    cw.minx = rs.viewwindow_width - 1 ∧ cw.maxx = 0 ∧
      rs1.viewwindow_width = rs.viewwindow_width ∧ cc = .NULL ∧ cn = .NULL := by
  unfold newPortalWindow at h
  have hclear : ∀ ret : pwindow_t F, ∃ c, R_ClearPortalWindow rs ret = .window c .NULL .NULL ∧
      c.minx = rs.viewwindow_width - 1 ∧ c.maxx = 0 := by
    intro ret
    unfold R_ClearPortalWindow
    dsimp only
    rw [clearColumns_eq]
    exact ⟨_, rfl, rfl, rfl⟩
  cases hu : rs.unusedhead with
  | NULL =>
    rw [hu] at h
    dsimp only at h
    obtain ⟨c, hc, h1, h2⟩ := hclear
      { addr := rs.nextaddr, portal := none, line := none, type := .pw_floor, head := none,
        func := .R_RenderPortalNOP, clipfunc := none, minx := 0, maxx := 0,
        top := List.replicate rs.video_width 0, bottom := List.replicate rs.video_width 0,
        vx := 0, vy := 0, vz := 0, vangle := 0, barrier := zero_barrier, planez := 0,
        up := false }
    rw [hc] at h
    obtain ⟨e1, e2⟩ := Prod.mk.inj h
    injection e1 with e3 e4 e5
    subst e3 e2
    exact ⟨h1, h2, rfl, e4.symm, e5.symm⟩
  | window ret c0 n0 =>
    rw [hu] at h
    dsimp only at h
    obtain ⟨c, hc, h1, h2⟩ := hclear ret
    rw [hc] at h
    obtain ⟨e1, e2⟩ := Prod.mk.inj h
    injection e1 with e3 e4 e5
    subst e3 e2
    exact ⟨h1, h2, rfl, e4.symm, e5.symm⟩

theorem R_WindowAdd_hull (fuel : Nat) (rs : RState F) (w : pwindow_t F)
    (child next : pwindowptr F) (x : Int) (ytop ybottom : F) (rs2 : RState F)
    (w2 : pwindow_t F) (child2 next2 : pwindowptr F)
    (h : R_WindowAdd fuel rs (.window w child next) x ytop ybottom
      = .ok (rs2, .window w2 child2 next2))
    (lo hi : Int) (hlo : lo ≤ x) (hhi : x ≤ hi)
    (hold : w.minx ≤ w.maxx → lo ≤ w.minx ∧ w.maxx ≤ hi) :
    w2.minx ≤ w2.maxx → lo ≤ w2.minx ∧ w2.maxx ≤ hi := by
  rcases R_WindowAdd_cases fuel rs w child next x ytop ybottom _ h with
    ⟨_, hr⟩ | ⟨_, _, _, hr⟩ | ⟨_, _, _, _, _, _, _, _, _, _, _, _, hr⟩ |
    ⟨_, _, _, _, hr⟩ | ⟨_, _, _, hr⟩ | ⟨_, hne, hx, hr⟩ | ⟨_, hne, hx, hr⟩
  all_goals
    injection (Prod.mk.inj hr).2 with e _ _
    subst e
    intro h2
  · exact hold h2
  · exact hold h2
  · exact hold h2
  · exact hold h2
  · exact ⟨hlo, hhi⟩
  · have := hold (by omega)
    exact ⟨this.1, hhi⟩
  · have := hold (by omega)
    exact ⟨hlo, this.2⟩
end windows
theorem insideOf_grow {F : Type} (w w2 : pwindow_t F) (child : pwindowptr F)
    (h : insideOf w child) (hmono : w.minx ≤ w.maxx → w2.minx ≤ w.minx ∧ w.maxx ≤ w2.maxx) :
    insideOf w2 child := by
  cases child with
  | NULL => trivial
  | window c cc cn =>
    intro hc
    have h1 := h hc
    have h2 := hmono (by omega)
    omega

section windows
variable {F : Type} [LinearOrderedCommRing F]

theorem R_WindowAdd_rangeInside (x : Int) (ytop ybottom : F) :
    ∀ (fuel : Nat) (rs : RState F) (w : pwindow_t F) (child next : pwindowptr F)
      (rs2 : RState F) (p2 : pwindowptr F),
      1 < rs.viewwindow_width → rangeInside (.window w child next) →
      R_WindowAdd fuel rs (.window w child next) x ytop ybottom = .ok (rs2, p2) →
      rs2.viewwindow_width = rs.viewwindow_width ∧ rangeInside p2 := by
  intro fuel
  induction fuel with
  | zero =>
    intro rs w child next rs2 p2 _ _ h
    rw [R_WindowAdd] at h
    exact Except.noConfusion h
  | succ fuel ih =>
    intro rs w child next rs2 p2 hvw hinv h
    obtain ⟨w3, child3, hp2, _, _, _, hmono, _⟩ :=
      R_WindowAdd_top (fuel + 1) rs w child next x ytop ybottom rs2 p2 h
    rcases R_WindowAdd_cases (fuel + 1) rs w child next x ytop ybottom _ h with
      ⟨_, hr⟩ | ⟨_, _, _, hr⟩ | ⟨_, hin, _, _, fuel1, rs1, child1, rs3, child2, hf, he,
        hrec, hr⟩ |
      ⟨_, _, _, _, hr⟩ | ⟨_, _, hem, hr⟩ | ⟨_, _, _, hr⟩ | ⟨_, _, _, hr⟩
    · obtain ⟨e1, e2⟩ := Prod.mk.inj hr
      subst e1 e2
      exact ⟨rfl, hinv⟩
    · obtain ⟨e1, e2⟩ := Prod.mk.inj hr
      subst e1 e2
      exact ⟨rfl, insideOf_grow w _ child hinv.1 (fun _ => ⟨le_refl _, le_refl _⟩), hinv.2⟩
    · obtain ⟨e1, e2⟩ := Prod.mk.inj hr
      subst e1 e2
      have hf2 : fuel = fuel1 := by omega
      subst hf2
      obtain ⟨rs1b, child1b, heb, hcase⟩ := ensureChild_shape rs w child next
      rw [he] at heb
      obtain ⟨e3, e4⟩ := Prod.mk.inj (Except.ok.inj heb)
      injection e4 with _ e5 _
      subst e3 e5
      rcases hcase with ⟨_, cw, hnew, hc1⟩ | ⟨hnn, hrs, hc1⟩
      · obtain ⟨hmin, hmax, hvw1, _, _⟩ := newPortalWindow_range rs rs1 cw .NULL .NULL hnew
        subst hc1
        have hrec0 := hrec
        obtain ⟨g1, g2⟩ := ih rs1 (inheritFrom w cw) .NULL .NULL rs2 child2
          (by rw [hvw1]; exact hvw) ⟨trivial, trivial⟩ hrec
        refine ⟨by rw [g1, hvw1], ?_, g2⟩
        cases child2 with
        | NULL => trivial
        | window c2 cc2 cn2 =>
          apply R_WindowAdd_hull fuel rs1 (inheritFrom w cw) .NULL .NULL x ytop ybottom rs2 c2
            cc2 cn2 hrec0 w.minx w.maxx hin.2 hin.1
          intro hne
          have h1 : (inheritFrom w cw).minx = cw.minx := rfl
          have h2 : (inheritFrom w cw).maxx = cw.maxx := rfl
          rw [h1, h2, hmin, hmax] at hne
          omega
      · subst hrs hc1
        cases child1 with
        | NULL => exact absurd rfl hnn
        | window cw cc cn =>
          obtain ⟨g1, g2⟩ := ih rs1 cw cc cn rs2 child2 hvw hinv.2 hrec
          refine ⟨g1, ?_, g2⟩
          cases child2 with
          | NULL => trivial
          | window c2 cc2 cn2 =>
            exact R_WindowAdd_hull fuel rs1 cw cc cn x ytop ybottom rs2 c2 cc2 cn2 hrec
              w.minx w.maxx hin.2 hin.1 hinv.1
    · obtain ⟨e1, e2⟩ := Prod.mk.inj hr
      subst e1 e2
      exact ⟨rfl, insideOf_grow w _ child hinv.1 (fun _ => ⟨le_refl _, le_refl _⟩), hinv.2⟩
    · obtain ⟨e1, e2⟩ := Prod.mk.inj hr
      subst e1 e2
      exact ⟨rfl, insideOf_grow w _ child hinv.1 (fun hn => absurd hn (by omega)), hinv.2⟩
    · obtain ⟨e1, e2⟩ := Prod.mk.inj hr
      subst e1 e2
      injection hp2 with e3 _ _
      subst e3
      exact ⟨rfl, insideOf_grow w _ child hinv.1 (fun hn => ⟨(hmono hn).1, (hmono hn).2.1⟩),
        hinv.2⟩
    · obtain ⟨e1, e2⟩ := Prod.mk.inj hr
      subst e1 e2
      injection hp2 with e3 _ _
      subst e3
      exact ⟨rfl, insideOf_grow w _ child hinv.1 (fun hn => ⟨(hmono hn).1, (hmono hn).2.1⟩),
        hinv.2⟩

theorem Adds_rangeInside (a b : RState F × pwindowptr F) (h : Adds a b)
    (hvw : 1 < a.1.viewwindow_width) (hinv : rangeInside a.2) :
    b.1.viewwindow_width = a.1.viewwindow_width ∧ rangeInside b.2 := by
  induction h with
  | refl => exact ⟨rfl, hinv⟩
  | tail _ hstep ih =>
    obtain ⟨i1, i2⟩ := ih
    cases hstep with
    | call fuel rs p vx vy vz va x ytop ybottom rs2 p2 h0 h1 hcall =>
      cases p with
      | NULL =>
        cases fuel with
        | zero => rw [R_WindowAdd] at hcall; exact Except.noConfusion hcall
        | succ fuel => rw [R_WindowAdd] at hcall; exact Except.noConfusion hcall
      | window w child next =>
        simp only at i1 i2
        obtain ⟨g1, g2⟩ := R_WindowAdd_rangeInside x ytop ybottom fuel
          { rs with viewx := vx, viewy := vy, viewz := vz, viewangle := va } w child next rs2 p2
          (by rw [← i1] at hvw; exact hvw) i2 hcall
        simp only at g1 ⊢
        exact ⟨by rw [g1, i1], g2⟩
end windows
section windows
variable {F : Type} [LinearOrderedCommRing F]

theorem frameAt_head (x : Int) (w w2 : pwindow_t F) (L : List (pwindow_t F))
    (ht : sameExcept x w.top w2.top) (hb : sameExcept x w.bottom w2.bottom) :
    frameAt x 0 (w :: L) (w2 :: L) := by
  refine ⟨rfl, ?_⟩
  intro j w1 w3 h1 h3
  cases j with
  | zero =>
    simp only [List.getElem?_cons_zero, Option.some.injEq] at h1 h3
    subst h1 h3
    exact ⟨ht, hb, fun h => absurd rfl h⟩
  | succ j =>
    simp only [List.getElem?_cons_succ] at h1 h3
    rw [h1] at h3
    injection h3 with h3
    subst h3
    exact ⟨sameExcept_refl x _, sameExcept_refl x _, fun _ => ⟨rfl, rfl⟩⟩

theorem frameAt_cons (x : Int) (k : Nat) (w : pwindow_t F) (L L2 : List (pwindow_t F))
    (h : frameAt x k L L2) : frameAt x (k + 1) (w :: L) (w :: L2) := by
  refine ⟨by simp [h.1], ?_⟩
  intro j w1 w3 h1 h3
  cases j with
  | zero =>
    simp only [List.getElem?_cons_zero, Option.some.injEq] at h1 h3
    subst h1 h3
    exact ⟨sameExcept_refl x _, sameExcept_refl x _, fun _ => ⟨rfl, rfl⟩⟩
  | succ j =>
    simp only [List.getElem?_cons_succ] at h1 h3
    obtain ⟨g1, g2, g3⟩ := h.2 j w1 w3 h1 h3
    exact ⟨g1, g2, fun hne => g3 (by omega)⟩

theorem R_WindowAdd_frame (x : Int) (ytop ybottom : F) :
    ∀ (fuel : Nat) (rs : RState F) (w : pwindow_t F) (child next : pwindowptr F)
      (rs2 : RState F) (p2 : pwindowptr F), columnOK rs x →
      R_WindowAdd fuel rs (.window w child next) x ytop ybottom = .ok (rs2, p2) →
      (∃ k, frameAt x k (chainWindows (.window w child next)) (chainWindows p2)) ∨
      (∃ c, chainWindows p2 = chainWindows (.window w child next) ++ [c] ∧
        sameExcept x (List.replicate rs.video_width rs.view_height) c.top ∧
        sameExcept x (List.replicate rs.video_width (-1)) c.bottom) := by
  intro fuel
  induction fuel with
  | zero =>
    intro rs w child next rs2 p2 _ h
    rw [R_WindowAdd] at h
    exact Except.noConfusion h
  | succ fuel ih =>
    intro rs w child next rs2 p2 hok h
    obtain ⟨w3, child3, hp2, hst, hsb, _⟩ :=
      R_WindowAdd_top (fuel + 1) rs w child next x ytop ybottom rs2 p2 h
    have hsame : child3 = child →
        ∃ k, frameAt x k (chainWindows (.window w child next)) (chainWindows p2) := by
      intro hc
      subst hc hp2
      exact ⟨0, frameAt_head x w w3 _ hst hsb⟩
    rcases R_WindowAdd_cases (fuel + 1) rs w child next x ytop ybottom _ h with
      ⟨_, hr⟩ | ⟨_, _, _, hr⟩ | ⟨_, hin, _, _, fuel1, rs1, child1, rs3, child2, hf, he,
        hrec, hr⟩ |
      ⟨_, _, _, _, hr⟩ | ⟨_, _, hem, hr⟩ | ⟨_, _, _, hr⟩ | ⟨_, _, _, hr⟩
    · obtain ⟨e1, e2⟩ := Prod.mk.inj hr
      rw [hp2] at e2
      injection e2 with _ e3 _
      exact Or.inl (hsame e3)
    · obtain ⟨e1, e2⟩ := Prod.mk.inj hr
      rw [hp2] at e2
      injection e2 with _ e3 _
      exact Or.inl (hsame e3)
    · obtain ⟨e1, e2⟩ := Prod.mk.inj hr
      subst e1 e2
      have hf2 : fuel = fuel1 := by omega
      subst hf2
      obtain ⟨rs1b, child1b, heb, hcase⟩ := ensureChild_shape rs w child next
      rw [he] at heb
      obtain ⟨e3, e4⟩ := Prod.mk.inj (Except.ok.inj heb)
      injection e4 with _ e5 _
      subst e3 e5
      rcases hcase with ⟨hnull, cw, hnew, hc1⟩ | ⟨hnn, hrs, hc1⟩
      · obtain ⟨cw0, rs0, hnew0, ht, hb, _, _, _, _, _, _, _, _, _, _, _, hpool, _, _, _,
          _, hvh, _, hvw⟩ := newPortalWindow_spec rs hok.2.2
        rw [hnew] at hnew0
        injection hnew0 with e1 e2
        injection e1 with e3 _ _
        subst e3 e2 hc1 hnull
        right
        cases fuel with
        | zero => rw [R_WindowAdd] at hrec; exact Except.noConfusion hrec
        | succ fuel =>
          obtain ⟨cw2, hadd⟩ := fresh_add fuel rs1 (inheritFrom w cw) .NULL x ytop ybottom
            (by rw [← hvh, ← hvw] at ht; exact ht) (by rw [← hvw] at hb; exact hb)
            hok.1 (by rw [hvw]; exact hok.2.1)
          obtain ⟨w4, child4, hp4, hst4, hsb4, _⟩ :=
            R_WindowAdd_top (fuel + 1) rs1 (inheritFrom w cw) .NULL .NULL x ytop ybottom _ _ hrec
          rw [hadd] at hrec
          obtain ⟨_, e6⟩ := Prod.mk.inj (Except.ok.inj hrec)
          subst e6
          injection hp4 with e7 e8 _
          subst e7
          refine ⟨cw2, rfl, ?_, ?_⟩
          · have : (inheritFrom w cw).top = cw.top := rfl
            rw [this, ht] at hst4
            exact hst4
          · have : (inheritFrom w cw).bottom = cw.bottom := rfl
            rw [this, hb] at hsb4
            exact hsb4
      · subst hrs hc1
        cases child1 with
        | NULL => exact absurd rfl hnn
        | window cw cc cn =>
          rcases ih rs1 cw cc cn rs2 child2 hok hrec with ⟨k, hk⟩ | ⟨c, hc, hc2⟩
          · exact Or.inl ⟨k + 1, frameAt_cons x k w _ _ hk⟩
          · refine Or.inr ⟨c, ?_, hc2⟩
            simp only [chainWindows] at hc ⊢
            rw [hc]
            rfl
    · obtain ⟨e1, e2⟩ := Prod.mk.inj hr
      rw [hp2] at e2
      injection e2 with _ e3 _
      exact Or.inl (hsame e3)
    · obtain ⟨e1, e2⟩ := Prod.mk.inj hr
      rw [hp2] at e2
      injection e2 with _ e3 _
      exact Or.inl (hsame e3)
    · obtain ⟨e1, e2⟩ := Prod.mk.inj hr
      rw [hp2] at e2
      injection e2 with _ e3 _
      exact Or.inl (hsame e3)
    · obtain ⟨e1, e2⟩ := Prod.mk.inj hr
      rw [hp2] at e2
      injection e2 with _ e3 _
      exact Or.inl (hsame e3)
end windows
theorem int_abs_eq (v : Int) (h1 : -2147483648 < v) (h2 : v < 2147483648) :
    int_abs v = |v| := by
  unfold int_abs wrap32
  by_cases hv : v < 0
  · rw [if_pos hv, abs_of_neg hv]; omega
  · rw [if_neg hv, abs_of_nonneg (by omega)]; omega

theorem compareIds_le (a b : Int) (ha : 0 ≤ a) (ha2 : a < 2147483648) (hb : 0 ≤ b)
    (hb2 : b < 2147483648) : compareIds a b ≤ 0 ↔ a ≤ b := by
  unfold compareIds wrap32
  omega

theorem orderedInsert_congr {α : Type} (r s : α → α → Prop) [DecidableRel r] [DecidableRel s]
    (a : α) : ∀ (l : List α), (∀ b ∈ l, r a b ↔ s a b) →
      l.orderedInsert r a = l.orderedInsert s a := by
  intro l
  induction l with
  | nil => intro _; rfl
  | cons b l ih =>
    intro h
    simp only [List.orderedInsert]
    by_cases hr : r a b
    · rw [if_pos hr, if_pos ((h b (List.mem_cons_self _ _)).1 hr)]
    · rw [if_neg hr, if_neg (fun hs => hr ((h b (List.mem_cons_self _ _)).2 hs)),
        ih (fun c hc => h c (List.mem_cons_of_mem _ hc))]

theorem insertionSort_congr {α : Type} (r s : α → α → Prop) [DecidableRel r] [DecidableRel s] :
    ∀ (l : List α), (∀ a ∈ l, ∀ b ∈ l, r a b ↔ s a b) →
      l.insertionSort r = l.insertionSort s := by
  intro l
  induction l with
  | nil => intro _; rfl
  | cons a l ih =>
    intro h
    simp only [List.insertionSort]
    rw [ih (fun c hc d hd => h c (List.mem_cons_of_mem _ hc) d (List.mem_cons_of_mem _ hd))]
    apply orderedInsert_congr
    intro b hb
    have hb2 : b ∈ l := (List.perm_insertionSort s l).subset hb
    exact h a (List.mem_cons_self _ _) b (List.mem_cons_of_mem _ hb2)

theorem qsort_spec (l : List Int) (h : ∀ a ∈ l, 0 ≤ a ∧ a < 2147483648) :
    (qsort compareIds l).Perm l ∧ (qsort compareIds l).Sorted (fun a b => a ≤ b) := by
  have he : qsort compareIds l = l.insertionSort (fun a b => a ≤ b) := by
    unfold qsort
    apply insertionSort_congr
    intro a ha b hb
    exact compareIds_le a b (h a ha).1 (h a ha).2 (h b hb).1 (h b hb).2
  rw [he]
  exact ⟨List.perm_insertionSort _ l, List.sorted_insertionSort _ l⟩

theorem scanBusy_spec : ∀ (l : List Int) (free : Int), l.Sorted (fun a b => a ≤ b) →
    0 ≤ free → free + l.length < 2147483648 →
    free ≤ scanBusy free l ∧ scanBusy free l ∉ l ∧
      ∀ k, free ≤ k → k < scanBusy free l → k ∈ l := by
  intro l
  induction l with
  | nil =>
    intro free _ _ _
    simp only [scanBusy]
    exact ⟨le_refl _, List.not_mem_nil _, fun k h1 h2 => absurd h2 (by omega)⟩
  | cons b l ih =>
    intro free hs h0 hlen
    have hs2 := List.sorted_cons.1 hs
    simp only [List.length_cons, Nat.cast_add, Nat.cast_one] at hlen
    simp only [scanBusy]
    by_cases hb : b = free
    · rw [if_pos hb]
      have hw : wrap32 (free + 1) = free + 1 := by unfold wrap32; omega
      rw [hw]
      obtain ⟨g1, g2, g3⟩ := ih (free + 1) hs2.2 (by omega) (by omega)
      refine ⟨by omega, ?_, ?_⟩
      · intro hm
        rcases List.mem_cons.1 hm with h | h
        · omega
        · exact g2 h
      · intro k hk1 hk2
        by_cases hkf : k = free
        · rw [hkf, ← hb]; exact List.mem_cons_self _ _
        · exact List.mem_cons_of_mem _ (g3 k (by omega) hk2)
    · rw [if_neg hb]
      by_cases hgt : b > free
      · rw [if_pos hgt]
        refine ⟨le_refl _, ?_, fun k h1 h2 => absurd h2 (by omega)⟩
        intro hm
        rcases List.mem_cons.1 hm with h | h
        · omega
        · have := hs2.1 free h
          omega
      · rw [if_neg hgt]
        obtain ⟨g1, g2, g3⟩ := ih free hs2.2 h0 (by omega)
        refine ⟨g1, ?_, fun k h1 h2 => List.mem_cons_of_mem _ (g3 k h1 h2)⟩
        intro hm
        rcases List.mem_cons.1 hm with h | h
        · omega
        · exact g2 h
theorem roverLoop_some (found : rportal_t → Bool) :
    ∀ (l : List rportal_t) (i j : Nat), roverLoop found l i = some j →
      i ≤ j ∧ (∃ p, l[j - i]? = some p ∧ found p = true) ∧
        ∀ (k : Nat) (p : rportal_t), k < j - i → l[k]? = some p → found p = false := by
  intro l
  induction l with
  | nil => intro i j h; simp [roverLoop] at h
  | cons a l ih =>
    intro i j h
    rw [roverLoop] at h
    by_cases hf : found a = true
    · rw [if_pos hf] at h
      injection h with h
      subst h
      refine ⟨le_refl _, ⟨a, by simp, hf⟩, ?_⟩
      intro k p hk
      omega
    · rw [if_neg hf] at h
      obtain ⟨g1, ⟨p, g2, g3⟩, g4⟩ := ih (i + 1) j h
      have hji : j - i = (j - (i + 1)) + 1 := by omega
      refine ⟨by omega, ⟨p, by rw [hji, List.getElem?_cons_succ]; exact g2, g3⟩, ?_⟩
      intro k q hk hq
      cases k with
      | zero =>
        simp only [List.getElem?_cons_zero, Option.some.injEq] at hq
        subst hq
        simpa using hf
      | succ k =>
        rw [List.getElem?_cons_succ] at hq
        exact g4 k q (by omega) hq

theorem roverLoop_none (found : rportal_t → Bool) :
    ∀ (l : List rportal_t) (i : Nat), roverLoop found l i = none →
      ∀ p ∈ l, found p = false := by
  intro l
  induction l with
  | nil => intro i _ p hp; exact absurd hp (List.not_mem_nil _)
  | cons a l ih =>
    intro i h p hp
    rw [roverLoop] at h
    by_cases hf : found a = true
    · rw [if_pos hf] at h
      exact Option.noConfusion h
    · rw [if_neg hf] at h
      rcases List.mem_cons.1 hp with e | e
      · subst e; simpa using hf
      · exact ih (i + 1) h p e

theorem roverLoop_first (found : rportal_t → Bool) :
    ∀ (l : List rportal_t) (i k : Nat) (p : rportal_t), l[k]? = some p → found p = true →
      (∀ (k2 : Nat) (q : rportal_t), k2 < k → l[k2]? = some q → found q = false) →
      roverLoop found l i = some (i + k) := by
  intro l
  induction l with
  | nil => intro i k p h; simp at h
  | cons a l ih =>
    intro i k p h hf hbefore
    rw [roverLoop]
    cases k with
    | zero =>
      simp only [List.getElem?_cons_zero, Option.some.injEq] at h
      subst h
      rw [if_pos hf]
      rfl
    | succ k =>
      have ha : found a = false := hbefore 0 a (by omega) (by simp)
      rw [if_neg (by rw [ha]; exact Bool.false_ne_true)]
      rw [List.getElem?_cons_succ] at h
      rw [ih (i + 1) k p h hf (fun k2 q hk2 hq =>
        hbefore (k2 + 1) q (by omega) (by rw [List.getElem?_cons_succ]; exact hq))]
      congr 1
      omega

theorem roverLoop_congr (f g : rportal_t → Bool) :
    ∀ (l : List rportal_t) (i : Nat), (∀ p ∈ l, f p = g p) →
      roverLoop f l i = roverLoop g l i := by
  intro l
  induction l with
  | nil => intro i _; rfl
  | cons a l ih =>
    intro i h
    rw [roverLoop, roverLoop, h a (List.mem_cons_self _ _),
      ih (i + 1) (fun p hp => h p (List.mem_cons_of_mem _ hp))]

theorem modifyPortal_append (l : List rportal_t) (x : rportal_t) (f : rportal_t → rportal_t) :
    modifyPortal (l ++ [x]) l.length f = l ++ [f x] := by
  unfold modifyPortal
  have h : (l ++ [x])[l.length]? = some x := by simp
  rw [h]
  simp

theorem getter_intern (found : rportal_t → Bool) (fresh : rportal_t)
    (f : rportal_t → rportal_t) (portals : List rportal_t)
    (hfound : ∀ rover, found rover = decide (comparedPart rover = comparedPart fresh))
    (hf : f { type := .R_NONE, data := .zero, tainted := 0, globaltex := 1 } = fresh) :
    (match roverLoop found portals 0 with
      | some rover => (portals, some rover)
      | none => (modifyPortal (R_CreatePortal portals).1 (R_CreatePortal portals).2 f,
                 some (R_CreatePortal portals).2)) = intern fresh portals := by
  unfold intern
  rw [roverLoop_congr found (fun rover => comparedPart rover = comparedPart fresh) portals 0
    (fun p _ => hfound p)]
  cases roverLoop (fun rover => decide (comparedPart rover = comparedPart fresh)) portals 0 with
  | some i => rfl
  | none =>
    simp only [R_CreatePortal]
    rw [modifyPortal_append, hf]

theorem intern_some (found : rportal_t → Bool) (fresh : rportal_t)
    (portals : List rportal_t) (i : Nat)
    (hfound : ∀ rover, found rover = decide (comparedPart rover = comparedPart fresh))
    (h : roverLoop found portals 0 = some i) : intern fresh portals = (portals, some i) := by
  unfold intern
  rw [← roverLoop_congr found (fun rover => comparedPart rover = comparedPart fresh) portals 0
    (fun p _ => hfound p), h]

theorem intern_none (found : rportal_t → Bool) (fresh : rportal_t)
    (portals : List rportal_t)
    (hfound : ∀ rover, found rover = decide (comparedPart rover = comparedPart fresh))
    (h : roverLoop found portals 0 = none) :
    intern fresh portals = (portals ++ [fresh], some portals.length) := by
  unfold intern
  rw [← roverLoop_congr found (fun rover => comparedPart rover = comparedPart fresh) portals 0
    (fun p _ => hfound p), h]

theorem request_eq (T : Int → Int → Bool → Int → portaltransform_t) (lines : List rline_t)
    (portals : List rportal_t) (q : portalrequest) :
    request T lines portals q =
      match requestFresh T lines q with
      | some fresh => some (intern fresh portals)
      | none => if requestKind q = .R_LINKED then none else some (portals, none) := by
  cases q with
  | anchored m a flipped zoffset =>
    simp only [request, requestFresh, R_GetAnchoredPortal]
    congr 1
    apply getter_intern
    · intro rover
      rcases rover with ⟨ty, data, t, g⟩
      rcases data with _ | _ | ⟨_, _, _, _⟩ | ⟨_, _, _, _, _, _, _, _, _⟩ | _ | _ <;>
        by_cases hty : ty = .R_ANCHORED <;> simp [comparedPart, hty, eq_comm]
    · rfl
  | twoway m a flipped zoffset =>
    simp only [request, requestFresh, R_GetTwoWayPortal]
    congr 1
    apply getter_intern
    · intro rover
      rcases rover with ⟨ty, data, t, g⟩
      rcases data with _ | _ | ⟨_, _, _, _⟩ | ⟨_, _, _, _, _, _, _, _, _⟩ | _ | _ <;>
        by_cases hty : ty = .R_TWOWAY <;> simp [comparedPart, hty, eq_comm]
    · rfl
  | skybox camera =>
    simp only [request, requestFresh, R_GetSkyBoxPortal]
    congr 1
    apply getter_intern
    · intro rover
      rcases rover with ⟨ty, data, t, g⟩
      cases data <;> by_cases hty : ty = .R_SKYBOX <;>
        simp [comparedPart, hty, eq_comm]
    · rfl
  | horizon a =>
    simp only [request, requestFresh, R_GetHorizonPortal]
    cases horizonOf a with
    | none => simp [requestKind]
    | some d =>
      simp only [Option.map_some']
      congr 1
      apply getter_intern
      · intro rover
        rcases rover with ⟨ty, data, t, g⟩
        cases data <;> by_cases hty : ty = .R_HORIZON <;>
          simp [comparedPart, hty, eq_comm]
      · rfl
  | plane a =>
    simp only [request, requestFresh, R_GetPlanePortal]
    cases skyplaneOf a with
    | none => simp [requestKind]
    | some d =>
      simp only [Option.map_some']
      congr 1
      apply getter_intern
      · intro rover
        rcases rover with ⟨ty, data, t, g⟩
        cases data <;> by_cases hty : ty = .R_PLANE <;>
          simp [comparedPart, hty, eq_comm]
      · rfl
  | linked m a planez fromid toid =>
    simp only [request, requestFresh, R_GetLinkedPortal]
    cases R_CalculateDeltas lines m a with
    | none => simp [requestKind]
    | some d =>
      obtain ⟨dx, dy, dz⟩ := d
      simp only [Option.map_some']
      split
      · rename_i rover hr
        rw [intern_some _ _ _ _ _ hr]
        intro rover
        rcases rover with ⟨ty, data, t, g⟩
        rcases data with _ | _ | ⟨_, _, _, _⟩ | ⟨_, _, _, _, _, _, _, _, _⟩ | _ | _ <;>
          by_cases hty : ty = .R_LINKED <;> simp [comparedPart, hty, eq_comm]
        rw [Bool.eq_iff_iff]
        simp only [Bool.and_eq_true, decide_eq_true_eq]
        tauto
      · rename_i hr
        rw [intern_none _ _ _ _ hr]
        · simp only [R_CreatePortal]
          rw [modifyPortal_append]
        · intro rover
          rcases rover with ⟨ty, data, t, g⟩
          rcases data with _ | _ | ⟨_, _, _, _⟩ | ⟨_, _, _, _, _, _, _, _, _⟩ | _ | _ <;>
            by_cases hty : ty = .R_LINKED <;> simp [comparedPart, hty, eq_comm]
          rw [Bool.eq_iff_iff]
          simp only [Bool.and_eq_true, decide_eq_true_eq]
          tauto

theorem intern_spec (fresh : rportal_t) (portals portals1 : List rportal_t) (r : Option Nat)
    (h : intern fresh portals = (portals1, r)) :
    ∃ i p, r = some i ∧ portals1[i]? = some p ∧ comparedPart p = comparedPart fresh ∧
      (∀ (k : Nat) (q : rportal_t), k < i → portals1[k]? = some q →
        comparedPart q ≠ comparedPart fresh) ∧
      (portals1 = portals ∨ (portals1 = portals ++ [fresh] ∧ i = portals.length)) := by
  unfold intern at h
  cases hl : roverLoop (fun rover => decide (comparedPart rover = comparedPart fresh))
      portals 0 with
  | some j =>
    rw [hl] at h
    obtain ⟨e1, e2⟩ := Prod.mk.inj h
    subst e1 e2
    obtain ⟨_, ⟨p, g2, g3⟩, g4⟩ := roverLoop_some _ portals 0 j hl
    refine ⟨j, p, rfl, g2, by simpa using g3, ?_, Or.inl rfl⟩
    intro k q hk hq
    have := g4 k q hk hq
    simpa using this
  | none =>
    rw [hl] at h
    obtain ⟨e1, e2⟩ := Prod.mk.inj h
    subst e1 e2
    have hn := roverLoop_none _ portals 0 hl
    refine ⟨portals.length, fresh, rfl, by simp, rfl, ?_, Or.inr ⟨rfl, rfl⟩⟩
    intro k q hk hq
    rw [List.getElem?_append_left hk] at hq
    have := hn q (List.getElem?_mem hq)
    simpa using this

theorem intern_again (fresh fresh2 : rportal_t) (portals2 : List rportal_t) (i : Nat)
    (p2 : rportal_t) (hi : portals2[i]? = some p2) (hp : comparedPart p2 = comparedPart fresh)
    (hfirst : ∀ (k : Nat) (q : rportal_t), k < i → portals2[k]? = some q →
      comparedPart q ≠ comparedPart fresh)
    (h2 : comparedPart fresh2 = comparedPart fresh) :
    intern fresh2 portals2 = (portals2, some i) := by
  unfold intern
  rw [roverLoop_first _ portals2 0 i p2 hi (by rw [h2]; simpa using hp)
    (fun k q hk hq => by rw [h2]; simpa using hfirst k q hk hq)]
  simp

theorem keepsKeys_refl (portals : List rportal_t) : keepsKeys portals portals :=
  fun _ p h => ⟨p, h, rfl⟩

theorem keepsKeys_trans (a b c : List rportal_t) (h1 : keepsKeys a b) (h2 : keepsKeys b c) :
    keepsKeys a c := by
  intro i p hp
  obtain ⟨p2, g1, g2⟩ := h1 i p hp
  obtain ⟨p3, g3, g4⟩ := h2 i p2 g1
  exact ⟨p3, g3, g4.trans g2⟩

theorem keepsKeys_append (portals l : List rportal_t) : keepsKeys portals (portals ++ l) := by
  intro i p hp
  have hlt : i < portals.length := (List.getElem?_eq_some_iff.1 hp).1
  exact ⟨p, by rw [List.getElem?_append_left hlt]; exact hp, rfl⟩

theorem keepsKeys_modify (portals : List rportal_t) (i : Nat) (f : rportal_t → rportal_t)
    (hf : ∀ p, comparedPart (f p) = comparedPart p) :
    keepsKeys portals (modifyPortal portals i f) := by
  intro j p hp
  unfold modifyPortal
  cases hi : portals[i]? with
  | none => exact ⟨p, hp, rfl⟩
  | some a =>
    simp only
    by_cases hij : i = j
    · subst hij
      rw [hi] at hp
      injection hp with hp
      subst hp
      have hlt : i < portals.length := (List.getElem?_eq_some_iff.1 hi).1
      exact ⟨f a, by rw [List.getElem?_set_eq_of_lt _ hlt], hf a⟩
    · exact ⟨p, by rw [List.getElem?_set_ne hij]; exact hp, rfl⟩

theorem SessionStep_cases (moves : Bool) (T : Int → Int → Bool → Int → portaltransform_t)
    (lines : List rline_t) (a b : List rportal_t) (h : SessionStep moves T lines a b) :
    keepsKeys a b ∨
      ∃ (i : Nat) (p : rportal_t) (link : rlinkdata_t) (dx dy : Int),
        moves = true ∧ a[i]? = some p ∧ p.type = .R_LINKED ∧
          b = a.set i { p with data := .link (moveLinkData link dx dy) } := by
  cases h with
  | get q _ r hreq =>
    left
    rw [request_eq] at hreq
    cases hf : requestFresh T lines q with
    | none =>
      rw [hf] at hreq
      simp only at hreq
      by_cases hk : requestKind q = .R_LINKED
      · rw [if_pos hk] at hreq; exact Option.noConfusion hreq
      · rw [if_neg hk] at hreq
        injection hreq with hreq
        obtain ⟨e, _⟩ := Prod.mk.inj hreq
        subst e
        exact keepsKeys_refl _
    | some fresh =>
      rw [hf] at hreq
      simp only at hreq
      injection hreq with hreq
      obtain ⟨i, p, _, _, _, _, hcase⟩ := intern_spec fresh a b r hreq
      rcases hcase with e | ⟨e, _⟩
      · subst e; exact keepsKeys_refl _
      · subst e; exact keepsKeys_append _ _
  | taint i v =>
    exact Or.inl (keepsKeys_modify _ _ _ (fun p => rfl))
  | pair i partner =>
    left
    apply keepsKeys_modify
    intro p
    rcases p with ⟨ty, data, t, g⟩
    cases data <;> rfl
  | move i p link dx dy hm hp hty hdata =>
    exact Or.inr ⟨i, p, link, dx, dy, hm, hp, hty, rfl⟩

theorem keepsMatch_of_keepsKeys (key : portaltype_e × portaldata) (a b : List rportal_t)
    (h : keepsKeys a b) : keepsMatch key a b := by
  intro i p hp
  obtain ⟨p2, g1, g2⟩ := h i p hp
  exact ⟨p2, g1, congrArg Prod.fst g2, by rw [g2]⟩

theorem keepsMatch_trans (key : portaltype_e × portaldata) (a b c : List rportal_t)
    (h1 : keepsMatch key a b) (h2 : keepsMatch key b c) : keepsMatch key a c := by
  intro i p hp
  obtain ⟨p2, g1, g2, g3⟩ := h1 i p hp
  obtain ⟨p3, k1, k2, k3⟩ := h2 i p2 g1
  exact ⟨p3, k1, k2.trans g2, k3.trans g3⟩

theorem keepsMatch_move (key : portaltype_e × portaldata) (a : List rportal_t) (i : Nat)
    (p : rportal_t) (data : portaldata) (hk : key.1 ≠ .R_LINKED) (hp : a[i]? = some p)
    (hty : p.type = .R_LINKED) : keepsMatch key a (a.set i { p with data := data }) := by
  intro j x hx
  by_cases hij : i = j
  · subst hij
    rw [hp] at hx
    injection hx with hx
    subst hx
    have hlt : i < a.length := (List.getElem?_eq_some_iff.1 hp).1
    refine ⟨{ p with data := data }, by rw [List.getElem?_set_eq_of_lt _ hlt], rfl, ?_⟩
    constructor
    · intro h
      exact absurd ((congrArg Prod.fst h).symm.trans hty) hk
    · intro h
      exact absurd ((congrArg Prod.fst h).symm.trans hty) hk
  · exact ⟨x, by rw [List.getElem?_set_ne hij]; exact hx, rfl, Iff.rfl⟩

theorem SessionStep_match (moves : Bool) (T : Int → Int → Bool → Int → portaltransform_t)
    (lines : List rline_t) (key : portaltype_e × portaldata)
    (hk : moves = false ∨ key.1 ≠ .R_LINKED) (a b : List rportal_t)
    (h : SessionStep moves T lines a b) : keepsMatch key a b := by
  rcases SessionStep_cases moves T lines a b h with h1 | ⟨i, p, link, dx, dy, hm, hp, hty, e⟩
  · exact keepsMatch_of_keepsKeys key a b h1
  · rcases hk with hk | hk
    · rw [hk] at hm; exact Bool.noConfusion hm
    · rw [e]; exact keepsMatch_move key a i p _ hk hp hty

theorem Session_match (moves : Bool) (T : Int → Int → Bool → Int → portaltransform_t)
    (lines : List rline_t) (key : portaltype_e × portaldata)
    (hk : moves = false ∨ key.1 ≠ .R_LINKED) (a b : List rportal_t)
    (h : Session moves T lines a b) : keepsMatch key a b := by
  induction h with
  | refl => exact keepsMatch_of_keepsKeys key a a (keepsKeys_refl a)
  | tail _ hstep ih =>
    exact keepsMatch_trans key _ _ _ ih (SessionStep_match moves T lines key hk _ _ hstep)

theorem requestFresh_type (T : Int → Int → Bool → Int → portaltransform_t)
    (lines : List rline_t) (q : portalrequest) (fresh : rportal_t)
    (h : requestFresh T lines q = some fresh) : (comparedPart fresh).1 = requestKind q := by
  cases q with
  | anchored m a flipped zoffset => simp only [requestFresh] at h; injection h with h; subst h; rfl
  | twoway m a flipped zoffset => simp only [requestFresh] at h; injection h with h; subst h; rfl
  | skybox camera => simp only [requestFresh] at h; injection h with h; subst h; rfl
  | horizon a =>
    simp only [requestFresh] at h
    cases hh : horizonOf a with
    | none => rw [hh] at h; exact Option.noConfusion h
    | some d => rw [hh] at h; injection h with h; subst h; rfl
  | plane a =>
    simp only [requestFresh] at h
    cases hh : skyplaneOf a with
    | none => rw [hh] at h; exact Option.noConfusion h
    | some d => rw [hh] at h; injection h with h; subst h; rfl
  | linked m a planez fromid toid =>
    simp only [requestFresh] at h
    cases hh : R_CalculateDeltas lines m a with
    | none => rw [hh] at h; exact Option.noConfusion h
    | some d => rw [hh] at h; injection h with h; subst h; rfl

theorem request_some (T : Int → Int → Bool → Int → portaltransform_t)
    (lines : List rline_t) (portals portals1 : List rportal_t) (q : portalrequest) (i : Nat)
    (h : request T lines portals q = some (portals1, some i)) :
    ∃ fresh, requestFresh T lines q = some fresh ∧ intern fresh portals = (portals1, some i) := by
  rw [request_eq] at h
  cases hf : requestFresh T lines q with
  | none =>
    rw [hf] at h
    simp only at h
    by_cases hk : requestKind q = .R_LINKED
    · rw [if_pos hk] at h; exact Option.noConfusion h
    · rw [if_neg hk] at h
      injection h with h
      obtain ⟨_, e⟩ := Prod.mk.inj h
      exact Option.noConfusion e
  | some fresh =>
    rw [hf] at h
    simp only at h
    injection h with h
    exact ⟨fresh, rfl, h⟩

theorem wrap32_range (v : Int) : -2147483648 ≤ wrap32 v ∧ wrap32 v < 2147483648 := by
  unfold wrap32
  omega

theorem tdiv2_range (v : Int) (h1 : -2147483648 ≤ v) (h2 : v < 2147483648) :
    -1073741824 ≤ v.tdiv 2 ∧ v.tdiv 2 ≤ 1073741823 := by
  by_cases hv : 0 ≤ v
  · rw [Int.tdiv_eq_ediv hv (by decide)]
    omega
  · have h : v.tdiv 2 = -((-v) / 2) := by
      have h3 : v = -(-v) := by omega
      rw [h3, Int.neg_tdiv, Int.tdiv_eq_ediv (by omega) (by decide)]
      simp
    rw [h]
    omega

theorem delta_neg (s t : Int) :
    wrap32 ((wrap32 t).tdiv 2 - (wrap32 s).tdiv 2)
      = -(wrap32 ((wrap32 s).tdiv 2 - (wrap32 t).tdiv 2)) := by
  have hs := tdiv2_range (wrap32 s) (wrap32_range s).1 (wrap32_range s).2
  have ht := tdiv2_range (wrap32 t) (wrap32_range t).1 (wrap32_range t).2
  generalize (wrap32 s).tdiv 2 = a at hs ⊢
  generalize (wrap32 t).tdiv 2 = b at ht ⊢
  unfold wrap32
  omega

theorem R_CalculateDeltas_swap (lines : List rline_t) (markerlinenum anchorlinenum : Int)
    (m a : rline_t) (hm : lineAt lines markerlinenum = some m)
    (ha : lineAt lines anchorlinenum = some a) :
    ∃ dx dy, R_CalculateDeltas lines markerlinenum anchorlinenum = some (dx, dy, 0) ∧
      R_CalculateDeltas lines anchorlinenum markerlinenum = some (-dx, -dy, 0) ∧
      dx = wrap32 ((wrap32 (m.v1.x + m.v2.x)).tdiv 2 - (wrap32 (a.v1.x + a.v2.x)).tdiv 2) ∧
      dy = wrap32 ((wrap32 (m.v1.y + m.v2.y)).tdiv 2 - (wrap32 (a.v1.y + a.v2.y)).tdiv 2) := by
  refine ⟨_, _, ?_, ?_, rfl, rfl⟩
  · simp only [R_CalculateDeltas, hm, ha]
  · simp only [R_CalculateDeltas, hm, ha]
    rw [delta_neg (m.v1.x + m.v2.x) (a.v1.x + a.v2.x),
      delta_neg (m.v1.y + m.v2.y) (a.v1.y + a.v2.y)]

theorem intern_link (fresh : rportal_t) (portals : List rportal_t)
    (planez fromid toid dx dy dz : Int)
    (hfr : comparedPart fresh
      = (.R_LINKED, .link { deltax := dx, deltay := dy, deltaz := dz, planez := planez,
                            fromid := fromid, toid := toid, maker := 0, anchor := 0,
                            polyportalpartner := none })) :
    ∃ i d, intern fresh portals = ((intern fresh portals).1, some i) ∧
      keepsKeys portals (intern fresh portals).1 ∧
      linkOf (intern fresh portals).1 (some i) = some d ∧ d.deltax = dx ∧ d.deltay = dy ∧
      d.deltaz = dz ∧ d.planez = planez ∧ d.fromid = fromid ∧ d.toid = toid := by
  obtain ⟨i, p, hr, hi, hp, _, hcase⟩ :=
    intern_spec fresh portals (intern fresh portals).1 (intern fresh portals).2 rfl
  have hkeep : keepsKeys portals (intern fresh portals).1 := by
    rcases hcase with e | ⟨e, _⟩
    · rw [e]; exact keepsKeys_refl _
    · rw [e]; exact keepsKeys_append _ _
  rw [hfr] at hp
  rcases p with ⟨ty, data, t, g⟩
  rcases data with _ | _ | ⟨_, _, _, _⟩ | ⟨x1, x2, x3, x4, x5, x6, x7, x8, x9⟩ | _ | _ <;>
    simp [comparedPart] at hp
  obtain ⟨_, e1, e2, e3, e4, e5, e6⟩ := hp
  subst e1 e2 e3 e4 e5 e6
  refine ⟨i,
    { deltax := x1, deltay := x2, deltaz := x3, planez := x4, fromid := x5, toid := x6,
      maker := x7, anchor := x8, polyportalpartner := x9 },
    Prod.ext rfl hr, hkeep, ?_, rfl, rfl, rfl, rfl, rfl, rfl⟩
  simp only [linkOf, hi]

theorem R_GetLinkedPortal_link (lines : List rline_t) (portals : List rportal_t)
    (markerlinenum anchorlinenum planez fromid toid dx dy dz : Int)
    (hd : R_CalculateDeltas lines markerlinenum anchorlinenum = some (dx, dy, dz)) :
    ∃ portals1 i d, R_GetLinkedPortal lines portals markerlinenum anchorlinenum planez
        fromid toid = some (portals1, some i) ∧
      keepsKeys portals portals1 ∧
      linkOf portals1 (some i) = some d ∧ d.deltax = dx ∧ d.deltay = dy ∧ d.deltaz = dz ∧
      d.planez = planez ∧ d.fromid = fromid ∧ d.toid = toid := by
  have hreq := request_eq (fun _ _ _ _ => { bytes := [] }) lines portals
    (.linked markerlinenum anchorlinenum planez fromid toid)
  simp only [request, requestFresh, hd, Option.map_some'] at hreq
  obtain ⟨i, d, h1, h2⟩ := intern_link _ portals planez fromid toid dx dy dz
    (by rfl : comparedPart
      { type := .R_LINKED, tainted := 0, globaltex := 1,
        data := .link { deltax := dx, deltay := dy, deltaz := dz, planez := planez,
                        fromid := fromid, toid := toid, maker := markerlinenum,
                        anchor := anchorlinenum, polyportalpartner := none } } = _)
  exact ⟨_, i, d, hreq.trans (congrArg some h1), h2⟩

theorem linkOf_keeps (a b : List rportal_t) (h : keepsKeys a b) (i : Nat) (d : rlinkdata_t)
    (hd : linkOf a (some i) = some d) :
    ∃ d2, linkOf b (some i) = some d2 ∧ d2.deltax = d.deltax ∧ d2.deltay = d.deltay ∧
      d2.deltaz = d.deltaz ∧ d2.planez = d.planez ∧ d2.fromid = d.fromid ∧
      d2.toid = d.toid := by
  simp only [linkOf] at hd
  cases hp : a[i]? with
  | none => rw [hp] at hd; exact Option.noConfusion hd
  | some p =>
    rw [hp] at hd
    obtain ⟨p2, g1, g2⟩ := h i p hp
    rcases p with ⟨ty, data, t, g⟩
    rcases p2 with ⟨ty2, data2, t2, g3⟩
    rcases data with _ | _ | ⟨_, _, _, _⟩ | ⟨x1, x2, x3, x4, x5, x6, x7, x8, x9⟩ | _ | _ <;>
      simp at hd
    subst hd
    rcases data2 with _ | _ | ⟨_, _, _, _⟩ | ⟨y1, y2, y3, y4, y5, y6, y7, y8, y9⟩ | _ | _ <;>
      simp [comparedPart] at g2
    obtain ⟨_, e1, e2, e3, e4, e5, e6⟩ := g2
    subst e1 e2 e3 e4 e5 e6
    exact ⟨{ deltax := y1, deltay := y2, deltaz := y3, planez := y4, fromid := y5,
             toid := y6, maker := y7, anchor := y8, polyportalpartner := y9 },
      by simp only [linkOf, g1], rfl, rfl, rfl, rfl, rfl, rfl⟩

theorem R_RenderLinkedPortal_view {F E : Type} (env : renderenv F E) :
    ∀ (fuel : Nat) (st : RenderState F E) (depth : Nat) (st2 : RenderState F E)
      (log : List renderevent),
      R_RenderLinkedPortal env fuel st depth = .ok (st2, log) →
      st2.rs.viewx = st.rs.viewx ∧ st2.rs.viewy = st.rs.viewy ∧
        st2.rs.viewz = st.rs.viewz := by
  intro fuel
  induction fuel with
  | zero =>
    intro st depth st2 log h
    rw [R_RenderLinkedPortal] at h
    exact Except.noConfusion h
  | succ fuel ih =>
    intro st depth st2 log h
    rw [R_RenderLinkedPortal] at h
    repeat' split at h
    all_goals first
      | exact Except.noConfusion h
      | (cases h; exact ⟨rfl, rfl, rfl⟩)
      | (rename_i hrec
         cases h
         have h2 := ih _ _ _ _ hrec
         exact h2)

theorem R_RenderAnchoredPortal_view {F E : Type} (env : renderenv F E) :
    ∀ (fuel : Nat) (st : RenderState F E) (depth : Nat) (st2 : RenderState F E)
      (log : List renderevent),
      R_RenderAnchoredPortal env fuel st depth = .ok (st2, log) →
      st2.rs.viewx = st.rs.viewx ∧ st2.rs.viewy = st.rs.viewy ∧
        st2.rs.viewz = st.rs.viewz ∧ st2.rs.viewangle = st.rs.viewangle := by
  intro fuel
  induction fuel with
  | zero =>
    intro st depth st2 log h
    rw [R_RenderAnchoredPortal] at h
    exact Except.noConfusion h
  | succ fuel ih =>
    intro st depth st2 log h
    rw [R_RenderAnchoredPortal] at h
    repeat' split at h
    all_goals first
      | exact Except.noConfusion h
      | (cases h; exact ⟨rfl, rfl, rfl, rfl⟩)
      | (rename_i hrec
         cases h
         have h2 := ih _ _ _ _ hrec
         exact h2)

theorem toAngle_wrap32 (v : Int) (h0 : 0 ≤ v) (h1 : v < 4294967296) :
    toAngle (wrap32 v) = v := by
  unfold toAngle wrap32
  omega

theorem toAngle_range (v : Int) : 0 ≤ toAngle v ∧ toAngle v < 4294967296 := by
  unfold toAngle
  omega

theorem R_RenderSkyboxPortal_view {F E : Type} (env : renderenv F E) :
    ∀ (fuel : Nat) (st : RenderState F E) (depth : Nat) (st2 : RenderState F E)
      (log : List renderevent),
      0 ≤ st.rs.viewangle → st.rs.viewangle < 4294967296 →
      R_RenderSkyboxPortal env fuel st depth = .ok (st2, log) →
      st2.rs.viewx = st.rs.viewx ∧ st2.rs.viewy = st.rs.viewy ∧
        st2.rs.viewz = st.rs.viewz ∧ st2.rs.viewangle = st.rs.viewangle := by
  intro fuel
  induction fuel with
  | zero =>
    intro st depth st2 log _ _ h
    rw [R_RenderSkyboxPortal] at h
    exact Except.noConfusion h
  | succ fuel ih =>
    intro st depth st2 log h0 h1 h
    rw [R_RenderSkyboxPortal] at h
    repeat' split at h
    all_goals first
      | exact Except.noConfusion h
      | (cases h; exact ⟨rfl, rfl, rfl, rfl⟩)
      | (cases h; exact ⟨rfl, rfl, rfl, toAngle_wrap32 _ h0 h1⟩)
      | (rename_i hrec
         cases h
         have h2 := ih _ _ _ _ (toAngle_range _).1 (toAngle_range _).2 hrec
         exact ⟨h2.1, h2.2.1, h2.2.2.1, h2.2.2.2.trans (toAngle_wrap32 _ h0 h1)⟩)
section render
variable {F E : Type} [LinearOrderedCommRing F]

end render

theorem count_cons_eq (b x : Nat) (l : List Nat) :
    (x :: l).count b = ([x] : List Nat).count b + l.count b := by
  rw [← List.singleton_append, List.count_append]

section render
variable {F E : Type} [LinearOrderedCommRing F]

end render

theorem reached_append (a b : List renderevent) : reached (a ++ b) = reached a ++ reached b := by
  induction a with
  | nil => rfl
  | cons x xs ih => cases x <;> simp [reached, ih]

/-- C1: `P_GetLinkOffset` returns `&zerolink`, whose content is `(0, 0, 0)`,
whenever `useportalgroups` is off, the link table is absent, or `startgroup`
or `targetgroup` lies outside `[0, groupcount)`; in every other case it returns
the pointer stored in the slot of `(startgroup, targetgroup)`, or `&zerolink`
when that slot is empty.  It is a total function with no other result. -/
theorem C1_P_GetLinkOffset_contract (s : PState) (startgroup targetgroup : Int)
    (hz : s.zerolink = zero_offset) :
    ((s.useportalgroups = false ∨ s.linktable = none ∨
        startgroup < 0 ∨ startgroup ≥ s.groupcount ∨
        targetgroup < 0 ∨ targetgroup ≥ s.groupcount) →
      P_GetLinkOffset s startgroup targetgroup = .zerolink ∧
        linkOffsetOf s startgroup targetgroup = { x := 0, y := 0, z := 0 }) ∧
    (∀ linktable, s.useportalgroups = true → s.linktable = some linktable →
      0 ≤ startgroup → startgroup < s.groupcount →
      0 ≤ targetgroup → targetgroup < s.groupcount →
      (∀ link, linktable.getD (startgroup * s.groupcount + targetgroup).toNat none = some link →
        P_GetLinkOffset s startgroup targetgroup = link) ∧
      (linktable.getD (startgroup * s.groupcount + targetgroup).toNat none = none →
        P_GetLinkOffset s startgroup targetgroup = .zerolink ∧
          linkOffsetOf s startgroup targetgroup = { x := 0, y := 0, z := 0 })) := by
  constructor
  · intro h
    have hp : P_GetLinkOffset s startgroup targetgroup = .zerolink := by
      unfold P_GetLinkOffset
      rcases h with h | h | h | h | h | h
      · rw [h]; rfl
      · rw [h]; split <;> rfl
      all_goals
        cases s.useportalgroups
        · rfl
        · cases s.linktable with
          | none => rfl
          | some T =>
            simp only [Bool.not_true, Bool.false_eq_true, if_false]
            split_ifs <;> first | rfl | omega
    refine ⟨hp, ?_⟩
    unfold linkOffsetOf
    rw [hp]
    exact hz
  · intro T hf hT h1 h2 h3 h4
    have hr1 : ¬ (startgroup < 0 ∨ startgroup ≥ s.groupcount) := by omega
    have hr2 : ¬ (targetgroup < 0 ∨ targetgroup ≥ s.groupcount) := by omega
    constructor
    · intro link hl
      unfold P_GetLinkOffset
      rw [hf, hT]
      simp only [Bool.not_true, Bool.false_eq_true, if_false]
      rw [if_neg hr1, if_neg hr2, hl]
    · intro hl
      have hp2 : P_GetLinkOffset s startgroup targetgroup = .zerolink := by
        unfold P_GetLinkOffset
        rw [hf, hT]
        simp only [Bool.not_true, Bool.false_eq_true, if_false]
        rw [if_neg hr1, if_neg hr2, hl]
      refine ⟨hp2, ?_⟩
      unfold linkOffsetOf
      rw [hp2]
      exact hz

/-- C1, on the built three-group scenario: group 7 does not exist, the slot of
the pair (0, 2) holds `(256, 256, 0)`. -/
theorem C1_P_GetLinkOffset_contract_witness :
    scenarioBuilt.zerolink = zero_offset ∧
    P_GetLinkOffset scenarioBuilt 0 7 = .zerolink ∧
    P_GetLinkOffset scenarioBuilt 0 2 = .cell { x := 256, y := 256, z := 0 } :=
  ⟨rfl,
   ((C1_P_GetLinkOffset_contract scenarioBuilt 0 7 rfl).1
      (Or.inr (Or.inr (Or.inr (Or.inr (Or.inr (by decide))))))).1,
   ((C1_P_GetLinkOffset_contract scenarioBuilt 0 2 rfl).2 _ rfl rfl
      (by decide) (by decide) (by decide) (by decide)).1 _ rfl⟩

/-- C2: a declaration set whose links between groups 0 and 1 are not negations
of each other, `(1, 0, 0)` and `(5, 0, 0)`, should make `P_BuildLinkTable` fail
and leave every lookup at the zero offset; the build succeeds instead, turns
`useportalgroups` on, and the lookups return the two declared offsets.  The
backlink loop cannot reject any table while `useportalgroups` is off. -/
theorem C2_asymmetric_pair_accepted :
    createGroups (P_InitPortals (portalMap asymmetricPortals)) [0, 1]
      = .ok (groupedMap asymmetricPortals) ∧
    Declared (groupedMap asymmetricPortals) 0 1 { x := 1, y := 0, z := 0 } ∧
    Declared (groupedMap asymmetricPortals) 1 0 { x := 5, y := 0, z := 0 } ∧
    (P_BuildLinkTable (groupedMap asymmetricPortals)).map
        (fun r => (r.1, r.2.useportalgroups, P_GetLinkOffset r.2 0 1, P_GetLinkOffset r.2 1 0))
      = .ok (true, true, .cell { x := 1, y := 0, z := 0 }, .cell { x := 5, y := 0, z := 0 }) ∧
    (∀ s : PState, s.useportalgroups = false → s.zerolink = zero_offset →
      backlinksAgree s = true) := by
  refine ⟨rfl, ?_, ?_, rfl, fun s hf hz => backlinksAgree_off s hf hz⟩
  · exact ⟨_, List.mem_cons_self _ _, linkedPortal 0 1 1 0 0, List.mem_cons_self _ _,
      rfl, rfl, rfl, rfl⟩
  · exact ⟨_, List.mem_cons_of_mem _ (List.mem_cons_self _ _), linkedPortal 1 0 5 0 0,
      List.mem_cons_self _ _, rfl, rfl, rfl, rfl⟩

/-- C3: with both directions between groups 0 and 1 directly declared, as
`(1, 0, 0)` and `(5, 0, 0)`, the offset looked up for (0, 1) after
`P_BuildLinkTable` should be the negation of the one for (1, 0); the lookups
give `(1, 0, 0)` and `(5, 0, 0)`, whose negation is `(-5, 0, 0)`. -/
theorem C3_symmetry_violated :
    (P_BuildLinkTable (groupedMap asymmetricPortals)).map
        (fun r => (r.1, linkOffsetOf r.2 0 1, linkOffsetOf r.2 1 0,
                   offset_neg (linkOffsetOf r.2 1 0)))
      = .ok (true, { x := 1, y := 0, z := 0 }, { x := 5, y := 0, z := 0 },
             { x := -5, y := 0, z := 0 }) := by
  rfl

/-- C4: `P_GetLinkOffset(A, A)` is the zero offset `(0, 0, 0)` for every group
id `A`: while `useportalgroups` is off (before the table is built), after a
successful `P_BuildLinkTable`, and after any sequence of `P_MoveLinkedPortal`
calls that follows it; the moves leave `zerolink` itself at `(0, 0, 0)`. -/
theorem C4_identity_offset (s : PState) (A : Int) (hz : s.zerolink = zero_offset) :
    (s.useportalgroups = false → linkOffsetOf s A A = { x := 0, y := 0, z := 0 }) ∧
    (∀ s1, P_BuildLinkTable s = .ok (true, s1) →
      ∀ moves : List (portal_t × Int × Int × Bool),
        P_GetLinkOffset (applyMoves s1 moves) A A = .zerolink ∧
        linkOffsetOf (applyMoves s1 moves) A A = { x := 0, y := 0, z := 0 } ∧
        (applyMoves s1 moves).zerolink = { x := 0, y := 0, z := 0 }) := by
  constructor
  · intro hf
    unfold linkOffsetOf
    rw [P_GetLinkOffset_off s hf]
    exact hz
  · intro s1 hb moves
    obtain ⟨hd, hz1⟩ := build_true_diag s s1 hb hz
    obtain ⟨hd2, hz2⟩ := applyMoves_frame moves s1 hd
    have hp := P_GetLinkOffset_diag _ hd2 A
    refine ⟨hp, ?_, hz2.trans hz1⟩
    unfold linkOffsetOf
    rw [hp]
    exact hz2.trans hz1

/-- C4, on the three-group scenario: group 1 before the build, and after the
build followed by two portal moves. -/
theorem C4_identity_offset_witness :
    (groupedMap scenarioPortals).zerolink = zero_offset ∧
    linkOffsetOf (groupedMap scenarioPortals) 1 1 = { x := 0, y := 0, z := 0 } ∧
    linkOffsetOf (applyMoves scenarioBuilt
        [(linkedPortal 0 1 256 0 0, 8, 16, true), (linkedPortal 1 2 0 256 0, -8, 4, false)]) 1 1
      = { x := 0, y := 0, z := 0 } :=
  ⟨rfl, (C4_identity_offset (groupedMap scenarioPortals) 1 rfl).1 rfl,
   ((C4_identity_offset (groupedMap scenarioPortals) 1 rfl).2 scenarioBuilt rfl _).2.1⟩

/-- C5 as stated fails: with the links between groups 0 and 1 and between 1 and
2 declared with offset `(1, 0, 0)`, the link between 0 and 2 with `(5, 0, 0)`,
and every backlink the negation of its link, the build succeeds, the table holds
links 0 to 1 and 1 to 2, and the offset from 0 to 2 is `(5, 0, 0)`, not the sum
`(2, 0, 0)`. -/
theorem C5_transitivity_counterexample :
    createGroups (P_InitPortals (portalMap trianglePortals)) [0, 1, 2]
      = .ok (groupedMap trianglePortals) ∧
    (P_BuildLinkTable (groupedMap trianglePortals)).map
        (fun r => (r.1, (P_GetLinkIfExists r.2 0 1).isSome, (P_GetLinkIfExists r.2 1 2).isSome,
          linkOffsetOf r.2 0 2, offset_add (linkOffsetOf r.2 0 1) (linkOffsetOf r.2 1 2)))
      = .ok (true, true, true, { x := 5, y := 0, z := 0 }, { x := 2, y := 0, z := 0 }) :=
  ⟨rfl, rfl⟩

/-- C5, amended: after a successful `P_BuildLinkTable` on declarations that agree
with one placement of the groups (every declared offset from a group `a` to a
group `p` is the difference of the places of `p` and `a`), for all groups A, B, C
such that the table holds a link from A to B and from B to C, the offset from A
to C is the component-wise sum, in `fixed_t` arithmetic, of the offsets from A
to B and from B to C. -/
theorem C5_transitivity_of_placed_groups (s s1 : PState)
    (hb : P_BuildLinkTable s = .ok (true, s1)) (hz : s.zerolink = zero_offset)
    (pos : Nat → linkoffset_t)
    (hpos : ∀ a p d, declaredLink s a p d → d = placedOffset pos a p)
    (A B C : Int) (hAB : P_GetLinkIfExists s1 A B ≠ none)
    (hBC : P_GetLinkIfExists s1 B C ≠ none) :
    linkOffsetOf s1 A C = offset_add (linkOffsetOf s1 A B) (linkOffsetOf s1 B C) := by
  have hrAB := P_GetLinkIfExists_range s1 A B hAB
  have hrBC := P_GetLinkIfExists_range s1 B C hBC
  by_cases hgc : s.groupcount = 0
  · rw [P_BuildLinkTable_zero s hgc] at hb
    have hs := (Prod.mk.inj (Except.ok.inj hb)).2
    subst hs
    omega
  obtain ⟨hzl, hcount, hdiag, hreach, hchain, _⟩ := built_table_spec s s1 hb (by omega)
  rw [hcount] at hrAB hrBC
  obtain ⟨a, rfl⟩ : ∃ a : Nat, A = a := ⟨A.toNat, by omega⟩
  obtain ⟨b, rfl⟩ : ∃ b : Nat, B = b := ⟨B.toNat, by omega⟩
  obtain ⟨c, rfl⟩ : ∃ c : Nat, C = c := ⟨C.toNat, by omega⟩
  have ha : a < s.groupcount := by omega
  have hb' : b < s.groupcount := by omega
  have hc : c < s.groupcount := by omega
  -- every entry that exists holds the placed offset
  have hval : ∀ x y : Nat, x < s.groupcount → y < s.groupcount →
      ∀ l, P_GetLinkIfExists s1 x y = some l → linkOffsetOf s1 x y = placedOffset pos x y := by
    intro x y hx hy l hl
    have hoff : linkOffsetOf s1 x y = deref s.zerolink l := by
      unfold linkOffsetOf
      rw [P_GetLinkOffset_of_exists, hl, hzl]
      rfl
    rw [hoff]
    by_cases hxy : y = x
    · subst hxy
      rw [hdiag y hx] at hl
      cases hl
      rw [placedOffset_self]
      exact hz
    · exact LinkChain_placed pos hpos (hchain x y l hx hy hxy hl)
  have hreachable : ∀ x y : Nat, x < s.groupcount → y < s.groupcount → y ≠ x →
      P_GetLinkIfExists s1 x y ≠ none → Reachable (declaredLink s) x y := by
    intro x y hx hy hxy hne
    obtain ⟨l, hl⟩ := Option.ne_none_iff_exists'.mp hne
    exact LinkChain_reach (hchain x y l hx hy hxy hl)
  obtain ⟨l1, hl1⟩ := Option.ne_none_iff_exists'.mp hAB
  obtain ⟨l2, hl2⟩ := Option.ne_none_iff_exists'.mp hBC
  have hAC : ∃ l3, P_GetLinkIfExists s1 a c = some l3 := by
    by_cases hca : c = a
    · subst hca; exact ⟨_, hdiag c hc⟩
    by_cases hba : b = a
    · subst hba; exact ⟨l2, hl2⟩
    by_cases hcb : c = b
    · subst hcb; exact ⟨l1, hl1⟩
    exact (hreach a c ha hca (Relation.TransGen.trans (hreachable a b ha hb' hba hAB)
      (hreachable b c hb' hc hcb hBC))).2
  obtain ⟨l3, hl3⟩ := hAC
  rw [hval a c ha hc l3 hl3, hval a b ha hb' l1 hl1, hval b c hb' hc l2 hl2, placedOffset_add]

/-- C5, amended, on the three-group scenario with group 0 placed at the origin,
group 1 at `(256, 0, 0)` and group 2 at `(256, 256, 0)`. -/
theorem C5_transitivity_of_placed_groups_witness :
    P_GetLinkIfExists scenarioBuilt 0 1 ≠ none ∧ P_GetLinkIfExists scenarioBuilt 1 2 ≠ none ∧
    linkOffsetOf scenarioBuilt 0 2
      = offset_add (linkOffsetOf scenarioBuilt 0 1) (linkOffsetOf scenarioBuilt 1 2) :=
  ⟨by decide, by decide,
   C5_transitivity_of_placed_groups (groupedMap scenarioPortals) scenarioBuilt rfl rfl
    scenarioPlaces scenario_placed 0 1 2 (by decide) (by decide)⟩

/-- C7 as stated fails when no portal group exists: the only sector carries a
linked ceiling portal whose `toid` lies outside `[0, groupcount)`, and
`P_BuildLinkTable` returns true. -/
theorem C7_no_groups_counterexample :
    ungroupedPortalMap.groupcount = 0 ∧
    (∃ sec ∈ ungroupedPortalMap.sectors, ∃ portal, sec.c_portal = some portal ∧
      portal.type = .R_LINKED ∧
      (portal.link.toid < 0 ∨ portal.link.toid ≥ ungroupedPortalMap.groupcount)) ∧
    P_BuildLinkTable ungroupedPortalMap = .ok (true, ungroupedPortalMap) := by
  refine ⟨rfl, ⟨_, List.mem_cons_self _ _, linkedPortal 0 1 64 0 0, rfl, rfl, ?_⟩, rfl⟩
  right
  decide

/-- C7, amended: when at least one portal group exists and `useportalgroups` is
off on entry, `P_BuildLinkTable` returns false, leaves `useportalgroups` off and
every later lookup at `&zerolink`, whenever some sector's ceiling, floor or line
linked portal targets the sector's own group, or has a `fromid` or `toid`
outside `[0, groupcount)`, or declares an offset that differs from the offset
another boundary declares for the same ordered pair of groups. -/
theorem C7_declaration_errors_fail_closed (s : PState) (hgc : 0 < s.groupcount)
    (hf : s.useportalgroups = false)
    (sec : sector_t) (hsec : sec ∈ s.sectors) (portal : portal_t)
    (hp : some portal ∈ sectorPortals sec) (hl : portal.type = .R_LINKED)
    (hbad : portal.link.toid = sec.groupid ∨
      portal.link.fromid < 0 ∨ portal.link.fromid ≥ s.groupcount ∨
      portal.link.toid < 0 ∨ portal.link.toid ≥ s.groupcount ∨
      ∃ sec2 ∈ s.sectors, ∃ portal2, some portal2 ∈ sectorPortals sec2 ∧
        portal2.type = .R_LINKED ∧ sec2.groupid = sec.groupid ∧
        portal2.link.toid = portal.link.toid ∧
        (portal2.link.deltax ≠ portal.link.deltax ∨ portal2.link.deltay ≠ portal.link.deltay ∨
          portal2.link.deltaz ≠ portal.link.deltaz)) :
    ∃ s1, P_BuildLinkTable s = .ok (false, s1) ∧ s1.useportalgroups = false ∧
      ∀ startgroup targetgroup, P_GetLinkOffset s1 startgroup targetgroup = .zerolink := by
  have hrel := checkSectors_rel s.groupcount s.zerolink s.sectors
    (List.replicate (s.groupcount * s.groupcount) none) (by simp)
  have hfail : (checkSectors s.groupcount s.zerolink
      (List.replicate (s.groupcount * s.groupcount) none) s.sectors).1 = false := by
    by_contra hcon
    have htrue := eq_true_of_ne_false hcon
    have hok := hrel.2.2.2.2 htrue
    obtain ⟨a, b, g1, g2, g3, ha, hb, hab, l, hl1, hd⟩ := hok sec portal ⟨hsec, hp, hl⟩
    rcases hbad with h | h | h | h | h | ⟨sec2, hsec2, portal2, hp2, hl2, hg2, ht2, hne⟩
    · omega
    · omega
    · omega
    · omega
    · omega
    · obtain ⟨a2, b2, k1, k2, _, _, _, _, l2, hl2', hd2⟩ := hok sec2 portal2 ⟨hsec2, hp2, hl2⟩
      have e1 : a2 = a := by omega
      have e2 : b2 = b := by omega
      subst e1; subst e2
      rw [hl1] at hl2'
      cases hl2'
      rw [hd] at hd2
      unfold portalDelta at hd2
      have hx := congrArg linkoffset_t.x hd2
      have hy := congrArg linkoffset_t.y hd2
      have hz := congrArg linkoffset_t.z hd2
      dsimp only at hx hy hz
      rcases hne with h | h | h
      · exact h hx.symm
      · exact h hy.symm
      · exact h hz.symm
  rcases P_BuildLinkTable_cases s hgc _ rfl with ⟨h1, _⟩ | ⟨h1, _⟩
  · exact ⟨_, h1, hf, fun a b => P_GetLinkOffset_off _ (by exact hf) a b⟩
  · rw [hfail] at h1
    exact Bool.noConfusion h1

/-- C7, amended, on two sectors of group 0 whose ceiling portals both lead to
group 1 but declare different offsets. -/
theorem C7_declaration_errors_fail_closed_witness :
    0 < conflictMap.groupcount ∧ conflictMap.useportalgroups = false ∧
    ∃ s1, P_BuildLinkTable conflictMap = .ok (false, s1) ∧ s1.useportalgroups = false ∧
      ∀ startgroup targetgroup, P_GetLinkOffset s1 startgroup targetgroup = .zerolink :=
  ⟨by decide, rfl,
   C7_declaration_errors_fail_closed conflictMap (by decide) rfl
    { groupid := 0, c_portal := some (linkedPortal 0 1 64 0 0), f_portal := none,
      lines := [{ frontsector := some 0, backsector := some 1, portal := none }] }
    (List.mem_cons_self _ _) (linkedPortal 0 1 64 0 0) (List.mem_cons_self _ _) rfl
    (Or.inr (Or.inr (Or.inr (Or.inr (Or.inr
      ⟨{ groupid := 0, c_portal := some (linkedPortal 0 1 32 0 0), f_portal := none,
         lines := [{ frontsector := some 0, backsector := some 1, portal := none }] },
       List.mem_cons_of_mem _ (List.mem_cons_self _ _), linkedPortal 0 1 32 0 0,
       List.mem_cons_self _ _, rfl, rfl, rfl, Or.inl (by decide)⟩)))))⟩

/-- C8 as stated fails when no portal group exists: on a map without groups
`P_BuildLinkTable` reports success, yet `useportalgroups` stays off and no link
table is allocated. -/
theorem C8_no_groups_counterexample :
    emptyMap.groupcount = 0 ∧
    (P_BuildLinkTable emptyMap).map
        (fun r => (r.1, r.2.useportalgroups, r.2.linktable)) = .ok (true, false, none) := by
  exact ⟨rfl, rfl⟩

/-- C8, amended: the build leaves `groupcount` as it was and never uses up the
bound of its closure pass.  When it reports success and at least one portal
group exists, a link table of `groupcount * groupcount` slots exists afterwards
and `useportalgroups` is on; when it reports success with no portal group, the
state is as it was on entry; when it reports failure, `useportalgroups` is as it
was on entry, hence off when it was off. -/
theorem C8_build_result_and_flag (s : PState) :
    ∃ b s1, P_BuildLinkTable s = .ok (b, s1) ∧ s1.groupcount = s.groupcount ∧
      (b = true → 0 < s.groupcount →
        (∃ linktable, s1.linktable = some linktable ∧
          linktable.length = s.groupcount * s.groupcount) ∧ s1.useportalgroups = true) ∧
      (b = true → s.groupcount = 0 → s1 = s) ∧
      (b = false → s1.useportalgroups = s.useportalgroups) := by
  by_cases hgc : s.groupcount = 0
  · refine ⟨true, s, P_BuildLinkTable_zero s hgc, rfl, ?_, fun _ _ => rfl, ?_⟩
    · intro _ h; omega
    · intro h; exact Bool.noConfusion h
  · have hrel := checkSectors_rel s.groupcount s.zerolink s.sectors
      (List.replicate (s.groupcount * s.groupcount) none) (by simp)
    rcases P_BuildLinkTable_cases s (by omega) _ rfl with ⟨h1, _⟩ | ⟨_, _, T1, hext, _, h3⟩
    · refine ⟨false, _, h1, rfl, ?_, ?_, fun _ => rfl⟩
      · intro h; exact Bool.noConfusion h
      · intro h; exact Bool.noConfusion h
    · refine ⟨true, _, h3, rfl, ?_, ?_, ?_⟩
      · intro _ _
        refine ⟨⟨_, rfl, ?_⟩, rfl⟩
        rw [(fillDiagonal_spec s.groupcount T1 ?_).1, AllExt_length hext, hrel.1]
        · simp
        · rw [AllExt_length hext, hrel.1]; simp
      · intro _ h; exact absurd h hgc
      · intro h; exact Bool.noConfusion h

/-- C9: after a successful build, for every group `A` and every group `P`
other than `A` that is reachable from `A` by a chain of directly declared
links, the table has a non-empty entry for `(A, P)`; the entry is the sum, in
`fixed_t` arithmetic, of the declared offsets along some chain of declared links
from `A` to `P`, and when
the link from `A` to `P` is itself declared the entry is the declared offset. -/
theorem C9_closure_complete (s s1 : PState) (hb : P_BuildLinkTable s = .ok (true, s1))
    (A P : Nat) (hA : A < s.groupcount) (hPA : P ≠ A)
    (hr : Reachable (declaredLink s) A P) :
    (∃ l, P_GetLinkIfExists s1 A P = some l ∧ linkOffsetOf s1 A P = deref s1.zerolink l ∧
      LinkChain (declaredLink s) A P (linkOffsetOf s1 A P)) ∧
    (∀ d, declaredLink s A P d → linkOffsetOf s1 A P = d) := by
  obtain ⟨hz, _, _, hreach, hchain, hdecl⟩ := built_table_spec s s1 hb (by omega)
  obtain ⟨hP, l, hl⟩ := hreach A P hA hPA hr
  have hoff : linkOffsetOf s1 A P = deref s1.zerolink l := by
    unfold linkOffsetOf
    rw [P_GetLinkOffset_of_exists, hl]
    rfl
  refine ⟨⟨l, hl, hoff, ?_⟩, ?_⟩
  · rw [hoff, hz]
    exact hchain A P l hA hP hPA hl
  · intro d hd
    obtain ⟨_, _, _, l2, hl2, hd2⟩ := hdecl A P d hd
    rw [hl] at hl2
    cases hl2
    rw [hoff, hz]
    exact hd2

/-- C9, on the three-group scenario: group 2 is reachable from group 0 through
the declared links 0 to 1 and 1 to 2. -/
theorem C9_closure_complete_witness :
    Reachable (declaredLink (groupedMap scenarioPortals)) 0 2 ∧
    (∃ l, P_GetLinkIfExists scenarioBuilt 0 2 = some l ∧
      linkOffsetOf scenarioBuilt 0 2 = deref scenarioBuilt.zerolink l ∧
      LinkChain (declaredLink (groupedMap scenarioPortals)) 0 2
        (linkOffsetOf scenarioBuilt 0 2)) ∧
    linkOffsetOf scenarioBuilt 0 2 = { x := 256, y := 256, z := 0 } :=
  have hr : Reachable (declaredLink (groupedMap scenarioPortals)) 0 2 :=
    Relation.TransGen.tail
      (Relation.TransGen.single
        ⟨{ x := 256, y := 0, z := 0 }, _, List.mem_cons_self _ _, linkedPortal 0 1 256 0 0,
          List.mem_cons_self _ _, rfl, rfl, rfl, rfl⟩)
      ⟨{ x := 0, y := 256, z := 0 }, _, List.mem_cons_of_mem _ (List.mem_cons_self _ _),
        linkedPortal 1 2 0 256 0, List.mem_cons_of_mem _ (List.mem_cons_self _ _),
        rfl, rfl, rfl, rfl⟩
  ⟨hr, (C9_closure_complete (groupedMap scenarioPortals) scenarioBuilt rfl 0 2
      (by decide) (by decide) hr).1, rfl⟩

/-- C10: for every seed sector of a map with valid sector pointers, the first
`P_CreatePortalGroup` call returns a group id, and a second call on the same
seed returns the same id and leaves the whole state as the first call left it:
`groupcount`, every sector's group id and every group's member list. -/
theorem C10_idempotent_grouping (s : PState) (frm : Nat) (hfrm : frm < s.sectors.length)
    (hv : mapValid s.sectors) (hlim : s.groupcount ≤ s.grouplimit) :
    ∃ s1 g, P_CreatePortalGroup s frm = .ok (s1, g) ∧
      P_CreatePortalGroup s1 frm = .ok (s1, g) := by
  obtain ⟨sec, hsec⟩ : ∃ sec, s.sectors[frm]? = some sec :=
    ⟨s.sectors[frm], List.getElem?_eq_getElem hfrm⟩
  by_cases hg : sec.groupid = R_NOGROUP
  · obtain ⟨s1, h1, _, sec1, hsec1, hg1⟩ := P_CreatePortalGroup_fresh s frm sec hsec hg hv hlim
    refine ⟨s1, s.groupcount, h1, ?_⟩
    have h2 := P_CreatePortalGroup_grouped s1 frm sec1 hsec1
      (by rw [hg1]; unfold R_NOGROUP; omega)
    rw [h2, hg1]
  · have h1 := P_CreatePortalGroup_grouped s frm sec hsec hg
    exact ⟨s, sec.groupid, h1, h1⟩

/-- C10, on a map of four sectors: seed 0 gives group 0 with members 0, 1 and 2,
and the second call changes nothing. -/
theorem C10_idempotent_grouping_witness :
    0 < fourSectorMap.sectors.length ∧ mapValid fourSectorMap.sectors ∧
    fourSectorMap.groupcount ≤ fourSectorMap.grouplimit ∧
    ∃ s1 g, P_CreatePortalGroup fourSectorMap 0 = .ok (s1, g) ∧
      P_CreatePortalGroup s1 0 = .ok (s1, g) :=
  ⟨by decide, by decide, by decide,
   C10_idempotent_grouping fourSectorMap 0 (by decide) (by decide) (by decide)⟩


/-! ## The properties of the flood fill of `P_GatherSectors` -/

/-- C11: for a seed sector that has no group, in a map with valid sector
pointers, `P_CreatePortalGroup` returns, and the id it returns is the old
`groupcount`.  The calls of `R_SetSectorGroupID` it makes are one call for each
entry of a list without duplicates (`assignAll`), the entries of that list are
exactly the sectors reached from the seed through front and back sectors of
lines in the line lists of the sectors reached, and that list is the member
list of the new group: every sector reached carries the new id afterwards and
every other sector is as before. -/
theorem C11_flood_fill (s : PState) (frm : Nat) (sec : sector_t)
    (hsec : s.sectors[frm]? = some sec) (hg : sec.groupid = R_NOGROUP)
    (hv : mapValid s.sectors) (hlim : s.groupcount ≤ s.grouplimit) :
    ∃ s2 list, P_CreatePortalGroup s frm = .ok (s2, (s.groupcount : Int)) ∧
      s2.groupcount = s.groupcount + 1 ∧
      (∀ q, q ∈ list ↔ connected s.sectors frm q) ∧
      list.Nodup ∧
      s2.sectors = assignAll s.sectors s.groupcount list ∧
      s2.groups.getD s.groupcount none = some { seclist := list } ∧
      (∀ q, connected s.sectors frm q →
        ∃ sec0, s.sectors[q]? = some sec0 ∧
          s2.sectors[q]? = some { sec0 with groupid := s.groupcount }) ∧
      (∀ q, ¬ connected s.sectors frm q → s2.sectors[q]? = s.sectors[q]?) := by
  obtain ⟨s2, list, h1, h2, h3, h4, h5, h6, h7⟩ :=
    P_CreatePortalGroup_flood s frm sec hsec hg hv hlim
  refine ⟨s2, list, h1, h2, h3, h4, h5, h6, ?_, ?_⟩
  · intro q hq
    have hmem := (h3 q).mpr hq
    have hlt := h7 q hmem
    refine ⟨s.sectors[q], List.getElem?_eq_getElem hlt, ?_⟩
    rw [h5, assignAll_get, if_pos hmem, List.getElem?_eq_getElem hlt]
    rfl
  · intro q hq
    have hmem : q ∉ list := fun hm => hq ((h3 q).mp hm)
    rw [h5, assignAll_get, if_neg hmem]

/-- C11, on a map of four sectors: seed 0 has no group, and the call returns
id 0 with sectors 0, 1 and 2 as members. -/
theorem C11_flood_fill_witness :
    fourSectorMap.sectors[0]? = some
      { groupid := -1, c_portal := none, f_portal := none,
        lines := [{ frontsector := some 0, backsector := some 1, portal := none }] } ∧
    mapValid fourSectorMap.sectors ∧
    ∃ s2 list, P_CreatePortalGroup fourSectorMap 0
        = .ok (s2, (fourSectorMap.groupcount : Int)) ∧
      s2.groupcount = fourSectorMap.groupcount + 1 ∧
      (∀ q, q ∈ list ↔ connected fourSectorMap.sectors 0 q) ∧
      list.Nodup ∧
      s2.sectors = assignAll fourSectorMap.sectors fourSectorMap.groupcount list ∧
      s2.groups.getD fourSectorMap.groupcount none = some { seclist := list } ∧
      (∀ q, connected fourSectorMap.sectors 0 q →
        ∃ sec0, fourSectorMap.sectors[q]? = some sec0 ∧
          s2.sectors[q]? = some { sec0 with groupid := fourSectorMap.groupcount }) ∧
      (∀ q, ¬ connected fourSectorMap.sectors 0 q →
        s2.sectors[q]? = fourSectorMap.sectors[q]?) :=
  ⟨rfl, by decide, C11_flood_fill fourSectorMap 0 _ rfl rfl (by decide) (by decide)⟩

/-- C12: in every state that a map reaches by calls of `P_CreatePortalGroup`,
`P_BuildLinkTable` and `P_MoveLinkedPortal` from sectors without groups, with
valid sector pointers and line lists that hold each line for the sectors on
both of its sides, `P_CreatePortalGroup` returns for every seed and leaves
every sector that had a group before the call as it was, group id included; so
does `P_GatherSectors`, for any group id, when it returns.  The sectors that
the flood fill reaches from a seed without a group are sectors without a
group. -/
theorem C12_grouped_sectors_keep_group (s0 s : PState) (frm : Nat)
    (hfresh : noGroups s0.sectors) (hv : mapValid s0.sectors)
    (hsh : linesShared s0.sectors) (hlim : s0.groupcount ≤ s0.grouplimit)
    (hreach : Grouping s0 s) (hfrm : frm < s.sectors.length) :
    (∃ s2 g, P_CreatePortalGroup s frm = .ok (s2, g) ∧
      ∀ (q : Nat) (sec : sector_t), s.sectors[q]? = some sec → sec.groupid ≠ R_NOGROUP →
        s2.sectors[q]? = some sec) ∧
    (∀ groupid s3, P_GatherSectors s frm groupid = .ok s3 →
      ∀ (q : Nat) (sec : sector_t), s.sectors[q]? = some sec → sec.groupid ≠ R_NOGROUP →
        s3.sectors[q]? = some sec) ∧
    (∀ sec0, s.sectors[frm]? = some sec0 → sec0.groupid = R_NOGROUP →
      ∀ (q : Nat) (sec : sector_t), connected s.sectors frm q → s.sectors[q]? = some sec →
        sec.groupid = R_NOGROUP) := by
  obtain ⟨hv2, hsh2, hlim2, hcl2⟩ := Grouping_inv s0 s hreach
    ⟨hv, hsh, hlim, noGroups_closed _ hfresh⟩
  have hsec : s.sectors[frm]? = some s.sectors[frm] := List.getElem?_eq_getElem hfrm
  have hkeep : ∀ (g : Int) (list : List Nat),
      (∀ q, q ∈ list ↔ connected s.sectors frm q) → s.sectors[frm].groupid = R_NOGROUP →
      ∀ (q : Nat) (sec : sector_t), s.sectors[q]? = some sec → sec.groupid ≠ R_NOGROUP →
        (assignAll s.sectors g list)[q]? = some sec := by
    intro g list hl hg q sec hq hgq
    have hmem : q ∉ list := fun hm =>
      hgq (flood_reaches_ungrouped s.sectors hv2 hsh2 hcl2 frm q _ sec hsec hg
        ((hl q).mp hm) hq)
    rw [assignAll_get, if_neg hmem]
    exact hq
  refine ⟨?_, ?_, ?_⟩
  · by_cases hg : s.sectors[frm].groupid = R_NOGROUP
    · obtain ⟨s2, list, h1, _, h3, _, h5, _, _⟩ :=
        P_CreatePortalGroup_flood s frm _ hsec hg hv2 hlim2
      refine ⟨s2, _, h1, ?_⟩
      rw [h5]
      exact hkeep _ list h3 hg
    · exact ⟨s, _, P_CreatePortalGroup_grouped s frm _ hsec hg, fun _ _ hq _ => hq⟩
  · intro groupid s3 h3 q sec hq hgq
    obtain ⟨g1, g2⟩ := P_GatherSectors_flood s frm groupid s3 _ hsec hv2 h3
    by_cases hg : s.sectors[frm].groupid = R_NOGROUP
    · obtain ⟨list, k1, k2⟩ := g2 hg
      rw [k2]
      exact hkeep _ list k1 hg q sec hq hgq
    · rw [g1 hg]
      exact hq
  · intro sec0 h0 hg0 q sec hc hq
    exact flood_reaches_ungrouped s.sectors hv2 hsh2 hcl2 frm q sec0 sec h0 hg0 hc hq

/-- C12 on the map of four sectors: `P_CreatePortalGroup` for sector 0 has put
the sectors 0, 1 and 2 into group 0; the call for sector 3, which has no
group, returns and leaves the sectors 0, 1 and 2 in group 0. -/
theorem C12_grouped_sectors_keep_group_witness :
    noGroups fourSectorMap.sectors ∧ mapValid fourSectorMap.sectors ∧
    linesShared fourSectorMap.sectors ∧
    fourSectorMap.groupcount ≤ fourSectorMap.grouplimit ∧
    Grouping fourSectorMap threeGrouped ∧ 3 < threeGrouped.sectors.length ∧
    (threeGrouped.sectors[3]?).map (fun sec => sec.groupid) = some R_NOGROUP ∧
    (threeGrouped.sectors[1]?).map (fun sec => sec.groupid) = some 0 ∧
    (∃ s2 g, P_CreatePortalGroup threeGrouped 3 = .ok (s2, g) ∧
      ∀ (q : Nat) (sec : sector_t), threeGrouped.sectors[q]? = some sec → sec.groupid ≠ R_NOGROUP →
        s2.sectors[q]? = some sec) ∧
    (∀ groupid s3, P_GatherSectors threeGrouped 3 groupid = .ok s3 →
      ∀ (q : Nat) (sec : sector_t), threeGrouped.sectors[q]? = some sec → sec.groupid ≠ R_NOGROUP →
        s3.sectors[q]? = some sec) ∧
    (∀ sec0, threeGrouped.sectors[3]? = some sec0 → sec0.groupid = R_NOGROUP →
      ∀ (q : Nat) (sec : sector_t), connected threeGrouped.sectors 3 q → threeGrouped.sectors[q]? = some sec →
        sec.groupid = R_NOGROUP) :=
  ⟨by decide, by decide, by decide, by decide,
   Relation.ReflTransGen.single (GroupStep.create fourSectorMap 0 threeGrouped 0 rfl),
   by decide, rfl, rfl,
   C12_grouped_sectors_keep_group fourSectorMap threeGrouped 3 (by decide) (by decide)
     (by decide) (by decide)
     (Relation.ReflTransGen.single (GroupStep.create fourSectorMap 0 threeGrouped 0 rfl))
     (by decide)⟩

/-! ## The properties of the portal windows -/

/-- C13 as stated fails: on the example screen the window with the span
`[10, 20]` at column 3 and range `[3, 3]` has no child; the interval
`[300, 310]` for column 3 is disjoint from that span, and `R_WindowAdd` returns
with the window as it was, without a child, because the interval lies below
the screen. -/
theorem C13_dropped_column_makes_no_child :
    R_WindowAdd 1 acquiredScreen acquiredWindow 3 10 20
      = .ok (acquiredScreen, .window spanWindow .NULL .NULL) ∧
    (spanWindow.minx ≤ 3 ∧ 3 ≤ spanWindow.maxx) ∧
    colRead spanWindow.top 3 ≤ colRead spanWindow.bottom 3 ∧
    ((300 : Int) > colRead spanWindow.bottom 3 ∨ (310 : Int) < colRead spanWindow.top 3) ∧
    R_WindowAdd 2 acquiredScreen (.window spanWindow .NULL .NULL) 3 300 310
      = .ok (acquiredScreen, .window spanWindow .NULL .NULL) :=
  ⟨rfl, by decide, by decide, by decide, rfl⟩

/-- C13, amended by "and the column is not dropped": for a column of the screen
inside the range of the window, with an occupied span there and a new interval
disjoint from it that is not dropped, `R_WindowAdd` returns and leaves every
field of the parent as it was.  A parent without a child gets one from
`R_CreateChildWindow`, cleared and with the parent's portal, line, type, head
and render function; a child that exists is kept; and the child in the result
is what `R_WindowAdd` makes of that child for the same column and interval, at
the same address. -/
theorem C13_disjoint_column_goes_to_child {F : Type} [LinearOrderedCommRing F]
    (fuel : Nat) (rs : RState F) (w : pwindow_t F) (child next : pwindowptr F)
    (x : Int) (ytop ybottom : F)
    (hok : columnOK rs x) (hfuel : chainLength (.window w child next) ≤ fuel)
    (hkeep : ¬ (ybottom < 0 ∨ ytop ≥ rs.view_height))
    (hin : w.minx ≤ x ∧ x ≤ w.maxx)
    (hocc : colRead w.top x ≤ colRead w.bottom x)
    (hdis : ytop > colRead w.bottom x ∨ ybottom < colRead w.top x) :
    ∃ rs1 child1 rs2 child2,
      (child = .NULL →
        R_CreateChildWindow rs (.window w .NULL next) = .ok (rs1, .window w child1 next) ∧
        ∃ c, child1 = .window c .NULL .NULL ∧ c.portal = w.portal ∧ c.line = w.line ∧
          c.type = w.type ∧ c.head = w.head ∧ c.func = w.func ∧
          c.top = List.replicate rs.video_width rs.view_height ∧
          c.bottom = List.replicate rs.video_width (-1)) ∧
      (child ≠ .NULL → rs1 = rs ∧ child1 = child) ∧
      R_WindowAdd fuel rs1 child1 x ytop ybottom = .ok (rs2, child2) ∧
      windowAddr child2 = windowAddr child1 ∧
      R_WindowAdd (fuel + 1) rs (.window w child next) x ytop ybottom
        = .ok (rs2, .window w child2 next) := by
  have hin2 : x ≤ w.maxx ∧ x ≥ w.minx := ⟨hin.2, hin.1⟩
  have hun : ¬ colRead w.top x > colRead w.bottom x := not_lt.mpr hocc
  obtain ⟨rs1, child1, he, hcase⟩ := ensureChild_shape rs w child next
  have haddr : ∀ (f : Nat) (r1 r2 : RState F) (c1 c2 : pwindowptr F),
      R_WindowAdd f r1 c1 x ytop ybottom = .ok (r2, c2) → windowAddr c2 = windowAddr c1 := by
    intro f r1 r2 c1 c2 hc
    cases c1 with
    | NULL =>
      cases f with
      | zero => rw [R_WindowAdd] at hc; exact Except.noConfusion hc
      | succ f => rw [R_WindowAdd] at hc; exact Except.noConfusion hc
    | window cw cc cn =>
      obtain ⟨w2, c3, hp2, _, _, hid, _, _⟩ := R_WindowAdd_top f r1 cw cc cn x ytop ybottom r2 c2 hc
      subst hp2
      show some w2.addr = some cw.addr
      rw [hid.1]
  rcases hcase with ⟨hnull, cw, hnew, hc1⟩ | ⟨hnn, hrs, hc1⟩
  · obtain ⟨cw0, rs0, hnew0, ht, hb, _, _, _, _, _, _, _, _, _, _, _, hpool, _, _, _,
      _, hvh, _, hvw⟩ := newPortalWindow_spec rs hok.2.2
    rw [hnew] at hnew0
    injection hnew0 with e1 e2
    injection e1 with e3 _ _
    subst e3 e2 hnull hc1
    cases fuel with
    | zero => simp only [chainLength] at hfuel; omega
    | succ fuel =>
      obtain ⟨cw2, hadd⟩ := fresh_add fuel rs1 (inheritFrom w cw) .NULL x ytop ybottom
        (by rw [← hvh, ← hvw] at ht; exact ht) (by rw [← hvw] at hb; exact hb)
        hok.1 (by rw [hvw]; exact hok.2.1)
      refine ⟨rs1, _, rs1, _, ?_, fun hn => absurd rfl hn, hadd, haddr _ _ _ _ _ hadd,
        R_WindowAdd_child (fuel + 1) rs rs1 rs1 w w .NULL next _ next _ x ytop ybottom hkeep
          hin2 hun hdis he hadd⟩
      intro _
      exact ⟨R_CreateChildWindow_eq rs rs1 w cw .NULL next hnew, inheritFrom w cw, rfl, rfl, rfl,
        rfl, rfl, rfl, ht, hb⟩
  · subst hrs hc1
    cases child1 with
    | NULL => exact absurd rfl hnn
    | window cw cc cn =>
      obtain ⟨rs2, w2, child2, hrec, _⟩ := R_WindowAdd_total x ytop ybottom fuel rs1 cw cc cn hok
        (by simp only [chainLength] at hfuel ⊢; omega)
      exact ⟨rs1, _, rs2, _, fun hn => pwindowptr.noConfusion hn, fun _ => ⟨rfl, rfl⟩, hrec,
        haddr _ _ _ _ _ hrec,
        R_WindowAdd_child fuel rs1 rs1 rs2 w w _ next _ next _ x ytop ybottom hkeep hin2 hun
          hdis he hrec⟩

/-- C13 amended, on the example screen: the interval `[30, 40]` for column 3
of the window with the span `[10, 20]` there goes to a new child. -/
theorem C13_disjoint_column_goes_to_child_witness :
    columnOK acquiredScreen 3 ∧
    chainLength (.window spanWindow .NULL (.NULL : pwindowptr Int)) ≤ 1 ∧
    ∃ rs1 child1 rs2 child2,
      ((.NULL : pwindowptr Int) = .NULL →
        R_CreateChildWindow acquiredScreen (.window spanWindow .NULL .NULL)
          = .ok (rs1, .window spanWindow child1 .NULL) ∧
        ∃ c, child1 = .window c .NULL .NULL ∧ c.portal = spanWindow.portal ∧
          c.line = spanWindow.line ∧ c.type = spanWindow.type ∧ c.head = spanWindow.head ∧
          c.func = spanWindow.func ∧
          c.top = List.replicate acquiredScreen.video_width acquiredScreen.view_height ∧
          c.bottom = List.replicate acquiredScreen.video_width (-1)) ∧
      ((.NULL : pwindowptr Int) ≠ .NULL → rs1 = acquiredScreen ∧ child1 = .NULL) ∧
      R_WindowAdd 1 rs1 child1 3 30 40 = .ok (rs2, child2) ∧
      windowAddr child2 = windowAddr child1 ∧
      R_WindowAdd (1 + 1) acquiredScreen (.window spanWindow .NULL .NULL) 3 30 40
        = .ok (rs2, .window spanWindow child2 .NULL) :=
  ⟨⟨by decide, by decide, True.intro⟩, by decide,
   C13_disjoint_column_goes_to_child 1 acquiredScreen spanWindow .NULL .NULL 3 30 40
     ⟨by decide, by decide, True.intro⟩ (by decide) (by decide) (by decide) (by decide)
     (by decide)⟩

/-- C15: from an empty window, the calls of `R_WindowAdd` for the columns 0 to 5
and then 10 to 15, each with an interval inside the screen, all return and
leave a window with `minx = 0` and `maxx = 15` that holds the intervals at
these columns and has the child it had before: none is created.  And whenever
a call of `R_WindowAdd` on a window without a child returns it with a child,
the column was inside the range of the window and its interval was disjoint
from an occupied span already stored at that column. -/
theorem C15_window_merge {F : Type} [LinearOrderedCommRing F]
    (rs : RState F) (w : pwindow_t F) (child next : pwindowptr F) (top bottom : Int → F)
    (hempty : w.minx > w.maxx)
    (hscreen : ∀ x ∈ mergeColumns, 0 ≤ top x ∧ top x ≤ bottom x ∧ bottom x < rs.view_height) :
    (∃ w2, addColumns 1 rs (.window w child next)
          (mergeColumns.map (fun x => (x, top x, bottom x)))
        = .ok (rs, .window w2 child next) ∧
      w2.minx = 0 ∧ w2.maxx = 15 ∧
      w2.top = mergeColumns.foldl (fun buf x => colStore buf x (top x)) w.top ∧
      w2.bottom = mergeColumns.foldl (fun buf x => colStore buf x (bottom x)) w.bottom) ∧
    (∀ (fuel : Nat) (rs1 rs2 : RState F) (w1 w2 : pwindow_t F)
        (next1 child2 next2 : pwindowptr F) (x : Int) (ytop ybottom : F),
      R_WindowAdd fuel rs1 (.window w1 .NULL next1) x ytop ybottom
        = .ok (rs2, .window w2 child2 next2) →
      child2 ≠ .NULL →
      (w1.minx ≤ x ∧ x ≤ w1.maxx) ∧ colRead w1.top x ≤ colRead w1.bottom x ∧
        (ytop > colRead w1.bottom x ∨ ybottom < colRead w1.top x)) := by
  have hd : ∀ x ∈ mergeColumns, ¬ (bottom x < 0 ∨ top x ≥ rs.view_height) := by
    intro x hx
    obtain ⟨h1, h2, h3⟩ := hscreen x hx
    push_neg
    exact ⟨le_trans h1 h2, lt_of_le_of_lt h2 h3⟩
  constructor
  · have hfirst := R_WindowAdd_first 0 rs w child next 0 (top 0) (bottom 0)
      (hd 0 (by decide)) (by omega) hempty
    have hrest := addColumns_ascending 0 rs child next top bottom [1, 2, 3, 4, 5, 10, 11, 12,
      13, 14, 15]
      { w with minx := 0, maxx := 0, top := colStore w.top 0 (top 0),
               bottom := colStore w.bottom 0 (bottom 0), vx := rs.viewx, vy := rs.viewy,
               vz := rs.viewz, vangle := rs.viewangle }
      (le_refl _)
      (by show List.Chain (fun a b : Int => a < b) 0 [1, 2, 3, 4, 5, 10, 11, 12, 13, 14, 15]
          simp)
      (fun x hx => hd x (List.mem_cons_of_mem _ hx))
    have hstep : addColumns 1 rs (.window w child next)
        (mergeColumns.map (fun x => (x, top x, bottom x)))
        = addColumns (0 + 1) rs
          (.window { w with minx := 0, maxx := 0, top := colStore w.top 0 (top 0),
                            bottom := colStore w.bottom 0 (bottom 0), vx := rs.viewx,
                            vy := rs.viewy, vz := rs.viewz, vangle := rs.viewangle }
            child next)
          (List.map (fun x => (x, top x, bottom x))
            [1, 2, 3, 4, 5, 10, 11, 12, 13, 14, 15]) := by
      show addColumns 1 rs (.window w child next)
        ((0, top 0, bottom 0) :: List.map (fun x => (x, top x, bottom x))
          [1, 2, 3, 4, 5, 10, 11, 12, 13, 14, 15]) = _
      rw [addColumns, hfirst]
    exact ⟨_, hstep.trans hrest, rfl, rfl, rfl, rfl⟩
  · intro fuel rs1 rs2 w1 w2 next1 child2 next2 x ytop ybottom h hc
    rcases R_WindowAdd_cases fuel rs1 w1 .NULL next1 x ytop ybottom _ h with
      ⟨_, hr⟩ | ⟨_, _, _, hr⟩ | ⟨_, hin, hun, hdis, _⟩ |
      ⟨_, _, _, _, hr⟩ | ⟨_, _, _, hr⟩ | ⟨_, _, _, hr⟩ | ⟨_, _, _, hr⟩
    · injection (Prod.mk.inj hr).2 with _ e _
      exact absurd e hc
    · injection (Prod.mk.inj hr).2 with _ e _
      exact absurd e hc
    · exact ⟨⟨hin.2, hin.1⟩, not_lt.mp hun, hdis⟩
    · injection (Prod.mk.inj hr).2 with _ e _
      exact absurd e hc
    · injection (Prod.mk.inj hr).2 with _ e _
      exact absurd e hc
    · injection (Prod.mk.inj hr).2 with _ e _
      exact absurd e hc
    · injection (Prod.mk.inj hr).2 with _ e _
      exact absurd e hc

/-- C15, on the example screen: the acquired window is empty, and every column
gets the interval `[10, 20]`. -/
theorem C15_window_merge_witness :
    clearedWindow.minx > clearedWindow.maxx ∧
    (∃ w2, addColumns 1 acquiredScreen (.window clearedWindow .NULL .NULL)
          (mergeColumns.map (fun x => (x, (10 : Int), (20 : Int))))
        = .ok (acquiredScreen, .window w2 .NULL .NULL) ∧
      w2.minx = 0 ∧ w2.maxx = 15 ∧
      w2.top = mergeColumns.foldl (fun buf x => colStore buf x 10) clearedWindow.top ∧
      w2.bottom = mergeColumns.foldl (fun buf x => colStore buf x 20) clearedWindow.bottom) ∧
    (∀ (fuel : Nat) (rs1 rs2 : RState Int) (w1 w2 : pwindow_t Int)
        (next1 child2 next2 : pwindowptr Int) (x : Int) (ytop ybottom : Int),
      R_WindowAdd fuel rs1 (.window w1 .NULL next1) x ytop ybottom
        = .ok (rs2, .window w2 child2 next2) →
      child2 ≠ .NULL →
      (w1.minx ≤ x ∧ x ≤ w1.maxx) ∧ colRead w1.top x ≤ colRead w1.bottom x ∧
        (ytop > colRead w1.bottom x ∨ ybottom < colRead w1.top x)) :=
  ⟨by decide,
   C15_window_merge acquiredScreen clearedWindow .NULL .NULL (fun _ => 10) (fun _ => 20)
     (by decide) (by decide)⟩

/-- C16: for an empty window and a column that is not dropped, `R_WindowAdd`
returns the window with `minx = maxx = x`, the interval stored at column `x`
and the view globals `viewx`, `viewy`, `viewz`, `viewangle` recorded in it,
everything else as before; and after any further calls of `R_WindowAdd` on
that window, from whatever view position, the recorded view is still the one
of the first call. -/
theorem C16_first_touch {F : Type} [LinearOrderedCommRing F]
    (fuel : Nat) (rs : RState F) (w : pwindow_t F) (child next : pwindowptr F)
    (x : Int) (ytop ybottom : F)
    (hempty : w.minx > w.maxx) (hkeep : ybottom ≥ 0 ∧ ytop < rs.view_height) :
    R_WindowAdd (fuel + 1) rs (.window w child next) x ytop ybottom
      = .ok (rs, .window
          { w with minx := x, maxx := x, top := colStore w.top x ytop,
                   bottom := colStore w.bottom x ybottom, vx := rs.viewx, vy := rs.viewy,
                   vz := rs.viewz, vangle := rs.viewangle } child next) ∧
    (0 ≤ x → x < w.top.length → x < w.bottom.length →
      colRead (colStore w.top x ytop) x = ytop ∧
      colRead (colStore w.bottom x ybottom) x = ybottom) ∧
    (∀ rs2 p2,
      Adds (rs, .window
          { w with minx := x, maxx := x, top := colStore w.top x ytop,
                   bottom := colStore w.bottom x ybottom, vx := rs.viewx, vy := rs.viewy,
                   vz := rs.viewz, vangle := rs.viewangle } child next) (rs2, p2) →
      recordedView p2 = some (rs.viewx, rs.viewy, rs.viewz, rs.viewangle)) := by
  have hd : ¬ (ybottom < 0 ∨ ytop ≥ rs.view_height) := by
    push_neg
    exact hkeep
  refine ⟨R_WindowAdd_first fuel rs w child next x ytop ybottom hd (by omega) hempty, ?_, ?_⟩
  · intro h0 h1 h2
    exact ⟨colRead_colStore_self _ _ _ h0 h1, colRead_colStore_self _ _ _ h0 h2⟩
  · intro rs2 p2 hadds
    exact (Adds_view _ _ hadds ⟨_, child, next, rfl, le_refl _⟩).1

/-- C16, on the example screen: the first column of the acquired window. -/
theorem C16_first_touch_witness :
    clearedWindow.minx > clearedWindow.maxx ∧
    R_WindowAdd (0 + 1) acquiredScreen (.window clearedWindow .NULL .NULL) 3 10 20
      = .ok (acquiredScreen, .window
          { clearedWindow with
              minx := 3, maxx := 3, top := colStore clearedWindow.top 3 10,
              bottom := colStore clearedWindow.bottom 3 20, vx := acquiredScreen.viewx,
              vy := acquiredScreen.viewy, vz := acquiredScreen.viewz,
              vangle := acquiredScreen.viewangle } .NULL .NULL) ∧
    ((0 : Int) ≤ 3 → (3 : Int) < clearedWindow.top.length →
      (3 : Int) < clearedWindow.bottom.length →
      colRead (colStore clearedWindow.top 3 10) 3 = 10 ∧
      colRead (colStore clearedWindow.bottom 3 20) 3 = 20) ∧
    (∀ rs2 p2,
      Adds (acquiredScreen, .window
          { clearedWindow with
              minx := 3, maxx := 3, top := colStore clearedWindow.top 3 10,
              bottom := colStore clearedWindow.bottom 3 20, vx := acquiredScreen.viewx,
              vy := acquiredScreen.viewy, vz := acquiredScreen.viewz,
              vangle := acquiredScreen.viewangle } .NULL .NULL) (rs2, p2) →
      recordedView p2 = some (acquiredScreen.viewx, acquiredScreen.viewy, acquiredScreen.viewz,
        acquiredScreen.viewangle)) :=
  ⟨by decide,
   C16_first_touch 0 acquiredScreen clearedWindow .NULL .NULL 3 10 20 (by decide) (by decide)⟩

/-- C18 as stated fails: on the example screen the two calls
`R_WindowAdd(window, 3, 10, 20)` and `R_WindowAdd(window, 3, 30, 40)` on the
acquired window lead to a parent with range `[3, 3]` whose child holds the
occupied span `[30, 40]` at column 3, a column inside the parent's range. -/
theorem C18_child_column_inside_parent_range :
    freshWindow acquiredScreen acquiredWindow ∧
    Adds (acquiredScreen, acquiredWindow) (splitScreen, splitWindow) ∧
    spanWindow.minx = 3 ∧ spanWindow.maxx = 3 ∧ occupied splitChild 3 ∧
    ¬ childDisjoint splitWindow := by
  refine ⟨⟨clearedWindow, .NULL, rfl, rfl, rfl, rfl, rfl⟩, ?_, rfl, rfl, by decide, ?_⟩
  · have s1 : AddStep (acquiredScreen, acquiredWindow)
        (acquiredScreen, .window spanWindow .NULL .NULL) :=
      AddStep.call 1 acquiredScreen acquiredWindow 100 200 41 7 3 10 20 _ _
        (by decide) (by decide) rfl
    have s2 : AddStep (acquiredScreen, .window spanWindow .NULL .NULL)
        (splitScreen, splitWindow) :=
      AddStep.call 2 acquiredScreen (.window spanWindow .NULL .NULL) 100 200 41 7 3 30 40 _ _
        (by decide) (by decide) rfl
    exact Relation.ReflTransGen.tail (Relation.ReflTransGen.single s1) s2
  · intro h
    have h3 := h.1 3 (by decide : occupied splitChild 3)
    revert h3
    decide

/-- C18, amended to "inside" for "disjoint from": in every state that a
sequence of `R_WindowAdd` calls for columns of the screen reaches from a
freshly acquired window, down the chain of `child` links a child holds an
occupied span only at columns at which its parent holds an occupied span, and
these lie inside the parent's range `[minx, maxx]`. -/
theorem C18_child_columns_inside_parent {F : Type} [LinearOrderedCommRing F]
    (rs0 rs : RState F) (p0 p : pwindowptr F)
    (hpool : poolOK rs0.video_width rs0.unusedhead) (hvh : -1 < rs0.view_height)
    (hfresh : freshWindow rs0 p0) (hadds : Adds (rs0, p0) (rs, p)) :
    childInside p := by
  obtain ⟨w, next, hp0, ht, hb, _, _⟩ := hfresh
  subst hp0
  have hinv0 : ChainInv rs0.video_width (.window w .NULL next) :=
    ChainInv_cleared rs0.video_width rs0.view_height hvh w next ht hb
  exact ChainInv_childInside _ _ (Adds_inv _ _ hadds hpool hvh hinv0).2.2.2.2

/-- C18 amended, on the state of the counterexample. -/
theorem C18_child_columns_inside_parent_witness :
    poolOK acquiredScreen.video_width acquiredScreen.unusedhead ∧
    (-1 : Int) < acquiredScreen.view_height ∧
    freshWindow acquiredScreen acquiredWindow ∧
    childInside splitWindow :=
  ⟨True.intro, by decide, ⟨clearedWindow, .NULL, rfl, rfl, rfl, rfl, rfl⟩,
   C18_child_columns_inside_parent acquiredScreen splitScreen acquiredWindow splitWindow
     True.intro (by decide) ⟨clearedWindow, .NULL, rfl, rfl, rfl, rfl, rfl⟩
     (Relation.ReflTransGen.tail
       (Relation.ReflTransGen.single
         (AddStep.call 1 acquiredScreen acquiredWindow 100 200 41 7 3 10 20 _ _
           (by decide) (by decide) rfl))
       (AddStep.call 2 acquiredScreen (.window spanWindow .NULL .NULL) 100 200 41 7 3 30 40
         _ _ (by decide) (by decide) rfl))⟩

/-- C19: `R_WindowAdd` with `ybottom < 0` or `ytop >= view.height` returns with
the window, the windows below it and the globals exactly as they were. -/
theorem C19_vertical_drop {F : Type} [LinearOrderedCommRing F]
    (fuel : Nat) (rs : RState F) (w : pwindow_t F) (child next : pwindowptr F)
    (x : Int) (ytop ybottom : F)
    (hdrop : ybottom < 0 ∨ ytop ≥ rs.view_height) :
    R_WindowAdd (fuel + 1) rs (.window w child next) x ytop ybottom
      = .ok (rs, .window w child next) :=
  R_WindowAdd_drop fuel rs w child next x ytop ybottom hdrop

/-- C19, on the state with a parent and a child: an interval below the screen. -/
theorem C19_vertical_drop_witness :
    ((310 : Int) < 0 ∨ (300 : Int) ≥ splitScreen.view_height) ∧
    R_WindowAdd (0 + 1) splitScreen
        (.window spanWindow (.window splitChild .NULL .NULL) .NULL) 3 300 310
      = .ok (splitScreen, .window spanWindow (.window splitChild .NULL .NULL) .NULL) :=
  ⟨by decide,
   C19_vertical_drop 0 splitScreen spanWindow (.window splitChild .NULL .NULL) .NULL 3 300 310
     (by decide)⟩

/-- C20: when the windows of the free list have buffers of `video.width`
columns, `newPortalWindow` returns a window in which every column
`i < video.width` has `top[i] = view.height` and `bottom[i] = -1`, with no
child, no next window, no portal, no line and the recorded view position and
angle zero.  When the free list was not empty the window is its old head and
the free list is the rest of the old list; when it was empty the window is new
and the free list stays empty. -/
theorem C20_pool_acquisition_clears {F : Type} [LinearOrderedCommRing F]
    (rs : RState F) (hpool : poolOK rs.video_width rs.unusedhead) :
    ∃ w rs1, newPortalWindow rs = (.window w .NULL .NULL, rs1) ∧
      (∀ i, i < rs.video_width →
        w.top[i]? = some rs.view_height ∧ w.bottom[i]? = some (-1)) ∧
      w.portal = none ∧ w.line = none ∧
      w.vx = 0 ∧ w.vy = 0 ∧ w.vz = 0 ∧ w.vangle = 0 ∧
      (∀ h c n, rs.unusedhead = .window h c n →
        w.addr = h.addr ∧ rs1 = { rs with unusedhead := n }) ∧
      (rs.unusedhead = .NULL →
        w.addr = rs.nextaddr ∧ rs1 = { rs with nextaddr := rs.nextaddr + 1 }) := by
  have hcols : ∀ (v : F) (i : Nat), i < rs.video_width →
      (List.replicate rs.video_width v)[i]? = some v := by
    intro v i hi
    rw [List.getElem?_replicate, if_pos hi]
  have hcase : rs.unusedhead = .NULL ∨ ∃ h c n, rs.unusedhead = .window h c n := by
    cases rs.unusedhead with
    | NULL => exact Or.inl rfl
    | window h c n => exact Or.inr ⟨h, c, n, rfl⟩
  rcases hcase with hu | ⟨h, c, n, hu⟩
  · refine ⟨_, _, newPortalWindow_fresh rs hu, ?_, rfl, rfl, rfl, rfl, rfl, rfl, ?_, ?_⟩
    · intro i hi
      exact ⟨hcols _ i hi, hcols _ i hi⟩
    · intro h c n hcon
      rw [hu] at hcon
      exact pwindowptr.noConfusion hcon
    · intro _
      exact ⟨rfl, rfl⟩
  · rw [hu] at hpool
    refine ⟨_, _, newPortalWindow_reuse rs h c n hu hpool.1 hpool.2.1, ?_, rfl, rfl, rfl, rfl,
      rfl, rfl, ?_, ?_⟩
    · intro i hi
      exact ⟨hcols _ i hi, hcols _ i hi⟩
    · intro h0 c0 n0 heq
      rw [hu] at heq
      injection heq with e1 _ e3
      subst e1 e3
      exact ⟨rfl, rfl⟩
    · intro hcon
      rw [hu] at hcon
      exact pwindowptr.noConfusion hcon

/-- C20, on the example screen with one window on the free list. -/
theorem C20_pool_acquisition_clears_witness :
    poolOK pooledScreen.video_width pooledScreen.unusedhead ∧
    ∃ w rs1, newPortalWindow pooledScreen = (.window w .NULL .NULL, rs1) ∧
      (∀ i, i < pooledScreen.video_width →
        w.top[i]? = some pooledScreen.view_height ∧ w.bottom[i]? = some (-1)) ∧
      w.portal = none ∧ w.line = none ∧
      w.vx = 0 ∧ w.vy = 0 ∧ w.vz = 0 ∧ w.vangle = 0 ∧
      (∀ h c n, pooledScreen.unusedhead = .window h c n →
        w.addr = h.addr ∧ rs1 = { pooledScreen with unusedhead := n }) ∧
      (pooledScreen.unusedhead = .NULL →
        w.addr = pooledScreen.nextaddr ∧
        rs1 = { pooledScreen with nextaddr := pooledScreen.nextaddr + 1 }) :=
  ⟨⟨rfl, rfl, True.intro⟩, C20_pool_acquisition_clears pooledScreen ⟨rfl, rfl, True.intro⟩⟩

/-! ## Claims on termination, child ranges and the frame of `R_WindowAdd` -/

/-- C26 as stated fails: for two groups with the one direct link from 0 to 1,
`P_GatherLinks(0, 0, 0, 0, R_NOGROUP)` makes the call with the intermediate
group 1 (one level of nesting does not suffice, two do) although row 0 has no
empty off-diagonal entry and no entry is filled: the table comes back as it was. -/
theorem C26_first_step_calls_without_fill :
    freeSlots 2 directLinkTable 0 = 0 ∧
    P_GatherLinks 2 { x := 0, y := 0, z := 0 } 1 directLinkTable 0 0 0 0 R_NOGROUP = none ∧
    P_GatherLinks 2 { x := 0, y := 0, z := 0 } 2 directLinkTable 0 0 0 0 R_NOGROUP
      = some directLinkTable := by
  refine ⟨by decide, by decide, by decide⟩

/-- C26, amended for the calls of the first step: `P_GatherLinks` returns for
every allocated link table and every group with the nesting of the recursion
at most `groupcount - 1` below the first call; a call with an intermediate
group returns whenever the nesting allowed exceeds the number of empty
off-diagonal entries in the row of the starting group, a row with a filled
off-diagonal entry has at most `groupcount - 2` empty ones, and the entry
`P_AddLinkOffset` fills before each call of the second step lowers that number
by exactly one, while no call raises it. -/
theorem C26_P_GatherLinks_terminates (gc : Nat) (zl : linkoffset_t) (group : Nat)
    (T : List (Option linkptr)) (hg : group < gc) (hlen : T.length = gc * gc) :
    (∀ dx dy dz : Int, ∃ T1, P_GatherLinks gc zl gc T group dx dy dz R_NOGROUP = some T1 ∧
        T1.length = gc * gc ∧ freeSlots gc T1 group ≤ freeSlots gc T group) ∧
    (∀ (fuel : Nat) (dx dy dz via : Int), via ≠ R_NOGROUP → freeSlots gc T group < fuel →
        ∃ T1, P_GatherLinks gc zl fuel T group dx dy dz via = some T1 ∧
          T1.length = gc * gc ∧ freeSlots gc T1 group ≤ freeSlots gc T group) ∧
    (∀ v : Nat, v < gc → v ≠ group → linkAt gc T group v ≠ none →
        freeSlots gc T group + 2 ≤ gc) ∧
    (∀ (p : Nat) (x y z : Int), p < gc → p ≠ group → linkAt gc T group p = none →
        freeSlots gc (P_AddLinkOffset gc T group p x y z).2 group + 1
          = freeSlots gc T group) := by
  refine ⟨?_, ?_, ?_, ?_⟩
  · intro dx dy dz
    exact GL_start_total gc zl group hg gc T dx dy dz hlen (le_refl _)
  · intro fuel dx dy dz via hvia hf
    exact GL_via_total gc zl group hg fuel T dx dy dz via hlen hvia hf
  · intro v hv hvg hsome
    exact freeSlots_filled_le gc T group v hg hv hvg hsome
  · intro p x y z hp hpg hnone
    have hadd : (P_AddLinkOffset gc T group p x y z).2
        = T.set (group * gc + p) (some (.cell { x := x, y := y, z := z })) := by
      unfold P_AddLinkOffset
      rw [if_neg (by omega), if_neg (by omega), if_neg (by omega)]
      congr 1
    rw [hadd]
    exact freeSlots_fill gc T group p _ hlen hg hp hpg hnone

/-- C26 amended, on three groups with the direct links from 0 to 1 and from 1
to 2: the pass for group 0 returns with nesting 3 allowed. -/
theorem C26_P_GatherLinks_terminates_witness :
    (0 : Nat) < 3 ∧ chainLinkTable.length = 3 * 3 ∧
    ∃ T1, P_GatherLinks 3 { x := 0, y := 0, z := 0 } 3 chainLinkTable 0 0 0 0 R_NOGROUP
      = some T1 ∧ T1.length = 3 * 3 ∧
      freeSlots 3 T1 0 ≤ freeSlots 3 chainLinkTable 0 :=
  ⟨by decide, rfl,
   (C26_P_GatherLinks_terminates 3 { x := 0, y := 0, z := 0 } 0 chainLinkTable (by decide)
     rfl).1 0 0 0⟩

/-- C27: in every state that a sequence of `R_WindowAdd` calls reaches from a
freshly acquired window that is empty (its range `[viewwindow.width - 1, 0]` is
empty, which is `viewwindow.width > 1`), down the chain of `child` links the
range `[minx, maxx]` of every child that is not empty lies inside the range of
its parent. -/
theorem C27_child_range_containment {F : Type} [LinearOrderedCommRing F]
    (rs0 rs : RState F) (p0 p : pwindowptr F)
    (hfresh : freshWindow rs0 p0)
    (hempty : ∀ w child next, p0 = .window w child next → w.maxx < w.minx)
    (hadds : Adds (rs0, p0) (rs, p)) :
    rangeInside p := by
  obtain ⟨w, next, hp0, _, _, hmin, hmax⟩ := hfresh
  have hvw : 1 < rs0.viewwindow_width := by
    have := hempty w .NULL next hp0
    omega
  subst hp0
  exact (Adds_rangeInside _ _ hadds hvw ⟨trivial, trivial⟩).2

/-- C27 on the example screen: after `R_WindowAdd(window, 3, 10, 20)` and
`R_WindowAdd(window, 3, 30, 40)` the child with range `[3, 3]` lies inside the
parent's range `[3, 3]`. -/
theorem C27_child_range_containment_witness :
    freshWindow acquiredScreen acquiredWindow ∧
    (∀ w child next, acquiredWindow = .window w child next → w.maxx < w.minx) ∧
    rangeInside splitWindow ∧ splitChild.minx = 3 ∧ splitChild.maxx = 3 ∧
    spanWindow.minx = 3 ∧ spanWindow.maxx = 3 :=
  ⟨⟨clearedWindow, .NULL, rfl, rfl, rfl, rfl, rfl⟩,
   fun w child next h => by
     have h2 : pwindowptr.window clearedWindow .NULL .NULL = .window w child next := h
     injection h2 with e _ _
     subst e
     decide,
   C27_child_range_containment acquiredScreen splitScreen acquiredWindow splitWindow
     ⟨clearedWindow, .NULL, rfl, rfl, rfl, rfl, rfl⟩
     (fun w child next h => by
       have h2 : pwindowptr.window clearedWindow .NULL .NULL = .window w child next := h
       injection h2 with e _ _
       subst e
       decide)
     (Relation.ReflTransGen.tail
       (Relation.ReflTransGen.single
         (AddStep.call 1 acquiredScreen acquiredWindow 100 200 41 7 3 10 20 _ _
           (by decide) (by decide) rfl))
       (AddStep.call 2 acquiredScreen (.window spanWindow .NULL .NULL) 100 200 41 7 3 30 40
         _ _ (by decide) (by decide) rfl)),
   rfl, rfl, rfl, rfl⟩

/-- C29: for a column `x` of the screen, one call of `R_WindowAdd` on a window
(with nesting allowed beyond the length of its chain of `child` links) returns,
and the chain afterwards is either of the same length, with the column bounds
of at most one window changed and those only at column `x`, or the chain as it
was with one new child at its end whose column bounds are those of a cleared
window but for column `x`. -/
theorem C29_R_WindowAdd_frame {F : Type} [LinearOrderedCommRing F]
    (fuel : Nat) (rs : RState F) (w : pwindow_t F) (child next : pwindowptr F)
    (x : Int) (ytop ybottom : F) (hok : columnOK rs x)
    (hfuel : chainLength (.window w child next) < fuel) :
    ∃ rs2 p2, R_WindowAdd fuel rs (.window w child next) x ytop ybottom = .ok (rs2, p2) ∧
      ((∃ k, frameAt x k (chainWindows (.window w child next)) (chainWindows p2)) ∨
       (∃ c, chainWindows p2 = chainWindows (.window w child next) ++ [c] ∧
          sameExcept x (List.replicate rs.video_width rs.view_height) c.top ∧
          sameExcept x (List.replicate rs.video_width (-1)) c.bottom)) := by
  obtain ⟨rs2, w2, child2, h, _⟩ :=
    R_WindowAdd_total x ytop ybottom fuel rs w child next hok hfuel
  exact ⟨rs2, _, h, R_WindowAdd_frame x ytop ybottom fuel rs w child next rs2 _ hok h⟩

/-- C29 on the example screen: `R_WindowAdd(window, 3, 30, 40)` on the window
with the span `[10, 20]` at column 3 returns the window with one new child. -/
theorem C29_R_WindowAdd_frame_witness :
    columnOK acquiredScreen 3 ∧
    chainLength (pwindowptr.window spanWindow .NULL .NULL) < 2 ∧
    ∃ rs2 p2, R_WindowAdd 2 acquiredScreen (.window spanWindow .NULL .NULL) 3 30 40
        = .ok (rs2, p2) ∧
      ((∃ k, frameAt 3 k (chainWindows (pwindowptr.window spanWindow .NULL .NULL))
          (chainWindows p2)) ∨
       (∃ c, chainWindows p2
            = chainWindows (pwindowptr.window spanWindow .NULL .NULL) ++ [c] ∧
          sameExcept 3 (List.replicate acquiredScreen.video_width acquiredScreen.view_height)
            c.top ∧
          sameExcept 3 (List.replicate acquiredScreen.video_width (-1)) c.bottom)) :=
  ⟨⟨by decide, by decide, True.intro⟩, by decide,
   C29_R_WindowAdd_frame 2 acquiredScreen spanWindow .NULL .NULL 3 30 40
     ⟨by decide, by decide, True.intro⟩ (by decide)⟩

/-- C30: for a non-empty list `gPortals` of fewer than `2^31 - 1` entries whose
ids are `int` values other than `INT_MIN` (zero or not, absolute values
repeated or not), `R_findFreePortalId` returns the least positive integer that
is not the absolute value of an id in the list. -/
theorem C30_R_findFreePortalId_least (gPortals : List portalentry_t) (hne : gPortals ≠ [])
    (hid : ∀ e ∈ gPortals, -2147483648 < e.id ∧ e.id < 2147483648)
    (hlen : gPortals.length < 2147483647) :
    ∃ r, R_findFreePortalId gPortals = some r ∧ 0 < r ∧
      (∀ e ∈ gPortals, |e.id| ≠ r) ∧
      ∀ k, 0 < k → k < r → ∃ e ∈ gPortals, |e.id| = k := by
  have hmap : ∀ a ∈ gPortals.map (fun entry => int_abs entry.id),
      ∃ e ∈ gPortals, |e.id| = a := by
    intro a ha
    obtain ⟨e, he, hea⟩ := List.mem_map.1 ha
    exact ⟨e, he, by rw [← hea, int_abs_eq e.id (hid e he).1 (hid e he).2]⟩
  have hrange : ∀ a ∈ gPortals.map (fun entry => int_abs entry.id),
      0 ≤ a ∧ a < 2147483648 := by
    intro a ha
    obtain ⟨e, he, hea⟩ := hmap a ha
    have h1 := hid e he
    rw [← hea]
    constructor
    · exact abs_nonneg _
    · rw [abs_lt]; omega
  obtain ⟨hperm, hsorted⟩ := qsort_spec _ hrange
  have hl : (qsort compareIds (gPortals.map (fun entry => int_abs entry.id))).length
      = gPortals.length := by
    rw [hperm.length_eq, List.length_map]
  obtain ⟨g1, g2, g3⟩ := scanBusy_spec _ 1 hsorted (by omega) (by rw [hl]; omega)
  have hres : R_findFreePortalId gPortals
      = some (scanBusy 1 (qsort compareIds (gPortals.map (fun entry => int_abs entry.id)))) := by
    unfold R_findFreePortalId
    simp only
    rw [if_neg]
    intro h
    exact hne (List.map_eq_nil_iff.1 h)
  refine ⟨_, hres, by omega, ?_, ?_⟩
  · intro e he heq
    apply g2
    apply hperm.symm.subset
    rw [← heq, ← int_abs_eq e.id (hid e he).1 (hid e he).2]
    exact List.mem_map.2 ⟨e, he, rfl⟩
  · intro k hk1 hk2
    exact hmap k (hperm.subset (g3 k (by omega) hk2))

/-- C30 on the list with the ids 2, -2, 1, -1 and 4: the function returns 3. -/
theorem C30_R_findFreePortalId_least_witness :
    exampleEntries ≠ [] ∧
    (∀ e ∈ exampleEntries, -2147483648 < e.id ∧ e.id < 2147483648) ∧
    exampleEntries.length < 2147483647 ∧
    R_findFreePortalId exampleEntries = some 3 ∧
    ∃ r, R_findFreePortalId exampleEntries = some r ∧ 0 < r ∧
      (∀ e ∈ exampleEntries, |e.id| ≠ r) ∧
      ∀ k, 0 < k → k < r → ∃ e ∈ exampleEntries, |e.id| = k :=
  ⟨by decide, by decide, by decide, by decide,
   C30_R_findFreePortalId_least exampleEntries (by decide) (by decide) (by decide)⟩

/-- C28: for every pair of lines of the map, `R_CalculateDeltas(m, a)` yields
`(dx, dy, 0)` and `R_CalculateDeltas(a, m)` yields `(-dx, -dy, 0)`, where `dx`
and `dy` are the differences of the midpoints with the division of C (32-bit
sums that wrap included); and the two calls of `R_GetLinkedPortal` that
`R_DefinePortal` and `R_SpawnQuickLinePortal` make for a line pair return two
portals of the list whose offsets are `(dx, dy, 0)` and `(-dx, -dy, 0)`. -/
theorem C28_mirrored_link_offsets (lines : List rline_t) (portals : List rportal_t)
    (destlinenum thislinenum planez fromid toid : Int) (m a : rline_t)
    (hm : lineAt lines destlinenum = some m) (ha : lineAt lines thislinenum = some a) :
    ∃ dx dy,
      R_CalculateDeltas lines destlinenum thislinenum = some (dx, dy, 0) ∧
      R_CalculateDeltas lines thislinenum destlinenum = some (-dx, -dy, 0) ∧
      dx = wrap32 ((wrap32 (m.v1.x + m.v2.x)).tdiv 2 - (wrap32 (a.v1.x + a.v2.x)).tdiv 2) ∧
      dy = wrap32 ((wrap32 (m.v1.y + m.v2.y)).tdiv 2 - (wrap32 (a.v1.y + a.v2.y)).tdiv 2) ∧
      ∃ portals2 portal mirrorportal d e,
        linkedPair lines portals destlinenum thislinenum planez fromid toid
          = some (portals2, some portal, some mirrorportal) ∧
        linkOf portals2 (some portal) = some d ∧
        linkOf portals2 (some mirrorportal) = some e ∧
        d.deltax = dx ∧ d.deltay = dy ∧ d.deltaz = 0 ∧
        e.deltax = -dx ∧ e.deltay = -dy ∧ e.deltaz = 0 := by
  obtain ⟨dx, dy, h1, h2, h3, h4⟩ :=
    R_CalculateDeltas_swap lines destlinenum thislinenum m a hm ha
  refine ⟨dx, dy, h1, h2, h3, h4, ?_⟩
  obtain ⟨portals1, i, d, g1, _, g3, g4, g5, g6, _⟩ :=
    R_GetLinkedPortal_link lines portals destlinenum thislinenum planez fromid toid dx dy 0 h1
  obtain ⟨portals2, j, e, k1, k2, k3, k4, k5, k6, _⟩ :=
    R_GetLinkedPortal_link lines portals1 thislinenum destlinenum planez toid fromid
      (-dx) (-dy) 0 h2
  obtain ⟨d2, l1, l2, l3, l4, _⟩ := linkOf_keeps portals1 portals2 k2 i d g3
  refine ⟨portals2, i, j, d2, e, ?_, l1, k3, by omega, by omega, by omega, k4, k5, k6⟩
  simp only [linkedPair, g1, k1]

/-- C28 on lines 2 and 3 of the example, whose midpoints are (100, -3) and
(356, -3): the offsets are (-256, 0, 0) and (256, 0, 0). -/
theorem C28_mirrored_link_offsets_witness :
    lineAt exampleLines 2 = some exampleLine2 ∧
    lineAt exampleLines 3 = some exampleLine3 ∧
    R_CalculateDeltas exampleLines 2 3 = some (-256, 0, 0) ∧
    ∃ dx dy,
      R_CalculateDeltas exampleLines 2 3 = some (dx, dy, 0) ∧
      R_CalculateDeltas exampleLines 3 2 = some (-dx, -dy, 0) ∧
      dx = wrap32 ((wrap32 (exampleLine2.v1.x + exampleLine2.v2.x)).tdiv 2
                    - (wrap32 (exampleLine3.v1.x + exampleLine3.v2.x)).tdiv 2) ∧
      dy = wrap32 ((wrap32 (exampleLine2.v1.y + exampleLine2.v2.y)).tdiv 2
                    - (wrap32 (exampleLine3.v1.y + exampleLine3.v2.y)).tdiv 2) ∧
      ∃ portals2 portal mirrorportal d e,
        linkedPair exampleLines [] 2 3 0 0 1
          = some (portals2, some portal, some mirrorportal) ∧
        linkOf portals2 (some portal) = some d ∧
        linkOf portals2 (some mirrorportal) = some e ∧
        d.deltax = dx ∧ d.deltay = dy ∧ d.deltaz = 0 ∧
        e.deltax = -dx ∧ e.deltay = -dy ∧ e.deltaz = 0 :=
  ⟨rfl, rfl, by decide,
   C28_mirrored_link_offsets exampleLines [] 2 3 0 0 1 exampleLine2 exampleLine3 rfl rfl⟩

/-- C24 as stated fails: `R_GetLinkedPortal(0, 1, 0, 0, 1)` on the empty list
returns portal 0 of the list `onePortal`, with `deltax` -256.
`P_MoveLinkedPortal` for that portal with `dx = 64`, a step of the same map
session, stores -192 to its `deltax`.  The same request made again finds no
portal with `deltax` -256: it puts a second portal at the end of the list and
returns that one, portal 1. -/
theorem C24_moved_portal_is_requested_anew :
    request exampleTransform exampleLines [] (.linked 0 1 0 0 1) = some (onePortal, some 0) ∧
    SessionStep true exampleTransform exampleLines onePortal movedPortal ∧
    request exampleTransform exampleLines movedPortal (.linked 0 1 0 0 1)
      = some (movedAndAdded, some 1) ∧
    movedPortal.length = 1 ∧ movedAndAdded.length = 2 :=
  ⟨by decide,
   SessionStep.move onePortal 0
     { type := .R_LINKED, tainted := 0, globaltex := 1,
       data := .link { deltax := -256, deltay := 0, deltaz := 0, planez := 0, fromid := 0,
                       toid := 1, maker := 0, anchor := 1, polyportalpartner := none } }
     { deltax := -256, deltay := 0, deltaz := 0, planez := 0, fromid := 0,
       toid := 1, maker := 0, anchor := 1, polyportalpartner := none }
     64 0 rfl rfl rfl rfl,
   by decide, rfl, rfl⟩

/-- C24, amended: when a request for a portal has returned a portal, then
after any further steps of the map session (requests, stores to the counters
`tainted`, stores to `polyportalpartner`, calls of `P_MoveLinkedPortal` for
linked portals, but no `R_InitPortals`) every request of the same kind with the
same compared parameters (for a linked portal `deltax`, `deltay`, `deltaz`,
`fromid`, `toid`, `planez`; for a skybox the camera; for an anchored or two-way
portal the transform; for a horizon or plane portal the pointers) returns that
same portal and leaves the list `portals` as it is, provided that the session
has not called `P_MoveLinkedPortal` in between or that the portal is not a
linked portal; and with or without such calls no request of another kind
returns that portal. -/
theorem C24_portal_interning_unmoved (moves : Bool)
    (T : Int → Int → Bool → Int → portaltransform_t)
    (lines : List rline_t) (portals portals1 portals2 : List rportal_t)
    (q q2 : portalrequest) (i : Nat)
    (h1 : request T lines portals q = some (portals1, some i))
    (hs : Session moves T lines portals1 portals2)
    (hq : requestKey T lines q2 = requestKey T lines q) :
    (moves = false ∨ requestKind q ≠ .R_LINKED →
      request T lines portals2 q2 = some (portals2, some i)) ∧
    ∀ (q3 : portalrequest) (portals3 : List rportal_t) (r3 : Option Nat),
      requestKind q3 ≠ requestKind q → request T lines portals2 q3 = some (portals3, r3) →
      r3 ≠ some i := by
  obtain ⟨fresh, hf, hi⟩ := request_some T lines portals portals1 q i h1
  obtain ⟨i2, p, hr, hp1, hp2, hfirst, _⟩ := intern_spec fresh portals portals1 (some i) hi
  injection hr with hr
  subst hr
  have ht := requestFresh_type T lines q fresh hf
  constructor
  · intro hm
    have hk := Session_match moves T lines (comparedPart fresh)
      (by rw [ht]; exact hm) portals1 portals2 hs
    obtain ⟨p2, hp3, _, hp4⟩ := hk i p hp1
    have hfirst2 : ∀ (k : Nat) (q : rportal_t), k < i → portals2[k]? = some q →
        comparedPart q ≠ comparedPart fresh := by
      intro k x hki hx hxe
      have hlt : i < portals1.length := (List.getElem?_eq_some_iff.1 hp1).1
      have hk1 : portals1[k]? = some (portals1.get ⟨k, by omega⟩) :=
        List.getElem?_eq_getElem (by omega)
      obtain ⟨x2, g1, _, g2⟩ := hk k _ hk1
      rw [hx] at g1
      injection g1 with g1
      subst g1
      exact hfirst k _ hki hk1 (g2.mp hxe)
    rw [request_eq]
    unfold requestKey at hq
    rw [hf] at hq
    cases hf2 : requestFresh T lines q2 with
    | none => rw [hf2] at hq; exact Option.noConfusion hq
    | some fresh2 =>
      rw [hf2] at hq
      simp only [Option.map_some', Option.some.injEq] at hq ⊢
      exact intern_again fresh fresh2 portals2 i p2 hp3 (hp4.mpr hp2) hfirst2 hq
  · intro q3 portals3 r3 hkind h3 hr3
    subst hr3
    have hk := Session_match moves T lines (.R_NONE, .zero)
      (Or.inr (by decide)) portals1 portals2 hs
    obtain ⟨p2, hp3, hp4, _⟩ := hk i p hp1
    obtain ⟨fresh3, hf3, hi3⟩ := request_some T lines portals2 portals3 q3 i h3
    obtain ⟨j, p3, hr, g1, g2, _, hcase⟩ := intern_spec fresh3 portals2 portals3 (some i) hi3
    injection hr with hr
    subst hr
    have ht3 := requestFresh_type T lines q3 fresh3 hf3
    have hsame : p3 = p2 := by
      rcases hcase with e | ⟨e, hlen⟩
      · subst e
        rw [hp3] at g1
        injection g1 with g1
        exact g1.symm
      · have hlt : i < portals2.length := (List.getElem?_eq_some_iff.1 hp3).1
        omega
    subst hsame
    apply hkind
    rw [← ht, ← ht3, ← g2, ← hp2]
    exact hp4

/-- C24 amended, on the example lines.  `R_GetLinkedPortal(0, 1, 0, 0, 1)` on
the empty list returns portal 0; after a request for a skybox and a store to
the counter of portal 0, in a session without `P_MoveLinkedPortal`,
`R_GetLinkedPortal(2, 3, 0, 0, 1)`, for another pair of lines with the same
offset, returns portal 0 again and leaves the list of two portals as it is.
The request for the skybox of the camera at address 7 returns portal 1; after
`P_MoveLinkedPortal` for portal 0 the same request returns portal 1 again. -/
theorem C24_portal_interning_unmoved_witness :
    (request exampleTransform exampleLines [] (.linked 0 1 0 0 1) = some (onePortal, some 0) ∧
      Session false exampleTransform exampleLines onePortal twoPortals ∧
      requestKey exampleTransform exampleLines (.linked 2 3 0 0 1)
        = requestKey exampleTransform exampleLines (.linked 0 1 0 0 1) ∧
      request exampleTransform exampleLines twoPortals (.linked 2 3 0 0 1)
        = some (twoPortals, some 0) ∧
      ∀ (q3 : portalrequest) (portals3 : List rportal_t) (r3 : Option Nat),
        requestKind q3 ≠ requestKind (.linked 0 1 0 0 1) →
        request exampleTransform exampleLines twoPortals q3 = some (portals3, r3) →
        r3 ≠ some 0) ∧
    (request exampleTransform exampleLines onePortal (.skybox (some 7))
        = some (skyboxAdded, some 1) ∧
      Session true exampleTransform exampleLines skyboxAdded movedSkybox ∧
      request exampleTransform exampleLines movedSkybox (.skybox (some 7))
        = some (movedSkybox, some 1)) :=
  ⟨⟨by decide,
    Relation.ReflTransGen.tail
      (Relation.ReflTransGen.single
        (SessionStep.get onePortal (.skybox (some 7))
          skyboxAdded (some 1) (by decide)))
      (SessionStep.taint skyboxAdded 0 5),
    by decide,
    (C24_portal_interning_unmoved false exampleTransform exampleLines [] onePortal twoPortals
      (.linked 0 1 0 0 1) (.linked 2 3 0 0 1) 0 (by decide)
      (Relation.ReflTransGen.tail
        (Relation.ReflTransGen.single
          (SessionStep.get onePortal (.skybox (some 7))
            skyboxAdded (some 1) (by decide)))
        (SessionStep.taint skyboxAdded 0 5))
      (by decide)).1 (Or.inl rfl),
    (C24_portal_interning_unmoved false exampleTransform exampleLines [] onePortal twoPortals
      (.linked 0 1 0 0 1) (.linked 2 3 0 0 1) 0 (by decide)
      (Relation.ReflTransGen.tail
        (Relation.ReflTransGen.single
          (SessionStep.get onePortal (.skybox (some 7))
            skyboxAdded (some 1) (by decide)))
        (SessionStep.taint skyboxAdded 0 5))
      (by decide)).2⟩,
   ⟨by decide,
    Relation.ReflTransGen.single
      (SessionStep.move skyboxAdded 0
        { type := .R_LINKED, tainted := 0, globaltex := 1,
          data := .link { deltax := -256, deltay := 0, deltaz := 0, planez := 0, fromid := 0,
                          toid := 1, maker := 0, anchor := 1, polyportalpartner := none } }
        { deltax := -256, deltay := 0, deltaz := 0, planez := 0, fromid := 0,
          toid := 1, maker := 0, anchor := 1, polyportalpartner := none }
        64 0 rfl rfl rfl rfl),
    (C24_portal_interning_unmoved true exampleTransform exampleLines onePortal skyboxAdded
      movedSkybox (.skybox (some 7)) (.skybox (some 7)) 1 (by decide)
      (Relation.ReflTransGen.single
        (SessionStep.move skyboxAdded 0
          { type := .R_LINKED, tainted := 0, globaltex := 1,
            data := .link { deltax := -256, deltay := 0, deltaz := 0, planez := 0, fromid := 0,
                            toid := 1, maker := 0, anchor := 1, polyportalpartner := none } }
          { deltax := -256, deltay := 0, deltaz := 0, planez := 0, fromid := 0,
            toid := 1, maker := 0, anchor := 1, polyportalpartner := none }
          64 0 rfl rfl rfl rfl))
      rfl).1 (Or.inr (by decide))⟩⟩
/-- C22: when `R_RenderLinkedPortal`, `R_RenderAnchoredPortal` (anchored and
two-way portals) or `R_RenderSkyboxPortal` returns for a window, with any chain
of child windows, any portal and whatever `R_RenderBSPNode` and the other
functions called did, `viewx`, `viewy` and `viewz` are what they were at entry;
after `R_RenderAnchoredPortal` so is `viewangle`, and after
`R_RenderSkyboxPortal` so is every `viewangle` that is a value of `angle_t`. -/
theorem C22_view_state_restored {F E : Type} (env : renderenv F E) (fuel : Nat)
    (st : RenderState F E) (depth : Nat) (st2 : RenderState F E) (log : List renderevent) :
    (R_RenderLinkedPortal env fuel st depth = .ok (st2, log) →
      st2.rs.viewx = st.rs.viewx ∧ st2.rs.viewy = st.rs.viewy ∧ st2.rs.viewz = st.rs.viewz) ∧
    (R_RenderAnchoredPortal env fuel st depth = .ok (st2, log) →
      st2.rs.viewx = st.rs.viewx ∧ st2.rs.viewy = st.rs.viewy ∧ st2.rs.viewz = st.rs.viewz ∧
        st2.rs.viewangle = st.rs.viewangle) ∧
    (0 ≤ st.rs.viewangle → st.rs.viewangle < 4294967296 →
      R_RenderSkyboxPortal env fuel st depth = .ok (st2, log) →
      st2.rs.viewx = st.rs.viewx ∧ st2.rs.viewy = st.rs.viewy ∧ st2.rs.viewz = st.rs.viewz ∧
        st2.rs.viewangle = st.rs.viewangle) :=
  ⟨R_RenderLinkedPortal_view env fuel st depth st2 log,
   R_RenderAnchoredPortal_view env fuel st depth st2 log,
   R_RenderSkyboxPortal_view env fuel st depth st2 log⟩

/-- C22 on the example: each of the three functions traverses the scene for the
window and for its child, the traversal moves the view to (7, 8, 9) at angle
10, and the function returns with the view at (1, 2, 3) and angle 4 again. -/
theorem C22_view_state_restored_witness :
    (∃ st2, R_RenderLinkedPortal exampleEnv 2 (renderExample 0 .R_RenderLinkedPortal 0) 0
        = .ok (st2, [.traverse 0, .traverse 0]) ∧ st2.ext = 2 ∧
      st2.rs.viewx = 1 ∧ st2.rs.viewy = 2 ∧ st2.rs.viewz = 3) ∧
    (∃ st2, R_RenderAnchoredPortal exampleEnv 2 (renderExample 1 .R_RenderAnchoredPortal 0) 0
        = .ok (st2, [.traverse 1, .traverse 1]) ∧ st2.ext = 2 ∧
      st2.rs.viewx = 1 ∧ st2.rs.viewy = 2 ∧ st2.rs.viewz = 3 ∧ st2.rs.viewangle = 4) ∧
    (∃ st2, R_RenderSkyboxPortal exampleEnv 2 (renderExample 2 .R_RenderSkyboxPortal 0) 0
        = .ok (st2, [.traverse 2, .traverse 2]) ∧ st2.ext = 2 ∧
      st2.rs.viewx = 1 ∧ st2.rs.viewy = 2 ∧ st2.rs.viewz = 3 ∧ st2.rs.viewangle = 4) :=
  ⟨⟨_, rfl, rfl,
     (C22_view_state_restored exampleEnv 2 (renderExample 0 .R_RenderLinkedPortal 0) 0 _
       [.traverse 0, .traverse 0]).1 rfl⟩,
   ⟨_, rfl, rfl,
     (C22_view_state_restored exampleEnv 2 (renderExample 1 .R_RenderAnchoredPortal 0) 0 _
       [.traverse 1, .traverse 1]).2.1 rfl⟩,
   ⟨_, rfl, rfl,
     (C22_view_state_restored exampleEnv 2 (renderExample 2 .R_RenderSkyboxPortal 0) 0 _
       [.traverse 2, .traverse 2]).2.2 (by decide) (by decide) rfl⟩⟩

/-- C25 fails on the code for the remote-camera kind: for a window of a skybox
portal with a child window, `R_RenderSkyboxPortal` traverses the scene for the
window and for the child and the counter `tainted` of the portal is 0 before
and after, so that no number of windows of a skybox leads to filler; for the
same windows of a linked or an anchored portal the counter goes from 0 to 2,
and a linked portal whose counter is 129 gets filler and the counter 130. -/
theorem C25_skybox_has_no_taint_guard :
    (∃ st2, R_RenderSkyboxPortal exampleEnv 2 (renderExample 2 .R_RenderSkyboxPortal 0) 0
        = .ok (st2, [.traverse 2, .traverse 2]) ∧
      (renderExample 2 .R_RenderSkyboxPortal 0).portals = examplePortals 0 ∧
      st2.portals = examplePortals 0 ∧
      (st2.portals[2]?).map (fun p => (p.type, p.tainted)) = some (.R_SKYBOX, 0)) ∧
    (∃ st2, R_RenderLinkedPortal exampleEnv 2 (renderExample 0 .R_RenderLinkedPortal 0) 0
        = .ok (st2, [.traverse 0, .traverse 0]) ∧
      (st2.portals[0]?).map (fun p => (p.type, p.tainted)) = some (.R_LINKED, 2)) ∧
    (∃ st2, R_RenderAnchoredPortal exampleEnv 2 (renderExample 1 .R_RenderAnchoredPortal 0) 0
        = .ok (st2, [.traverse 1, .traverse 1]) ∧
      (st2.portals[1]?).map (fun p => (p.type, p.tainted)) = some (.R_ANCHORED, 2)) ∧
    (∃ st2, R_RenderLinkedPortal exampleEnv 2 (renderExample 0 .R_RenderLinkedPortal 129) 0
        = .ok (st2, [.filler 0]) ∧
      (st2.portals[0]?).map (fun p => (p.type, p.tainted)) = some (.R_LINKED, 130)) := by
  refine ⟨⟨_, rfl, rfl, ?_, ?_⟩, ⟨_, rfl, ?_⟩, ⟨_, rfl, ?_⟩, ⟨_, rfl, ?_⟩⟩
  · decide
  · decide
  · decide
  · decide
  · decide

end AutoDoom
